import Mathlib

/-!
# MAST `StructuralElement2D`: residual / tangent assembly

A shallow embedding of `src/src/elasticity/structural_element_2d.cpp`.

* `Real` is an arbitrary field `R` of characteristic zero, so every identity
  below holds over the real numbers and can be evaluated over the rationals.
* `RealVectorX` of length `k` is `Fin k → R`; `RealMatrixX` of shape `r × c` is
  `Matrix (Fin r) (Fin c) R`.  `n1 = 3` direct strain components, `n3 = 2`
  von Karman components, `n2 = 6 * n_phi` local degrees of freedom.
* The local DOF vector is flat and variable-major: the DOF of variable `var`
  at node `i_nd` sits at index `var * n_phi + i_nd` (`dof var i_nd`).
* Output arguments of the C++ routines become return values; a routine that
  updates a buffer in place takes the old buffer and returns the new one.
-/

set_option linter.unusedSectionVars false
set_option linter.unusedVariables false

namespace MAST

open Matrix

variable {R : Type} [Field R]

/-! ## Collaborators that are not part of the sources -/

/-- Flat index `var * n_phi + i_nd` of the DOF of variable `var` at node `i_nd`. -/
def dof {nv n : ℕ} (var : Fin nv) (i_nd : Fin n) : Fin (nv * n) :=
  finProdFinEquiv (var, i_nd)

/-- Modelled from the spec: the FEM operator matrix of `numerics/fem_operator_matrix.h`
(spec 4.1), which is not among the sources.  `B r var` is the shape-function vector
installed in the slot (strain row `r`, variable `var`); an unset slot holds zero. -/
def FEMOperatorMatrix (R : Type) (m nv n : ℕ) : Type :=
  Fin m → Fin nv → Fin n → R

namespace FEMOperatorMatrix

variable {m nv n : ℕ}

/-- Modelled from the spec: `reinit(n_strain_components, n_vars_per_node,
n_shape_functions)` allocates the slots, all unset. -/
def reinit (m nv n : ℕ) : FEMOperatorMatrix R m nv n :=
  fun _ _ _ => 0

/-- Modelled from the spec: `set_shape_function(strain_row, var_index, shape_values)`
installs the vector in one slot, overwriting what the slot held. -/
def set_shape_function (B : FEMOperatorMatrix R m nv n) (row : Fin m) (var : Fin nv)
    (phi : Fin n → R) : FEMOperatorMatrix R m nv n :=
  fun r v => if r = row ∧ v = var then phi else B r v

/-- The dense `m × (nv * n)` matrix the operator stands for: column
`var * n + i_nd` of row `r` holds entry `i_nd` of slot `(r, var)`. -/
def toMatrix (B : FEMOperatorMatrix R m nv n) : Matrix (Fin m) (Fin (nv * n)) R :=
  fun r k => B r k.divNat k.modNat

/-- Modelled from the spec: `vector_mult(out, dof_vector)` applies `B`. -/
def vector_mult (B : FEMOperatorMatrix R m nv n) (x : Fin (nv * n) → R) : Fin m → R :=
  B.toMatrix *ᵥ x

/-- Modelled from the spec: `right_multiply(out, dof_vector)` applies `B`. -/
def right_multiply (B : FEMOperatorMatrix R m nv n) (x : Fin (nv * n) → R) : Fin m → R :=
  B.toMatrix *ᵥ x

/-- Modelled from the spec: `vector_mult_transpose(out, strain_vector)` applies `Bᵀ`. -/
def vector_mult_transpose (B : FEMOperatorMatrix R m nv n) (s : Fin m → R) :
    Fin (nv * n) → R :=
  B.toMatrixᵀ *ᵥ s

/-- Modelled from the spec: `left_multiply(out, M)` computes `M · B`. -/
def left_multiply {k : ℕ} (B : FEMOperatorMatrix R m nv n) (M : Matrix (Fin k) (Fin m) R) :
    Matrix (Fin k) (Fin (nv * n)) R :=
  M * B.toMatrix

/-- Modelled from the spec: `right_multiply_transpose(out, M)` computes `Bᵀ · M`. -/
def right_multiply_transpose {k : ℕ} (B : FEMOperatorMatrix R m nv n)
    (M : Matrix (Fin m) (Fin k) R) : Matrix (Fin (nv * n)) (Fin k) R :=
  B.toMatrixᵀ * M

/-- Modelled from the spec: `right_multiply_transpose(out, C)` with an operator
argument computes `Bᵀ · C`. -/
def right_multiply_transpose_op {nv' n' : ℕ} (B : FEMOperatorMatrix R m nv n)
    (C : FEMOperatorMatrix R m nv' n') : Matrix (Fin (nv * n)) (Fin (nv' * n')) R :=
  B.toMatrixᵀ * C.toMatrix

end FEMOperatorMatrix

/-- Modelled from the spec: the FE evaluation context (`FEBase`, spec 6), an opaque
provider of quadrature weights `JxW[qp]`, shape values `phi[i_nd][qp]` and shape
gradients `dphi[i_nd][qp](k)` for `n` shape functions and `nqp` quadrature points. -/
structure FEBase (R : Type) (n nqp : ℕ) where
  /-- Quadrature weight times Jacobian. -/
  JxW : Fin nqp → R
  /-- Shape-function values. -/
  phi : Fin n → Fin nqp → R
  /-- Shape-function gradients. -/
  dphi : Fin n → Fin nqp → Fin 3 → R
  /-- Physical coordinates of the quadrature points. -/
  xyz : Fin nqp → Fin 3 → R
  /-- Reference coordinates of the quadrature points (`get_qpoints`). -/
  qpoints : Fin nqp → Fin 3 → R
  /-- Outward normals at the quadrature points of a side (`get_normals`). -/
  normals : Fin nqp → Fin 3 → R

/-- Modelled from the spec: a design parameter (`FunctionBase`, declared in
`base/function_base.h`, not among the sources), identified by `id`. -/
structure FunctionBase (ι : Type) where
  /-- Identity of the parameter. -/
  id : ι
  /-- Whether the parameter changes the shape of the domain. -/
  is_shape_parameter : Bool

/-- Modelled from the spec: a field function (spec 6), `f(point, time) -> value` and
`f.derivative(parameter, point, time) -> value`. -/
structure FieldFunction (R ι α : Type) where
  /-- The value at a point and time. -/
  value : (Fin 3 → R) → R → α
  /-- The derivative with respect to a parameter at a point and time. -/
  derivative : FunctionBase ι → (Fin 3 → R) → R → α

/-- Modelled from the spec: the bending operator collaborator (spec 6).
`initialize_bending_strain_operator fe qp` is the operator the call
`initialize_bending_strain_operator(fe, qp, Bmat_bend)` leaves in `Bmat_bend`; the
transverse-shear routines map the incoming `(local_f, local_jac)` to the outgoing pair.
The bending strain is the curvature strain of the transverse displacement (spec,
glossary), and the drilling rotation, variable `5`, has no stiffness of its own: the
tangent is singular there unless `internal_residual` stabilizes it (spec 4.4).  The last
two fields record this: neither the bending strain operator nor the transverse shear term
acts on the drilling rotation. -/
structure BendingOperator2D (R ι : Type) [Field R] (n : ℕ) where
  /-- The bending strain operator at a quadrature point. -/
  initialize_bending_strain_operator :
    {nqp : ℕ} → FEBase R n nqp → Fin nqp → FEMOperatorMatrix R 3 6 n
  /-- Whether the operator carries a transverse shear energy. -/
  include_transverse_shear_energy : Bool
  /-- Transverse shear contribution to force and tangent. -/
  calculate_transverse_shear_residual :
    Bool → (Fin (6 * n) → R) → Matrix (Fin (6 * n)) (Fin (6 * n)) R →
      (Fin (6 * n) → R) × Matrix (Fin (6 * n)) (Fin (6 * n)) R
  /-- Parameter sensitivity of the transverse shear contribution. -/
  calculate_transverse_shear_residual_sensitivity :
    FunctionBase ι → Bool → (Fin (6 * n) → R) → Matrix (Fin (6 * n)) (Fin (6 * n)) R →
      (Fin (6 * n) → R) × Matrix (Fin (6 * n)) (Fin (6 * n)) R
  /-- Boundary-velocity term of the transverse shear contribution, for a parameter, a side
  and a velocity field; maps the incoming `local_f` to the outgoing one. -/
  calculate_transverse_shear_residual_boundary_velocity :
    FunctionBase ι → ℕ → FieldFunction R ι (Fin 2 → R) → (Fin (6 * n) → R) → (Fin (6 * n) → R)
  /-- The bending strain operator at a quadrature point for the thickness coordinate `z`. -/
  initialize_bending_strain_operator_for_z :
    {nqp : ℕ} → FEBase R n nqp → Fin nqp → R → FEMOperatorMatrix R 3 6 n
  /-- The bending strain operator leaves the slots of the drilling rotation unset. -/
  bending_strain_operator_drilling : ∀ {nqp : ℕ} (fe : FEBase R n nqp) (qp : Fin nqp)
    (r : Fin 3) (i : Fin n), initialize_bending_strain_operator fe qp r 5 i = 0
  /-- The transverse shear term leaves the diagonal entries of the drilling rotation in
  the tangent as they are. -/
  transverse_shear_drilling : ∀ (request_jacobian : Bool) (local_f : Fin (6 * n) → R)
    (local_jac : Matrix (Fin (6 * n)) (Fin (6 * n)) R) (i : Fin n),
    (calculate_transverse_shear_residual request_jacobian local_f local_jac).2
        (dof 5 i) (dof 5 i) = local_jac (dof 5 i) (dof 5 i)

/-- Modelled from the spec: the 2D element property card (`ElementPropertyCard2D`,
declared in `property_cards/element_property_card_2D.h`, not among the sources). -/
structure ElementPropertyCard2D (R ι : Type) where
  /-- `strain_type() == VON_KARMAN_STRAIN`. -/
  strain_type_is_von_karman : Bool
  /-- `bending_model(elem, fe_type) != NO_BENDING`. -/
  bending_model_is_active : Bool
  /-- `depends_on(p)`. -/
  depends_on : FunctionBase ι → Bool
  /-- Membrane stiffness `A`. -/
  stiffness_A_matrix : FieldFunction R ι (Matrix (Fin 3) (Fin 3) R)
  /-- Membrane-bending coupling stiffness `B`. -/
  stiffness_B_matrix : FieldFunction R ι (Matrix (Fin 3) (Fin 3) R)
  /-- Bending stiffness `D`. -/
  stiffness_D_matrix : FieldFunction R ι (Matrix (Fin 3) (Fin 3) R)
  /-- Thermal expansion matrix paired with the membrane strain. -/
  thermal_expansion_A_matrix : FieldFunction R ι (Matrix (Fin 3) (Fin 1) R)
  /-- Thermal expansion matrix paired with the bending strain. -/
  thermal_expansion_B_matrix : FieldFunction R ι (Matrix (Fin 3) (Fin 1) R)
  /-- `if_prestressed()`. -/
  if_prestressed : Bool
  /-- Prestress matrix paired with the membrane strain. -/
  prestress_A_matrix : FieldFunction R ι (Matrix (Fin 2) (Fin 2) R)
  /-- Prestress matrix paired with the bending strain. -/
  prestress_B_matrix : FieldFunction R ι (Matrix (Fin 2) (Fin 2) R)
  /-- The field function "h", the section thickness. -/
  h : FieldFunction R ι R
  /-- The field function "off", the section offset. -/
  off : FieldFunction R ι R
  /-- `get_material().stiffness_matrix(2)`. -/
  material_stiffness_matrix : FieldFunction R ι (Matrix (Fin 3) (Fin 3) R)
  /-- The material field function "alpha_expansion". -/
  alpha_expansion : FieldFunction R ι R

/-- Modelled from the spec: a thermal boundary condition, exposing the field functions
named "temperature" and "ref_temperature" (spec 6). -/
structure ThermalBoundaryCondition (R ι : Type) where
  /-- The field function "temperature". -/
  temperature : FieldFunction R ι R
  /-- The field function "ref_temperature". -/
  ref_temperature : FieldFunction R ι R

/-- Modelled from the spec: the piston-theory boundary condition
(`elasticity/piston_theory_boundary_condition.h`, not among the sources).  The three
functions are the pressure and its two derivative functions, evaluated for the current
values `dwdx`, `dwdt` of the two parameters at a point and time. -/
structure PistonTheoryBoundaryCondition (R ι : Type) where
  /-- The flow velocity vector in global coordinates. -/
  vel_vec : Fin 3 → R
  /-- `get_pressure_function(dwdx_f, dwdt_f)`. -/
  pressure : (dwdx dwdt : R) → FieldFunction R ι R
  /-- `get_dpdx_function(dwdx_f, dwdt_f)`. -/
  dpdx : (dwdx dwdt : R) → FieldFunction R ι R
  /-- `get_dpdxdot_function(dwdx_f, dwdt_f)`. -/
  dpdxdot : (dwdx dwdt : R) → FieldFunction R ι R

/-- Modelled from the spec: the two-argument `reinit(n_vars, N)` of the FEM operator
matrix, the displacement interpolation operator with `n_vars` rows in which row `i`
carries the shape values `N` in the slot of variable `i` (spec 4.4, "projected through a
displacement-only operator"). -/
def FEMOperatorMatrix.reinit_shape_function {n : ℕ} (n_vars : ℕ) (N : Fin n → R) :
    FEMOperatorMatrix R n_vars n_vars n :=
  fun row var => if row = var then N else 0

/-- Modelled from the spec: a boundary condition exposing the field function named
"pressure" (spec 6). -/
structure PressureBoundaryCondition (R ι : Type) where
  /-- The field function "pressure". -/
  pressure : FieldFunction R ι R

/-- Modelled from the spec: a call `calculate_stress` makes on the stress output
collaborator (`StressStrainOutputBase`, not among the sources) or on one of its records;
`qp` is the index of the record within the element. -/
inductive StressStrainOutputCall (R ι : Type) (n : ℕ) where
  /-- `add_stress_strain_at_qp_location(elem, qp, quadrature_pt, physical_pt, stress,
  strain, JxW)`: a record is created. -/
  | add_stress_strain_at_qp_location (qp : ℕ) (quadrature_pt physical_pt : Fin 3 → R)
      (stress strain : Fin 6 → R) (JxW : R)
  /-- `get_stress_strain_data_for_elem_at_qp(elem, qp)`: a record is looked up. -/
  | get_stress_strain_data_for_elem_at_qp (qp : ℕ)
  /-- `set_derivatives(dstress_dX, dstrain_dX)` on the record of index `qp`. -/
  | set_derivatives (qp : ℕ) (dstress_dX dstrain_dX : Matrix (Fin 6) (Fin (6 * n)) R)
  /-- `set_sensitivity(p, dstress_dp, dstrain_dp)` on the record of index `qp`. -/
  | set_sensitivity (qp : ℕ) (p : FunctionBase ι) (dstress_dp dstrain_dp : Fin 6 → R)

/-- Modelled from the spec: the stress output collaborator as `calculate_stress` sees it:
the thermal load it reports for the element, the number of records it holds for the
element, and the calls it has received, oldest first. -/
structure StressStrainOutputBase (R ι : Type) (n : ℕ) where
  /-- `get_thermal_load_for_elem(elem)`, null when no thermal load is specified. -/
  get_thermal_load_for_elem : Option (ThermalBoundaryCondition R ι)
  /-- `n_stress_strain_data_for_elem(elem)`. -/
  n_stress_strain_data_for_elem : ℕ
  /-- The calls received so far. -/
  calls : List (StressStrainOutputCall R ι n)

namespace StressStrainOutputBase
variable {ι : Type}

/-- Modelled from the spec: creating a record adds one to the number of records of the
element. -/
def add_stress_strain_at_qp_location (output : StressStrainOutputBase R ι n) (qp : ℕ)
    (quadrature_pt physical_pt : Fin 3 → R) (stress strain : Fin 6 → R) (JxW : R) :
    StressStrainOutputBase R ι n :=
  { output with
    n_stress_strain_data_for_elem := output.n_stress_strain_data_for_elem + 1
    calls := output.calls ++ [.add_stress_strain_at_qp_location qp quadrature_pt physical_pt
      stress strain JxW] }

/-- Modelled from the spec: looking a record up creates none. -/
def get_stress_strain_data_for_elem_at_qp (output : StressStrainOutputBase R ι n) (qp : ℕ) :
    StressStrainOutputBase R ι n :=
  { output with calls := output.calls ++ [.get_stress_strain_data_for_elem_at_qp qp] }

/-- Modelled from the spec: `set_derivatives` mutates the record of index `qp`. -/
def set_derivatives (output : StressStrainOutputBase R ι n) (qp : ℕ)
    (dstress_dX dstrain_dX : Matrix (Fin 6) (Fin (6 * n)) R) : StressStrainOutputBase R ι n :=
  { output with calls := output.calls ++ [.set_derivatives qp dstress_dX dstrain_dX] }

/-- Modelled from the spec: `set_sensitivity` mutates the record of index `qp`. -/
def set_sensitivity (output : StressStrainOutputBase R ι n) (qp : ℕ) (p : FunctionBase ι)
    (dstress_dp dstrain_dp : Fin 6 → R) : StressStrainOutputBase R ι n :=
  { output with calls := output.calls ++ [.set_sensitivity qp p dstress_dp dstrain_dp] }

end StressStrainOutputBase

/-- The element context of a `StructuralElement2D`: the members the assemblers read. -/
structure StructuralElement2D (R ι : Type) [Field R] (n nqp : ℕ) where
  /-- The member `_fe`. -/
  fe : FEBase R n nqp
  /-- The member `_time`. -/
  time : R
  /-- `_elem.dim()`. -/
  elem_dim : ℕ
  /-- The member `_local_sol`. -/
  local_sol : Fin (6 * n) → R
  /-- The member `_local_vel`. -/
  local_vel : Fin (6 * n) → R
  /-- The member `_local_sol_sens`. -/
  local_sol_sens : Fin (6 * n) → R
  /-- The member `follower_forces`. -/
  follower_forces : Bool
  /-- The member `_property`. -/
  property : ElementPropertyCard2D R ι
  /-- The member `_bending_operator`. -/
  bending_operator : BendingOperator2D R ι n
  /-- Modelled from the spec: the `6 n × 6 n` matrix by which the absent
  `StructuralElementBase` takes local to global coordinates (the expansion of the
  local-to-global transformation matrix `_Tmat` of spec 3). -/
  T_global : Matrix (Fin (6 * n)) (Fin (6 * n)) R
  /-- `_Tmatrix()`, the `3 × 3` local-to-global transformation matrix. -/
  Tmatrix : Matrix (Fin 3) (Fin 3) R

/-! ## Strain operator builders -/

variable {n nqp : ℕ}

/-- `StructuralElement2D::initialize_direct_strain_operator`. -/
def initialize_direct_strain_operator (qp : Fin nqp) (fe : FEBase R n nqp)
    (Bmat : FEMOperatorMatrix R 3 6 n) : FEMOperatorMatrix R 3 6 n :=
  -- dN/dx
  let phi : Fin n → R := fun i_nd => fe.dphi i_nd qp 0
  let Bmat := Bmat.set_shape_function 0 0 phi  -- epsilon_xx = du/dx
  let Bmat := Bmat.set_shape_function 2 1 phi  -- gamma_xy = dv/dx + ...
  -- dN/dy
  let phi : Fin n → R := fun i_nd => fe.dphi i_nd qp 1
  let Bmat := Bmat.set_shape_function 1 1 phi  -- epsilon_yy = dv/dy
  let Bmat := Bmat.set_shape_function 2 0 phi  -- gamma_xy = du/dy + ...
  Bmat

/-- Outputs of `initialize_von_karman_strain_operator`. -/
structure VonKarmanOperator (R : Type) (n : ℕ) where
  /-- The von Karman strain `vk_strain`. -/
  vk_strain : Fin 3 → R
  /-- The linearisation matrix `vk_dwdxi_mat`. -/
  vk_dwdxi_mat : Matrix (Fin 3) (Fin 2) R
  /-- The operator `Bmat_vk`. -/
  Bmat_vk : FEMOperatorMatrix R 2 6 n

/-- The assignment `mat(i, j) = v` to one entry of a dense matrix. -/
def assign {r c : ℕ} (mat : Matrix (Fin r) (Fin c) R) (i : Fin r) (j : Fin c) (v : R) :
    Matrix (Fin r) (Fin c) R :=
  fun a b => if a = i ∧ b = j then v else mat a b

/-- `StructuralElement2D::initialize_von_karman_strain_operator`; `local_sol` is the
member `_local_sol`, and `vk_strain`, `vk_dwdxi_mat`, `Bmat_vk` are the incoming
contents of the three output arguments (the first two are reset by `setZero`). -/
def initialize_von_karman_strain_operator (local_sol : Fin (6 * n) → R) (qp : Fin nqp)
    (fe : FEBase R n nqp) (_vk_strain : Fin 3 → R) (_vk_dwdxi_mat : Matrix (Fin 3) (Fin 2) R)
    (Bmat_vk : FEMOperatorMatrix R 2 6 n) : VonKarmanOperator R n :=
  let vk_strain : Fin 3 → R := 0                      -- vk_strain.setZero()
  let vk_dwdxi_mat : Matrix (Fin 3) (Fin 2) R := 0    -- vk_dwdxi_mat.setZero()
  let phi_vec : Fin n → R := fun i_nd => fe.dphi i_nd qp 0  -- dphi/dx
  let dw : R := ∑ i_nd, phi_vec i_nd * local_sol (dof 2 i_nd)  -- dw/dx
  let Bmat_vk := Bmat_vk.set_shape_function 0 2 phi_vec
  let vk_dwdxi_mat := assign vk_dwdxi_mat 0 0 dw  -- epsilon-xx : dw/dx
  let vk_dwdxi_mat := assign vk_dwdxi_mat 2 1 dw  -- gamma-xy : dw/dx
  let vk_strain := Function.update vk_strain 0 (0.5 * dw * dw)
  let vk_strain := Function.update vk_strain 2 dw
  let phi_vec : Fin n → R := fun i_nd => fe.dphi i_nd qp 1  -- dphi/dy
  let dw : R := ∑ i_nd, phi_vec i_nd * local_sol (dof 2 i_nd)  -- dw/dy
  let Bmat_vk := Bmat_vk.set_shape_function 1 2 phi_vec
  let vk_dwdxi_mat := assign vk_dwdxi_mat 1 1 dw  -- epsilon-yy : dw/dy
  let vk_dwdxi_mat := assign vk_dwdxi_mat 2 0 dw  -- gamma-xy : dw/dy
  let vk_strain := Function.update vk_strain 1 (0.5 * dw * dw)
  let vk_strain := Function.update vk_strain 2 (vk_strain 2 * dw)
  ⟨vk_strain, vk_dwdxi_mat, Bmat_vk⟩

/-- `StructuralElement2D::initialize_von_karman_strain_operator_sensitivity`;
`local_sol_sens` is the member `_local_sol_sens` and `_vk_dwdxi_mat_sens` the incoming
content of the output argument (reset by `setZero`). -/
def initialize_von_karman_strain_operator_sensitivity (local_sol_sens : Fin (6 * n) → R)
    (qp : Fin nqp) (fe : FEBase R n nqp) (_vk_dwdxi_mat_sens : Matrix (Fin 3) (Fin 2) R) :
    Matrix (Fin 3) (Fin 2) R :=
  let vk_dwdxi_mat_sens : Matrix (Fin 3) (Fin 2) R := 0  -- setZero
  let phi_vec : Fin n → R := fun i_nd => fe.dphi i_nd qp 0  -- dphi/dx
  let dw : R := ∑ i_nd, phi_vec i_nd * local_sol_sens (dof 2 i_nd)  -- dw/dx
  let vk_dwdxi_mat_sens := assign vk_dwdxi_mat_sens 0 0 dw  -- epsilon-xx : dw/dx
  let vk_dwdxi_mat_sens := assign vk_dwdxi_mat_sens 2 1 dw  -- gamma-xy : dw/dx
  let phi_vec : Fin n → R := fun i_nd => fe.dphi i_nd qp 1  -- dphi/dy
  let dw : R := ∑ i_nd, phi_vec i_nd * local_sol_sens (dof 2 i_nd)  -- dw/dy
  let vk_dwdxi_mat_sens := assign vk_dwdxi_mat_sens 1 1 dw  -- epsilon-yy : dw/dy
  let vk_dwdxi_mat_sens := assign vk_dwdxi_mat_sens 2 0 dw  -- gamma-xy : dw/dy
  vk_dwdxi_mat_sens

/-! ## Residual / Jacobian kernel -/

/-- The buffers `_internal_residual_operation` receives by reference and that keep
their value from one quadrature point to the next: the two accumulators, the three
operator matrices and `vk_dwdxi_mat`.  The remaining reference arguments
(`stress`, `stress_l`, `vec1_n1` .. `vec5_2`, `mat1_n1n2` .. `mat4_2n2`) are written
before they are read in every call and are local to the kernel here. -/
structure KernelBuffers (R : Type) (n : ℕ) where
  /-- Accumulated local force. -/
  local_f : Fin (6 * n) → R
  /-- Accumulated local tangent. -/
  local_jac : Matrix (Fin (6 * n)) (Fin (6 * n)) R
  /-- Membrane strain operator. -/
  Bmat_mem : FEMOperatorMatrix R 3 6 n
  /-- Bending strain operator. -/
  Bmat_bend : FEMOperatorMatrix R 3 6 n
  /-- Operator for `dw/dx`, `dw/dy`. -/
  Bmat_vk : FEMOperatorMatrix R 2 6 n
  /-- The von Karman auxiliary matrix. -/
  vk_dwdxi_mat : Matrix (Fin 3) (Fin 2) R

/-- The `2 × 2` matrix with entries `(0,0) = v(0)`, `(0,1) = (1,0) = v(2)`,
`(1,1) = v(1)`: the four entry-wise copies of a Voigt vector into a stress matrix. -/
def stress_of_vec (v : Fin 3 → R) : Matrix (Fin 2) (Fin 2) R :=
  !![v 0, v 2; v 2, v 1]

/-- `StructuralElement2D::_internal_residual_operation`.  `local_sol` is the member
`_local_sol` and `bending_operator` the member `_bending_operator`. -/
def _internal_residual_operation {ι : Type} (local_sol : Fin (6 * n) → R)
    (bending_operator : BendingOperator2D R ι n)
    (if_bending if_vk : Bool) (qp : Fin nqp) (fe : FEBase R n nqp) (JxW : Fin nqp → R)
    (request_jacobian : Bool) (buf : KernelBuffers R n)
    (material_A_mat material_B_mat material_D_mat : Matrix (Fin 3) (Fin 3) R) :
    KernelBuffers R n := Id.run do
  let mut local_f := buf.local_f
  let mut local_jac := buf.local_jac
  let mut Bmat_bend := buf.Bmat_bend
  let mut Bmat_vk := buf.Bmat_vk
  let mut vk_dwdxi_mat := buf.vk_dwdxi_mat
  let Bmat_mem := initialize_direct_strain_operator qp fe buf.Bmat_mem
  -- first handle constant through the thickness stresses: membrane and vonKarman
  let mut vec1_n1 := Bmat_mem.vector_mult local_sol
  let mut vec2_n1 := material_A_mat *ᵥ vec1_n1  -- linear direct stress
  -- copy the stress values to a matrix
  let mut stress_l := stress_of_vec vec2_n1
  let mut stress := stress_l
  -- get the bending strain operator
  vec2_n1 := 0  -- used to store vk strain, if applicable
  if if_bending then
    Bmat_bend := bending_operator.initialize_bending_strain_operator fe qp
    vec2_n1 := Bmat_bend.vector_mult local_sol
    vec1_n1 := material_B_mat *ᵥ vec2_n1
    stress_l := stress_l + stress_of_vec vec1_n1
    stress := stress + stress_of_vec vec1_n1
    -- set vec2_n1 to zero, because we need to store only the vk-strain
    vec2_n1 := 0
    if if_vk then  -- get the vonKarman strain operator if needed
      let vk := initialize_von_karman_strain_operator local_sol qp fe vec2_n1
        vk_dwdxi_mat Bmat_vk
      vec2_n1 := vk.vk_strain  -- epsilon_vk
      vk_dwdxi_mat := vk.vk_dwdxi_mat
      Bmat_vk := vk.Bmat_vk
      vec1_n1 := material_A_mat *ᵥ vec2_n1  -- stress
      stress := stress + stress_of_vec vec1_n1
  -- add the linear and nonlinear direct strains
  vec1_n1 := Bmat_mem.vector_mult local_sol
  vec2_n1 := vec2_n1 + vec1_n1  -- epsilon_mem + epsilon_vk
  -- copy the total integrated stress to the vector
  vec1_n1 := ![stress 0 0, stress 1 1, stress 0 1]
  -- now the internal force vector
  let mut vec3_n2 := Bmat_mem.vector_mult_transpose vec1_n1
  local_f := local_f + JxW qp • vec3_n2
  if if_bending then
    if if_vk then
      -- von Karman strain
      let vec4_2 := vk_dwdxi_matᵀ *ᵥ vec1_n1
      vec3_n2 := Bmat_vk.vector_mult_transpose vec4_2
      local_f := local_f + JxW qp • vec3_n2
    -- now coupling with the bending strain
    vec1_n1 := material_B_matᵀ *ᵥ vec2_n1
    vec3_n2 := Bmat_bend.vector_mult_transpose vec1_n1
    local_f := local_f + JxW qp • vec3_n2
    -- now bending stress
    vec2_n1 := Bmat_bend.vector_mult local_sol
    vec1_n1 := material_D_mat *ᵥ vec2_n1
    vec3_n2 := Bmat_bend.vector_mult_transpose vec1_n1
    local_f := local_f + JxW qp • vec3_n2
  if request_jacobian then
    -- membrane - membrane
    let mut mat1_n1n2 := Bmat_mem.left_multiply material_A_mat
    let mut mat2_n2n2 := Bmat_mem.right_multiply_transpose mat1_n1n2
    local_jac := local_jac + JxW qp • mat2_n2n2
    if if_bending then
      if if_vk then
        -- membrane - vk
        let mut mat3 := Bmat_vk.left_multiply vk_dwdxi_mat
        mat3 := material_A_mat * mat3
        mat2_n2n2 := Bmat_mem.right_multiply_transpose mat3
        local_jac := local_jac + JxW qp • mat2_n2n2
        -- vk - membrane
        mat1_n1n2 := Bmat_mem.left_multiply material_A_mat
        let mut mat3_n3n2 := vk_dwdxi_matᵀ * mat1_n1n2
        mat2_n2n2 := Bmat_vk.right_multiply_transpose mat3_n3n2
        local_jac := local_jac + JxW qp • mat2_n2n2
        -- vk - vk
        mat3_n3n2 := Bmat_vk.left_multiply stress
        mat2_n2n2 := Bmat_vk.right_multiply_transpose mat3_n3n2
        local_jac := local_jac + JxW qp • mat2_n2n2
        mat3 := Bmat_vk.left_multiply vk_dwdxi_mat
        mat3_n3n2 := vk_dwdxi_matᵀ * material_A_mat * mat3
        mat2_n2n2 := Bmat_vk.right_multiply_transpose mat3_n3n2
        local_jac := local_jac + JxW qp • mat2_n2n2
        -- bending - vk
        mat3 := Bmat_vk.left_multiply vk_dwdxi_mat
        mat3 := material_B_matᵀ * mat3
        mat2_n2n2 := Bmat_bend.right_multiply_transpose mat3
        local_jac := local_jac + JxW qp • mat2_n2n2
        -- vk - bending
        mat1_n1n2 := Bmat_bend.left_multiply material_B_mat
        mat3_n3n2 := vk_dwdxi_matᵀ * mat1_n1n2
        mat2_n2n2 := Bmat_vk.right_multiply_transpose mat3_n3n2
        local_jac := local_jac + JxW qp • mat2_n2n2
      -- bending - membrane
      let mat3 := material_B_matᵀ
      mat1_n1n2 := Bmat_mem.left_multiply mat3
      mat2_n2n2 := Bmat_bend.right_multiply_transpose mat1_n1n2
      local_jac := local_jac + JxW qp • mat2_n2n2
      -- membrane - bending
      mat1_n1n2 := Bmat_bend.left_multiply material_B_mat
      mat2_n2n2 := Bmat_mem.right_multiply_transpose mat1_n1n2
      local_jac := local_jac + JxW qp • mat2_n2n2
      -- bending - bending
      mat1_n1n2 := Bmat_bend.left_multiply material_D_mat
      mat2_n2n2 := Bmat_bend.right_multiply_transpose mat1_n1n2
      local_jac := local_jac + JxW qp • mat2_n2n2
  return ⟨local_f, local_jac, Bmat_mem, Bmat_bend, Bmat_vk, vk_dwdxi_mat⟩

/-! ## Load-case assemblers -/

/-- What an assembler hands back: its return value, the caller's buffers `f` and `jac`
after the call, and the final values of its local accumulators `local_f`, `local_jac`
(before the drilling penalty and the transformation to global coordinates are applied
to them this is what the quadrature loop and the transverse shear term have summed). -/
structure AssemblyOutput (R : Type) (n : ℕ) where
  /-- The returned flag. -/
  ret : Bool
  /-- The caller's force vector after the call. -/
  f : Fin (6 * n) → R
  /-- The caller's tangent matrix after the call. -/
  jac : Matrix (Fin (6 * n)) (Fin (6 * n)) R
  /-- The local force vector that was transformed. -/
  local_f : Fin (6 * n) → R
  /-- The local tangent matrix that was (or would have been) transformed. -/
  local_jac : Matrix (Fin (6 * n)) (Fin (6 * n)) R

namespace StructuralElement2D

variable {ι : Type}

/-- Modelled from the spec: `transform_vector_to_global_system` of the absent
`StructuralElementBase`, the multiplication by the transformation matrix. -/
def transform_vector_to_global_system (el : StructuralElement2D R ι n nqp)
    (local_vec : Fin (6 * n) → R) : Fin (6 * n) → R :=
  el.T_global *ᵥ local_vec

/-- Modelled from the spec: `transform_matrix_to_global_system` of the absent
`StructuralElementBase`, `T · local_mat · Tᵀ`. -/
def transform_matrix_to_global_system (el : StructuralElement2D R ι n nqp)
    (local_mat : Matrix (Fin (6 * n)) (Fin (6 * n)) R) : Matrix (Fin (6 * n)) (Fin (6 * n)) R :=
  el.T_global * local_mat * el.T_globalᵀ

/-- The buffers an assembler owns when it enters its quadrature loop: zero accumulators,
freshly `reinit`-ed operators, zero `vk_dwdxi_mat`. -/
def fresh_buffers (R : Type) [Field R] (n : ℕ) : KernelBuffers R n :=
  ⟨0, 0, FEMOperatorMatrix.reinit 3 6 n, FEMOperatorMatrix.reinit 3 6 n,
    FEMOperatorMatrix.reinit 2 6 n, 0⟩

/-- The quadrature loop that `internal_residual` (lines 594-615) and
`internal_residual_sensitivity` (lines 714-750) both run; the two differ only in the
functions `mat_A`, `mat_B`, `mat_D` that fetch the constitutive matrices at a point (the
stiffness matrices, or their derivatives with respect to the parameter). -/
def kernel_quadrature_loop (el : StructuralElement2D R ι n nqp) (request_jacobian : Bool)
    (mat_A mat_B mat_D : (Fin 3 → R) → R → Matrix (Fin 3) (Fin 3) R) : KernelBuffers R n :=
  let JxW := el.fe.JxW
  let xyz := el.fe.xyz
  let if_vk := el.property.strain_type_is_von_karman
  let if_bending := el.property.bending_model_is_active
  Fin.foldl nqp (fun buf qp =>
    -- get the material matrix
    let material_A_mat := mat_A (xyz qp) el.time
    let material_B_mat := if if_bending then mat_B (xyz qp) el.time else 0
    let material_D_mat := if if_bending then mat_D (xyz qp) el.time else 0
    -- now calculate the quantity for these matrices
    _internal_residual_operation el.local_sol el.bending_operator if_bending if_vk qp el.fe JxW
      request_jacobian buf material_A_mat material_B_mat material_D_mat)
    (fresh_buffers R n)

/-- The loop `for i < n_phi: local_jac(5*n_phi+i, 5*n_phi+i) = 1.0e-8` of
`internal_residual`. -/
def drilling_penalty (local_jac : Matrix (Fin (6 * n)) (Fin (6 * n)) R) :
    Matrix (Fin (6 * n)) (Fin (6 * n)) R :=
  Fin.foldl n (fun local_jac i => assign local_jac (dof 5 i) (dof 5 i) 1.0e-8) local_jac

/-- `StructuralElement2D::internal_residual`. -/
def internal_residual (el : StructuralElement2D R ι n nqp) (request_jacobian : Bool)
    (f : Fin (6 * n) → R) (jac : Matrix (Fin (6 * n)) (Fin (6 * n)) R) :
    AssemblyOutput R n := Id.run do
  let mut f := f
  let mut jac := jac
  let if_bending := el.property.bending_model_is_active
  let buf := kernel_quadrature_loop el request_jacobian el.property.stiffness_A_matrix.value
    el.property.stiffness_B_matrix.value el.property.stiffness_D_matrix.value
  let mut local_f := buf.local_f
  let mut local_jac := buf.local_jac
  -- now calculate the transverse shear contribution if appropriate for the element
  if if_bending && el.bending_operator.include_transverse_shear_energy then
    let r := el.bending_operator.calculate_transverse_shear_residual request_jacobian
      local_f local_jac
    local_f := r.1
    local_jac := r.2
  -- now transform to the global coordinate system
  let vec3_n2 := el.transform_vector_to_global_system local_f
  f := f + vec3_n2
  if request_jacobian then
    -- for 2D elements
    if el.elem_dim = 2 then
      -- add small values to the diagonal of the theta_z dofs
      local_jac := drilling_penalty local_jac
    let mat2_n2n2 := el.transform_matrix_to_global_system local_jac
    jac := jac + mat2_n2n2
  return ⟨request_jacobian, f, jac, local_f, local_jac⟩

/-- `StructuralElement2D::internal_residual_sensitivity`; `none` is the failed
assertion `!p.is_shape_parameter()`. -/
def internal_residual_sensitivity (el : StructuralElement2D R ι n nqp) (p : FunctionBase ι)
    (request_jacobian : Bool) (f : Fin (6 * n) → R)
    (jac : Matrix (Fin (6 * n)) (Fin (6 * n)) R) : Option (AssemblyOutput R n) :=
  -- this should be true if the function is called
  if p.is_shape_parameter then none else some <| Id.run do
  let mut f := f
  let mut jac := jac
  -- check if the material property or the provided exterior values are functions of
  -- the sensitivity parameter
  let mut calculate := false
  calculate := calculate || el.property.depends_on p
  -- nothing to be calculated if the element does not depend on the parameter
  if !calculate then
    return ⟨false, f, jac, 0, 0⟩
  let if_bending := el.property.bending_model_is_active
  -- first calculate the sensitivity due to the parameter
  let buf := kernel_quadrature_loop el request_jacobian
    (el.property.stiffness_A_matrix.derivative p) (el.property.stiffness_B_matrix.derivative p)
    (el.property.stiffness_D_matrix.derivative p)
  let mut local_f := buf.local_f
  let mut local_jac := buf.local_jac
  -- now calculate the transverse shear contribution if appropriate for the element
  if if_bending && el.bending_operator.include_transverse_shear_energy then
    let r := el.bending_operator.calculate_transverse_shear_residual_sensitivity p
      request_jacobian local_f local_jac
    local_f := r.1
    local_jac := r.2
  -- now transform to the global coordinate system
  let vec3_n2 := el.transform_vector_to_global_system local_f
  f := f + vec3_n2
  if request_jacobian then
    let mat2_n2n2 := el.transform_matrix_to_global_system local_jac
    jac := jac + mat2_n2n2
  return ⟨request_jacobian, f, jac, local_f, local_jac⟩

/-- The buffers that keep their value from one quadrature point to the next in
`internal_residual_jac_dot_state_sensitivity`. -/
structure JacDotBuffers (R : Type) (n : ℕ) where
  /-- Accumulated local matrix. -/
  local_jac : Matrix (Fin (6 * n)) (Fin (6 * n)) R
  /-- Membrane strain operator. -/
  Bmat_mem : FEMOperatorMatrix R 3 6 n
  /-- Bending strain operator. -/
  Bmat_bend : FEMOperatorMatrix R 3 6 n
  /-- Operator for `dw/dx`, `dw/dy`. -/
  Bmat_vk : FEMOperatorMatrix R 2 6 n
  /-- The von Karman auxiliary matrix of the solution. -/
  vk_dwdxi_mat : Matrix (Fin 3) (Fin 2) R
  /-- The von Karman auxiliary matrix of the sensitivity vector. -/
  vk_dwdxi_mat_sens : Matrix (Fin 3) (Fin 2) R

/-- The body of the quadrature loop of `internal_residual_jac_dot_state_sensitivity`
(lines 933-1033). -/
def jac_dot_state_point (el : StructuralElement2D R ι n nqp) (buf : JacDotBuffers R n)
    (qp : Fin nqp) : JacDotBuffers R n := Id.run do
  let JxW := el.fe.JxW
  let xyz := el.fe.xyz
  let if_vk := el.property.strain_type_is_von_karman
  let if_bending := el.property.bending_model_is_active
  let mut local_jac := buf.local_jac
  let mut Bmat_bend := buf.Bmat_bend
  let mut Bmat_vk := buf.Bmat_vk
  let mut vk_dwdxi_mat := buf.vk_dwdxi_mat
  let mut vk_dwdxi_mat_sens := buf.vk_dwdxi_mat_sens
  -- get the material matrix
  let material_A_mat := el.property.stiffness_A_matrix.value (xyz qp) el.time
  let material_B_mat := el.property.stiffness_B_matrix.value (xyz qp) el.time
  -- now calculate the quantity for these matrices
  let Bmat_mem := initialize_direct_strain_operator qp el.fe buf.Bmat_mem
  -- first handle constant through the thickness stresses: membrane and vonKarman
  let mut vec1_n1 := Bmat_mem.vector_mult el.local_sol_sens
  let mut vec2_n1 := material_A_mat *ᵥ vec1_n1  -- linear direct stress
  -- get the bending strain operator
  if if_bending then
    Bmat_bend := el.bending_operator.initialize_bending_strain_operator el.fe qp
    -- evaluate the bending stress and add that to the stress vector
    vec1_n1 := Bmat_bend.vector_mult el.local_sol_sens
    vec2_n1 := vec2_n1 + material_B_mat *ᵥ vec1_n1
    if if_vk then  -- get the vonKarman strain operator if needed
      let vk := initialize_von_karman_strain_operator el.local_sol qp el.fe vec1_n1
        vk_dwdxi_mat Bmat_vk
      vec1_n1 := vk.vk_strain  -- epsilon_vk
      vk_dwdxi_mat := vk.vk_dwdxi_mat
      Bmat_vk := vk.Bmat_vk
      vk_dwdxi_mat_sens := initialize_von_karman_strain_operator_sensitivity
        el.local_sol_sens qp el.fe vk_dwdxi_mat_sens
      -- sensitivity of von Karman strain
      vec1_n1 := ![vk_dwdxi_mat 0 0 * vk_dwdxi_mat_sens 0 0,   -- dw/dx dwp/dx
                   vk_dwdxi_mat 1 1 * vk_dwdxi_mat_sens 1 1,   -- dw/dy dwp/dy
                   vk_dwdxi_mat 0 0 * vk_dwdxi_mat_sens 1 1 +  -- dw/dx dwp/dy
                     vk_dwdxi_mat 1 1 * vk_dwdxi_mat_sens 0 0] -- dw/dy dwp/dx
      vec2_n1 := vec2_n1 + material_A_mat *ᵥ vec1_n1
  -- copy the stress values to a matrix
  let stress := stress_of_vec vec2_n1
  -- now calculate the matrix
  -- vk - membrane: w-displacement with sens
  let mut mat1_n1n2 := Bmat_mem.left_multiply material_A_mat
  let mut mat3 := vk_dwdxi_mat_sensᵀ * mat1_n1n2
  let mut mat2_n2n2 := Bmat_vk.right_multiply_transpose mat3
  local_jac := local_jac + JxW qp • mat2_n2n2
  -- vk - bending: w-displacement with stress sens
  mat1_n1n2 := Bmat_bend.left_multiply material_B_mat
  mat3 := vk_dwdxi_mat_sensᵀ * mat1_n1n2
  mat2_n2n2 := Bmat_vk.right_multiply_transpose mat3
  local_jac := local_jac + JxW qp • mat2_n2n2
  -- vk - vk: with stress sens and stress
  let mut mat3_n1n2 := Bmat_vk.left_multiply vk_dwdxi_mat
  mat3 := vk_dwdxi_mat_sensᵀ * material_A_mat * mat3_n1n2
  mat2_n2n2 := Bmat_vk.right_multiply_transpose mat3
  local_jac := local_jac + JxW qp • mat2_n2n2
  -- vk - vk: with stress and stress sens
  mat3_n1n2 := Bmat_vk.left_multiply vk_dwdxi_mat_sens
  mat3 := vk_dwdxi_matᵀ * material_A_mat * mat3_n1n2
  mat2_n2n2 := Bmat_vk.right_multiply_transpose mat3
  local_jac := local_jac + JxW qp • mat2_n2n2
  -- membrane - vk: w-displacement with sens
  mat3_n1n2 := Bmat_vk.left_multiply vk_dwdxi_mat_sens
  mat3_n1n2 := material_A_mat * mat3_n1n2
  mat2_n2n2 := Bmat_mem.right_multiply_transpose mat3_n1n2
  local_jac := local_jac + JxW qp • mat2_n2n2
  -- bending - vk: w-displacement with stress sens
  mat3_n1n2 := Bmat_vk.left_multiply vk_dwdxi_mat_sens
  mat3_n1n2 := material_B_matᵀ * mat3_n1n2
  mat2_n2n2 := Bmat_bend.right_multiply_transpose mat3_n1n2
  local_jac := local_jac + JxW qp • mat2_n2n2
  -- vk - vk: w-displacement with stress sens
  mat3 := Bmat_vk.left_multiply stress
  mat2_n2n2 := Bmat_vk.right_multiply_transpose mat3
  local_jac := local_jac + JxW qp • mat2_n2n2
  return ⟨local_jac, Bmat_mem, Bmat_bend, Bmat_vk, vk_dwdxi_mat, vk_dwdxi_mat_sens⟩

/-- `StructuralElement2D::internal_residual_jac_dot_state_sensitivity`; the output
carries no force (`f` and `local_f` are zero placeholders). -/
def internal_residual_jac_dot_state_sensitivity (el : StructuralElement2D R ι n nqp)
    (jac : Matrix (Fin (6 * n)) (Fin (6 * n)) R) : AssemblyOutput R n := Id.run do
  let mut jac := jac
  let if_vk := el.property.strain_type_is_von_karman
  -- without the nonlinear strain, this matrix is zero.
  if !if_vk then
    return ⟨false, 0, jac, 0, 0⟩
  let buf := Fin.foldl nqp (jac_dot_state_point el)
    ⟨0, FEMOperatorMatrix.reinit 3 6 n, FEMOperatorMatrix.reinit 3 6 n,
      FEMOperatorMatrix.reinit 2 6 n, 0, 0⟩
  let local_jac := buf.local_jac
  let mat2_n2n2 := el.transform_matrix_to_global_system local_jac
  jac := jac + mat2_n2n2
  return ⟨true, 0, jac, 0, local_jac⟩

/-- The body of the quadrature loop of `thermal_residual` (lines 1795-1847). -/
def thermal_residual_point (el : StructuralElement2D R ι n nqp) (request_jacobian : Bool)
    (bc : ThermalBoundaryCondition R ι) (buf : KernelBuffers R n) (qp : Fin nqp) :
    KernelBuffers R n := Id.run do
  let JxW := el.fe.JxW
  let xyz := el.fe.xyz
  let if_vk := el.property.strain_type_is_von_karman
  let if_bending := el.property.bending_model_is_active
  let mut local_f := buf.local_f
  let mut local_jac := buf.local_jac
  let mut Bmat_bend := buf.Bmat_bend
  let mut Bmat_vk := buf.Bmat_vk
  let mut vk_dwdxi_mat := buf.vk_dwdxi_mat
  let material_exp_A_mat := el.property.thermal_expansion_A_matrix.value (xyz qp) el.time
  let material_exp_B_mat := el.property.thermal_expansion_B_matrix.value (xyz qp) el.time
  -- get the temperature function
  let t := bc.temperature.value (xyz qp) el.time
  let t0 := bc.ref_temperature.value (xyz qp) el.time
  let delta_t : Fin 1 → R := ![t - t0]
  let vec1_n1 := material_exp_A_mat *ᵥ delta_t  -- [C]{alpha (T - T0)} (with membrane strain)
  let mut vec2_n1 := material_exp_B_mat *ᵥ delta_t  -- [C]{alpha (T - T0)} (with bending strain)
  let stress := stress_of_vec vec1_n1
  let Bmat_mem := initialize_direct_strain_operator qp el.fe buf.Bmat_mem
  -- membrane strain
  let mut vec3_n2 := Bmat_mem.vector_mult_transpose vec1_n1
  local_f := local_f + JxW qp • vec3_n2
  if if_bending then
    -- bending strain
    Bmat_bend := el.bending_operator.initialize_bending_strain_operator el.fe qp
    vec3_n2 := Bmat_bend.vector_mult_transpose vec2_n1
    local_f := local_f + JxW qp • vec3_n2
    -- von Karman strain
    if if_vk then
      -- get the vonKarman strain operator if needed
      let vk := initialize_von_karman_strain_operator el.local_sol qp el.fe vec2_n1
        vk_dwdxi_mat Bmat_vk
      vec2_n1 := vk.vk_strain  -- epsilon_vk
      vk_dwdxi_mat := vk.vk_dwdxi_mat
      Bmat_vk := vk.Bmat_vk
      -- von Karman strain
      let vec4_2 := vk_dwdxi_matᵀ *ᵥ vec1_n1
      vec3_n2 := Bmat_vk.vector_mult_transpose vec4_2
      local_f := local_f + JxW qp • vec3_n2
    if request_jacobian && if_vk then  -- Jacobian only for vk strain
      -- vk - vk
      let mat3 := Bmat_vk.left_multiply stress
      let mat2_n2n2 := Bmat_vk.right_multiply_transpose mat3
      local_jac := local_jac + JxW qp • mat2_n2n2
  return ⟨local_f, local_jac, Bmat_mem, Bmat_bend, Bmat_vk, vk_dwdxi_mat⟩

/-- `StructuralElement2D::thermal_residual`. -/
def thermal_residual (el : StructuralElement2D R ι n nqp) (request_jacobian : Bool)
    (f : Fin (6 * n) → R) (jac : Matrix (Fin (6 * n)) (Fin (6 * n)) R)
    (bc : ThermalBoundaryCondition R ι) : AssemblyOutput R n := Id.run do
  let mut f := f
  let mut jac := jac
  let if_vk := el.property.strain_type_is_von_karman
  let buf := Fin.foldl nqp (thermal_residual_point el request_jacobian bc) (fresh_buffers R n)
  let local_f := buf.local_f
  let local_jac := buf.local_jac
  -- now transform to the global coordinate system
  let vec3_n2 := el.transform_vector_to_global_system local_f
  f := f - vec3_n2
  if request_jacobian && if_vk then
    let mat2_n2n2 := el.transform_matrix_to_global_system local_jac
    jac := jac - mat2_n2n2
  -- Jacobian contribution from von Karman strain
  return ⟨request_jacobian, f, jac, local_f, local_jac⟩

/-- The body of the quadrature loop of `thermal_residual_sensitivity`
(lines 1919-1988). -/
def thermal_residual_sensitivity_point (el : StructuralElement2D R ι n nqp)
    (p : FunctionBase ι) (request_jacobian : Bool) (bc : ThermalBoundaryCondition R ι)
    (buf : KernelBuffers R n) (qp : Fin nqp) : KernelBuffers R n := Id.run do
  let JxW := el.fe.JxW
  let xyz := el.fe.xyz
  let if_vk := el.property.strain_type_is_von_karman
  let if_bending := el.property.bending_model_is_active
  let mut local_f := buf.local_f
  let mut local_jac := buf.local_jac
  let mut Bmat_bend := buf.Bmat_bend
  let mut Bmat_vk := buf.Bmat_vk
  let mut vk_dwdxi_mat := buf.vk_dwdxi_mat
  let material_exp_A_mat := el.property.thermal_expansion_A_matrix.value (xyz qp) el.time
  let material_exp_B_mat := el.property.thermal_expansion_B_matrix.value (xyz qp) el.time
  let material_exp_A_mat_sens :=
    el.property.thermal_expansion_A_matrix.derivative p (xyz qp) el.time
  let material_exp_B_mat_sens :=
    el.property.thermal_expansion_B_matrix.derivative p (xyz qp) el.time
  -- get the temperature function
  let mut t := bc.temperature.value (xyz qp) el.time
  let mut t0 := bc.ref_temperature.value (xyz qp) el.time
  let mut delta_t : Fin 1 → R := ![t - t0]
  -- get the temperature function
  t := bc.temperature.value (xyz qp) el.time
  let t_sens := bc.temperature.derivative p (xyz qp) el.time
  t0 := bc.ref_temperature.value (xyz qp) el.time
  delta_t := ![t - t0]
  let delta_t_sens : Fin 1 → R := ![t_sens]
  -- now prepare the membrane force sensitivity
  let mut vec1_n1 := material_exp_A_mat *ᵥ delta_t_sens  -- [C]{alpha dT/dp}
  let mut vec2_n1 := material_exp_A_mat_sens *ᵥ delta_t  -- d([C]alpha)/dp (T - T0)
  vec1_n1 := vec1_n1 + vec2_n1
  let stress := stress_of_vec vec1_n1
  vec2_n1 := material_exp_B_mat *ᵥ delta_t_sens  -- [C]{alpha dT/dp} (with bending strain)
  let vec5_n1 := material_exp_B_mat_sens *ᵥ delta_t  -- d([C] alpha)/dp (T - T0)
  vec2_n1 := vec2_n1 + vec5_n1
  let Bmat_mem := initialize_direct_strain_operator qp el.fe buf.Bmat_mem
  -- membrane strain
  let mut vec3_n2 := Bmat_mem.vector_mult_transpose vec1_n1
  local_f := local_f + JxW qp • vec3_n2
  if if_bending then
    -- bending strain
    Bmat_bend := el.bending_operator.initialize_bending_strain_operator el.fe qp
    vec3_n2 := Bmat_bend.vector_mult_transpose vec2_n1
    local_f := local_f + JxW qp • vec3_n2
    -- von Karman strain
    if if_vk then
      -- get the vonKarman strain operator if needed
      let vk := initialize_von_karman_strain_operator el.local_sol qp el.fe vec2_n1
        vk_dwdxi_mat Bmat_vk
      vec2_n1 := vk.vk_strain  -- epsilon_vk
      vk_dwdxi_mat := vk.vk_dwdxi_mat
      Bmat_vk := vk.Bmat_vk
      -- von Karman strain
      let vec4_2 := vk_dwdxi_matᵀ *ᵥ vec1_n1
      vec3_n2 := Bmat_vk.vector_mult_transpose vec4_2
      local_f := local_f + JxW qp • vec3_n2
    if request_jacobian && if_vk then  -- Jacobian only for vk strain
      -- vk - vk
      let mat3 := Bmat_vk.left_multiply stress
      let mat2_n2n2 := Bmat_vk.right_multiply_transpose mat3
      local_jac := local_jac + JxW qp • mat2_n2n2
  return ⟨local_f, local_jac, Bmat_mem, Bmat_bend, Bmat_vk, vk_dwdxi_mat⟩

/-- `StructuralElement2D::thermal_residual_sensitivity`. -/
def thermal_residual_sensitivity (el : StructuralElement2D R ι n nqp) (p : FunctionBase ι)
    (request_jacobian : Bool) (f : Fin (6 * n) → R)
    (jac : Matrix (Fin (6 * n)) (Fin (6 * n)) R) (bc : ThermalBoundaryCondition R ι) :
    AssemblyOutput R n := Id.run do
  let mut f := f
  let mut jac := jac
  let if_vk := el.property.strain_type_is_von_karman
  let buf := Fin.foldl nqp (thermal_residual_sensitivity_point el p request_jacobian bc)
    (fresh_buffers R n)
  let local_f := buf.local_f
  let local_jac := buf.local_jac
  -- now transform to the global coordinate system
  let vec3_n2 := el.transform_vector_to_global_system local_f
  f := f - vec3_n2
  if request_jacobian && if_vk then
    let mat2_n2n2 := el.transform_matrix_to_global_system local_jac
    jac := jac - mat2_n2n2
  -- Jacobian contribution from von Karman strain
  return ⟨request_jacobian, f, jac, local_f, local_jac⟩

/-- What `piston_theory_residual` hands back: the returned flag, the caller's three
buffers after the call and the final values of the three local accumulators. -/
structure PistonOutput (R : Type) (n : ℕ) where
  /-- The returned flag. -/
  ret : Bool
  /-- The caller's force vector after the call. -/
  f : Fin (6 * n) → R
  /-- The caller's velocity tangent after the call. -/
  jac_xdot : Matrix (Fin (6 * n)) (Fin (6 * n)) R
  /-- The caller's displacement tangent after the call. -/
  jac : Matrix (Fin (6 * n)) (Fin (6 * n)) R
  /-- The accumulated local force. -/
  local_f : Fin (6 * n) → R
  /-- The accumulated local velocity tangent. -/
  local_jac_xdot : Matrix (Fin (6 * n)) (Fin (6 * n)) R
  /-- The accumulated local displacement tangent. -/
  local_jac : Matrix (Fin (6 * n)) (Fin (6 * n)) R

/-- The buffers that keep their value from one quadrature point to the next in
`piston_theory_residual`. -/
structure PistonBuffers (R : Type) (n : ℕ) where
  /-- Accumulated local force. -/
  local_f : Fin (6 * n) → R
  /-- Accumulated local velocity tangent. -/
  local_jac_xdot : Matrix (Fin (6 * n)) (Fin (6 * n)) R
  /-- Accumulated local displacement tangent. -/
  local_jac : Matrix (Fin (6 * n)) (Fin (6 * n)) R
  /-- Operator for `dw/dx`, `dw/dy`. -/
  dBmat : FEMOperatorMatrix R 2 6 n
  /-- The matrix holding `dw/dx`, `dw/dy`. -/
  dwdx : Matrix (Fin 3) (Fin 2) R

/-- The body of the quadrature loop of `piston_theory_residual` (lines 2126-2197);
`normal` and `vel_vec` are the two vectors prepared before the loop. -/
def piston_theory_point (el : StructuralElement2D R ι n nqp) (request_jacobian : Bool)
    (piston_bc : PistonTheoryBoundaryCondition R ι) (normal vel_vec : Fin 3 → R)
    (buf : PistonBuffers R n) (qp : Fin nqp) : PistonBuffers R n := Id.run do
  let JxW := el.fe.JxW
  let qpoint := el.fe.xyz
  let mut local_f := buf.local_f
  let mut local_jac_xdot := buf.local_jac_xdot
  let mut local_jac := buf.local_jac
  -- now set the shape function values
  let phi_vec : Fin n → R := fun i_nd => el.fe.phi i_nd qp
  -- initialize the B matrix for only the w-displacement
  let mut Bmat_w : FEMOperatorMatrix R 2 6 n := FEMOperatorMatrix.reinit 2 6 n
  Bmat_w := Bmat_w.set_shape_function 0 2 phi_vec  -- interpolates w-displacement
  -- use the Bmat to calculate the velocity vector
  let vec_n1 := Bmat_w.right_multiply el.local_vel
  let dwdt_val := vec_n1 0
  -- get the operators for dw/dx and dw/dy to calculate the normal velocity
  let dummy : Fin 3 → R := 0
  let vk := initialize_von_karman_strain_operator el.local_sol qp el.fe dummy buf.dwdx
    buf.dBmat
  let dwdx := vk.vk_dwdxi_mat
  let dBmat := vk.Bmat_vk
  -- the diagonal of dwdx matrix stores the derivatives
  let mut dwdx_val : R := 0
  dwdx_val := dwdx_val + dwdx 0 0 * vel_vec 0  -- (dw/dx_i)*U_inf . n_i, i = 0
  dwdx_val := dwdx_val + dwdx 1 1 * vel_vec 1  -- i = 1
  -- calculate the pressure value
  let mut p_val := (piston_bc.pressure dwdx_val dwdt_val).value (qpoint qp) el.time
  -- calculate force
  let force : Fin 2 → R := ![p_val * normal 2, 0]
  let vec_n2 := Bmat_w.vector_mult_transpose force
  local_f := local_f + JxW qp • vec_n2
  -- calculate the Jacobian if requested
  if request_jacobian then
    -- we need the derivative of cp wrt normal velocity
    p_val := (piston_bc.dpdxdot dwdx_val dwdt_val).value (qpoint qp) el.time
    -- calculate the component of Jacobian due to w-velocity
    let mut mat_n2n2 := Bmat_w.right_multiply_transpose_op Bmat_w
    local_jac_xdot := local_jac_xdot + (JxW qp * p_val * normal 2) • mat_n2n2
    -- now calculate the component of Jacobian
    p_val := (piston_bc.dpdx dwdx_val dwdt_val).value (qpoint qp) el.time
    -- derivative wrt x
    let mut mat_22 : Matrix (Fin 2) (Fin 2) R := 0
    mat_22 := assign mat_22 0 0 (vel_vec 0)
    let mut mat_n1n2 := dBmat.left_multiply mat_22
    mat_n2n2 := Bmat_w.right_multiply_transpose mat_n1n2  -- v: B^T dB/dx
    local_jac := local_jac + (JxW qp * p_val * normal 2) • mat_n2n2
    -- derivative wrt y
    mat_22 := 0
    mat_22 := assign mat_22 1 1 (vel_vec 1)
    mat_n1n2 := dBmat.left_multiply mat_22
    mat_n2n2 := Bmat_w.right_multiply_transpose mat_n1n2  -- v: B^T dB/dy
    local_jac := local_jac + (JxW qp * p_val * normal 2) • mat_n2n2
  return ⟨local_f, local_jac_xdot, local_jac, dBmat, dwdx⟩

/-- `StructuralElement2D::piston_theory_residual` (the volume overload, lines
2043-2215); `none` is a failed assertion. -/
def piston_theory_residual (el : StructuralElement2D R ι n nqp) (request_jacobian : Bool)
    (f : Fin (6 * n) → R) (jac_xdot jac : Matrix (Fin (6 * n)) (Fin (6 * n)) R)
    (piston_bc : PistonTheoryBoundaryCondition R ι) : Option (PistonOutput R n) :=
  -- only applicable for lower dimensional elements
  if h : el.elem_dim < 3 then
    -- not implemented yet for follower forces
    if el.follower_forces then none else some <| Id.run do
      let mut f := f
      let mut jac_xdot := jac_xdot
      let mut jac := jac
      -- direction of pressure assumed to be normal (along local z-axis) to the element
      -- face for 2D and along local y-axis for 1D element.
      let normal : Fin 3 → R := Function.update 0 ⟨el.elem_dim, h⟩ (-1)
      -- we need the velocity vector in the local coordinate system
      let vel_vec := el.Tmatrixᵀ *ᵥ piston_bc.vel_vec
      let buf := Fin.foldl nqp (piston_theory_point el request_jacobian piston_bc normal vel_vec)
        ⟨0, 0, 0, FEMOperatorMatrix.reinit 2 6 n, 0⟩
      let local_f := buf.local_f
      let local_jac_xdot := buf.local_jac_xdot
      let local_jac := buf.local_jac
      -- now transform to the global system and add
      let vec_n2 := el.transform_vector_to_global_system local_f
      f := f - vec_n2
      -- if the Jacobian was requested, then transform it and add to the global Jacobian
      if request_jacobian then
        let mut mat_n2n2 := el.transform_matrix_to_global_system local_jac_xdot
        jac_xdot := jac_xdot - mat_n2n2
        mat_n2n2 := el.transform_matrix_to_global_system local_jac
        jac := jac - mat_n2n2
      return ⟨request_jacobian, f, jac_xdot, jac, local_f, local_jac_xdot, local_jac⟩
  else none

variable {nqs : ℕ}

/-- `StructuralElement2D::internal_residual_boundary_velocity` (lines 775-880);
`init_for_side s flag` is the side finite element `_assembly.build_fe(_elem)` after
`init_for_side(_elem, s, flag)`.  The result is the caller's `f` after the call. -/
def internal_residual_boundary_velocity (el : StructuralElement2D R ι n nqp)
    (init_for_side : ℕ → Bool → FEBase R n nqs) (p : FunctionBase ι) (f : Fin (6 * n) → R)
    (s : ℕ) (vel_f : FieldFunction R ι (Fin 2 → R)) : Fin (6 * n) → R := Id.run do
  let mut f := f
  -- prepare the side finite element
  let fe := init_for_side s true
  let mut JxW_Vn := fe.JxW
  let xyz := fe.xyz
  let face_normals := fe.normals
  let if_vk := el.property.strain_type_is_von_karman
  let if_bending := el.property.bending_model_is_active
  -- modify the JxW_Vn by multiplying the normal velocity to it
  JxW_Vn := Fin.foldl nqs (fun JxW_Vn qp =>
    let vel := vel_f.value (xyz qp) el.time
    let vn := Fin.foldl 2 (fun vn i => vn + vel i * face_normals qp (Fin.castLE (by decide) i)) 0
    Function.update JxW_Vn qp (JxW_Vn qp * vn)) JxW_Vn
  -- first calculate the sensitivity due to the parameter
  let buf := Fin.foldl nqs (fun buf qp =>
    let material_A_mat := el.property.stiffness_A_matrix.value (xyz qp) el.time
    let material_B_mat :=
      if if_bending then el.property.stiffness_B_matrix.value (xyz qp) el.time else 0
    let material_D_mat :=
      if if_bending then el.property.stiffness_D_matrix.value (xyz qp) el.time else 0
    -- now calculate the quantity for these matrices
    _internal_residual_operation el.local_sol el.bending_operator if_bending if_vk qp fe JxW_Vn
      false buf material_A_mat material_B_mat material_D_mat)
    (fresh_buffers R n)
  let mut local_f := buf.local_f
  -- now calculate the transverse shear contribution if appropriate for the element
  if if_bending && el.bending_operator.include_transverse_shear_energy then
    local_f := el.bending_operator.calculate_transverse_shear_residual_boundary_velocity p s
      vel_f local_f
  -- now transform to the global coordinate system
  let vec3_n2 := el.transform_vector_to_global_system local_f
  f := f + vec3_n2
  return f

/-- `_convert_prestress_A_mat_to_vector`. -/
def _convert_prestress_A_mat_to_vector (mat : Matrix (Fin 2) (Fin 2) R) : Fin 3 → R :=
  ![mat 0 0,  -- sigma x
    mat 1 1,  -- sigma y
    mat 0 1]  -- tau xy

/-- `_convert_prestress_B_mat_to_vector`. -/
def _convert_prestress_B_mat_to_vector (mat : Matrix (Fin 2) (Fin 2) R) : Fin 3 → R :=
  ![mat 0 0,  -- sigma x
    mat 1 1,  -- sigma y
    mat 0 1]  -- tau xy

/-- The body of the quadrature loop that `prestress_residual` (lines 1401-1450) and
`prestress_residual_sensitivity` (lines 1518-1567) both run; the two differ only in the
functions `mat_A`, `mat_B` that fetch the prestress matrices at a point (the matrices, or
their derivatives with respect to the parameter). -/
def prestress_residual_point (el : StructuralElement2D R ι n nqp) (request_jacobian : Bool)
    (mat_A mat_B : (Fin 3 → R) → R → Matrix (Fin 2) (Fin 2) R)
    (buf : KernelBuffers R n) (qp : Fin nqp) : KernelBuffers R n := Id.run do
  let JxW := el.fe.JxW
  let xyz := el.fe.xyz
  let if_vk := el.property.strain_type_is_von_karman
  let if_bending := el.property.bending_model_is_active
  let mut local_f := buf.local_f
  let mut local_jac := buf.local_jac
  let mut Bmat_bend := buf.Bmat_bend
  let mut Bmat_vk := buf.Bmat_vk
  let mut vk_dwdxi_mat := buf.vk_dwdxi_mat
  let prestress_mat_A := mat_A (xyz qp) el.time
  let prestress_mat_B := mat_B (xyz qp) el.time
  let prestress_vec_A := _convert_prestress_A_mat_to_vector prestress_mat_A
  let prestress_vec_B := _convert_prestress_B_mat_to_vector prestress_mat_B
  let Bmat_mem := initialize_direct_strain_operator qp el.fe buf.Bmat_mem
  -- get the bending strain operator if needed
  let mut vec2_n1 : Fin 3 → R := 0  -- used to store vk strain, if applicable
  if if_bending then
    Bmat_bend := el.bending_operator.initialize_bending_strain_operator el.fe qp
    if if_vk then  -- get the vonKarman strain operator if needed
      let vk := initialize_von_karman_strain_operator el.local_sol qp el.fe vec2_n1
        vk_dwdxi_mat Bmat_vk
      vec2_n1 := vk.vk_strain
      vk_dwdxi_mat := vk.vk_dwdxi_mat
      Bmat_vk := vk.Bmat_vk
  -- membrane strain
  let mut vec3_n2 := Bmat_mem.vector_mult_transpose prestress_vec_A
  local_f := local_f + JxW qp • vec3_n2  -- epsilon_mem * sigma_0
  if if_bending then
    if if_vk then
      -- von Karman strain
      let vec4_n3 := vk_dwdxi_matᵀ *ᵥ prestress_vec_A
      vec3_n2 := Bmat_vk.vector_mult_transpose vec4_n3
      local_f := local_f + JxW qp • vec3_n2  -- epsilon_vk * sigma_0
    -- now coupling with the bending strain
    vec3_n2 := Bmat_bend.vector_mult_transpose prestress_vec_B
    local_f := local_f + JxW qp • vec3_n2  -- epsilon_bend * sigma_0
  if request_jacobian then
    if if_bending && if_vk then
      let mat3 := Bmat_vk.left_multiply prestress_mat_A
      let mat2_n2n2 := Bmat_vk.right_multiply_transpose mat3
      local_jac := local_jac + JxW qp • mat2_n2n2
  return ⟨local_f, local_jac, Bmat_mem, Bmat_bend, Bmat_vk, vk_dwdxi_mat⟩

/-- `StructuralElement2D::prestress_residual`. -/
def prestress_residual (el : StructuralElement2D R ι n nqp) (request_jacobian : Bool)
    (f : Fin (6 * n) → R) (jac : Matrix (Fin (6 * n)) (Fin (6 * n)) R) :
    AssemblyOutput R n := Id.run do
  let mut f := f
  let mut jac := jac
  if !el.property.if_prestressed then
    return ⟨false, f, jac, 0, 0⟩
  let if_vk := el.property.strain_type_is_von_karman
  -- now calculate the quantity
  let buf := Fin.foldl nqp (prestress_residual_point el request_jacobian
    el.property.prestress_A_matrix.value el.property.prestress_B_matrix.value)
    (fresh_buffers R n)
  let local_f := buf.local_f
  let local_jac := buf.local_jac
  -- now transform to the global coordinate system
  let vec3_n2 := el.transform_vector_to_global_system local_f
  f := f + vec3_n2
  if request_jacobian && if_vk then
    let mat2_n2n2 := el.transform_matrix_to_global_system local_jac
    jac := jac + mat2_n2n2
  -- only the nonlinear strain returns a Jacobian for prestressing
  return ⟨request_jacobian, f, jac, local_f, local_jac⟩

/-- `StructuralElement2D::prestress_residual_sensitivity`. -/
def prestress_residual_sensitivity (el : StructuralElement2D R ι n nqp) (p : FunctionBase ι)
    (request_jacobian : Bool) (f : Fin (6 * n) → R)
    (jac : Matrix (Fin (6 * n)) (Fin (6 * n)) R) : AssemblyOutput R n := Id.run do
  let mut f := f
  let mut jac := jac
  if !el.property.if_prestressed then
    return ⟨false, f, jac, 0, 0⟩
  let if_vk := el.property.strain_type_is_von_karman
  -- transform to the local coordinate system
  let buf := Fin.foldl nqp (prestress_residual_point el request_jacobian
    (el.property.prestress_A_matrix.derivative p) (el.property.prestress_B_matrix.derivative p))
    (fresh_buffers R n)
  let local_f := buf.local_f
  let local_jac := buf.local_jac
  -- now transform to the global coordinate system
  let vec3_n2 := el.transform_vector_to_global_system local_f
  f := f + vec3_n2
  if request_jacobian && if_vk then
    let mat2_n2n2 := el.transform_matrix_to_global_system local_jac
    jac := jac + mat2_n2n2
  -- only the nonlinear strain returns a Jacobian for prestressing
  return ⟨request_jacobian, f, jac, local_f, local_jac⟩

/-- The buffers that keep their value from one quadrature point to the next in the
surface pressure assemblers. -/
structure SurfacePressureBuffers (R : Type) (n : ℕ) where
  /-- Accumulated local force. -/
  local_f : Fin (6 * n) → R
  /-- The six-component force vector; only its first three entries are ever written. -/
  force : Fin 6 → R

/-- The body of the quadrature loop of `surface_pressure_residual` (lines 1628-1647) on the
side finite element `fe`. -/
def surface_pressure_point (el : StructuralElement2D R ι n nqp) (fe : FEBase R n nqs)
    (bc : PressureBoundaryCondition R ι) (buf : SurfacePressureBuffers R n) (qp : Fin nqs) :
    SurfacePressureBuffers R n := Id.run do
  let JxW := fe.JxW
  let qpoint := fe.xyz
  let face_normals := fe.normals
  let mut local_f := buf.local_f
  let mut force := buf.force
  -- now set the shape function values
  let phi_vec : Fin n → R := fun i_nd => fe.phi i_nd qp
  let Bmat : FEMOperatorMatrix R 6 6 n := FEMOperatorMatrix.reinit_shape_function 6 phi_vec
  -- get pressure and thickness values
  let press := bc.pressure.value (qpoint qp) el.time
  let t_val := el.property.h.value (qpoint qp) el.time
  -- calculate force
  force := Fin.foldl 3 (fun force i_dim =>
    Function.update force (Fin.castLE (by decide) i_dim)
      ((press * t_val) * face_normals qp i_dim)) force
  let vec_n2 := Bmat.vector_mult_transpose force
  local_f := local_f + JxW qp • vec_n2
  return ⟨local_f, force⟩

/-- `StructuralElement2D::surface_pressure_residual`; `none` is the failed assertion
`!follower_forces`, and `init_for_side side flag` is the side finite element
`_assembly.build_fe(_elem)` after `init_for_side(_elem, side, flag)`. -/
def surface_pressure_residual (el : StructuralElement2D R ι n nqp)
    (init_for_side : ℕ → Bool → FEBase R n nqs) (request_jacobian : Bool)
    (f : Fin (6 * n) → R) (jac : Matrix (Fin (6 * n)) (Fin (6 * n)) R) (side : ℕ)
    (bc : PressureBoundaryCondition R ι) : Option (AssemblyOutput R n) :=
  -- not implemented yet for follower forces
  if el.follower_forces then none else some <| Id.run do
    let mut f := f
    -- prepare the side finite element
    let fe := init_for_side side false
    let buf := Fin.foldl nqs (surface_pressure_point el fe bc) ⟨0, 0⟩
    let local_f := buf.local_f
    -- now transform to the global system and add
    let vec_n2 := el.transform_vector_to_global_system local_f
    f := f - vec_n2
    return ⟨request_jacobian, f, jac, local_f, 0⟩

/-- The body of the quadrature loop of `surface_pressure_residual_sensitivity` (lines
1708-1729) on the side finite element `fe`. -/
def surface_pressure_sensitivity_point (el : StructuralElement2D R ι n nqp)
    (fe : FEBase R n nqs) (p : FunctionBase ι) (bc : PressureBoundaryCondition R ι)
    (buf : SurfacePressureBuffers R n) (qp : Fin nqs) : SurfacePressureBuffers R n := Id.run do
  let JxW := fe.JxW
  let qpoint := fe.xyz
  let face_normals := fe.normals
  let mut local_f := buf.local_f
  let mut force := buf.force
  -- now set the shape function values
  let phi_vec : Fin n → R := fun i_nd => fe.phi i_nd qp
  let Bmat : FEMOperatorMatrix R 6 6 n := FEMOperatorMatrix.reinit_shape_function 6 phi_vec
  -- get pressure and thickness values and their sensitivities
  let press := bc.pressure.value (qpoint qp) el.time
  let dpress := bc.pressure.derivative p (qpoint qp) el.time
  let t_val := el.property.h.value (qpoint qp) el.time
  let dt_val := el.property.h.derivative p (qpoint qp) el.time
  -- calculate force
  force := Fin.foldl 3 (fun force i_dim =>
    Function.update force (Fin.castLE (by decide) i_dim)
      ((press * dt_val + dpress * t_val) * face_normals qp i_dim)) force
  let vec_n2 := Bmat.vector_mult_transpose force
  local_f := local_f + JxW qp • vec_n2
  return ⟨local_f, force⟩

/-- `StructuralElement2D::surface_pressure_residual_sensitivity`; `none` is the failed
assertion `!follower_forces`. -/
def surface_pressure_residual_sensitivity (el : StructuralElement2D R ι n nqp)
    (init_for_side : ℕ → Bool → FEBase R n nqs) (p : FunctionBase ι) (request_jacobian : Bool)
    (f : Fin (6 * n) → R) (jac : Matrix (Fin (6 * n)) (Fin (6 * n)) R) (side : ℕ)
    (bc : PressureBoundaryCondition R ι) : Option (AssemblyOutput R n) :=
  -- not implemented yet for follower forces
  if el.follower_forces then none else some <| Id.run do
    let mut f := f
    -- prepare the side finite element
    let fe := init_for_side side false
    let buf := Fin.foldl nqs (surface_pressure_sensitivity_point el fe p bc) ⟨0, 0⟩
    let local_f := buf.local_f
    -- now transform to the global system and add
    let vec_n2 := el.transform_vector_to_global_system local_f
    f := f - vec_n2
    return ⟨request_jacobian, f, jac, local_f, 0⟩

/-- The side-indexed `StructuralElement2D::piston_theory_residual` (lines 2007-2019): its
body is `libmesh_assert(false)`. -/
def piston_theory_residual_side (el : StructuralElement2D R ι n nqp) (request_jacobian : Bool)
    (f : Fin (6 * n) → R) (jac_xdot jac : Matrix (Fin (6 * n)) (Fin (6 * n)) R) (side : ℕ)
    (bc : PistonTheoryBoundaryCondition R ι) : Option (PistonOutput R n) :=
  none  -- to be implemented

/-- The side-indexed `StructuralElement2D::piston_theory_residual_sensitivity` (lines
2024-2037): its body is `libmesh_assert(false)`. -/
def piston_theory_residual_sensitivity_side (el : StructuralElement2D R ι n nqp)
    (p : FunctionBase ι) (request_jacobian : Bool) (f : Fin (6 * n) → R)
    (jac_xdot jac : Matrix (Fin (6 * n)) (Fin (6 * n)) R) (side : ℕ)
    (bc : PistonTheoryBoundaryCondition R ι) : Option (PistonOutput R n) :=
  none  -- to be implemented

/-- The body of the quadrature loop of the volume `piston_theory_residual_sensitivity`
(lines 2303-2374); `normal` and `vel_vec` are the two vectors prepared before the loop. -/
def piston_theory_sensitivity_point (el : StructuralElement2D R ι n nqp) (p : FunctionBase ι)
    (request_jacobian : Bool) (piston_bc : PistonTheoryBoundaryCondition R ι)
    (normal vel_vec : Fin 3 → R) (buf : PistonBuffers R n) (qp : Fin nqp) :
    PistonBuffers R n := Id.run do
  let JxW := el.fe.JxW
  let qpoint := el.fe.xyz
  let mut local_f := buf.local_f
  let mut local_jac_xdot := buf.local_jac_xdot
  let mut local_jac := buf.local_jac
  -- now set the shape function values
  let phi_vec : Fin n → R := fun i_nd => el.fe.phi i_nd qp
  -- initialize the B matrix for only the w-displacement
  let mut Bmat_w : FEMOperatorMatrix R 2 6 n := FEMOperatorMatrix.reinit 2 6 n
  Bmat_w := Bmat_w.set_shape_function 0 2 phi_vec  -- interpolates w-displacement
  -- use the Bmat to calculate the velocity vector
  let vec_n1 := Bmat_w.right_multiply el.local_vel
  let dwdt_val := vec_n1 0
  -- get the operators for dw/dx and dw/dy to calculate the normal velocity
  let dummy : Fin 3 → R := 0
  let vk := initialize_von_karman_strain_operator el.local_sol qp el.fe dummy buf.dwdx
    buf.dBmat
  let dwdx := vk.vk_dwdxi_mat
  let dBmat := vk.Bmat_vk
  -- the diagonal of dwdx matrix stores the derivatives
  let mut dwdx_val : R := 0
  dwdx_val := dwdx_val + dwdx 0 0 * vel_vec 0  -- (dw/dx_i)*U_inf . n_i, i = 0
  dwdx_val := dwdx_val + dwdx 1 1 * vel_vec 1  -- i = 1
  -- calculate the pressure value
  let mut p_val := (piston_bc.pressure dwdx_val dwdt_val).derivative p (qpoint qp) el.time
  -- calculate force
  let force : Fin 2 → R := ![p_val * normal 2, 0]
  let vec_n2 := Bmat_w.vector_mult_transpose force
  local_f := local_f + JxW qp • vec_n2
  -- calculate the Jacobian if requested
  if request_jacobian then
    -- we need the derivative of cp wrt normal velocity
    p_val := (piston_bc.dpdxdot dwdx_val dwdt_val).derivative p (qpoint qp) el.time
    -- calculate the component of Jacobian due to w-velocity
    let mut mat_n2n2 := Bmat_w.right_multiply_transpose_op Bmat_w
    local_jac_xdot := local_jac_xdot + (JxW qp * p_val * normal 2) • mat_n2n2
    -- now calculate the component of Jacobian
    p_val := (piston_bc.dpdx dwdx_val dwdt_val).derivative p (qpoint qp) el.time
    -- derivative wrt x
    let mut mat_22 : Matrix (Fin 2) (Fin 2) R := 0
    mat_22 := assign mat_22 0 0 (vel_vec 0)
    let mut mat_n1n2 := dBmat.left_multiply mat_22
    mat_n2n2 := Bmat_w.right_multiply_transpose mat_n1n2  -- v: B^T dB/dx
    local_jac := local_jac + (JxW qp * p_val * normal 2) • mat_n2n2
    -- derivative wrt y
    mat_22 := 0
    mat_22 := assign mat_22 1 1 (vel_vec 1)
    mat_n1n2 := dBmat.left_multiply mat_22
    mat_n2n2 := Bmat_w.right_multiply_transpose mat_n1n2  -- v: B^T dB/dy
    local_jac := local_jac + (JxW qp * p_val * normal 2) • mat_n2n2
  return ⟨local_f, local_jac_xdot, local_jac, dBmat, dwdx⟩

/-- `StructuralElement2D::piston_theory_residual_sensitivity` (the volume overload, lines
2220-2393); `none` is a failed assertion. -/
def piston_theory_residual_sensitivity (el : StructuralElement2D R ι n nqp)
    (p : FunctionBase ι) (request_jacobian : Bool) (f : Fin (6 * n) → R)
    (jac_xdot jac : Matrix (Fin (6 * n)) (Fin (6 * n)) R)
    (piston_bc : PistonTheoryBoundaryCondition R ι) : Option (PistonOutput R n) :=
  -- only applicable for lower dimensional elements
  if h : el.elem_dim < 3 then
    -- not implemented yet for follower forces
    if el.follower_forces then none else some <| Id.run do
      let mut f := f
      let mut jac_xdot := jac_xdot
      let mut jac := jac
      -- direction of pressure assumed to be normal (along local z-axis) to the element
      -- face for 2D and along local y-axis for 1D element.
      let normal : Fin 3 → R := Function.update 0 ⟨el.elem_dim, h⟩ (-1)
      -- we need the velocity vector in the local coordinate system
      let vel_vec := el.Tmatrixᵀ *ᵥ piston_bc.vel_vec
      let buf := Fin.foldl nqp
        (piston_theory_sensitivity_point el p request_jacobian piston_bc normal vel_vec)
        ⟨0, 0, 0, FEMOperatorMatrix.reinit 2 6 n, 0⟩
      let local_f := buf.local_f
      let local_jac_xdot := buf.local_jac_xdot
      let local_jac := buf.local_jac
      -- now transform to the global system and add
      let vec_n2 := el.transform_vector_to_global_system local_f
      f := f - vec_n2
      -- if the Jacobian was requested, then transform it and add to the global Jacobian
      if request_jacobian then
        let mut mat_n2n2 := el.transform_matrix_to_global_system local_jac_xdot
        jac_xdot := jac_xdot - mat_n2n2
        mat_n2n2 := el.transform_matrix_to_global_system local_jac
        jac := jac - mat_n2n2
      return ⟨request_jacobian, f, jac_xdot, jac, local_f, local_jac_xdot, local_jac⟩
  else none

/-- The variables of `calculate_stress` that are declared before its loop and keep their
value from one evaluation point to the next, together with the output collaborator. -/
structure StressBuffers (R ι : Type) (n : ℕ) where
  /-- The stress output collaborator. -/
  output : StressStrainOutputBase R ι n
  /-- Material stiffness matrix. -/
  material_mat : Matrix (Fin 3) (Fin 3) R
  /-- The von Karman auxiliary matrix. -/
  vk_dwdxi_mat : Matrix (Fin 3) (Fin 2) R
  /-- Derivative of the strain with respect to the local solution. -/
  dstrain_dX : Matrix (Fin 3) (Fin (6 * n)) R
  /-- Derivative of the stress with respect to the local solution. -/
  dstress_dX : Matrix (Fin 3) (Fin (6 * n)) R
  /-- Scratch matrix. -/
  mat_n1n2 : Matrix (Fin 3) (Fin (6 * n)) R
  /-- Six-row copy of `dstrain_dX`. -/
  dstrain_dX_3D : Matrix (Fin 6) (Fin (6 * n)) R
  /-- Six-row copy of `dstress_dX`. -/
  dstress_dX_3D : Matrix (Fin 6) (Fin (6 * n)) R
  /-- Strain. -/
  strain : Fin 3 → R
  /-- Stress. -/
  stress : Fin 3 → R
  /-- Von Karman strain. -/
  strain_vk : Fin 3 → R
  /-- Bending strain. -/
  strain_bend : Fin 3 → R
  /-- Six-component strain. -/
  strain_3D : Fin 6 → R
  /-- Six-component stress. -/
  stress_3D : Fin 6 → R
  /-- Sensitivity of the strain. -/
  dstrain_dp : Fin 3 → R
  /-- Sensitivity of the stress. -/
  dstress_dp : Fin 3 → R
  /-- Membrane strain operator. -/
  Bmat_mem : FEMOperatorMatrix R 3 6 n
  /-- Bending strain operator. -/
  Bmat_bend : FEMOperatorMatrix R 3 6 n
  /-- Operator for `dw/dx`, `dw/dy`. -/
  Bmat_vk : FEMOperatorMatrix R 2 6 n
  /-- Thickness value. -/
  z : R
  /-- Offset value. -/
  z_off : R
  /-- Temperature. -/
  temp : R
  /-- Reference temperature. -/
  ref_t : R
  /-- Expansion coefficient. -/
  alpha : R
  /-- Sensitivity of the temperature. -/
  dtemp : R
  /-- Sensitivity of the reference temperature. -/
  dref_t : R
  /-- Sensitivity of the expansion coefficient. -/
  dalpha : R

/-- The three assignments `v_3D(0) = v(0); v_3D(1) = v(1); v_3D(3) = v(2)` that copy a
2D vector in `{xx, yy, xy}` order into a six-component buffer. -/
def copy_to_3D (v_3D : Fin 6 → R) (v : Fin 3 → R) : Fin 6 → R :=
  Function.update (Function.update (Function.update v_3D 0 (v 0)) 1 (v 1)) 3 (v 2)

/-- The three assignments `M_3D.row(0) = M.row(0); M_3D.row(1) = M.row(1);
M_3D.row(3) = M.row(2)` that copy the rows of a three-row matrix into a six-row buffer. -/
def copy_rows_to_3D {k : ℕ} (M_3D : Matrix (Fin 6) (Fin k) R) (M : Matrix (Fin 3) (Fin k) R) :
    Matrix (Fin 6) (Fin k) R :=
  Function.update (Function.update (Function.update M_3D 0 (M 0)) 1 (M 1)) 3 (M 2)

/-- The points `qp_loc` of `calculate_stress` (lines 197-213): the in-plane quadrature
points of `fe`, each taken twice, with the third coordinate set to `+1` (upper skin) at
index `2 i` and to `-1` (lower skin) at index `2 i + 1`. -/
def qp_loc (fe : FEBase R n nqp) : Fin (nqp * 2) → Fin 3 → R :=
  fun k => Function.update (fe.qpoints k.divNat) 2 (if k.modNat = 0 then 1 else -1)

/-- Lines 321-384 of `calculate_stress`: the strain and the stress at the evaluation point
`(qp_loc_index, section_qp_index)` and their six-component copies. -/
def calculate_stress_primary (el : StructuralElement2D R ι n nqp) (fe : FEBase R n nqp)
    (bend : BendingOperator2D R ι n) (thermal_load : Option (ThermalBoundaryCondition R ι))
    (st : StressBuffers R ι n) (qp_loc_index : Fin nqp) (section_qp_index : Fin 2) :
    StressBuffers R ι n := Id.run do
  let xyz := fe.xyz
  let if_vk := el.property.strain_type_is_von_karman
  let if_bending := el.property.bending_model_is_active
  let mut st := st
  -- qp = qp_loc_index*n_added_qp + section_qp_index
  let qp : Fin (nqp * 2) := finProdFinEquiv (qp_loc_index, section_qp_index)
  -- get the material matrix
  st := { st with
    material_mat := el.property.material_stiffness_matrix.value (xyz qp_loc_index) el.time }
  st := { st with Bmat_mem := initialize_direct_strain_operator qp_loc_index fe st.Bmat_mem }
  -- first handle constant through the thickness stresses: membrane and vonKarman
  st := { st with strain := st.Bmat_mem.vector_mult el.local_sol }
  -- if thermal load was specified, then set the thermal strain component of the total strain
  if let some load := thermal_load then
    st := { st with temp := load.temperature.value (xyz qp_loc_index) el.time }
    st := { st with ref_t := load.ref_temperature.value (xyz qp_loc_index) el.time }
    st := { st with alpha := el.property.alpha_expansion.value (xyz qp_loc_index) el.time }
    st := { st with  -- epsilon-xx
      strain := Function.update st.strain 0 (st.strain 0 - st.alpha * (st.temp - st.ref_t)) }
    st := { st with  -- epsilon-yy
      strain := Function.update st.strain 1 (st.strain 1 - st.alpha * (st.temp - st.ref_t)) }
  if if_bending then
    -- von Karman strain
    if if_vk then  -- get the vonKarman strain operator if needed
      let vk := initialize_von_karman_strain_operator el.local_sol qp_loc_index fe st.strain_vk
        st.vk_dwdxi_mat st.Bmat_vk
      st := { st with
        strain_vk := vk.vk_strain, vk_dwdxi_mat := vk.vk_dwdxi_mat, Bmat_vk := vk.Bmat_vk }
      st := { st with strain := st.strain + st.strain_vk }
    -- add to this the bending strain
    st := { st with z := el.property.h.value (xyz qp_loc_index) el.time }
    st := { st with z_off := el.property.off.value (xyz qp_loc_index) el.time }
    st := { st with
      Bmat_bend := bend.initialize_bending_strain_operator_for_z fe qp_loc_index
        (qp_loc fe qp 2 * st.z / 2 + st.z_off) }
    st := { st with strain_bend := st.Bmat_bend.vector_mult el.local_sol }
    -- add stress due to bending.
    st := { st with strain := st.strain + st.strain_bend }
  -- note that this assumes linear material laws
  st := { st with stress := st.material_mat *ᵥ st.strain }
  -- now set the data for the 3D stress-strain vector
  st := { st with stress_3D := copy_to_3D st.stress_3D st.stress }
  st := { st with strain_3D := copy_to_3D st.strain_3D st.strain }
  return st

/-- Lines 386-405 of `calculate_stress`: a new record in the primary pass, a lookup of the
existing record otherwise. -/
def calculate_stress_record (fe : FEBase R n nqp) (request_derivative : Bool)
    (p : Option (FunctionBase ι)) (st : StressBuffers R ι n) (qp_loc_index : Fin nqp)
    (section_qp_index : Fin 2) : StressBuffers R ι n :=
  let qp : Fin (nqp * 2) := finProdFinEquiv (qp_loc_index, section_qp_index)
  -- if neither the derivative nor sensitivity is requested, then we assume that a new data
  -- entry is to be provided
  if !request_derivative && p.isNone then
    { st with
      output := st.output.add_stress_strain_at_qp_location qp.val (qp_loc fe qp)
        (fe.xyz qp_loc_index) st.stress_3D st.strain_3D (fe.JxW qp_loc_index) }
  else
    { st with output := st.output.get_stress_strain_data_for_elem_at_qp qp.val }

/-- Lines 411-439 of `calculate_stress`: the derivatives of strain and stress with respect
to the local solution, their six-row copies, and the call `set_derivatives` when the
derivative is requested. -/
def calculate_stress_derivative (el : StructuralElement2D R ι n nqp)
    (request_derivative : Bool) (st : StressBuffers R ι n) (qp_loc_index : Fin nqp)
    (section_qp_index : Fin 2) : StressBuffers R ι n := Id.run do
  let eye : Matrix (Fin 3) (Fin 3) R := 1
  let if_vk := el.property.strain_type_is_von_karman
  let if_bending := el.property.bending_model_is_active
  let qp : Fin (nqp * 2) := finProdFinEquiv (qp_loc_index, section_qp_index)
  let mut st := st
  st := { st with dstrain_dX := st.Bmat_mem.left_multiply eye }  -- membrane strain is linear
  if if_bending then
    -- von Karman strain
    if if_vk then
      st := { st with mat_n1n2 := st.Bmat_vk.left_multiply st.vk_dwdxi_mat }
      st := { st with dstrain_dX := st.dstrain_dX + st.mat_n1n2 }
    -- bending strain
    st := { st with mat_n1n2 := st.Bmat_bend.left_multiply eye }
    st := { st with dstrain_dX := st.dstrain_dX + st.mat_n1n2 }
  -- note: this assumes linear material laws
  st := { st with dstress_dX := st.material_mat * st.dstrain_dX }
  -- copy to the 3D structure
  st := { st with dstress_dX_3D := copy_rows_to_3D st.dstress_dX_3D st.dstress_dX }
  st := { st with dstrain_dX_3D := copy_rows_to_3D st.dstrain_dX_3D st.dstrain_dX }
  if request_derivative then
    st := { st with
      output := st.output.set_derivatives qp.val st.dstress_dX_3D st.dstrain_dX_3D }
  return st

/-- Lines 442-525 of `calculate_stress`: the sensitivity of strain and stress with respect
to the parameter `p`, handed to `set_sensitivity`. -/
def calculate_stress_sensitivity (el : StructuralElement2D R ι n nqp) (fe : FEBase R n nqp)
    (bend : BendingOperator2D R ι n) (p : FunctionBase ι)
    (thermal_load : Option (ThermalBoundaryCondition R ι))
    (st : StressBuffers R ι n) (qp_loc_index : Fin nqp) (section_qp_index : Fin 2) :
    StressBuffers R ι n := Id.run do
  let xyz := fe.xyz
  let if_bending := el.property.bending_model_is_active
  let qp : Fin (nqp * 2) := finProdFinEquiv (qp_loc_index, section_qp_index)
  let mut st := st
  st := { st with dstrain_dp := 0 }
  -- if thermal load was specified, then set the thermal strain component
  if let some load := thermal_load then
    st := { st with dtemp := load.temperature.derivative p (xyz qp_loc_index) el.time }
    st := { st with dref_t := load.ref_temperature.derivative p (xyz qp_loc_index) el.time }
    st := { st with
      dalpha := el.property.alpha_expansion.derivative p (xyz qp_loc_index) el.time }
    st := { st with  -- epsilon-xx
      dstrain_dp := Function.update st.dstrain_dp 0 (st.dstrain_dp 0
        - (st.alpha * (st.dtemp - st.dref_t) - st.dalpha * (st.temp - st.ref_t))) }
    st := { st with  -- epsilon-yy
      dstrain_dp := Function.update st.dstrain_dp 1 (st.dstrain_dp 1
        - (st.alpha * (st.dtemp - st.dref_t) - st.dalpha * (st.temp - st.ref_t))) }
  if if_bending then
    -- add to this the bending strain
    st := { st with z := el.property.h.derivative p (xyz qp_loc_index) el.time }
    st := { st with z_off := el.property.off.derivative p (xyz qp_loc_index) el.time }
    st := { st with
      Bmat_bend := bend.initialize_bending_strain_operator_for_z fe qp_loc_index
        (qp_loc fe qp 2 * st.z / 2 + st.z_off) }
    st := { st with strain_bend := st.Bmat_bend.vector_mult el.local_sol }
    -- add stress due to bending.
    st := { st with dstrain_dp := st.dstrain_dp + st.strain_bend }
  -- now use this to calculate the stress sensitivity.
  st := { st with dstress_dp := st.material_mat *ᵥ st.dstrain_dp }
  -- get the material matrix sensitivity
  st := { st with
    material_mat :=
      el.property.material_stiffness_matrix.derivative p (xyz qp_loc_index) el.time }
  -- now use this to calculate the stress sensitivity.
  st := { st with dstress_dp := st.dstress_dp + st.material_mat *ᵥ st.strain }
  -- use the derivative data to evaluate the second term in the sensitivity
  st := { st with dstress_dp := st.dstress_dp + st.dstress_dX *ᵥ el.local_sol_sens }
  st := { st with dstrain_dp := st.dstrain_dp + st.dstrain_dX *ᵥ el.local_sol_sens }
  -- copy the 3D object
  st := { st with stress_3D := copy_to_3D st.stress_3D st.dstress_dp }
  st := { st with strain_3D := copy_to_3D st.strain_3D st.dstrain_dp }
  -- tell the data object about the sensitivity values
  st := { st with output := st.output.set_sensitivity qp.val p st.stress_3D st.strain_3D }
  return st

/-- The body of the double loop of `calculate_stress` (lines 315-527) for the in-plane
point `qp_loc_index` and the section point `section_qp_index`; `fe` is the finite element
`_assembly.build_fe(_elem)` after `init`, `bend` the operator built by
`build_bending_operator_2D`, `p` the parameter pointer (`none` for null) and
`thermal_load` the pointer fetched from the output before the loop. -/
def calculate_stress_point (el : StructuralElement2D R ι n nqp) (fe : FEBase R n nqp)
    (bend : BendingOperator2D R ι n) (request_derivative : Bool) (p : Option (FunctionBase ι))
    (thermal_load : Option (ThermalBoundaryCondition R ι))
    (st : StressBuffers R ι n) (qp_loc_index : Fin nqp) (section_qp_index : Fin 2) :
    StressBuffers R ι n := Id.run do
  let mut st := st
  st := calculate_stress_primary el fe bend thermal_load st qp_loc_index section_qp_index
  -- set the stress and strain data
  st := calculate_stress_record fe request_derivative p st qp_loc_index section_qp_index
  -- calculate the derivative if requested
  if request_derivative || p.isSome then
    st := calculate_stress_derivative el request_derivative st qp_loc_index section_qp_index
    if let some p := p then
      st := calculate_stress_sensitivity el fe bend p thermal_load st qp_loc_index
        section_qp_index
  return st

/-- The buffers of `calculate_stress` when it enters its loop (lines 236-281). -/
def stress_buffers (output : StressStrainOutputBase R ι n) : StressBuffers R ι n :=
  ⟨output, 0, 0, 0, 0, 0, 0, 0, 0, 0, 0, 0, 0, 0, 0, 0, FEMOperatorMatrix.reinit 3 6 n,
    FEMOperatorMatrix.reinit 3 6 n, FEMOperatorMatrix.reinit 2 6 n, 0, 0, 0, 0, 0, 0, 0, 0⟩

/-- The double loop of `calculate_stress` (lines 315-527) and the buffers it leaves. -/
def calculate_stress_loop (el : StructuralElement2D R ι n nqp) (fe : FEBase R n nqp)
    (bend : BendingOperator2D R ι n) (request_derivative : Bool) (p : Option (FunctionBase ι))
    (output : StressStrainOutputBase R ι n) : StressBuffers R ι n :=
  -- check to see if the element has any thermal loads specified
  let thermal_load := output.get_thermal_load_for_elem
  Fin.foldl nqp (fun st qp_loc_index =>
    Fin.foldl 2 (fun st section_qp_index =>
      calculate_stress_point el fe bend request_derivative p thermal_load st qp_loc_index
        section_qp_index) st) (stress_buffers output)

/-- `StructuralElement2D::calculate_stress`: the returned flag and the output collaborator
after the call; `none` is the failed assertion that the output holds as many records for
the element as there are evaluation points. -/
def calculate_stress (el : StructuralElement2D R ι n nqp) (fe : FEBase R n nqp)
    (bend : BendingOperator2D R ι n) (request_derivative : Bool) (p : Option (FunctionBase ι))
    (output : StressStrainOutputBase R ι n) : Option (Bool × StressStrainOutputBase R ι n) :=
  let st := calculate_stress_loop el fe bend request_derivative p output
  -- make sure that the number of data points for this element is the same as the number
  -- of requested points
  if nqp * 2 = st.output.n_stress_strain_data_for_elem then
    -- if either derivative or sensitivity was requested, it was provided by this routine
    some (request_derivative || p.isSome, st.output)
  else none

end StructuralElement2D

/-! ## A concrete element -/

/-- The field function with the same value everywhere and no dependence on any
parameter. -/
def FieldFunction.const {ι α : Type} [Zero α] (a : α) : FieldFunction R ι α :=
  ⟨fun _ _ => a, fun _ _ _ => 0⟩

/-- The three-node triangle with vertices `(0,0)`, `(1,0)`, `(0,1)` and one quadrature
point at its centroid. -/
def tri3_fe : FEBase ℚ 3 1 where
  JxW := fun _ => 1 / 2
  phi := fun _ _ => 1 / 3
  dphi := fun i _ => ![![-1, -1, 0], ![1, 0, 0], ![0, 1, 0]] i
  xyz := fun _ => ![1 / 3, 1 / 3, 0]
  qpoints := fun _ => ![1 / 3, 1 / 3, 0]
  normals := fun _ => ![0, 0, 1]

/-- The nodal `x` coordinates of the triangle. -/
def tri3_x : Fin 3 → ℚ := ![0, 1, 0]

/-- A bending operator that takes the curvatures from the two bending rotations and
carries no transverse shear energy. -/
def tri3_bending_operator : BendingOperator2D ℚ Unit 3 where
  initialize_bending_strain_operator := fun fe qp =>
    ((((FEMOperatorMatrix.reinit 3 6 3).set_shape_function 0 4
      (fun i => fe.dphi i qp 0)).set_shape_function 1 3
      (fun i => -fe.dphi i qp 1)).set_shape_function 2 4
      (fun i => fe.dphi i qp 1)).set_shape_function 2 3 (fun i => -fe.dphi i qp 0)
  include_transverse_shear_energy := false
  calculate_transverse_shear_residual := fun _ f j => (f, j)
  calculate_transverse_shear_residual_sensitivity := fun _ _ f j => (f, j)
  calculate_transverse_shear_residual_boundary_velocity := fun _ _ _ f => f
  initialize_bending_strain_operator_for_z := fun fe qp z =>
    ((((FEMOperatorMatrix.reinit 3 6 3).set_shape_function 0 4
      (fun i => z * fe.dphi i qp 0)).set_shape_function 1 3
      (fun i => -(z * fe.dphi i qp 1))).set_shape_function 2 4
      (fun i => z * fe.dphi i qp 1)).set_shape_function 2 3 (fun i => -(z * fe.dphi i qp 0))
  bending_strain_operator_drilling := fun fe qp r i => by
    simp [FEMOperatorMatrix.set_shape_function, FEMOperatorMatrix.reinit]
  transverse_shear_drilling := fun _ _ _ _ => rfl

/-- A property card with von Karman strain, bending, unit `A` and `D`, no coupling. -/
def tri3_property : ElementPropertyCard2D ℚ Unit where
  strain_type_is_von_karman := true
  bending_model_is_active := true
  depends_on := fun _ => true
  stiffness_A_matrix := FieldFunction.const 1
  stiffness_B_matrix := FieldFunction.const 0
  stiffness_D_matrix := FieldFunction.const 1
  thermal_expansion_A_matrix := FieldFunction.const !![1; 1; 0]
  thermal_expansion_B_matrix := FieldFunction.const 0
  if_prestressed := true
  prestress_A_matrix := FieldFunction.const 1
  prestress_B_matrix := FieldFunction.const 0
  h := FieldFunction.const 1
  off := FieldFunction.const 0
  material_stiffness_matrix := FieldFunction.const 1
  alpha_expansion := FieldFunction.const 1

/-- The triangle as a structural element at rest, local and global axes aligned. -/
def tri3_elem : StructuralElement2D ℚ Unit 3 1 where
  fe := tri3_fe
  time := 0
  elem_dim := 2
  local_sol := 0
  local_vel := 0
  local_sol_sens := 0
  follower_forces := false
  property := tri3_property
  bending_operator := tri3_bending_operator
  T_global := 1
  Tmatrix := 1

/-- The triangle as a pure membrane element. -/
def tri3_membrane_elem : StructuralElement2D ℚ Unit 3 1 :=
  { tri3_elem with property := { tri3_property with bending_model_is_active := false } }

/-- The triangle as a linear plate: bending without von Karman strain, no coupling
(`B = 0`), unit quadrature weight, and a solution that is zero except for the
transverse displacement `w = 1` at the first node. -/
def tri3_plate_elem : StructuralElement2D ℚ Unit 3 1 :=
  { tri3_elem with
    fe := { tri3_fe with JxW := fun _ => 1 }
    local_sol := fun k => if k.val = 6 then 1 else 0
    property := { tri3_property with strain_type_is_von_karman := false } }

/-! ## Quantities used to state the properties -/

/-- The pair `(dw/dx, dw/dy)` of a local DOF vector at a quadrature point:
`sum_i dN_i/dx * sol[2n+i]` and `sum_i dN_i/dy * sol[2n+i]`. -/
def dwdxi (qp : Fin nqp) (fe : FEBase R n nqp) (sol : Fin (6 * n) → R) : Fin 2 → R :=
  ![∑ i_nd, fe.dphi i_nd qp 0 * sol (dof 2 i_nd), ∑ i_nd, fe.dphi i_nd qp 1 * sol (dof 2 i_nd)]

/-- The von Karman strain `(gx^2/2, gy^2/2, gx*gy)` of a gradient `g = (gx, gy)`. -/
def vk_e (g : Fin 2 → R) : Fin 3 → R := ![0.5 * g 0 * g 0, 0.5 * g 1 * g 1, g 0 * g 1]

/-- The `3 × 2` matrix with entries `(0,0) = gx`, `(2,1) = gx`, `(1,1) = gy`,
`(2,0) = gy` and zero elsewhere. -/
def vk_W (g : Fin 2 → R) : Matrix (Fin 3) (Fin 2) R := !![g 0, 0; 0, g 1; g 1, g 0]

/-- The dense membrane operator at a quadrature point, built on a fresh operator. -/
def Bmem (qp : Fin nqp) (fe : FEBase R n nqp) : Matrix (Fin 3) (Fin (6 * n)) R :=
  (initialize_direct_strain_operator qp fe (FEMOperatorMatrix.reinit 3 6 n)).toMatrix

/-- The dense operator of `(dw/dx, dw/dy)` at a quadrature point, built on a fresh
operator. -/
def Bvk (qp : Fin nqp) (fe : FEBase R n nqp) : Matrix (Fin 2) (Fin (6 * n)) R :=
  (initialize_von_karman_strain_operator 0 qp fe 0 0
    (FEMOperatorMatrix.reinit 2 6 n)).Bmat_vk.toMatrix

/-- The dense bending operator the collaborator supplies at a quadrature point. -/
def Bbend {ι : Type} (bo : BendingOperator2D R ι n) (qp : Fin nqp) (fe : FEBase R n nqp) :
    Matrix (Fin 3) (Fin (6 * n)) R :=
  (bo.initialize_bending_strain_operator fe qp).toMatrix

/-- The local force and tangent `internal_residual` holds after its quadrature loop and
the transverse shear term, before the drilling penalty and the transformation. -/
def StructuralElement2D.internal_residual_local {ι : Type} (el : StructuralElement2D R ι n nqp)
    (request_jacobian : Bool) : (Fin (6 * n) → R) × Matrix (Fin (6 * n)) (Fin (6 * n)) R :=
  if el.property.bending_model_is_active && el.bending_operator.include_transverse_shear_energy
  then
    el.bending_operator.calculate_transverse_shear_residual request_jacobian
      (el.kernel_quadrature_loop request_jacobian el.property.stiffness_A_matrix.value
        el.property.stiffness_B_matrix.value el.property.stiffness_D_matrix.value).local_f
      (el.kernel_quadrature_loop request_jacobian el.property.stiffness_A_matrix.value
        el.property.stiffness_B_matrix.value el.property.stiffness_D_matrix.value).local_jac
  else
    ((el.kernel_quadrature_loop request_jacobian el.property.stiffness_A_matrix.value
        el.property.stiffness_B_matrix.value el.property.stiffness_D_matrix.value).local_f,
     (el.kernel_quadrature_loop request_jacobian el.property.stiffness_A_matrix.value
        el.property.stiffness_B_matrix.value el.property.stiffness_D_matrix.value).local_jac)

/-- The local force and tangent `internal_residual_sensitivity` holds after its
quadrature loop and the transverse shear term, before the transformation. -/
def StructuralElement2D.internal_residual_sensitivity_local {ι : Type}
    (el : StructuralElement2D R ι n nqp) (p : FunctionBase ι) (request_jacobian : Bool) :
    (Fin (6 * n) → R) × Matrix (Fin (6 * n)) (Fin (6 * n)) R :=
  if el.property.bending_model_is_active && el.bending_operator.include_transverse_shear_energy
  then
    el.bending_operator.calculate_transverse_shear_residual_sensitivity p request_jacobian
      (el.kernel_quadrature_loop request_jacobian (el.property.stiffness_A_matrix.derivative p)
        (el.property.stiffness_B_matrix.derivative p)
        (el.property.stiffness_D_matrix.derivative p)).local_f
      (el.kernel_quadrature_loop request_jacobian (el.property.stiffness_A_matrix.derivative p)
        (el.property.stiffness_B_matrix.derivative p)
        (el.property.stiffness_D_matrix.derivative p)).local_jac
  else
    ((el.kernel_quadrature_loop request_jacobian (el.property.stiffness_A_matrix.derivative p)
        (el.property.stiffness_B_matrix.derivative p)
        (el.property.stiffness_D_matrix.derivative p)).local_f,
     (el.kernel_quadrature_loop request_jacobian (el.property.stiffness_A_matrix.derivative p)
        (el.property.stiffness_B_matrix.derivative p)
        (el.property.stiffness_D_matrix.derivative p)).local_jac)

/-- The element whose stiffness matrices are those of `el` moved by the step `h` along
their derivatives with respect to `p`: the property card at parameter value `p + h` when
`A`, `B` and `D` depend affinely on `p`. -/
def StructuralElement2D.stiffness_step {ι : Type} (el : StructuralElement2D R ι n nqp)
    (p : FunctionBase ι) (h : R) : StructuralElement2D R ι n nqp :=
  { el with
    property := { el.property with
      stiffness_A_matrix :=
        ⟨fun x t => el.property.stiffness_A_matrix.value x t
            + h • el.property.stiffness_A_matrix.derivative p x t,
          el.property.stiffness_A_matrix.derivative⟩
      stiffness_B_matrix :=
        ⟨fun x t => el.property.stiffness_B_matrix.value x t
            + h • el.property.stiffness_B_matrix.derivative p x t,
          el.property.stiffness_B_matrix.derivative⟩
      stiffness_D_matrix :=
        ⟨fun x t => el.property.stiffness_D_matrix.value x t
            + h • el.property.stiffness_D_matrix.derivative p x t,
          el.property.stiffness_D_matrix.derivative⟩ } }

/-- The total stress the kernel forms at a quadrature point,
`A (Bmem u) + [bending] B (Bbend u) + [bending and von Karman] A e_vk(u)`. -/
def kernel_stress {ι : Type} (qp : Fin nqp) (fe : FEBase R n nqp)
    (bo : BendingOperator2D R ι n) (if_bending if_vk : Bool)
    (A B : Matrix (Fin 3) (Fin 3) R) (u : Fin (6 * n) → R) : Fin 3 → R :=
  if if_bending then
    if if_vk then
      A *ᵥ (Bmem qp fe *ᵥ u) + B *ᵥ (Bbend bo qp fe *ᵥ u) + A *ᵥ vk_e (dwdxi qp fe u)
    else A *ᵥ (Bmem qp fe *ᵥ u) + B *ᵥ (Bbend bo qp fe *ᵥ u)
  else A *ᵥ (Bmem qp fe *ᵥ u)

/-- The force of one quadrature point with unit weight, in matrix form. -/
def kernel_force {ι : Type} (qp : Fin nqp) (fe : FEBase R n nqp)
    (bo : BendingOperator2D R ι n) (if_bending if_vk : Bool)
    (A B D : Matrix (Fin 3) (Fin 3) R) (u : Fin (6 * n) → R) : Fin (6 * n) → R :=
  if if_bending then
    if if_vk then
      (Bmem qp fe)ᵀ *ᵥ kernel_stress qp fe bo true true A B u
        + (Bvk qp fe)ᵀ *ᵥ ((vk_W (dwdxi qp fe u))ᵀ *ᵥ kernel_stress qp fe bo true true A B u)
        + (Bbend bo qp fe)ᵀ *ᵥ (Bᵀ *ᵥ (vk_e (dwdxi qp fe u) + Bmem qp fe *ᵥ u))
        + (Bbend bo qp fe)ᵀ *ᵥ (D *ᵥ (Bbend bo qp fe *ᵥ u))
    else
      (Bmem qp fe)ᵀ *ᵥ kernel_stress qp fe bo true false A B u
        + (Bbend bo qp fe)ᵀ *ᵥ (Bᵀ *ᵥ (Bmem qp fe *ᵥ u))
        + (Bbend bo qp fe)ᵀ *ᵥ (D *ᵥ (Bbend bo qp fe *ᵥ u))
  else (Bmem qp fe)ᵀ *ᵥ kernel_stress qp fe bo false if_vk A B u

/-- The tangent of one quadrature point with unit weight, in matrix form. -/
def kernel_tangent {ι : Type} (qp : Fin nqp) (fe : FEBase R n nqp)
    (bo : BendingOperator2D R ι n) (if_bending if_vk : Bool)
    (A B D : Matrix (Fin 3) (Fin 3) R) (u : Fin (6 * n) → R) :
    Matrix (Fin (6 * n)) (Fin (6 * n)) R :=
  if if_bending then
    if if_vk then
      (Bmem qp fe)ᵀ * (A * Bmem qp fe)
        + (Bmem qp fe)ᵀ * (A * (vk_W (dwdxi qp fe u) * Bvk qp fe))
        + (Bvk qp fe)ᵀ * ((vk_W (dwdxi qp fe u))ᵀ * (A * Bmem qp fe))
        + (Bvk qp fe)ᵀ * (stress_of_vec (kernel_stress qp fe bo true true A B u) * Bvk qp fe)
        + (Bvk qp fe)ᵀ * ((vk_W (dwdxi qp fe u))ᵀ * A * (vk_W (dwdxi qp fe u) * Bvk qp fe))
        + (Bbend bo qp fe)ᵀ * (Bᵀ * (vk_W (dwdxi qp fe u) * Bvk qp fe))
        + (Bvk qp fe)ᵀ * ((vk_W (dwdxi qp fe u))ᵀ * (B * Bbend bo qp fe))
        + (Bbend bo qp fe)ᵀ * (Bᵀ * Bmem qp fe) + (Bmem qp fe)ᵀ * (B * Bbend bo qp fe)
        + (Bbend bo qp fe)ᵀ * (D * Bbend bo qp fe)
    else
      (Bmem qp fe)ᵀ * (A * Bmem qp fe)
        + (Bbend bo qp fe)ᵀ * (Bᵀ * Bmem qp fe) + (Bmem qp fe)ᵀ * (B * Bbend bo qp fe)
        + (Bbend bo qp fe)ᵀ * (D * Bbend bo qp fe)
  else (Bmem qp fe)ᵀ * (A * Bmem qp fe)

/-- The slots of a membrane operator that `initialize_direct_strain_operator` does not
write are unset. -/
def mem_clean (Bmat : FEMOperatorMatrix R 3 6 n) : Prop :=
  ∀ r v, ¬ ((r = 0 ∧ v = 0) ∨ (r = 2 ∧ v = 1) ∨ (r = 1 ∧ v = 1) ∨ (r = 2 ∧ v = 0)) →
    Bmat r v = 0

/-- The slots of a von Karman operator that `initialize_von_karman_strain_operator` does
not write are unset. -/
def vk_clean (Bmat : FEMOperatorMatrix R 2 6 n) : Prop :=
  ∀ r v, v ≠ 2 → Bmat r v = 0

/-- The operators of a kernel buffer hold nothing but what the builders wrote. -/
def KernelBuffers.clean (buf : KernelBuffers R n) : Prop :=
  mem_clean buf.Bmat_mem ∧ vk_clean buf.Bmat_vk

/-- The matrix one quadrature point contributes, with unit weight, to
`internal_residual_jac_dot_state_sensitivity` when bending and von Karman strain are
both active, in matrix form (`u` the solution, `v` the sensitivity vector). -/
def jac_dot_tangent {ι : Type} (qp : Fin nqp) (fe : FEBase R n nqp)
    (bo : BendingOperator2D R ι n) (A B : Matrix (Fin 3) (Fin 3) R)
    (u v : Fin (6 * n) → R) : Matrix (Fin (6 * n)) (Fin (6 * n)) R :=
  (Bvk qp fe)ᵀ * ((vk_W (dwdxi qp fe v))ᵀ * (A * Bmem qp fe))
    + (Bvk qp fe)ᵀ * ((vk_W (dwdxi qp fe v))ᵀ * (B * Bbend bo qp fe))
    + (Bvk qp fe)ᵀ * ((vk_W (dwdxi qp fe v))ᵀ * A * (vk_W (dwdxi qp fe u) * Bvk qp fe))
    + (Bvk qp fe)ᵀ * ((vk_W (dwdxi qp fe u))ᵀ * A * (vk_W (dwdxi qp fe v) * Bvk qp fe))
    + (Bmem qp fe)ᵀ * (A * (vk_W (dwdxi qp fe v) * Bvk qp fe))
    + (Bbend bo qp fe)ᵀ * (Bᵀ * (vk_W (dwdxi qp fe v) * Bvk qp fe))
    + (Bvk qp fe)ᵀ * (stress_of_vec (A *ᵥ (Bmem qp fe *ᵥ v) + B *ᵥ (Bbend bo qp fe *ᵥ v)
        + A *ᵥ (vk_W (dwdxi qp fe u) *ᵥ dwdxi qp fe v)) * Bvk qp fe)

/-- The operators of a buffer of `internal_residual_jac_dot_state_sensitivity` hold
nothing but what the builders wrote. -/
def StructuralElement2D.JacDotBuffers.clean (buf : StructuralElement2D.JacDotBuffers R n) :
    Prop :=
  mem_clean buf.Bmat_mem ∧ vk_clean buf.Bmat_vk

/-- The force one quadrature point contributes, with unit weight, to the thermal
assemblers, in matrix form, for the membrane thermal stress `s_A` and the bending thermal
stress `s_B`:
`Bmem^T s_A + [bending] Bbend^T s_B + [bending and von Karman] Bvk^T vk_dwdxi_mat^T s_A`. -/
def thermal_force {ι : Type} (qp : Fin nqp) (fe : FEBase R n nqp)
    (bo : BendingOperator2D R ι n) (if_bending if_vk : Bool)
    (u : Fin (6 * n) → R) (s_A s_B : Fin 3 → R) : Fin (6 * n) → R :=
  if if_bending then
    if if_vk then
      (Bmem qp fe)ᵀ *ᵥ s_A + (Bbend bo qp fe)ᵀ *ᵥ s_B
        + (Bvk qp fe)ᵀ *ᵥ ((vk_W (dwdxi qp fe u))ᵀ *ᵥ s_A)
    else (Bmem qp fe)ᵀ *ᵥ s_A + (Bbend bo qp fe)ᵀ *ᵥ s_B
  else (Bmem qp fe)ᵀ *ᵥ s_A

/-- The matrix one quadrature point contributes, with unit weight, to the local tangent of
the thermal and prestress assemblers for the membrane stress `s_A`: `Bvk^T S Bvk` when
bending and von Karman strain are both active and the Jacobian is requested, nothing
otherwise (`S` the `2 × 2` matrix of `s_A`). -/
def vk_stress_tangent (qp : Fin nqp) (fe : FEBase R n nqp) (if_bending if_vk : Bool)
    (request_jacobian : Bool) (s_A : Fin 3 → R) : Matrix (Fin (6 * n)) (Fin (6 * n)) R :=
  if if_bending then
    if request_jacobian then
      if if_vk then (Bvk qp fe)ᵀ * (stress_of_vec s_A * Bvk qp fe) else 0
    else 0
  else 0

/-- A thermal boundary condition on the triangle: temperature `0` everywhere, reference
temperature `s` everywhere, where `s` is the value of the design parameter (so the
derivative of the reference temperature with respect to the parameter is `1`). -/
def tri3_thermal_bc (s : ℚ) : ThermalBoundaryCondition ℚ Unit where
  temperature := ⟨fun _ _ => 0, fun _ _ _ => 0⟩
  ref_temperature := ⟨fun _ _ => s, fun _ _ _ => 1⟩

/-- The triangle with a local solution that is zero except for the transverse
displacement `w = s` at the third node, so that `dw/dx = 0` and `dw/dy = s`. -/
def tri3_w_elem (s : ℚ) : StructuralElement2D ℚ Unit 3 1 :=
  { tri3_elem with local_sol := fun k => if k.val = 8 then s else 0 }

/-- A piston-theory boundary condition with the flow along the local `y` axis and a
pressure equal to its slope argument: `p(dwdx, dwdt) = dwdx`, so that `dp/d(dwdx) = 1`
and `dp/d(dwdt) = 0`. -/
def tri3_piston_bc : PistonTheoryBoundaryCondition ℚ Unit where
  vel_vec := ![0, 1, 0]
  pressure := fun dwdx _ => ⟨fun _ _ => dwdx, fun _ _ _ => 0⟩
  dpdx := fun _ _ => ⟨fun _ _ => 1, fun _ _ _ => 0⟩
  dpdxdot := fun _ _ => ⟨fun _ _ => 0, fun _ _ _ => 0⟩

/-- The triangle with a property card that depends on no parameter. -/
def tri3_independent_elem : StructuralElement2D ℚ Unit 3 1 :=
  { tri3_elem with property := { tri3_property with depends_on := fun _ => false } }

/-- The matrix one quadrature point contributes, with unit weight, to the local tangent of
the prestress assemblers for the `2 × 2` prestress matrix `S`: `Bvk^T S Bvk` when the
Jacobian is requested and bending and von Karman strain are both active, nothing
otherwise. -/
def prestress_tangent (qp : Fin nqp) (fe : FEBase R n nqp) (if_bending if_vk : Bool)
    (request_jacobian : Bool) (S : Matrix (Fin 2) (Fin 2) R) :
    Matrix (Fin (6 * n)) (Fin (6 * n)) R :=
  if request_jacobian then
    if if_bending then
      if if_vk then (Bvk qp fe)ᵀ * (S * Bvk qp fe) else 0
    else 0
  else 0

/-- The vector a side quadrature point contributes, with unit weight, to the surface
pressure assemblers for the scalar `c` (pressure times thickness, or its derivative): the
entry of translational variable `i < 3` and node `k` is `N_k c normal_i`, the entries of
the three rotational variables are zero. -/
def surface_pressure_force {nqs : ℕ} (fe : FEBase R n nqs) (c : R) (qp : Fin nqs) :
    Fin (6 * n) → R :=
  fun idx => if h : idx.divNat.val < 3 then
    fe.phi idx.modNat qp * (c * fe.normals qp ⟨idx.divNat.val, h⟩) else 0

/-- A pressure boundary condition with the same pressure `c` everywhere. -/
def tri3_pressure_bc (c : ℚ) : PressureBoundaryCondition ℚ Unit where
  pressure := ⟨fun _ _ => c, fun _ _ _ => 0⟩

/-- The triangle with the follower-force flag set. -/
def tri3_follower_elem : StructuralElement2D ℚ Unit 3 1 :=
  { tri3_elem with follower_forces := true }

/-- The triangle declared as a three-dimensional element. -/
def tri3_solid_elem : StructuralElement2D ℚ Unit 3 1 :=
  { tri3_elem with elem_dim := 3 }

/-- A design parameter that is a shape parameter. -/
def tri3_shape_param : FunctionBase Unit := ⟨(), true⟩

/-- The last three entries of the force buffer of a surface pressure loop are zero. -/
def force_clean (buf : StructuralElement2D.SurfacePressureBuffers R n) : Prop :=
  ∀ i : Fin 6, 3 ≤ i.val → buf.force i = 0

/-- The output of an assembler with `g` added to the force it hands back and `J` to the
tangent. -/
def AssemblyOutput.shift (out : AssemblyOutput R n) (g : Fin (6 * n) → R)
    (J : Matrix (Fin (6 * n)) (Fin (6 * n)) R) : AssemblyOutput R n :=
  { out with f := out.f + g, jac := out.jac + J }

/-- The output of a piston-theory assembler with `g` added to the force it hands back,
`Jx` to the velocity tangent and `J` to the displacement tangent. -/
def StructuralElement2D.PistonOutput.shift (out : StructuralElement2D.PistonOutput R n)
    (g : Fin (6 * n) → R) (Jx J : Matrix (Fin (6 * n)) (Fin (6 * n)) R) :
    StructuralElement2D.PistonOutput R n :=
  { out with f := out.f + g, jac_xdot := out.jac_xdot + Jx, jac := out.jac + J }

/-- The index of the record a call creates, if it creates one. -/
def StressStrainOutputCall.created {ι : Type} : StressStrainOutputCall R ι n → Option ℕ
  | .add_stress_strain_at_qp_location qp _ _ _ _ _ => some qp
  | _ => none

/-- The through-thickness coordinate of the record a call creates, if it creates one. -/
def StressStrainOutputCall.created_z {ι : Type} : StressStrainOutputCall R ι n → Option R
  | .add_stress_strain_at_qp_location _ quadrature_pt _ _ _ _ => some (quadrature_pt 2)
  | _ => none

/-- The index of the record a call looks up, if it looks one up. -/
def StressStrainOutputCall.looked_up {ι : Type} : StressStrainOutputCall R ι n → Option ℕ
  | .get_stress_strain_data_for_elem_at_qp qp => some qp
  | _ => none

/-- The six-component vector `(s0, s1, 0, s2, 0, 0)` of a 2D vector `(s0, s1, s2)`. -/
def to_3D (s : Fin 3 → R) : Fin 6 → R := ![s 0, s 1, 0, s 2, 0, 0]

/-- The six-row matrix with rows `(M0, M1, 0, M2, 0, 0)` of a three-row matrix. -/
def rows_to_3D {k : ℕ} (M : Matrix (Fin 3) (Fin k) R) : Matrix (Fin 6) (Fin k) R :=
  ![M 0, M 1, 0, M 2, 0, 0]

/-- The vectors and matrices a call hands to the output are in plane-stress form: the
six-component vectors are `(s0, s1, 0, s2, 0, 0)` and rows 2, 4 and 5 of the six-row
matrices are zero. -/
def StressStrainOutputCall.plane_stress {ι : Type} : StressStrainOutputCall R ι n → Prop
  | .add_stress_strain_at_qp_location _ _ _ stress strain _ =>
      stress = to_3D ![stress 0, stress 1, stress 3] ∧
      strain = to_3D ![strain 0, strain 1, strain 3]
  | .get_stress_strain_data_for_elem_at_qp _ => True
  | .set_derivatives _ dstress_dX dstrain_dX =>
      dstress_dX = rows_to_3D ![dstress_dX 0, dstress_dX 1, dstress_dX 3] ∧
      dstrain_dX = rows_to_3D ![dstrain_dX 0, dstrain_dX 1, dstrain_dX 3]
  | .set_sensitivity _ _ dstress_dp dstrain_dp =>
      dstress_dp = to_3D ![dstress_dp 0, dstress_dp 1, dstress_dp 3] ∧
      dstrain_dp = to_3D ![dstrain_dp 0, dstrain_dp 1, dstrain_dp 3]

/-- The six-component buffers of `calculate_stress` hold nothing in the `zz`, `yz` and `zx`
entries and rows. -/
def StructuralElement2D.StressBuffers.plane {ι : Type}
    (st : StructuralElement2D.StressBuffers R ι n) : Prop :=
  (st.stress_3D 2 = 0 ∧ st.stress_3D 4 = 0 ∧ st.stress_3D 5 = 0) ∧
  (st.strain_3D 2 = 0 ∧ st.strain_3D 4 = 0 ∧ st.strain_3D 5 = 0) ∧
  (st.dstress_dX_3D 2 = 0 ∧ st.dstress_dX_3D 4 = 0 ∧ st.dstress_dX_3D 5 = 0) ∧
  (st.dstrain_dX_3D 2 = 0 ∧ st.dstrain_dX_3D 4 = 0 ∧ st.dstrain_dX_3D 5 = 0)

/-- What the output collaborator has received after one evaluation point, in terms of the
2D quantities `calculate_stress` holds at the end of that point: one created record with
the stress and strain in the primary pass; otherwise one lookup, followed by
`set_derivatives` when the derivative is requested and by `set_sensitivity` when a
parameter is given. -/
def StructuralElement2D.stress_output_after {ι : Type} (fe : FEBase R n nqp)
    (request_derivative : Bool) (p : Option (FunctionBase ι))
    (output : StressStrainOutputBase R ι n) (qp_loc_index : Fin nqp) (section_qp_index : Fin 2)
    (stress strain : Fin 3 → R) (dstress_dX dstrain_dX : Matrix (Fin 3) (Fin (6 * n)) R)
    (dstress_dp dstrain_dp : Fin 3 → R) : StressStrainOutputBase R ι n :=
  match request_derivative, p with
  | false, none =>
      output.add_stress_strain_at_qp_location
        (finProdFinEquiv (qp_loc_index, section_qp_index) : Fin (nqp * 2)).val
        (StructuralElement2D.qp_loc fe (finProdFinEquiv (qp_loc_index, section_qp_index)))
        (fe.xyz qp_loc_index) (to_3D stress) (to_3D strain) (fe.JxW qp_loc_index)
  | true, none =>
      (output.get_stress_strain_data_for_elem_at_qp
        (finProdFinEquiv (qp_loc_index, section_qp_index) : Fin (nqp * 2)).val).set_derivatives
        (finProdFinEquiv (qp_loc_index, section_qp_index) : Fin (nqp * 2)).val
        (rows_to_3D dstress_dX) (rows_to_3D dstrain_dX)
  | false, some p =>
      (output.get_stress_strain_data_for_elem_at_qp
        (finProdFinEquiv (qp_loc_index, section_qp_index) : Fin (nqp * 2)).val).set_sensitivity
        (finProdFinEquiv (qp_loc_index, section_qp_index) : Fin (nqp * 2)).val p
        (to_3D dstress_dp) (to_3D dstrain_dp)
  | true, some p =>
      ((output.get_stress_strain_data_for_elem_at_qp
        (finProdFinEquiv (qp_loc_index, section_qp_index) : Fin (nqp * 2)).val).set_derivatives
        (finProdFinEquiv (qp_loc_index, section_qp_index) : Fin (nqp * 2)).val
        (rows_to_3D dstress_dX) (rows_to_3D dstrain_dX)).set_sensitivity
        (finProdFinEquiv (qp_loc_index, section_qp_index) : Fin (nqp * 2)).val p
        (to_3D dstress_dp) (to_3D dstrain_dp)

/-- The through-thickness coordinate of the evaluation point of index `k`: `+1` (upper
skin) for even `k`, `-1` (lower skin) for odd `k`. -/
def skin_z (R : Type) [Field R] (k : ℕ) : R := if k % 2 = 0 then 1 else -1

/-- What `calculate_stress` has done to its six-component buffers and to the output
collaborator `output` it started from after `k` evaluation points: the buffers are in
plane-stress form, and the calls `new` made so far are in plane-stress form and, in a
primary pass, created the records `0 .. k-1` in this order, at the skins `skin_z`, and
looked none up, while in a derivative or sensitivity pass they created none and looked
up the records `0 .. k-1` in this order. -/
def StructuralElement2D.stress_trace {ι : Type} (primary : Bool) (k : ℕ)
    (output : StressStrainOutputBase R ι n) (st : StructuralElement2D.StressBuffers R ι n) :
    Prop :=
  st.plane ∧ ∃ new : List (StressStrainOutputCall R ι n),
    st.output.calls = output.calls ++ new ∧ (∀ c ∈ new, c.plane_stress) ∧
    new.filterMap StressStrainOutputCall.created = (if primary then List.range k else []) ∧
    new.filterMap StressStrainOutputCall.looked_up = (if primary then [] else List.range k) ∧
    new.filterMap StressStrainOutputCall.created_z
      = (if primary then (List.range k).map (skin_z R) else []) ∧
    st.output.n_stress_strain_data_for_elem
      = output.n_stress_strain_data_for_elem + (if primary then k else 0)

/-! ## The channel-section property card

`src/src/property_cards/solid_1d_chan_section_element_property_card.cpp`.  A floating-point
literal with an integer value (`1.2E+1`, `6.0`, `2.0`, ...) is that number of the field
(`12`, `6`, `2`, ...), any other literal is kept as written, and `pow(x, 2.0)`,
`pow(x, 3.0)`, `pow(x, 4.0)` are `x ^ 2`, `x ^ 3`, `x ^ 4`.  The square root of the C
library is a parameter `sqrt` of the routines that call it. -/

namespace Solid1DChanSectionProperty

/-- `Solid1DChanSectionProperty::calcA`. -/
def calcA (DIM1 DIM2 DIM3 DIM4 : R) : R :=
  DIM2*DIM3+DIM4*(DIM1-DIM3)*2

/-- `Solid1DChanSectionProperty::calcdA`. -/
def calcdA (DIM1 DIM2 DIM3 DIM4 dDIM1 dDIM2 dDIM3 dDIM4 : R) : R :=
  DIM3*dDIM2+DIM4*dDIM1*2+dDIM3*(DIM2-DIM4*2)+dDIM4*(DIM1*2-DIM3*2)

/-- `Solid1DChanSectionProperty::calcIz`. -/
def calcIz (DIM1 DIM2 DIM3 DIM4 : R) : R :=
  ((DIM2*DIM2*DIM2)*DIM3)/12+((DIM4*DIM4*DIM4)*(DIM1-DIM3))/6+(DIM4*(DIM1-DIM3)*(DIM2-DIM4)^2)/2

/-- `Solid1DChanSectionProperty::calcdIz`. -/
def calcdIz (DIM1 DIM2 DIM3 DIM4 dDIM1 dDIM2 dDIM3 dDIM4 : R) : R :=
  (dDIM3*(DIM2-DIM4*2)^3)/12+dDIM1*((DIM4*(DIM2-DIM4)^2)/2+(DIM4*DIM4*DIM4)/6)
    +dDIM2*(((DIM2*DIM2)*DIM3)/4+(DIM4*(DIM1-DIM3)*(DIM2*2-DIM4*2))/2)+(dDIM4*(DIM1-DIM3)*(DIM2
    -DIM4*2)^2)/2

/-- `Solid1DChanSectionProperty::calcIy`. -/
def calcIy (DIM1 DIM2 DIM3 DIM4 : R) : R :=
  (DIM2*(DIM3*DIM3*DIM3))/12+(DIM4*(DIM1-DIM3)^3)/6+((DIM1*DIM1)*DIM4*(DIM1-DIM3))/2
    -((DIM1*DIM1)*(DIM4*DIM4)*(DIM1-DIM3)^2)/(DIM2*DIM3+DIM4*(DIM1-DIM3)*2)

/-- `Solid1DChanSectionProperty::calcdIy`. -/
def calcdIy (DIM1 DIM2 DIM3 DIM4 dDIM1 dDIM2 dDIM3 dDIM4 : R) : R :=
  dDIM2*((DIM3*DIM3*DIM3)/12+(DIM1*DIM1)*DIM3*(DIM4*DIM4)*1/(DIM2*DIM3+DIM4*(DIM1
    -DIM3)*2)^2*(DIM1-DIM3)^2)+dDIM4*(((DIM1*DIM1)*(DIM1-DIM3))/2+(DIM1-DIM3)^3/6
    -((DIM1*DIM1)*DIM4*(DIM1-DIM3)^2*2)/(DIM2*DIM3+DIM4*(DIM1-DIM3)*2)
    +(DIM1*DIM1)*(DIM4*DIM4)*1/(DIM2*DIM3+DIM4*(DIM1-DIM3)*2)^2*(DIM1-DIM3)^2*(DIM1*2-DIM3*2))
    +(dDIM3*(DIM2-DIM4*2)*1/(DIM1*DIM4*2+DIM2*DIM3-DIM3*DIM4*2)^2*(DIM2*(DIM3*DIM3)
    -(DIM1*DIM1)*DIM4*2-(DIM3*DIM3)*DIM4*2+DIM1*DIM3*DIM4*4)^2)/4+(DIM4*dDIM1*1/(DIM1*DIM4*2
    +DIM2*DIM3-DIM3*DIM4*2)^2*(-DIM2*(DIM3*DIM3)+(DIM1*DIM1)*DIM4*2+(DIM3*DIM3)*DIM4*2
    +DIM1*DIM2*DIM3*2-DIM1*DIM3*DIM4*4)^2)/2

/-- `Solid1DChanSectionProperty::calcIp`. -/
def calcIp (DIM1 DIM2 DIM3 DIM4 : R) : R :=
  (DIM2*(DIM3*DIM3*DIM3))/12+((DIM2*DIM2*DIM2)*DIM3)/12+(DIM4*(DIM1-DIM3)^3)/6
    +((DIM4*DIM4*DIM4)*(DIM1-DIM3))/6+((DIM1*DIM1)*DIM4*(DIM1-DIM3))/2+(DIM4*(DIM1-DIM3)*(DIM2
    -DIM4)^2)/2-((DIM1*DIM1)*(DIM4*DIM4)*(DIM1-DIM3)^2)/(DIM2*DIM3+DIM4*(DIM1-DIM3)*2)

/-- `Solid1DChanSectionProperty::calcdIp`. -/
def calcdIp (DIM1 DIM2 DIM3 DIM4 dDIM1 dDIM2 dDIM3 dDIM4 : R) : R :=
  dDIM2*(((DIM2*DIM2)*DIM3)/4+(DIM3*DIM3*DIM3)/12+(DIM4*(DIM1-DIM3)*(DIM2*2-DIM4*2))/2
    +(DIM1*DIM1)*DIM3*(DIM4*DIM4)*1/(DIM2*DIM3+DIM4*(DIM1-DIM3)*2)^2*(DIM1-DIM3)^2)
    +dDIM3*((DIM2*(DIM3*DIM3))/4-((DIM1*DIM1)*DIM4)/2-(DIM4*(DIM1-DIM3)^2)/2-(DIM4*(DIM2
    -DIM4)^2)/2+(DIM2*DIM2*DIM2)/12-(DIM4*DIM4*DIM4)/6+((DIM1*DIM1)*(DIM4*DIM4)*(DIM1*2
    -DIM3*2))/(DIM2*DIM3+DIM4*(DIM1-DIM3)*2)+(DIM1*DIM1)*(DIM4*DIM4)*1/(DIM2*DIM3+DIM4*(DIM1
    -DIM3)*2)^2*(DIM1-DIM3)^2*(DIM2-DIM4*2))+dDIM1*(((DIM1*DIM1)*DIM4)/2+(DIM4*(DIM1-DIM3)^2)/2
    +(DIM4*(DIM2-DIM4)^2)/2+(DIM4*DIM4*DIM4)/6+DIM1*DIM4*(DIM1-DIM3)-(DIM1*(DIM4*DIM4)*(DIM1
    -DIM3)^2*2)/(DIM2*DIM3+DIM4*(DIM1-DIM3)*2)-((DIM1*DIM1)*(DIM4*DIM4)*(DIM1*2
    -DIM3*2))/(DIM2*DIM3+DIM4*(DIM1-DIM3)*2)+(DIM1*DIM1)*(DIM4*DIM4*DIM4)*1/(DIM2*DIM3
    +DIM4*(DIM1-DIM3)*2)^2*(DIM1-DIM3)^2*2)+dDIM4*(((DIM1*DIM1)*(DIM1-DIM3))/2
    +((DIM4*DIM4)*(DIM1-DIM3))/2+((DIM1-DIM3)*(DIM2-DIM4)^2)/2+(DIM1-DIM3)^3/6-(DIM4*(DIM1
    -DIM3)*(DIM2*2-DIM4*2))/2-((DIM1*DIM1)*DIM4*(DIM1-DIM3)^2*2)/(DIM2*DIM3+DIM4*(DIM1-DIM3)*2)
    +(DIM1*DIM1)*(DIM4*DIM4)*1/(DIM2*DIM3+DIM4*(DIM1-DIM3)*2)^2*(DIM1-DIM3)^2*(DIM1*2-DIM3*2))

/-- `Solid1DChanSectionProperty::calcJ1_f`. -/
def calcJ1_f (DIM1 DIM2 DIM3 DIM4 : R) : R :=
  DIM1*(DIM4*DIM4*DIM4)

/-- `Solid1DChanSectionProperty::calcdJ1_f`. -/
def calcdJ1_f (DIM1 DIM2 DIM3 DIM4 dDIM1 dDIM2 dDIM3 dDIM4 : R) : R :=
  (DIM4*DIM4*DIM4)*dDIM1+DIM1*(DIM4*DIM4)*dDIM4*3

/-- `Solid1DChanSectionProperty::calcJ2_f`. -/
def calcJ2_f (DIM1 DIM2 DIM3 DIM4 : R) : R :=
  (DIM1*DIM1*DIM1)*DIM4

/-- `Solid1DChanSectionProperty::calcdJ2_f`. -/
def calcdJ2_f (DIM1 DIM2 DIM3 DIM4 dDIM1 dDIM2 dDIM3 dDIM4 : R) : R :=
  (DIM1*DIM1*DIM1)*dDIM4+(DIM1*DIM1)*DIM4*dDIM1*3

/-- `Solid1DChanSectionProperty::calcJ1_w`. -/
def calcJ1_w (DIM1 DIM2 DIM3 DIM4 : R) : R :=
  (DIM3*DIM3*DIM3)*(DIM2-DIM4*2)

/-- `Solid1DChanSectionProperty::calcdJ1_w`. -/
def calcdJ1_w (DIM1 DIM2 DIM3 DIM4 dDIM1 dDIM2 dDIM3 dDIM4 : R) : R :=
  (DIM3*DIM3*DIM3)*dDIM2-(DIM3*DIM3*DIM3)*dDIM4*2+(DIM3*DIM3)*dDIM3*(DIM2-DIM4*2)*3

/-- `Solid1DChanSectionProperty::calcJ2_w`. -/
def calcJ2_w (DIM1 DIM2 DIM3 DIM4 : R) : R :=
  DIM3*(DIM2-DIM4*2)^3

/-- `Solid1DChanSectionProperty::calcdJ2_w`. -/
def calcdJ2_w (DIM1 DIM2 DIM3 DIM4 dDIM1 dDIM2 dDIM3 dDIM4 : R) : R :=
  (DIM2-DIM4*2)^2*(DIM2*dDIM3+DIM3*dDIM2*3-DIM3*dDIM4*6-DIM4*dDIM3*2)

/-- `Solid1DChanSectionProperty::calck1_f`. -/
def calck1_f (DIM1 DIM2 DIM3 DIM4 : R) : R :=
  1/3

/-- `Solid1DChanSectionProperty::calcdk1_f`. -/
def calcdk1_f (DIM1 DIM2 DIM3 DIM4 dDIM1 dDIM2 dDIM3 dDIM4 : R) : R :=
  0

/-- `Solid1DChanSectionProperty::calck2_f`. -/
def calck2_f (DIM1 DIM2 DIM3 DIM4 : R) : R :=
  1/3

/-- `Solid1DChanSectionProperty::calcdk2_f`. -/
def calcdk2_f (DIM1 DIM2 DIM3 DIM4 dDIM1 dDIM2 dDIM3 dDIM4 : R) : R :=
  0

/-- `Solid1DChanSectionProperty::calck1_w`. -/
def calck1_w (DIM1 DIM2 DIM3 DIM4 : R) : R :=
  1/3

/-- `Solid1DChanSectionProperty::calcdk1_w`. -/
def calcdk1_w (DIM1 DIM2 DIM3 DIM4 dDIM1 dDIM2 dDIM3 dDIM4 : R) : R :=
  0

/-- `Solid1DChanSectionProperty::calck2_w`. -/
def calck2_w (DIM1 DIM2 DIM3 DIM4 : R) : R :=
  1/3

/-- `Solid1DChanSectionProperty::calcdk2_w`. -/
def calcdk2_w (DIM1 DIM2 DIM3 DIM4 dDIM1 dDIM2 dDIM3 dDIM4 : R) : R :=
  0

/-- `Solid1DChanSectionProperty::calcJc`. -/
def calcJc (sqrt : R → R) (DIM1 DIM2 DIM3 DIM4 : R) : R :=
  (DIM4*DIM4*DIM4*DIM4)*(-21/100)-1/(DIM4*DIM4)*((DIM3*DIM3)*1269135+(DIM4*DIM4)*1219444
    -DIM3*DIM4*3520000)*(DIM3+DIM4-sqrt (2)*sqrt (DIM3*DIM4))^4*2.382725241995532E-6

/-- `Solid1DChanSectionProperty::calcdJc`. -/
def calcdJc (sqrt : R → R) (DIM1 DIM2 DIM3 DIM4 dDIM1 dDIM2 dDIM3 dDIM4 : R) : R :=
  dDIM4*((DIM4*DIM4*DIM4)*(-21/25)+1/(DIM4*DIM4*DIM4)*((DIM3*DIM3)*1269135+(DIM4*DIM4)*1219444
    -DIM3*DIM4*3520000)*(DIM3+DIM4-sqrt (2)*sqrt (DIM3*DIM4))^4*4.765450483991065E-6
    +1/(DIM4*DIM4)*(DIM3*3520000-DIM4*2438888)*(DIM3+DIM4
    -sqrt (2)*sqrt (DIM3*DIM4))^4*2.382725241995532E-6
    +1/(DIM4*DIM4)*((sqrt (2)*DIM3*1/sqrt (DIM3*DIM4))/2-1)*((DIM3*DIM3)*1269135
    +(DIM4*DIM4)*1219444-DIM3*DIM4*3520000)*(DIM3+DIM4
    -sqrt (2)*sqrt (DIM3*DIM4))^3*9.53090096798213E-6)-dDIM3*(1/(DIM4*DIM4)*(DIM3*2538270
    -DIM4*3520000)*(DIM3+DIM4-sqrt (2)*sqrt (DIM3*DIM4))^4*2.382725241995532E-6
    -1/(DIM4*DIM4)*((sqrt (2)*DIM4*1/sqrt (DIM3*DIM4))/2-1)*((DIM3*DIM3)*1269135
    +(DIM4*DIM4)*1219444-DIM3*DIM4*3520000)*(DIM3+DIM4
    -sqrt (2)*sqrt (DIM3*DIM4))^3*9.53090096798213E-6)


/-- `Solid1DChanSectionProperty::calcJ`. -/
def calcJ {K : Type} [LinearOrderedField K] (sqrt : K → K) (DIM1 DIM2 DIM3 DIM4 : K) : K :=
  let t_f := DIM4
  let w_f := DIM1
  let h_w := DIM2-2*DIM4
  let t_w := DIM3
  let wf := t_w/t_f
  let (k_f, k_w, c) :=
    -- Sum of rectangles with correction of El Darwish and Johnson
    if wf>0.5 ∧ wf<1 then
      ((0.3333333333333333 : K), (0.3333333333333333 : K), calcJc sqrt DIM1 DIM2 DIM3 DIM4)
    -- Sum of rectangles method, with rectangles corrected for aspect ratios
    else
      (if w_f>t_f then calck1_f DIM1 DIM2 DIM3 DIM4 else calck2_f DIM1 DIM2 DIM3 DIM4,
       if h_w>t_w then calck1_w DIM1 DIM2 DIM3 DIM4 else calck2_w DIM1 DIM2 DIM3 DIM4,
       0)
  let J_f := if w_f>t_f then calcJ1_f DIM1 DIM2 DIM3 DIM4 else calcJ2_f DIM1 DIM2 DIM3 DIM4
  let J_w := if h_w>t_w then calcJ1_w DIM1 DIM2 DIM3 DIM4 else calcJ2_w DIM1 DIM2 DIM3 DIM4
  2*k_f*J_f + k_w*J_w + c

/-- `Solid1DChanSectionProperty::calcdJ`. -/
def calcdJ {K : Type} [LinearOrderedField K] (sqrt : K → K)
    (DIM1 DIM2 DIM3 DIM4 dDIM1 dDIM2 dDIM3 dDIM4 : K) : K :=
  let t_f := DIM4
  let w_f := DIM1
  let h_w := DIM2-2*DIM4
  let t_w := DIM3
  let wf := t_w/t_f
  let (k_f, k_w, dk_f, dk_w, dc) :=
    -- Sum of rectangles with correction of El Darwish and Johnson
    if wf>0.5 ∧ wf<1 then
      ((0.3333333333333333 : K), (0.3333333333333333 : K), (0 : K), (0 : K),
        calcdJc sqrt DIM1 DIM2 DIM3 DIM4 dDIM1 dDIM2 dDIM3 dDIM4)
    -- Sum of rectangles method, with rectangles corrected for aspect ratios
    else
      (if w_f>t_f then calck1_f DIM1 DIM2 DIM3 DIM4 else calck2_f DIM1 DIM2 DIM3 DIM4,
       if h_w>t_w then calck1_w DIM1 DIM2 DIM3 DIM4 else calck2_w DIM1 DIM2 DIM3 DIM4,
       if w_f>t_f then calcdk1_f DIM1 DIM2 DIM3 DIM4 dDIM1 dDIM2 dDIM3 dDIM4
         else calcdk2_f DIM1 DIM2 DIM3 DIM4 dDIM1 dDIM2 dDIM3 dDIM4,
       if h_w>t_w then calcdk1_w DIM1 DIM2 DIM3 DIM4 dDIM1 dDIM2 dDIM3 dDIM4
         else calcdk2_w DIM1 DIM2 DIM3 DIM4 dDIM1 dDIM2 dDIM3 dDIM4,
       0)
  let (J_f, dJ_f) :=
    if w_f>t_f then
      (calcJ1_f DIM1 DIM2 DIM3 DIM4, calcdJ1_f DIM1 DIM2 DIM3 DIM4 dDIM1 dDIM2 dDIM3 dDIM4)
    else
      (calcJ2_f DIM1 DIM2 DIM3 DIM4, calcdJ2_f DIM1 DIM2 DIM3 DIM4 dDIM1 dDIM2 dDIM3 dDIM4)
  let (J_w, dJ_w) :=
    if h_w>t_w then
      (calcJ1_w DIM1 DIM2 DIM3 DIM4, calcdJ1_w DIM1 DIM2 DIM3 DIM4 dDIM1 dDIM2 dDIM3 dDIM4)
    else
      (calcJ2_w DIM1 DIM2 DIM3 DIM4, calcdJ2_w DIM1 DIM2 DIM3 DIM4 dDIM1 dDIM2 dDIM3 dDIM4)
  2*(dk_f*J_f + k_f*dJ_f) + dk_w*J_w + k_w*dJ_w + dc

end Solid1DChanSectionProperty

/-- Modelled from the spec: a field function that can also be called without a point and
a time, `f(v)`, as `init` calls the section dimensions (`base/field_function_base.h` is
not among the sources). -/
structure ParameterFunction (K ι : Type) extends FieldFunction K ι K where
  /-- The value the call `f(v)` stores in `v`. -/
  eval : K

/-! The section functions of `Solid1D4ParameterSectionProperty` are declared in a header
that is not among the sources (the 8-parameter header
`solid_1d_8parameter_section_element_property_card.h` declares the same classes with
eight dimensions); each is the record of the arguments its constructor receives. -/

namespace Solid1D4ParameterSectionProperty

/-- Modelled from the spec: the arguments of the constructor of `Area`. -/
structure Area (K ι : Type) where
  /-- The area. -/
  func : K → K → K → K → K
  /-- The sensitivity of the area. -/
  dfunc : K → K → K → K → K → K → K → K → K
  /-- First dimension. -/
  DIM1 : ParameterFunction K ι
  /-- Second dimension. -/
  DIM2 : ParameterFunction K ι
  /-- Third dimension. -/
  DIM3 : ParameterFunction K ι
  /-- Fourth dimension. -/
  DIM4 : ParameterFunction K ι

/-- Modelled from the spec: the arguments of the constructor of `AreaYMoment`. -/
structure AreaYMoment (K ι : Type) where
  /-- The area. -/
  func : K → K → K → K → K
  /-- The sensitivity of the area. -/
  dfunc : K → K → K → K → K → K → K → K → K
  /-- First dimension. -/
  DIM1 : ParameterFunction K ι
  /-- Second dimension. -/
  DIM2 : ParameterFunction K ι
  /-- Third dimension. -/
  DIM3 : ParameterFunction K ι
  /-- Fourth dimension. -/
  DIM4 : ParameterFunction K ι
  /-- Offset along z. -/
  hz_offset : ParameterFunction K ι

/-- Modelled from the spec: the arguments of the constructor of `AreaZMoment`. -/
structure AreaZMoment (K ι : Type) where
  /-- The area. -/
  func : K → K → K → K → K
  /-- The sensitivity of the area. -/
  dfunc : K → K → K → K → K → K → K → K → K
  /-- First dimension. -/
  DIM1 : ParameterFunction K ι
  /-- Second dimension. -/
  DIM2 : ParameterFunction K ι
  /-- Third dimension. -/
  DIM3 : ParameterFunction K ι
  /-- Fourth dimension. -/
  DIM4 : ParameterFunction K ι
  /-- Offset along y. -/
  hy_offset : ParameterFunction K ι

/-- Modelled from the spec: the arguments of the constructor of `TorsionalConstant`. -/
structure TorsionalConstant (K ι : Type) where
  /-- The torsional constant. -/
  func : K → K → K → K → K
  /-- The sensitivity of the torsional constant. -/
  dfunc : K → K → K → K → K → K → K → K → K
  /-- First dimension. -/
  DIM1 : ParameterFunction K ι
  /-- Second dimension. -/
  DIM2 : ParameterFunction K ι
  /-- Third dimension. -/
  DIM3 : ParameterFunction K ι
  /-- Fourth dimension. -/
  DIM4 : ParameterFunction K ι

/-- Modelled from the spec: the arguments of the constructor of `PolarInertia`. -/
structure PolarInertia (K ι : Type) where
  /-- The polar inertia. -/
  func : K → K → K → K → K
  /-- The sensitivity of the polar inertia. -/
  dfunc : K → K → K → K → K → K → K → K → K
  /-- The area. -/
  Afunc : K → K → K → K → K
  /-- The sensitivity of the area. -/
  dAfunc : K → K → K → K → K → K → K → K → K
  /-- First dimension. -/
  DIM1 : ParameterFunction K ι
  /-- Second dimension. -/
  DIM2 : ParameterFunction K ι
  /-- Third dimension. -/
  DIM3 : ParameterFunction K ι
  /-- Fourth dimension. -/
  DIM4 : ParameterFunction K ι
  /-- Offset along y. -/
  hy_offset : ParameterFunction K ι
  /-- Offset along z. -/
  hz_offset : ParameterFunction K ι

/-- Modelled from the spec: the arguments of the constructor of `AreaInertiaMatrix`. -/
structure AreaInertiaMatrix (K ι : Type) where
  /-- The second moment about z. -/
  Izfunc : K → K → K → K → K
  /-- The sensitivity of the second moment about z. -/
  dIzfunc : K → K → K → K → K → K → K → K → K
  /-- The second moment about y. -/
  Iyfunc : K → K → K → K → K
  /-- The sensitivity of the second moment about y. -/
  dIyfunc : K → K → K → K → K → K → K → K → K
  /-- The area. -/
  Afunc : K → K → K → K → K
  /-- The sensitivity of the area. -/
  dAfunc : K → K → K → K → K → K → K → K → K
  /-- First dimension. -/
  DIM1 : ParameterFunction K ι
  /-- Second dimension. -/
  DIM2 : ParameterFunction K ι
  /-- Third dimension. -/
  DIM3 : ParameterFunction K ι
  /-- Fourth dimension. -/
  DIM4 : ParameterFunction K ι
  /-- Offset along y. -/
  hy_offset : ParameterFunction K ι
  /-- Offset along z. -/
  hz_offset : ParameterFunction K ι

end Solid1D4ParameterSectionProperty

/-- How `Solid1DChanSectionElementPropertyCard::init` can fail: the assertion
`libmesh_assert(!_initialized)`, or `libmesh_error_msg` with a message. -/
inductive InitFailure where
  /-- A failed `libmesh_assert`. -/
  | assertion : InitFailure
  /-- The call `libmesh_error_msg(msg)`. -/
  | error_msg : String → InitFailure

/-- The members of a `Solid1DChanSectionElementPropertyCard` that `init` reads and
writes: the section dimensions and offsets `get<FieldFunction<Real>>("DIM1")`, ...,
the flag `_initialized`, and the section functions, `none` for a pointer not yet set. -/
structure Solid1DChanSectionElementPropertyCard (K ι : Type) where
  /-- The parameter `"DIM1"`. -/
  DIM1 : ParameterFunction K ι
  /-- The parameter `"DIM2"`. -/
  DIM2 : ParameterFunction K ι
  /-- The parameter `"DIM3"`. -/
  DIM3 : ParameterFunction K ι
  /-- The parameter `"DIM4"`. -/
  DIM4 : ParameterFunction K ι
  /-- The parameter `"hy_off"`. -/
  hy_off : ParameterFunction K ι
  /-- The parameter `"hz_off"`. -/
  hz_off : ParameterFunction K ι
  /-- Whether `init` has run. -/
  _initialized : Bool
  /-- The area. -/
  _A : Option (Solid1D4ParameterSectionProperty.Area K ι)
  /-- The first area moment about y. -/
  _Ay : Option (Solid1D4ParameterSectionProperty.AreaYMoment K ι)
  /-- The first area moment about z. -/
  _Az : Option (Solid1D4ParameterSectionProperty.AreaZMoment K ι)
  /-- The torsional constant. -/
  _J : Option (Solid1D4ParameterSectionProperty.TorsionalConstant K ι)
  /-- The polar inertia. -/
  _Ip : Option (Solid1D4ParameterSectionProperty.PolarInertia K ι)
  /-- The area inertia matrix. -/
  _AI : Option (Solid1D4ParameterSectionProperty.AreaInertiaMatrix K ι)

namespace Solid1DChanSectionElementPropertyCard

open Solid1DChanSectionProperty

/-- `Solid1DChanSectionElementPropertyCard::init`; `sqrt` is the square root that
`calcJ` and `calcdJ` call. -/
def init {K ι : Type} [LinearOrderedField K] (sqrt : K → K)
    (card : Solid1DChanSectionElementPropertyCard K ι) :
    Except InitFailure (Solid1DChanSectionElementPropertyCard K ι) :=
  if card._initialized then .error .assertion  -- libmesh_assert(!_initialized)
  else
    let DIM1 := card.DIM1
    let DIM2 := card.DIM2
    let DIM3 := card.DIM3
    let DIM4 := card.DIM4
    let hy_off := card.hy_off
    let hz_off := card.hz_off
    -- Check that dimensions are physically correct
    let DIM1v := DIM1.eval
    let DIM2v := DIM2.eval
    let DIM3v := DIM3.eval
    let DIM4v := DIM4.eval
    if DIM1v≤0 then .error (.error_msg ("DIM1<=0"))
    else if DIM2v≤0 then .error (.error_msg ("DIM2<=0"))
    else if DIM3v≤0 then .error (.error_msg ("DIM3<=0"))
    else if DIM4v≤0 then .error (.error_msg ("DIM4<=0"))
    else if (2*DIM4v)≥DIM2v then .error (.error_msg ("2.0*DIM4>=DIM2"))
    else if DIM3v≥DIM1v then .error (.error_msg ("DIM3>=DIM1"))
    else
      .ok { card with
        _A := some ⟨calcA, calcdA, DIM1, DIM2, DIM3, DIM4⟩
        _Ay := some ⟨calcA, calcdA, DIM1, DIM2, DIM3, DIM4, hz_off⟩
        _Az := some ⟨calcA, calcdA, DIM1, DIM2, DIM3, DIM4, hy_off⟩
        _J := some ⟨calcJ sqrt, calcdJ sqrt, DIM1, DIM2, DIM3, DIM4⟩
        _Ip := some ⟨calcIp, calcdIp, calcA, calcdA, DIM1, DIM2, DIM3, DIM4, hy_off, hz_off⟩
        _AI := some ⟨calcIz, calcdIz, calcIy, calcdIy, calcA, calcdA, DIM1, DIM2, DIM3, DIM4,
          hy_off, hz_off⟩
        _initialized := true }

end Solid1DChanSectionElementPropertyCard

/-- A concrete channel card over the rationals with dimensions `DIM1 .. DIM4` and zero
offsets, not yet initialized. -/
def chan_card (DIM1 DIM2 DIM3 DIM4 : ℚ) : Solid1DChanSectionElementPropertyCard ℚ Unit :=
  let c : ℚ → ParameterFunction ℚ Unit := fun v => ⟨⟨fun _ _ => v, fun _ _ _ => 0⟩, v⟩
  ⟨c DIM1, c DIM2, c DIM3, c DIM4, c 0, c 0, false, none, none, none, none, none, none⟩

/-- The element with its local solution `_local_sol` replaced by `u`. -/
def StructuralElement2D.with_local_sol {ι : Type} (el : StructuralElement2D R ι n nqp)
    (u : Fin (6 * n) → R) : StructuralElement2D R ι n nqp :=
  { el with local_sol := u }

/-- The thermal strain magnitude `alpha (T - T_ref)` at a point, zero without a thermal
load. -/
def thermal_strain {ι : Type} (alpha : FieldFunction R ι R)
    (thermal_load : Option (ThermalBoundaryCondition R ι)) (x : Fin 3 → R) (time : R) : R :=
  match thermal_load with
  | none => 0
  | some load => alpha.value x time * (load.temperature.value x time
      - load.ref_temperature.value x time)

/-- The through-thickness coordinate `qp_loc[qp](2) * h/2 + off` at which
`calculate_stress` evaluates the bending strain at the evaluation point
`(qp_loc_index, section_qp_index)`. -/
def StructuralElement2D.stress_point_z {ι : Type} (el : StructuralElement2D R ι n nqp)
    (fe : FEBase R n nqp) (qp_loc_index : Fin nqp) (section_qp_index : Fin 2) : R :=
  StructuralElement2D.qp_loc fe (finProdFinEquiv (qp_loc_index, section_qp_index)) 2
      * el.property.h.value (fe.xyz qp_loc_index) el.time / 2
    + el.property.off.value (fe.xyz qp_loc_index) el.time

/-- The strain at an evaluation point as a function of the local solution `u`:
membrane strain, minus the thermal strain `th` on `xx` and `yy`, plus, with bending, the
von Karman strain (when active) and the bending strain at the coordinate `z`. -/
def stress_point_strain {ι : Type} (fe : FEBase R n nqp) (bend : BendingOperator2D R ι n)
    (if_bending if_vk : Bool) (th z : R) (qp : Fin nqp) (u : Fin (6 * n) → R) : Fin 3 → R :=
  Bmem qp fe *ᵥ u - ![th, th, 0]
    + (if if_bending then
        (if if_vk then vk_e (dwdxi qp fe u) else 0)
          + (bend.initialize_bending_strain_operator_for_z fe qp z).toMatrix *ᵥ u
      else 0)

/-- The matrix `Bmem + [bending and von Karman] vk_dwdxi_mat Bvk + [bending] Bbend(z)` at
an evaluation point, for the local solution `u`. -/
def stress_point_dstrain_dX {ι : Type} (fe : FEBase R n nqp) (bend : BendingOperator2D R ι n)
    (if_bending if_vk : Bool) (z : R) (qp : Fin nqp) (u : Fin (6 * n) → R) :
    Matrix (Fin 3) (Fin (6 * n)) R :=
  Bmem qp fe
    + (if if_bending then
        (if if_vk then vk_W (dwdxi qp fe u) * Bvk qp fe else 0)
          + (bend.initialize_bending_strain_operator_for_z fe qp z).toMatrix
      else 0)

/-- The operators of the buffers of `calculate_stress` hold nothing but what the builders
wrote. -/
def StructuralElement2D.StressBuffers.clean {ι : Type}
    (st : StructuralElement2D.StressBuffers R ι n) : Prop :=
  mem_clean st.Bmat_mem ∧ vk_clean st.Bmat_vk

/-- The triangle as a pure membrane element whose expansion coefficient is the design
parameter: `alpha = s`, `dalpha/dp = 1`. -/
def tri3_alpha_elem (s : ℚ) : StructuralElement2D ℚ Unit 3 1 :=
  { tri3_elem with
    property := { tri3_property with
      bending_model_is_active := false
      alpha_expansion := ⟨fun _ _ => s, fun _ _ _ => 1⟩ } }

/-- A thermal load on the triangle that does not depend on the design parameter:
temperature `1` and reference temperature `0` everywhere. -/
def tri3_unit_thermal_bc : ThermalBoundaryCondition ℚ Unit where
  temperature := FieldFunction.const 1
  ref_temperature := FieldFunction.const 0

/-- The torsion constant of the channel by the sum of rectangles, as the specification
words it: `(2 J_f + J_w) / 3` with `J_f = DIM1 DIM4^3` if `DIM1 > DIM4` else
`DIM1^3 DIM4`, and `J_w = DIM3^3 (DIM2 - 2 DIM4)` if `DIM2 - 2 DIM4 > DIM3` else
`DIM3 (DIM2 - 2 DIM4)^3`. -/
def chan_J_rectangles {K : Type} [LinearOrderedField K] (DIM1 DIM2 DIM3 DIM4 : K) : K :=
  (2 * (if DIM1 > DIM4 then DIM1 * DIM4 ^ 3 else DIM1 ^ 3 * DIM4)
    + (if DIM2 - 2 * DIM4 > DIM3 then DIM3 ^ 3 * (DIM2 - 2 * DIM4)
        else DIM3 * (DIM2 - 2 * DIM4) ^ 3)) / 3

/-- The total differential of `chan_J_rectangles` on a branch: `(2 dJ_f + dJ_w) / 3` with
the differentials of the two monomials selected by the same comparisons. -/
def chan_dJ_rectangles {K : Type} [LinearOrderedField K]
    (DIM1 DIM2 DIM3 DIM4 dDIM1 dDIM2 dDIM3 dDIM4 : K) : K :=
  (2 * (if DIM1 > DIM4 then dDIM1 * DIM4 ^ 3 + DIM1 * (3 * DIM4 ^ 2 * dDIM4)
          else 3 * DIM1 ^ 2 * dDIM1 * DIM4 + DIM1 ^ 3 * dDIM4)
    + (if DIM2 - 2 * DIM4 > DIM3 then
          3 * DIM3 ^ 2 * dDIM3 * (DIM2 - 2 * DIM4) + DIM3 ^ 3 * (dDIM2 - 2 * dDIM4)
        else dDIM3 * (DIM2 - 2 * DIM4) ^ 3
          + DIM3 * (3 * (DIM2 - 2 * DIM4) ^ 2 * (dDIM2 - 2 * dDIM4)))) / 3

/-! ## The level-set element

`src/src/level_set/level_set_elem_base.cpp`.  The level-set function is a scalar field:
one variable per node, so the DOF vector has `1 * n_phi` entries and the operators have
one row. -/

/-- Modelled from the spec: the type of a boundary condition
(`MAST::BoundaryConditionType`, declared in `base/boundary_condition_base.h`, not among
the sources).  The level-set routines tell `DIRICHLET` apart from every other
enumerator. -/
inductive BoundaryConditionType where
  /-- The enumerator `MAST::DIRICHLET`. -/
  | DIRICHLET : BoundaryConditionType
  /-- Any other enumerator. -/
  | other : ℕ → BoundaryConditionType

/-- Modelled from the spec: a boundary condition (`MAST::BoundaryConditionBase`), of which
the level-set routines read the type only. -/
structure BoundaryConditionBase where
  /-- The value of `type()`. -/
  type : BoundaryConditionType

/-- Modelled from the spec: `std::multimap::equal_range(key)` on a multimap given as the
list of its `(key, value)` entries: the values stored under `key`, in the order of the
list. -/
def equal_range {β : Type} (bc : List (ℤ × β)) (key : ℤ) : List β :=
  (bc.filter (fun e => e.1 = key)).map Prod.snd

/-- Modelled from the spec: what the routines read of `libMesh::BoundaryInfo` for the
element: the number of boundary ids of a side and the ids themselves. -/
structure BoundaryInfo where
  /-- `n_boundary_ids(&_elem, n)`. -/
  n_boundary_ids : ℕ → ℕ
  /-- The vector filled by `boundary_ids(&_elem, n, bc_ids)`. -/
  boundary_ids : ℕ → List ℤ

/-- The members of a `LevelSetElementBase` the routines read: the finite element `_fe`,
the time, the solution `_sol` and its rate `_vel`, the advection velocity `_phi_vel`, and
of `_elem` the dimension (at most three), the number of sides, the boundary information
of the mesh and the subdomain id. -/
structure LevelSetElementBase (K ι : Type) (n nqp dim : ℕ) where
  /-- The finite element `_fe`. -/
  fe : FEBase K n nqp
  /-- The time `_time`. -/
  time : K
  /-- The solution `_sol`. -/
  sol : Fin (1 * n) → K
  /-- The solution rate `_vel`. -/
  vel : Fin (1 * n) → K
  /-- The advection velocity `_phi_vel`. -/
  phi_vel : FieldFunction K ι (Fin dim → K)
  /-- The dimension `_elem.dim()` is at most three. -/
  hdim : dim ≤ 3
  /-- `_elem.n_sides()`. -/
  n_sides : ℕ
  /-- `*_system.system().get_mesh().boundary_info`. -/
  boundary_info : BoundaryInfo
  /-- `_elem.subdomain_id()`. -/
  subdomain_id : ℤ

/-- The buffers of `LevelSetElementBase::internal_residual` that keep their value from one
quadrature point to the next: the caller's `f` and `jac`, the operators and `tau`.  The
other local buffers are written before they are read at every point. -/
structure LevelSetBuffers (K : Type) (n dim : ℕ) where
  /-- The caller's residual vector. -/
  f : Fin (1 * n) → K
  /-- The caller's Jacobian. -/
  jac : Matrix (Fin (1 * n)) (Fin (1 * n)) K
  /-- The shape-function operator. -/
  Bmat : FEMOperatorMatrix K 1 1 n
  /-- The shape-gradient operators, one for each dimension. -/
  dBmat : Fin dim → FEMOperatorMatrix K 1 1 n
  /-- The stabilization matrix. -/
  tau : Matrix (Fin 1) (Fin 1) K

/-- The buffers of `LevelSetElementBase::velocity_residual` that keep their value from one
quadrature point to the next. -/
structure LevelSetVelocityBuffers (K : Type) (n dim : ℕ) where
  /-- The caller's residual vector. -/
  f : Fin (1 * n) → K
  /-- The caller's Jacobian with respect to the solution rate. -/
  jac_xdot : Matrix (Fin (1 * n)) (Fin (1 * n)) K
  /-- The caller's Jacobian with respect to the solution. -/
  jac : Matrix (Fin (1 * n)) (Fin (1 * n)) K
  /-- The shape-function operator. -/
  Bmat : FEMOperatorMatrix K 1 1 n
  /-- The shape-gradient operators, one for each dimension. -/
  dBmat : Fin dim → FEMOperatorMatrix K 1 1 n
  /-- The stabilization matrix. -/
  tau : Matrix (Fin 1) (Fin 1) K

namespace LevelSetElementBase

variable {K ι : Type} [LinearOrderedField K] {dim : ℕ}

/-- `LevelSetElementBase::_initialize_fem_operators`; the result is the pair
`(Bmat, dBmat)` after the call. -/
def _initialize_fem_operators (el : LevelSetElementBase K ι n nqp dim) (qp : Fin nqp)
    (fe : FEBase K n nqp) (_Bmat : FEMOperatorMatrix K 1 1 n)
    (dBmat : Fin dim → FEMOperatorMatrix K 1 1 n) :
    FEMOperatorMatrix K 1 1 n × (Fin dim → FEMOperatorMatrix K 1 1 n) :=
  let phi_fe := fe.phi
  let dphi := fe.dphi
  -- shape function values
  let phi : Fin n → K := fun i_nd => phi_fe i_nd qp
  let Bmat : FEMOperatorMatrix K 1 1 n := FEMOperatorMatrix.reinit_shape_function 1 phi
  -- now set the shape function derivatives
  let dBmat := Fin.foldl dim (fun dBmat i_dim =>
    let phi : Fin n → K := fun i_nd => dphi i_nd qp (Fin.castLE el.hdim i_dim)
    Function.update dBmat i_dim (FEMOperatorMatrix.reinit_shape_function 1 phi)) dBmat  -- dT/dx_i
  (Bmat, dBmat)

/-- `LevelSetElementBase::_tau`; the result is `tau` after the call. -/
def _tau (el : LevelSetElementBase K ι n nqp dim) (qp : Fin nqp)
    (_Bmat : FEMOperatorMatrix K 1 1 n) (_dBmat : Fin dim → FEMOperatorMatrix K 1 1 n)
    (vel : Fin dim → K) (tau : Matrix (Fin 1) (Fin 1) K) : Matrix (Fin 1) (Fin 1) K :=
  let dphi := el.fe.dphi
  let val : K := Fin.foldl dim (fun val i_dim =>
    Fin.foldl n (fun val i_nd =>
      val + |dphi i_nd qp (Fin.castLE el.hdim i_dim) * vel i_dim|) val) 0
  assign tau 0 0 (1 / val)

/-- The body of the quadrature loop of `LevelSetElementBase::internal_residual`
(lines 86-119). -/
def internal_residual_point (el : LevelSetElementBase K ι n nqp dim)
    (request_jacobian : Bool) (buf : LevelSetBuffers K n dim) (qp : Fin nqp) :
    LevelSetBuffers K n dim := Id.run do
  let JxW := el.fe.JxW
  let xyz := el.fe.xyz
  let eye : Matrix (Fin 1) (Fin 1) K := 1
  let mut f := buf.f
  let mut jac := buf.jac
  -- initialize the Bmat operator for this term
  let (Bmat, dBmat) := el._initialize_fem_operators qp el.fe buf.Bmat buf.dBmat
  let vel := el.phi_vel.value (xyz qp) el.time
  let tau := el._tau qp Bmat dBmat vel buf.tau
  -- calculate the flux for each dimension and add its weighted component to the residual
  let (flux, mat2_n1n2) := Fin.foldl dim (fun (s : (Fin 1 → K) × Matrix (Fin 1) (Fin (1 * n)) K) j =>
    let vec1_n1 := (dBmat j).right_multiply el.sol  -- dphi_dx_j
    let flux := s.1 + vel j • vec1_n1  -- v_j dphi_dx_j
    let mat1_n1n2 := (dBmat j).left_multiply eye  -- dBmat
    let mat2_n1n2 := s.2 + vel j • mat1_n1n2  -- dBmat V_j
    (flux, mat2_n1n2)) (0, 0)
  -- add to the residual vector
  let vec2_n2 := Bmat.vector_mult_transpose flux
  f := f + JxW qp • vec2_n2  -- int_omega u V.grad(phi)
  f := f + (JxW qp • mat2_n1n2ᵀ * tau) *ᵥ flux  -- int_omega V.grad(u) tau (V.grad(phi))
  if request_jacobian then
    jac := Fin.foldl dim (fun jac j =>
      let mat_n2n2 := Bmat.right_multiply_transpose_op (dBmat j)
      jac + (JxW qp * vel j) • mat_n2n2) jac  -- int_omega u V.grad(phi)
    jac := jac + JxW qp • mat2_n1n2ᵀ * tau * mat2_n1n2  -- int_omega V.grad(u) tau (V.grad(phi))
  return ⟨f, jac, Bmat, dBmat, tau⟩

/-- What the level-set assemblers hand back: the returned flag and the caller's buffers
after the call. -/
structure Output (K : Type) (n : ℕ) where
  /-- The returned flag. -/
  ret : Bool
  /-- The caller's `f`. -/
  f : Fin (1 * n) → K
  /-- The caller's `jac`. -/
  jac : Matrix (Fin (1 * n)) (Fin (1 * n)) K

/-- What `velocity_residual` hands back: the returned flag and the caller's three buffers
after the call. -/
structure VelocityOutput (K : Type) (n : ℕ) where
  /-- The returned flag. -/
  ret : Bool
  /-- The caller's `f`. -/
  f : Fin (1 * n) → K
  /-- The caller's `jac_xdot`. -/
  jac_xdot : Matrix (Fin (1 * n)) (Fin (1 * n)) K
  /-- The caller's `jac`. -/
  jac : Matrix (Fin (1 * n)) (Fin (1 * n)) K

/-- `LevelSetElementBase::internal_residual`. -/
def internal_residual (el : LevelSetElementBase K ι n nqp dim) (request_jacobian : Bool)
    (f : Fin (1 * n) → K) (jac : Matrix (Fin (1 * n)) (Fin (1 * n)) K) : Output K n :=
  let buf := Fin.foldl nqp (el.internal_residual_point request_jacobian)
    ⟨f, jac, FEMOperatorMatrix.reinit 1 1 n, fun _ => FEMOperatorMatrix.reinit 1 1 n, 0⟩
  ⟨request_jacobian, buf.f, buf.jac⟩

/-- The body of the quadrature loop of `LevelSetElementBase::velocity_residual`
(lines 159-189). -/
def velocity_residual_point (el : LevelSetElementBase K ι n nqp dim)
    (request_jacobian : Bool) (buf : LevelSetVelocityBuffers K n dim) (qp : Fin nqp) :
    LevelSetVelocityBuffers K n dim := Id.run do
  let JxW := el.fe.JxW
  let xyz := el.fe.xyz
  let eye : Matrix (Fin 1) (Fin 1) K := 1
  let mut f := buf.f
  let mut jac_xdot := buf.jac_xdot
  -- initialize the Bmat operator for this term
  let (Bmat, dBmat) := el._initialize_fem_operators qp el.fe buf.Bmat buf.dBmat
  let vel := el.phi_vel.value (xyz qp) el.time
  let tau := el._tau qp Bmat dBmat vel buf.tau
  -- calculate the flux for each dimension and add its weighted component to the residual
  let mat2_n1n2 := Fin.foldl dim (fun (mat2_n1n2 : Matrix (Fin 1) (Fin (1 * n)) K) j =>
    let mat1_n1n2 := (dBmat j).left_multiply eye  -- dBmat
    mat2_n1n2 + vel j • mat1_n1n2) 0  -- dBmat_j V_j
  -- add to the residual vector
  let vec1_n1 := Bmat.right_multiply el.vel  -- dphi/dt
  let vec2_n2 := Bmat.vector_mult_transpose vec1_n1
  f := f + JxW qp • vec2_n2  -- int_omega u dphi/dt
  f := f + (JxW qp • mat2_n1n2ᵀ * tau) *ᵥ vec1_n1  -- int_omega V.grad(u) tau dphi/dt
  if request_jacobian then
    let mat_n2n2 := Bmat.right_multiply_transpose_op Bmat
    jac_xdot := jac_xdot + JxW qp • mat_n2n2  -- int_omega u dphi/dt
    let mat_n2n1 := mat2_n1n2ᵀ * tau
    let mat_n2n2 := Bmat.left_multiply mat_n2n1
    jac_xdot := jac_xdot + JxW qp • mat_n2n2  -- int_omega V.grad(u) tau dphi/dt
  return ⟨f, jac_xdot, buf.jac, Bmat, dBmat, tau⟩

/-- `LevelSetElementBase::velocity_residual`. -/
def velocity_residual (el : LevelSetElementBase K ι n nqp dim) (request_jacobian : Bool)
    (f : Fin (1 * n) → K) (jac_xdot jac : Matrix (Fin (1 * n)) (Fin (1 * n)) K) :
    VelocityOutput K n :=
  let buf := Fin.foldl nqp (el.velocity_residual_point request_jacobian)
    ⟨f, jac_xdot, jac, FEMOperatorMatrix.reinit 1 1 n, fun _ => FEMOperatorMatrix.reinit 1 1 n,
      0⟩
  ⟨request_jacobian, buf.f, buf.jac_xdot, buf.jac⟩

/-- `LevelSetElementBase::side_external_residual`; `bc` is the multimap as the list of its
entries and `none` is the call `libmesh_error()`. -/
def side_external_residual (el : LevelSetElementBase K ι n nqp dim) (request_jacobian : Bool)
    (f : Fin (1 * n) → K) (jac : Matrix (Fin (1 * n)) (Fin (1 * n)) K)
    (bc : List (ℤ × BoundaryConditionBase)) : Option (Output K n) := do
  let binfo := el.boundary_info
  -- for each boundary id, check if any of the sides on the element has the associated
  -- boundary
  (List.range el.n_sides).forM (fun n =>
    -- if no boundary ids have been specified for the side, then move to the next side.
    if binfo.n_boundary_ids n = 0 then pure ⟨⟩
    else
      -- check to see if any of the specified boundary ids has a boundary condition
      -- associated with them
      let bc_ids := binfo.boundary_ids n
      bc_ids.forM (fun bc_it =>
        -- find the loads on this boundary and evaluate the f and jac
        (equal_range bc bc_it).forM (fun it =>
          -- apply all the types of loading
          match it.type with
          | .DIRICHLET => pure ⟨⟩  -- nothing to be done here
          | _ => none)))  -- not implemented yet: libmesh_error()
  return ⟨request_jacobian, f, jac⟩

/-- `LevelSetElementBase::volume_external_residual`; `bc` is the multimap as the list of
its entries and `none` is the call `libmesh_error()`. -/
def volume_external_residual (el : LevelSetElementBase K ι n nqp dim)
    (request_jacobian : Bool) (f : Fin (1 * n) → K)
    (jac : Matrix (Fin (1 * n)) (Fin (1 * n)) K)
    (bc : List (ℤ × BoundaryConditionBase)) : Option (Output K n) := do
  let sid := el.subdomain_id
  -- find the loads on this boundary and evaluate the f and jac
  (equal_range bc sid).forM (fun it =>
    -- apply all the types of loading
    match it.type with
    | _ => none)  -- not implemented yet: libmesh_error()
  return ⟨request_jacobian, f, jac⟩

end LevelSetElementBase

/-- The divisor of the stabilization parameter at a quadrature point:
`sum_{d < dim} sum_i |dN_i/dx_d(qp) vel_d|`. -/
def tau_divisor {K ι : Type} [LinearOrderedField K] {dim : ℕ}
    (el : LevelSetElementBase K ι n nqp dim) (qp : Fin nqp) (vel : Fin dim → K) : K :=
  ∑ i_dim : Fin dim, ∑ i_nd : Fin n, |el.fe.dphi i_nd qp (Fin.castLE el.hdim i_dim) * vel i_dim|

/-- A level-set element on the triangle: two dimensions, unit advection velocity along
`x`, three sides of which the first carries the boundary id `7`. -/
def tri3_level_set : LevelSetElementBase ℚ Unit 3 1 2 where
  fe := tri3_fe
  time := 0
  sol := fun k => k.val
  vel := fun k => k.val + 1
  phi_vel := ⟨fun _ _ => ![1, 0], fun _ _ _ => 0⟩
  hdim := by decide
  n_sides := 3
  boundary_info := ⟨fun n => if n = 0 then 1 else 0, fun n => if n = 0 then [7] else []⟩
  subdomain_id := 0

/-! ## Prestress matrices -/

/-- The element with the prestress `A` matrix of its property card replaced by `A`. -/
def StructuralElement2D.with_prestress_A {ι : Type} (el : StructuralElement2D R ι n nqp)
    (A : FieldFunction R ι (Matrix (Fin 2) (Fin 2) R)) : StructuralElement2D R ι n nqp :=
  { el with property := { el.property with prestress_A_matrix := A } }

/-- The triangle with the same prestress `A` matrix `S` everywhere. -/
def tri3_prestress_elem (S : Matrix (Fin 2) (Fin 2) ℚ) : StructuralElement2D ℚ Unit 3 1 :=
  tri3_elem.with_prestress_A (FieldFunction.const S)

/-! ## The local force and tangent of `internal_residual` in closed form -/

/-- The local force and tangent `internal_residual` holds after its quadrature loop and
the transverse shear term, in closed form: the weighted sums `sum_qp JxW[qp] force(qp)`
and, when the Jacobian is requested, `sum_qp JxW[qp] tangent(qp)` of the kernel with the
stiffness matrices of the property card at the quadrature points, handed through the
transverse shear term when bending is active and the bending operator carries one. -/
def StructuralElement2D.internal_force_and_tangent {ι : Type}
    (el : StructuralElement2D R ι n nqp) (request_jacobian : Bool) :
    (Fin (6 * n) → R) × Matrix (Fin (6 * n)) (Fin (6 * n)) R :=
  let force : Fin (6 * n) → R := ∑ qp, el.fe.JxW qp • kernel_force qp el.fe el.bending_operator
    el.property.bending_model_is_active el.property.strain_type_is_von_karman
    (el.property.stiffness_A_matrix.value (el.fe.xyz qp) el.time)
    (el.property.stiffness_B_matrix.value (el.fe.xyz qp) el.time)
    (el.property.stiffness_D_matrix.value (el.fe.xyz qp) el.time) el.local_sol
  let tangent : Matrix (Fin (6 * n)) (Fin (6 * n)) R :=
    if request_jacobian then ∑ qp, el.fe.JxW qp • kernel_tangent qp el.fe el.bending_operator
      el.property.bending_model_is_active el.property.strain_type_is_von_karman
      (el.property.stiffness_A_matrix.value (el.fe.xyz qp) el.time)
      (el.property.stiffness_B_matrix.value (el.fe.xyz qp) el.time)
      (el.property.stiffness_D_matrix.value (el.fe.xyz qp) el.time) el.local_sol
    else 0
  if el.property.bending_model_is_active && el.bending_operator.include_transverse_shear_energy
  then el.bending_operator.calculate_transverse_shear_residual request_jacobian force tangent
  else (force, tangent)

/-- The triangle as a linear plate whose membrane stiffness depends on the design
parameter, `A = 1` with `dA/dp = 1`, with the in-plane displacement `u = 1` at the second
node and a zero solution elsewhere. -/
def tri3_affine_elem : StructuralElement2D ℚ Unit 3 1 :=
  { tri3_elem with
    local_sol := Pi.single (dof 0 1) 1
    property := { tri3_property with
      strain_type_is_von_karman := false
      stiffness_A_matrix := ⟨fun _ _ => 1, fun _ _ _ => 1⟩ } }

/-- A design parameter that is not a shape parameter. -/
def tri3_param : FunctionBase Unit := ⟨(), false⟩

/-! ## Basic facts about the operator matrix -/

theorem ite_true_eq_true {α : Sort _} (a b : α) : (if true = true then a else b) = a := rfl

theorem ite_false_eq_true {α : Sort _} (a b : α) : (if false = true then a else b) = b := rfl

theorem FEMOperatorMatrix.toMatrix_dof {m nv n : ℕ} (B : FEMOperatorMatrix R m nv n)
    (r : Fin m) (v : Fin nv) (i : Fin n) : B.toMatrix r (dof v i) = B r v i := by
  have h := finProdFinEquiv.symm_apply_apply (v, i)
  have h1 : (dof v i).divNat = v := congrArg Prod.fst h
  have h2 : (dof v i).modNat = i := congrArg Prod.snd h
  simp only [FEMOperatorMatrix.toMatrix, h1, h2]

theorem sum_dof {nv n : ℕ} (f : Fin (nv * n) → R) :
    ∑ k, f k = ∑ v : Fin nv, ∑ i : Fin n, f (dof v i) := by
  rw [← Fintype.sum_prod_type (fun p : Fin nv × Fin n => f (dof p.1 p.2))]
  exact (Equiv.sum_comp finProdFinEquiv f).symm

theorem FEMOperatorMatrix.vector_mult_apply {m nv n : ℕ} (B : FEMOperatorMatrix R m nv n)
    (x : Fin (nv * n) → R) (r : Fin m) :
    B.vector_mult x r = ∑ v : Fin nv, ∑ i : Fin n, B r v i * x (dof v i) := by
  simp only [FEMOperatorMatrix.vector_mult, Matrix.mulVec, Matrix.dotProduct]
  rw [sum_dof]
  simp only [FEMOperatorMatrix.toMatrix_dof]

theorem dof_val {nv n : ℕ} (v : Fin nv) (i : Fin n) : (dof v i).val = v.val * n + i.val := by
  simp [dof, finProdFinEquiv, Nat.mul_comm, Nat.add_comm]


/-! ## The von Karman operator in closed form -/

theorem vk_strain_eq (local_sol : Fin (6 * n) → R) (qp : Fin nqp)
    (fe : FEBase R n nqp) (s : Fin 3 → R) (W : Matrix (Fin 3) (Fin 2) R)
    (Bv : FEMOperatorMatrix R 2 6 n) :
    (initialize_von_karman_strain_operator local_sol qp fe s W Bv).vk_strain
      = vk_e (dwdxi qp fe local_sol) := by
  ext i
  fin_cases i <;> simp [initialize_von_karman_strain_operator, dwdxi, Function.update, vk_e]

theorem vk_dwdxi_mat_eq (local_sol : Fin (6 * n) → R) (qp : Fin nqp)
    (fe : FEBase R n nqp) (s : Fin 3 → R) (W : Matrix (Fin 3) (Fin 2) R)
    (Bv : FEMOperatorMatrix R 2 6 n) :
    (initialize_von_karman_strain_operator local_sol qp fe s W Bv).vk_dwdxi_mat
      = vk_W (dwdxi qp fe local_sol) := by
  ext i j
  fin_cases i <;> fin_cases j <;>
    simp [initialize_von_karman_strain_operator, dwdxi, assign, vk_W]

theorem vk_sens_eq (local_sol_sens : Fin (6 * n) → R) (qp : Fin nqp)
    (fe : FEBase R n nqp) (W : Matrix (Fin 3) (Fin 2) R) :
    initialize_von_karman_strain_operator_sensitivity local_sol_sens qp fe W
      = vk_W (dwdxi qp fe local_sol_sens) := by
  ext i j
  fin_cases i <;> fin_cases j <;>
    simp [initialize_von_karman_strain_operator_sensitivity, dwdxi, assign, vk_W]

theorem vk_Bmat_indep (local_sol : Fin (6 * n) → R) (qp : Fin nqp)
    (fe : FEBase R n nqp) (s : Fin 3 → R) (W : Matrix (Fin 3) (Fin 2) R)
    (Bv : FEMOperatorMatrix R 2 6 n) :
    (initialize_von_karman_strain_operator local_sol qp fe s W Bv).Bmat_vk
      = (initialize_von_karman_strain_operator 0 qp fe 0 0 Bv).Bmat_vk := rfl

theorem vk_Bmat_mulVec (local_sol : Fin (6 * n) → R) (qp : Fin nqp)
    (fe : FEBase R n nqp) (s : Fin 3 → R) (W : Matrix (Fin 3) (Fin 2) R)
    (Bv : FEMOperatorMatrix R 2 6 n) (x : Fin (6 * n) → R)
    (hB : ∀ r v, v ≠ 2 → Bv r v = 0) :
    (initialize_von_karman_strain_operator local_sol qp fe s W Bv).Bmat_vk.toMatrix *ᵥ x
      = dwdxi qp fe x := by
  ext i
  have := FEMOperatorMatrix.vector_mult_apply
    (initialize_von_karman_strain_operator local_sol qp fe s W Bv).Bmat_vk x i
  rw [FEMOperatorMatrix.vector_mult] at this
  rw [this]
  have h0 := fun r => hB r 0 (by decide)
  have h1 := fun r => hB r 1 (by decide)
  have h3 := fun r => hB r 3 (by decide)
  have h4 := fun r => hB r 4 (by decide)
  have h5 := fun r => hB r 5 (by decide)
  fin_cases i <;>
    simp [initialize_von_karman_strain_operator, dwdxi, FEMOperatorMatrix.set_shape_function,
      Fin.sum_univ_six, h0, h1, h3, h4, h5]

theorem dwdxi_add_smul (qp : Fin nqp) (fe : FEBase R n nqp) (u d : Fin (6 * n) → R) (t : R) :
    dwdxi qp fe (u + t • d) = dwdxi qp fe u + t • dwdxi qp fe d := by
  ext i
  fin_cases i <;>
    simp [dwdxi, mul_add, Finset.sum_add_distrib, Finset.mul_sum, mul_left_comm]

theorem vk_e_add_smul [CharZero R] (g g' : Fin 2 → R) (t : R) :
    vk_e (g + t • g') = vk_e g + t • (vk_W g *ᵥ g') + t ^ 2 • vk_e g' := by
  ext i
  fin_cases i <;> simp [vk_e, vk_W, Matrix.mulVec, Matrix.dotProduct, Fin.sum_univ_succ] <;>
    norm_num <;> ring

theorem vk_W_add_smul (g g' : Fin 2 → R) (t : R) :
    vk_W (g + t • g') = vk_W g + t • vk_W g' := by
  ext i j
  fin_cases i <;> fin_cases j <;> simp [vk_W]

theorem vk_W_transpose_mulVec (g : Fin 2 → R) (σ : Fin 3 → R) :
    (vk_W g)ᵀ *ᵥ σ = stress_of_vec σ *ᵥ g := by
  ext i
  fin_cases i <;>
    simp [vk_W, stress_of_vec, Matrix.mulVec, Matrix.dotProduct, Fin.sum_univ_succ] <;> ring

theorem stress_of_vec_add (a b : Fin 3 → R) :
    stress_of_vec a + stress_of_vec b = stress_of_vec (a + b) := by
  ext i j
  fin_cases i <;> fin_cases j <;> simp [stress_of_vec]

theorem stress_of_vec_smul (t : R) (a : Fin 3 → R) :
    stress_of_vec (t • a) = t • stress_of_vec a := by
  ext i j
  fin_cases i <;> fin_cases j <;> simp [stress_of_vec]

theorem voigt_stress_of_vec (a : Fin 3 → R) :
    ![stress_of_vec a 0 0, stress_of_vec a 1 1, stress_of_vec a 0 1] = a := by
  ext i
  fin_cases i <;> simp [stress_of_vec]

/-! ## C2, C3: the strain operator builders -/

/-- C2: on a freshly `reinit`-ed operator, `initialize_direct_strain_operator` fills
`Bmat` so that `Bmat * x = (sum_i dN_i/dx u_i, sum_i dN_i/dy v_i,
sum_i dN_i/dy u_i + sum_i dN_i/dx v_i)` for the variable-major DOF vector `x`
(`u_i = x[i]`, `v_i = x[n+i]`); the product does not depend on the other DOFs; and for
nodal values of the field `u = x`, `v = 0` with a basis that reproduces that linear
field the product is `(1, 0, 0)`. -/
theorem initialize_direct_strain_operator_strain (qp : Fin nqp) (fe : FEBase R n nqp)
    (x : Fin (6 * n) → R) :
    (∀ i : Fin n, (dof (0 : Fin 6) i).val = i.val ∧ (dof (1 : Fin 6) i).val = n + i.val) ∧
    (initialize_direct_strain_operator qp fe (FEMOperatorMatrix.reinit 3 6 n)).vector_mult x
      = ![∑ i, fe.dphi i qp 0 * x (dof 0 i),
          ∑ i, fe.dphi i qp 1 * x (dof 1 i),
          ∑ i, fe.dphi i qp 1 * x (dof 0 i) + ∑ i, fe.dphi i qp 0 * x (dof 1 i)] ∧
    (∀ y : Fin (6 * n) → R, (∀ i, y (dof 0 i) = x (dof 0 i)) → (∀ i, y (dof 1 i) = x (dof 1 i)) →
      (initialize_direct_strain_operator qp fe (FEMOperatorMatrix.reinit 3 6 n)).vector_mult y
        = (initialize_direct_strain_operator qp fe
            (FEMOperatorMatrix.reinit 3 6 n)).vector_mult x) ∧
    (∀ X : Fin n → R, ∑ i, fe.dphi i qp 0 * X i = 1 → ∑ i, fe.dphi i qp 1 * X i = 0 →
      (∀ i, x (dof 0 i) = X i) → (∀ i, x (dof 1 i) = 0) →
      (initialize_direct_strain_operator qp fe (FEMOperatorMatrix.reinit 3 6 n)).vector_mult x
        = ![1, 0, 0]) := by
  have key : ∀ z : Fin (6 * n) → R,
      (initialize_direct_strain_operator qp fe (FEMOperatorMatrix.reinit 3 6 n)).vector_mult z
        = ![∑ i, fe.dphi i qp 0 * z (dof 0 i),
            ∑ i, fe.dphi i qp 1 * z (dof 1 i),
            ∑ i, fe.dphi i qp 1 * z (dof 0 i) + ∑ i, fe.dphi i qp 0 * z (dof 1 i)] := by
    intro z
    ext r
    rw [FEMOperatorMatrix.vector_mult_apply]
    fin_cases r <;>
      simp [initialize_direct_strain_operator, FEMOperatorMatrix.set_shape_function,
        FEMOperatorMatrix.reinit, Fin.sum_univ_six]
  refine ⟨fun i => ⟨by simp [dof_val], by simp [dof_val]⟩, key x, ?_, ?_⟩
  · intro y h0 h1
    rw [key y, key x]
    simp only [h0, h1]
  · intro X hx hy h0 h1
    rw [key x]
    simp only [h0, h1, hx, hy, mul_zero, Finset.sum_const_zero, add_zero]

/-- C3: for any previous contents of the outputs, `initialize_von_karman_strain_operator`
returns `vk_strain = (gx^2/2, gy^2/2, gx*gy)` and `vk_dwdxi_mat` with entries
`(0,0) = (2,1) = gx`, `(1,1) = (2,0) = gy` and zero elsewhere, where
`gx = sum_i dN_i/dx * sol[2n+i]` and `gy = sum_i dN_i/dy * sol[2n+i]`; for `w = c*x` with a
basis reproducing that linear field, `vk_strain = (c^2/2, 0, 0)` and
`vk_dwdxi_mat(0,0) = c`. -/
theorem initialize_von_karman_strain_operator_values [CharZero R]
    (local_sol : Fin (6 * n) → R) (qp : Fin nqp) (fe : FEBase R n nqp) (vk_strain : Fin 3 → R)
    (vk_dwdxi_mat : Matrix (Fin 3) (Fin 2) R) (Bmat_vk : FEMOperatorMatrix R 2 6 n) :
    (∀ i : Fin n, (dof (2 : Fin 6) i).val = 2 * n + i.val) ∧
    (initialize_von_karman_strain_operator local_sol qp fe vk_strain vk_dwdxi_mat
        Bmat_vk).vk_strain
      = ![(∑ i, fe.dphi i qp 0 * local_sol (dof 2 i)) ^ 2 / 2,
          (∑ i, fe.dphi i qp 1 * local_sol (dof 2 i)) ^ 2 / 2,
          (∑ i, fe.dphi i qp 0 * local_sol (dof 2 i))
            * (∑ i, fe.dphi i qp 1 * local_sol (dof 2 i))] ∧
    (initialize_von_karman_strain_operator local_sol qp fe vk_strain vk_dwdxi_mat
        Bmat_vk).vk_dwdxi_mat
      = !![∑ i, fe.dphi i qp 0 * local_sol (dof 2 i), 0;
           0, ∑ i, fe.dphi i qp 1 * local_sol (dof 2 i);
           ∑ i, fe.dphi i qp 1 * local_sol (dof 2 i),
             ∑ i, fe.dphi i qp 0 * local_sol (dof 2 i)] ∧
    (∀ (X : Fin n → R) (c : R), ∑ i, fe.dphi i qp 0 * X i = 1 → ∑ i, fe.dphi i qp 1 * X i = 0 →
      (∀ i, local_sol (dof 2 i) = c * X i) →
      (initialize_von_karman_strain_operator local_sol qp fe vk_strain vk_dwdxi_mat
          Bmat_vk).vk_strain = ![c ^ 2 / 2, 0, 0] ∧
      (initialize_von_karman_strain_operator local_sol qp fe vk_strain vk_dwdxi_mat
          Bmat_vk).vk_dwdxi_mat 0 0 = c) := by
  have hs := vk_strain_eq local_sol qp fe vk_strain vk_dwdxi_mat Bmat_vk
  have hW := vk_dwdxi_mat_eq local_sol qp fe vk_strain vk_dwdxi_mat Bmat_vk
  refine ⟨fun i => by simp [dof_val], ?_, ?_, ?_⟩
  · rw [hs]
    ext i
    fin_cases i <;> simp [vk_e, dwdxi] <;> norm_num <;> ring
  · rw [hW]
    ext i j
    fin_cases i <;> fin_cases j <;> simp [vk_W, dwdxi]
  · intro X c hx hy hsol
    have gx : dwdxi qp fe local_sol 0 = c := by
      simp only [dwdxi, hsol, Matrix.cons_val_zero]
      rw [show (∑ i, fe.dphi i qp 0 * (c * X i)) = c * ∑ i, fe.dphi i qp 0 * X i by
        rw [Finset.mul_sum]; exact Finset.sum_congr rfl (fun i _ => by ring), hx, mul_one]
    have gy : dwdxi qp fe local_sol 1 = 0 := by
      simp only [dwdxi, hsol, Matrix.cons_val_one, Matrix.head_cons]
      rw [show (∑ i, fe.dphi i qp 1 * (c * X i)) = c * ∑ i, fe.dphi i qp 1 * X i by
        rw [Finset.mul_sum]; exact Finset.sum_congr rfl (fun i _ => by ring), hy, mul_zero]
    rw [hs, hW]
    refine ⟨?_, ?_⟩
    · ext i
      fin_cases i <;> simp [vk_e, gx, gy] <;> norm_num <;> ring
    · simp [vk_W, gx]


/-! ## C1: the kernel tangent is the derivative of the kernel force -/

/-- C1: at every quadrature point, for all operators, constitutive matrices and flag
settings, the tangent `_internal_residual_operation` adds to `local_jac`
(`request_jacobian = true`) is the exact derivative with respect to the local DOF vector
of the force it adds to `local_f`: without von Karman strain
`force(u + d) - force(u) = Jac * d`, and in every case
`force(u + t d) - force(u) = t Jac(u) d + t^2 r2 + t^3 r3` with `r2`, `r3` independent of
`t`.  The incoming `Bmat_vk` holds nothing outside the `w` slots, as after `reinit`. -/
theorem internal_residual_operation_tangent_is_derivative [CharZero R] {ι : Type}
    (bending_operator : BendingOperator2D R ι n) (qp : Fin nqp) (fe : FEBase R n nqp)
    (JxW : Fin nqp → R) (buf : KernelBuffers R n)
    (material_A_mat material_B_mat material_D_mat : Matrix (Fin 3) (Fin 3) R)
    (hB : ∀ r v, v ≠ 2 → buf.Bmat_vk r v = 0) (u d : Fin (6 * n) → R) :
    (∀ if_bending : Bool,
      (_internal_residual_operation (u + d) bending_operator if_bending false qp fe JxW true buf
          material_A_mat material_B_mat material_D_mat).local_f
        - (_internal_residual_operation u bending_operator if_bending false qp fe JxW true buf
          material_A_mat material_B_mat material_D_mat).local_f
      = ((_internal_residual_operation u bending_operator if_bending false qp fe JxW true buf
          material_A_mat material_B_mat material_D_mat).local_jac - buf.local_jac) *ᵥ d) ∧
    (∀ if_bending if_vk : Bool, ∃ r2 r3 : Fin (6 * n) → R, ∀ t : R,
      (_internal_residual_operation (u + t • d) bending_operator if_bending if_vk qp fe JxW
          true buf material_A_mat material_B_mat material_D_mat).local_f
        - (_internal_residual_operation u bending_operator if_bending if_vk qp fe JxW true buf
          material_A_mat material_B_mat material_D_mat).local_f
      = t • (((_internal_residual_operation u bending_operator if_bending if_vk qp fe JxW true
          buf material_A_mat material_B_mat material_D_mat).local_jac - buf.local_jac) *ᵥ d)
        + t ^ 2 • r2 + t ^ 3 • r3) := by
  set Bm := (initialize_direct_strain_operator qp fe buf.Bmat_mem).toMatrix with hBm
  set Bb := (bending_operator.initialize_bending_strain_operator fe qp).toMatrix with hBb
  set Bv := (initialize_von_karman_strain_operator 0 qp fe 0 0
    buf.Bmat_vk).Bmat_vk.toMatrix with hBv
  set g := dwdxi qp fe u with hg
  set g' := dwdxi qp fe d with hg'
  have hv : Bv *ᵥ d = g' := vk_Bmat_mulVec 0 qp fe 0 0 buf.Bmat_vk d hB
  have lin : ∀ if_bending : Bool, ∀ t : R,
      (_internal_residual_operation (u + t • d) bending_operator if_bending false qp fe JxW
          true buf material_A_mat material_B_mat material_D_mat).local_f
        - (_internal_residual_operation u bending_operator if_bending false qp fe JxW true buf
          material_A_mat material_B_mat material_D_mat).local_f
      = t • (((_internal_residual_operation u bending_operator if_bending false qp fe JxW true
          buf material_A_mat material_B_mat material_D_mat).local_jac - buf.local_jac) *ᵥ d) := by
    intro b t
    cases b <;>
    · dsimp only [_internal_residual_operation, Id.run, Id.pure_eq, Id.bind_eq, bind, pure,
        ite_true_eq_true, ite_false_eq_true,
        FEMOperatorMatrix.vector_mult, FEMOperatorMatrix.vector_mult_transpose,
        FEMOperatorMatrix.left_multiply, FEMOperatorMatrix.right_multiply_transpose]
      simp only [stress_of_vec_add, voigt_stress_of_vec, ← hBm, ← hBb, Matrix.sub_mulVec,
        Matrix.add_mulVec, Matrix.smul_mulVec_assoc, ← Matrix.mulVec_mulVec, Matrix.mulVec_add,
        Matrix.mulVec_smul, Matrix.mulVec_zero, zero_add]
      module
  refine ⟨fun b => ?_, fun b v => ?_⟩
  · have := lin b 1
    simpa only [one_smul] using this
  · cases v
    · exact ⟨0, 0, fun t => by rw [lin b t]; simp⟩
    · cases b
      · refine ⟨0, 0, fun t => ?_⟩
        dsimp only [_internal_residual_operation, Id.run, Id.pure_eq, Id.bind_eq, bind, pure,
          ite_true_eq_true, ite_false_eq_true,
          FEMOperatorMatrix.vector_mult, FEMOperatorMatrix.vector_mult_transpose,
          FEMOperatorMatrix.left_multiply, FEMOperatorMatrix.right_multiply_transpose]
        simp only [stress_of_vec_add, voigt_stress_of_vec, ← hBm, Matrix.sub_mulVec,
          Matrix.add_mulVec, Matrix.smul_mulVec_assoc, ← Matrix.mulVec_mulVec,
          Matrix.mulVec_add, Matrix.mulVec_smul, Matrix.mulVec_zero, zero_add]
        module
      · refine ⟨JxW qp • (Bmᵀ *ᵥ (material_A_mat *ᵥ vk_e g')
            + Bvᵀ *ᵥ ((vk_W g)ᵀ *ᵥ (material_A_mat *ᵥ vk_e g')
                + (vk_W g')ᵀ *ᵥ (material_A_mat *ᵥ (Bm *ᵥ d) + material_B_mat *ᵥ (Bb *ᵥ d)
                    + material_A_mat *ᵥ (vk_W g *ᵥ g')))
            + Bbᵀ *ᵥ (material_B_matᵀ *ᵥ vk_e g')),
          JxW qp • (Bvᵀ *ᵥ ((vk_W g')ᵀ *ᵥ (material_A_mat *ᵥ vk_e g'))), fun t => ?_⟩
        dsimp only [_internal_residual_operation, Id.run, Id.pure_eq, Id.bind_eq, bind, pure,
          ite_true_eq_true, ite_false_eq_true,
          FEMOperatorMatrix.vector_mult, FEMOperatorMatrix.vector_mult_transpose,
          FEMOperatorMatrix.left_multiply, FEMOperatorMatrix.right_multiply_transpose]
        simp only [vk_strain_eq, vk_dwdxi_mat_eq, stress_of_vec_add, voigt_stress_of_vec,
          vk_Bmat_indep (u + t • d), vk_Bmat_indep u, dwdxi_add_smul, vk_e_add_smul,
          vk_W_add_smul]
        simp only [← hBm, ← hBb, ← hBv, ← hg, ← hg']
        simp only [Matrix.sub_mulVec, Matrix.add_mulVec, Matrix.smul_mulVec_assoc,
          ← Matrix.mulVec_mulVec, hv, ← vk_W_transpose_mulVec, Matrix.mulVec_add,
          Matrix.mulVec_smul, Matrix.transpose_add, Matrix.transpose_smul]
        module


/-! ## The kernel and the quadrature loops in closed form -/

theorem foldl_accumulate {σ α : Type} [AddCommMonoid α] (proj : σ → α) (Inv : σ → Prop) :
    ∀ {m : ℕ} (step : σ → Fin m → σ) (g : Fin m → α),
      (∀ s i, Inv s → Inv (step s i)) → (∀ s i, Inv s → proj (step s i) = proj s + g i) →
      ∀ s0, Inv s0 →
        Inv (Fin.foldl m step s0) ∧ proj (Fin.foldl m step s0) = proj s0 + ∑ i, g i := by
  intro m
  induction m with
  | zero => intro step g _ _ s0 h0; simp [Fin.foldl_zero, h0]
  | succ m ih =>
    intro step g hInv hstep s0 h0
    rw [Fin.foldl_succ_last, Fin.sum_univ_castSucc]
    obtain ⟨h1, h2⟩ := ih (fun s i => step s i.castSucc) (fun i => g i.castSucc)
      (fun s i => hInv s _) (fun s i => hstep s _) s0 h0
    exact ⟨hInv _ _ h1, by rw [hstep _ _ h1, h2, add_assoc]⟩

theorem mem_clean_reinit : mem_clean (FEMOperatorMatrix.reinit 3 6 n : FEMOperatorMatrix R 3 6 n) :=
  fun _ _ _ => rfl

theorem vk_clean_reinit : vk_clean (FEMOperatorMatrix.reinit 2 6 n : FEMOperatorMatrix R 2 6 n) :=
  fun _ _ _ => rfl

theorem initialize_direct_strain_operator_of_clean (qp : Fin nqp) (fe : FEBase R n nqp)
    (Bmat : FEMOperatorMatrix R 3 6 n) (h : mem_clean Bmat) :
    initialize_direct_strain_operator qp fe Bmat
      = initialize_direct_strain_operator qp fe (FEMOperatorMatrix.reinit 3 6 n) := by
  funext r v
  by_cases hs : (r = 0 ∧ v = 0) ∨ (r = 2 ∧ v = 1) ∨ (r = 1 ∧ v = 1) ∨ (r = 2 ∧ v = 0)
  · rcases hs with ⟨rfl, rfl⟩ | ⟨rfl, rfl⟩ | ⟨rfl, rfl⟩ | ⟨rfl, rfl⟩ <;>
      simp [initialize_direct_strain_operator, FEMOperatorMatrix.set_shape_function]
  · have := h r v hs
    simp only [not_or] at hs
    simp [initialize_direct_strain_operator, FEMOperatorMatrix.set_shape_function, hs, this]
    rfl

theorem initialize_direct_strain_operator_clean (qp : Fin nqp) (fe : FEBase R n nqp)
    (Bmat : FEMOperatorMatrix R 3 6 n) (h : mem_clean Bmat) :
    mem_clean (initialize_direct_strain_operator qp fe Bmat) := by
  intro r v hs
  have := h r v hs
  simp only [not_or] at hs
  simp [initialize_direct_strain_operator, FEMOperatorMatrix.set_shape_function, hs, this]

theorem vk_Bmat_of_clean (local_sol : Fin (6 * n) → R) (qp : Fin nqp)
    (fe : FEBase R n nqp) (s : Fin 3 → R) (W : Matrix (Fin 3) (Fin 2) R)
    (Bv : FEMOperatorMatrix R 2 6 n) (h : vk_clean Bv) :
    (initialize_von_karman_strain_operator local_sol qp fe s W Bv).Bmat_vk
      = (initialize_von_karman_strain_operator 0 qp fe 0 0
          (FEMOperatorMatrix.reinit 2 6 n)).Bmat_vk := by
  funext r v
  by_cases hv : v = 2
  · subst hv
    fin_cases r <;>
      simp [initialize_von_karman_strain_operator, FEMOperatorMatrix.set_shape_function]
  · have := h r v hv
    simp [initialize_von_karman_strain_operator, FEMOperatorMatrix.set_shape_function, hv, this]
    rfl

theorem vk_Bmat_clean (local_sol : Fin (6 * n) → R) (qp : Fin nqp)
    (fe : FEBase R n nqp) (s : Fin 3 → R) (W : Matrix (Fin 3) (Fin 2) R)
    (Bv : FEMOperatorMatrix R 2 6 n) (h : vk_clean Bv) :
    vk_clean (initialize_von_karman_strain_operator local_sol qp fe s W Bv).Bmat_vk := by
  intro r v hv
  have := h r v hv
  simp [initialize_von_karman_strain_operator, FEMOperatorMatrix.set_shape_function, hv, this]

theorem Bvk_mulVec (qp : Fin nqp) (fe : FEBase R n nqp) (x : Fin (6 * n) → R) :
    Bvk qp fe *ᵥ x = dwdxi qp fe x :=
  vk_Bmat_mulVec 0 qp fe 0 0 _ x vk_clean_reinit


theorem kernel_clean {ι : Type} (u : Fin (6 * n) → R) (bo : BendingOperator2D R ι n)
    (b v : Bool) (qp : Fin nqp) (fe : FEBase R n nqp) (JxW : Fin nqp → R) (rj : Bool)
    (buf : KernelBuffers R n) (A B D : Matrix (Fin 3) (Fin 3) R) (h : buf.clean) :
    (_internal_residual_operation u bo b v qp fe JxW rj buf A B D).clean := by
  have hm := initialize_direct_strain_operator_clean qp fe buf.Bmat_mem h.1
  have hv := vk_Bmat_clean u qp fe 0 buf.vk_dwdxi_mat buf.Bmat_vk h.2
  have h2 := h.2
  cases b <;> cases v <;> cases rj
  · exact ⟨hm, h2⟩
  · exact ⟨hm, h2⟩
  · exact ⟨hm, h2⟩
  · exact ⟨hm, h2⟩
  · exact ⟨hm, h2⟩
  · exact ⟨hm, h2⟩
  · exact ⟨hm, hv⟩
  · exact ⟨hm, hv⟩

theorem kernel_local_jac {ι : Type} (u : Fin (6 * n) → R) (bo : BendingOperator2D R ι n)
    (b v : Bool) (qp : Fin nqp) (fe : FEBase R n nqp) (JxW : Fin nqp → R) (rj : Bool)
    (buf : KernelBuffers R n) (A B D : Matrix (Fin 3) (Fin 3) R) (h : buf.clean) :
    (_internal_residual_operation u bo b v qp fe JxW rj buf A B D).local_jac
      = buf.local_jac + (if rj then JxW qp • kernel_tangent qp fe bo b v A B D u else 0) := by
  have hm := initialize_direct_strain_operator_of_clean qp fe buf.Bmat_mem h.1
  have hv := vk_Bmat_of_clean u qp fe 0 buf.vk_dwdxi_mat buf.Bmat_vk h.2
  cases b <;> cases v <;> cases rj <;>
  · dsimp only [_internal_residual_operation, Id.run, Id.pure_eq, Id.bind_eq, bind, pure,
      ite_true_eq_true, ite_false_eq_true,
      FEMOperatorMatrix.vector_mult, FEMOperatorMatrix.vector_mult_transpose,
      FEMOperatorMatrix.left_multiply, FEMOperatorMatrix.right_multiply_transpose,
      kernel_tangent, kernel_stress, Bmem, Bvk, Bbend]
    simp only [stress_of_vec_add, voigt_stress_of_vec, vk_strain_eq, vk_dwdxi_mat_eq, hm, hv,
      smul_add, add_zero, add_assoc]

theorem kernel_local_f {ι : Type} (u : Fin (6 * n) → R) (bo : BendingOperator2D R ι n)
    (b v : Bool) (qp : Fin nqp) (fe : FEBase R n nqp) (JxW : Fin nqp → R) (rj : Bool)
    (buf : KernelBuffers R n) (A B D : Matrix (Fin 3) (Fin 3) R) (h : buf.clean) :
    (_internal_residual_operation u bo b v qp fe JxW rj buf A B D).local_f
      = buf.local_f + JxW qp • kernel_force qp fe bo b v A B D u := by
  have hm := initialize_direct_strain_operator_of_clean qp fe buf.Bmat_mem h.1
  have hv := vk_Bmat_of_clean u qp fe 0 buf.vk_dwdxi_mat buf.Bmat_vk h.2
  cases b <;> cases v <;> cases rj <;>
  · dsimp only [_internal_residual_operation, Id.run, Id.pure_eq, Id.bind_eq, bind, pure,
      ite_true_eq_true, ite_false_eq_true,
      FEMOperatorMatrix.vector_mult, FEMOperatorMatrix.vector_mult_transpose,
      kernel_force, kernel_stress, Bmem, Bvk, Bbend]
    simp only [stress_of_vec_add, voigt_stress_of_vec, vk_strain_eq, vk_dwdxi_mat_eq, hm, hv,
      smul_add, zero_add, add_assoc]

theorem kernel_force_no_bending {ι : Type} (qp : Fin nqp) (fe : FEBase R n nqp)
    (bo : BendingOperator2D R ι n) (v : Bool) (A B D : Matrix (Fin 3) (Fin 3) R)
    (u : Fin (6 * n) → R) :
    kernel_force qp fe bo false v A B D u = (Bmem qp fe)ᵀ *ᵥ (A *ᵥ (Bmem qp fe *ᵥ u)) := by
  simp [kernel_force, kernel_stress]

theorem kernel_tangent_no_bending {ι : Type} (qp : Fin nqp) (fe : FEBase R n nqp)
    (bo : BendingOperator2D R ι n) (v : Bool) (A B D : Matrix (Fin 3) (Fin 3) R)
    (u : Fin (6 * n) → R) :
    kernel_tangent qp fe bo false v A B D u = (Bmem qp fe)ᵀ * (A * Bmem qp fe) := by
  simp [kernel_tangent]

theorem fresh_buffers_clean : (StructuralElement2D.fresh_buffers R n).clean :=
  ⟨mem_clean_reinit, vk_clean_reinit⟩

namespace StructuralElement2D
variable {ι : Type}

/-- The constitutive matrix the quadrature loop hands to the kernel for `B` and `D`:
fetched only when bending is active. -/
theorem kernel_quadrature_loop_eq (el : StructuralElement2D R ι n nqp) (rj : Bool)
    (mat_A mat_B mat_D : (Fin 3 → R) → R → Matrix (Fin 3) (Fin 3) R) :
    (kernel_quadrature_loop el rj mat_A mat_B mat_D).local_f
        = ∑ qp, el.fe.JxW qp • kernel_force qp el.fe el.bending_operator
            el.property.bending_model_is_active el.property.strain_type_is_von_karman
            (mat_A (el.fe.xyz qp) el.time)
            (if el.property.bending_model_is_active then mat_B (el.fe.xyz qp) el.time else 0)
            (if el.property.bending_model_is_active then mat_D (el.fe.xyz qp) el.time else 0)
            el.local_sol ∧
    (kernel_quadrature_loop el rj mat_A mat_B mat_D).local_jac
        = (if rj then ∑ qp, el.fe.JxW qp • kernel_tangent qp el.fe el.bending_operator
            el.property.bending_model_is_active el.property.strain_type_is_von_karman
            (mat_A (el.fe.xyz qp) el.time)
            (if el.property.bending_model_is_active then mat_B (el.fe.xyz qp) el.time else 0)
            (if el.property.bending_model_is_active then mat_D (el.fe.xyz qp) el.time else 0)
            el.local_sol else 0) := by
  have key := foldl_accumulate
    (fun buf : KernelBuffers R n => (buf.local_f, buf.local_jac)) KernelBuffers.clean
    (fun buf qp =>
      _internal_residual_operation el.local_sol el.bending_operator
        el.property.bending_model_is_active el.property.strain_type_is_von_karman qp el.fe
        el.fe.JxW rj buf (mat_A (el.fe.xyz qp) el.time)
        (if el.property.bending_model_is_active then mat_B (el.fe.xyz qp) el.time else 0)
        (if el.property.bending_model_is_active then mat_D (el.fe.xyz qp) el.time else 0))
    (fun qp => (el.fe.JxW qp • kernel_force qp el.fe el.bending_operator
            el.property.bending_model_is_active el.property.strain_type_is_von_karman
            (mat_A (el.fe.xyz qp) el.time)
            (if el.property.bending_model_is_active then mat_B (el.fe.xyz qp) el.time else 0)
            (if el.property.bending_model_is_active then mat_D (el.fe.xyz qp) el.time else 0)
            el.local_sol,
          if rj then el.fe.JxW qp • kernel_tangent qp el.fe el.bending_operator
            el.property.bending_model_is_active el.property.strain_type_is_von_karman
            (mat_A (el.fe.xyz qp) el.time)
            (if el.property.bending_model_is_active then mat_B (el.fe.xyz qp) el.time else 0)
            (if el.property.bending_model_is_active then mat_D (el.fe.xyz qp) el.time else 0)
            el.local_sol else 0))
    (fun s i hs => kernel_clean _ _ _ _ _ _ _ _ _ _ _ _ hs)
    (fun s i hs => Prod.ext (kernel_local_f _ _ _ _ _ _ _ _ _ _ _ _ hs)
      (kernel_local_jac _ _ _ _ _ _ _ _ _ _ _ _ hs))
    (fresh_buffers R n) fresh_buffers_clean
  have h2 := key.2
  constructor
  · have := congrArg Prod.fst h2
    simpa [kernel_quadrature_loop, fresh_buffers, Prod.fst_sum] using this
  · have := congrArg Prod.snd h2
    cases rj <;> simpa [kernel_quadrature_loop, fresh_buffers, Prod.snd_sum] using this

end StructuralElement2D

theorem foldl_assign {N : ℕ} (c : R) : ∀ {m : ℕ} (idx : Fin m → Fin N)
    (M : Matrix (Fin N) (Fin N) R) (a b : Fin N),
    Fin.foldl m (fun J i => assign J (idx i) (idx i) c) M a b
      = if a = b ∧ ∃ i, a = idx i then c else M a b := by
  intro m
  induction m with
  | zero => intro idx M a b; simp [Fin.foldl_zero]
  | succ m ih =>
    intro idx M a b
    rw [Fin.foldl_succ_last]
    simp only [assign]
    rw [ih (fun i => idx i.castSucc) M a b]
    by_cases h1 : a = idx (Fin.last m) ∧ b = idx (Fin.last m)
    · have : a = b ∧ ∃ i, a = idx i := ⟨h1.1.trans h1.2.symm, _, h1.1⟩
      rw [if_pos h1, if_pos this]
    · rw [if_neg h1]
      by_cases h2 : a = b ∧ ∃ i : Fin m, a = idx i.castSucc
      · have : a = b ∧ ∃ i, a = idx i := ⟨h2.1, by obtain ⟨i, hi⟩ := h2.2; exact ⟨_, hi⟩⟩
        rw [if_pos h2, if_pos this]
      · have : ¬ (a = b ∧ ∃ i, a = idx i) := by
          rintro ⟨hab, i, hi⟩
          induction i using Fin.lastCases with
          | last => exact h1 ⟨hi, hab ▸ hi⟩
          | cast j => exact h2 ⟨hab, j, hi⟩
        rw [if_neg h2, if_neg this]

namespace StructuralElement2D
variable {ι : Type}

theorem drilling_penalty_apply (M : Matrix (Fin (6 * n)) (Fin (6 * n)) R) (a b : Fin (6 * n)) :
    drilling_penalty M a b
      = if a = b ∧ ∃ i : Fin n, a = dof 5 i then 1.0e-8 else M a b :=
  foldl_assign _ _ M a b

theorem internal_residual_eq (el : StructuralElement2D R ι n nqp) (rj : Bool)
    (f : Fin (6 * n) → R) (jac : Matrix (Fin (6 * n)) (Fin (6 * n)) R) :
    el.internal_residual rj f jac
      = ⟨rj, f + el.transform_vector_to_global_system (el.internal_residual_local rj).1,
          if rj then jac + el.transform_matrix_to_global_system
            (if el.elem_dim = 2 then drilling_penalty (el.internal_residual_local rj).2
              else (el.internal_residual_local rj).2) else jac,
          (el.internal_residual_local rj).1,
          if rj then (if el.elem_dim = 2 then drilling_penalty (el.internal_residual_local rj).2
              else (el.internal_residual_local rj).2) else (el.internal_residual_local rj).2⟩ := by
  dsimp only [internal_residual, internal_residual_local, Id.run, Id.pure_eq, Id.bind_eq, bind,
    pure]
  split_ifs <;> rfl

end StructuralElement2D

theorem Bmem_drilling (qp : Fin nqp) (fe : FEBase R n nqp) (r : Fin 3) (i : Fin n) :
    Bmem qp fe r (dof 5 i) = 0 := by
  rw [Bmem, FEMOperatorMatrix.toMatrix_dof]
  fin_cases r <;>
    simp [initialize_direct_strain_operator, FEMOperatorMatrix.set_shape_function,
      FEMOperatorMatrix.reinit]

namespace StructuralElement2D
variable {ι : Type}

/-- C4: with bending disabled, `internal_residual` adds to `f` the transformed
pure-membrane force `sum_qp JxW[qp] Bmem^T A (Bmem u)`; the local tangent it transforms
and adds to `jac` is `sum_qp JxW[qp] Bmem^T A Bmem` with the drilling diagonal entries
(which that sum leaves at zero) set to `1e-8` for a 2D element; and the output is the
same for either strain type. -/
theorem internal_residual_without_bending (el : StructuralElement2D R ι n nqp)
    (h : el.property.bending_model_is_active = false) (request_jacobian : Bool)
    (f : Fin (6 * n) → R) (jac : Matrix (Fin (6 * n)) (Fin (6 * n)) R) :
    (el.internal_residual request_jacobian f jac).f
      = f + el.transform_vector_to_global_system
          (∑ qp, el.fe.JxW qp • ((Bmem qp el.fe)ᵀ *ᵥ
            (el.property.stiffness_A_matrix.value (el.fe.xyz qp) el.time *ᵥ
              (Bmem qp el.fe *ᵥ el.local_sol)))) ∧
    (el.internal_residual true f jac).jac
      = jac + el.transform_matrix_to_global_system (el.internal_residual true f jac).local_jac ∧
    (∀ a b, (el.internal_residual true f jac).local_jac a b
      = if el.elem_dim = 2 ∧ a = b ∧ ∃ i : Fin n, a = dof 5 i then 1.0e-8
        else (∑ qp, el.fe.JxW qp • ((Bmem qp el.fe)ᵀ *
          (el.property.stiffness_A_matrix.value (el.fe.xyz qp) el.time * Bmem qp el.fe))) a b) ∧
    (∀ i : Fin n, (∑ qp, el.fe.JxW qp • ((Bmem qp el.fe)ᵀ *
          (el.property.stiffness_A_matrix.value (el.fe.xyz qp) el.time * Bmem qp el.fe)))
        (dof 5 i) (dof 5 i) = 0) ∧
    (∀ s : Bool,
      ({ el with property := { el.property with strain_type_is_von_karman := s } }
        : StructuralElement2D R ι n nqp).internal_residual request_jacobian f jac
      = el.internal_residual request_jacobian f jac) := by
  have hloc : ∀ (el' : StructuralElement2D R ι n nqp),
      el'.property.bending_model_is_active = false → ∀ rj,
      el'.internal_residual_local rj
        = (∑ qp, el'.fe.JxW qp • ((Bmem qp el'.fe)ᵀ *ᵥ
            (el'.property.stiffness_A_matrix.value (el'.fe.xyz qp) el'.time *ᵥ
              (Bmem qp el'.fe *ᵥ el'.local_sol))),
           if rj then ∑ qp, el'.fe.JxW qp • ((Bmem qp el'.fe)ᵀ *
            (el'.property.stiffness_A_matrix.value (el'.fe.xyz qp) el'.time * Bmem qp el'.fe))
           else 0) := by
    intro el' h' rj
    obtain ⟨h1, h2⟩ := kernel_quadrature_loop_eq el' rj el'.property.stiffness_A_matrix.value
      el'.property.stiffness_B_matrix.value el'.property.stiffness_D_matrix.value
    simp only [internal_residual_local, h', Bool.false_and, Bool.false_eq_true, if_false,
      kernel_force_no_bending, kernel_tangent_no_bending] at h1 h2 ⊢
    rw [h1, h2]
  refine ⟨?_, ?_, ?_, ?_, ?_⟩
  · rw [internal_residual_eq, hloc el h]
  · rw [internal_residual_eq]
    simp only [if_true]
  · intro a b
    rw [internal_residual_eq, hloc el h]
    simp only [if_true]
    by_cases hd : el.elem_dim = 2
    · simp only [hd, if_true, true_and, drilling_penalty_apply]
    · simp only [hd, if_false, false_and]
  · intro i
    simp only [Matrix.sum_apply, Matrix.smul_apply, Matrix.mul_apply, Matrix.transpose_apply,
      Bmem_drilling, zero_mul, mul_zero, Finset.sum_const_zero, smul_zero]
  · intro s
    have hl := hloc ({ el with property := { el.property with strain_type_is_von_karman := s } }
      : StructuralElement2D R ι n nqp) h request_jacobian
    have hr := hloc el h request_jacobian
    rw [internal_residual_eq, internal_residual_eq el, hl, hr]
    rfl

end StructuralElement2D

theorem tri3_reproduces_x :
    (∑ i, tri3_fe.dphi i 0 0 * tri3_x i = 1) ∧ (∑ i, tri3_fe.dphi i 0 1 * tri3_x i = 0) := by
  constructor <;> simp [tri3_fe, tri3_x, Fin.sum_univ_three]

theorem initialize_direct_strain_operator_strain_witness :
    (∑ i, tri3_fe.dphi i 0 0 * tri3_x i = 1) ∧ (∑ i, tri3_fe.dphi i 0 1 * tri3_x i = 0) ∧
    (∀ i : Fin 3, (fun k : Fin (6 * 3) => if k.val = 1 then (1 : ℚ) else 0) (dof 0 i) = tri3_x i) ∧
    (∀ i : Fin 3, (fun k : Fin (6 * 3) => if k.val = 1 then (1 : ℚ) else 0) (dof 1 i) = 0) ∧
    (initialize_direct_strain_operator 0 tri3_fe (FEMOperatorMatrix.reinit 3 6 3)).vector_mult
        (fun k : Fin (6 * 3) => if k.val = 1 then (1 : ℚ) else 0) = ![1, 0, 0] :=
  have h1 := tri3_reproduces_x.1
  have h2 := tri3_reproduces_x.2
  have h3 : ∀ i : Fin 3,
      (fun k : Fin (6 * 3) => if k.val = 1 then (1 : ℚ) else 0) (dof 0 i) = tri3_x i := by
    intro i; fin_cases i <;> simp [dof_val, tri3_x]
  have h4 : ∀ i : Fin 3,
      (fun k : Fin (6 * 3) => if k.val = 1 then (1 : ℚ) else 0) (dof 1 i) = 0 := by
    intro i; fin_cases i <;> simp [dof_val]
  ⟨h1, h2, h3, h4,
    (initialize_direct_strain_operator_strain 0 tri3_fe _).2.2.2 tri3_x h1 h2 h3 h4⟩

theorem initialize_von_karman_strain_operator_values_witness :
    (∑ i, tri3_fe.dphi i 0 0 * tri3_x i = 1) ∧ (∑ i, tri3_fe.dphi i 0 1 * tri3_x i = 0) ∧
    (∀ i : Fin 3,
      (fun k : Fin (6 * 3) => if k.val = 7 then (3 : ℚ) else 0) (dof 2 i) = 3 * tri3_x i) ∧
    (initialize_von_karman_strain_operator
        (fun k : Fin (6 * 3) => if k.val = 7 then (3 : ℚ) else 0) 0 tri3_fe 0 0
        (FEMOperatorMatrix.reinit 2 6 3)).vk_strain = ![3 ^ 2 / 2, 0, 0] ∧
    (initialize_von_karman_strain_operator
        (fun k : Fin (6 * 3) => if k.val = 7 then (3 : ℚ) else 0) 0 tri3_fe 0 0
        (FEMOperatorMatrix.reinit 2 6 3)).vk_dwdxi_mat 0 0 = 3 :=
  have h1 := tri3_reproduces_x.1
  have h2 := tri3_reproduces_x.2
  have h3 : ∀ i : Fin 3,
      (fun k : Fin (6 * 3) => if k.val = 7 then (3 : ℚ) else 0) (dof 2 i) = 3 * tri3_x i := by
    intro i; fin_cases i <;> simp [dof_val, tri3_x]
  ⟨h1, h2, h3,
    (initialize_von_karman_strain_operator_values _ 0 tri3_fe 0 0
      (FEMOperatorMatrix.reinit 2 6 3)).2.2.2 tri3_x 3 h1 h2 h3⟩

theorem internal_residual_operation_tangent_is_derivative_witness :
    (∀ (r : Fin 2) (v : Fin 6), v ≠ 2 → (StructuralElement2D.fresh_buffers ℚ 3).Bmat_vk r v = 0) ∧
    (∀ if_bending : Bool,
      (_internal_residual_operation ((fun _ => 1) + (fun _ => 2)) tri3_bending_operator
          if_bending false 0 tri3_fe tri3_fe.JxW true (StructuralElement2D.fresh_buffers ℚ 3)
          1 0 1).local_f
        - (_internal_residual_operation (fun _ => 1) tri3_bending_operator if_bending false 0
          tri3_fe tri3_fe.JxW true (StructuralElement2D.fresh_buffers ℚ 3) 1 0 1).local_f
      = ((_internal_residual_operation (fun _ => 1) tri3_bending_operator if_bending false 0
          tri3_fe tri3_fe.JxW true (StructuralElement2D.fresh_buffers ℚ 3) 1 0 1).local_jac
          - (StructuralElement2D.fresh_buffers ℚ 3).local_jac) *ᵥ (fun _ => 2)) :=
  ⟨fun _ _ _ => rfl,
    (internal_residual_operation_tangent_is_derivative tri3_bending_operator 0 tri3_fe
      tri3_fe.JxW (StructuralElement2D.fresh_buffers ℚ 3) 1 0 1 (fun _ _ _ => rfl)
      (fun _ => 1) (fun _ => 2)).1⟩

theorem internal_residual_without_bending_witness :
    tri3_membrane_elem.property.bending_model_is_active = false ∧
    (tri3_membrane_elem.internal_residual true 0 0).jac
      = 0 + tri3_membrane_elem.transform_matrix_to_global_system
          (tri3_membrane_elem.internal_residual true 0 0).local_jac :=
  ⟨rfl, (StructuralElement2D.internal_residual_without_bending tri3_membrane_elem rfl true
    0 0).2.1⟩


theorem Bmem_apply (qp : Fin nqp) (fe : FEBase R n nqp) (r : Fin 3) (v : Fin 6) (i : Fin n) :
    Bmem qp fe r (dof v i)
      = initialize_direct_strain_operator qp fe (FEMOperatorMatrix.reinit 3 6 n) r v i := by
  rw [Bmem, FEMOperatorMatrix.toMatrix_dof]

theorem Bbend_apply {ι : Type} (bo : BendingOperator2D R ι n) (qp : Fin nqp)
    (fe : FEBase R n nqp) (r : Fin 3) (v : Fin 6) (i : Fin n) :
    Bbend bo qp fe r (dof v i) = bo.initialize_bending_strain_operator fe qp r v i := by
  rw [Bbend, FEMOperatorMatrix.toMatrix_dof]

namespace StructuralElement2D
variable {ι : Type}

theorem internal_residual_local_no_shear (el : StructuralElement2D R ι n nqp)
    (hs : (el.property.bending_model_is_active
      && el.bending_operator.include_transverse_shear_energy) = false) (rj : Bool) :
    el.internal_residual_local rj
      = ((el.kernel_quadrature_loop rj el.property.stiffness_A_matrix.value
            el.property.stiffness_B_matrix.value el.property.stiffness_D_matrix.value).local_f,
         (el.kernel_quadrature_loop rj el.property.stiffness_A_matrix.value
            el.property.stiffness_B_matrix.value el.property.stiffness_D_matrix.value).local_jac) := by
  simp only [internal_residual_local, hs, Bool.false_eq_true, if_false]

theorem linear_plate_local_jac (el : StructuralElement2D R ι n nqp)
    (hb : el.property.bending_model_is_active = true)
    (hv : el.property.strain_type_is_von_karman = false)
    (hB : ∀ qp, el.property.stiffness_B_matrix.value (el.fe.xyz qp) el.time = 0)
    (hs : el.bending_operator.include_transverse_shear_energy = false)
    (f : Fin (6 * n) → R) (jac : Matrix (Fin (6 * n)) (Fin (6 * n)) R) :
    (el.internal_residual true f jac).jac
      = jac + el.transform_matrix_to_global_system (el.internal_residual true f jac).local_jac ∧
    (∀ a b, (el.internal_residual true f jac).local_jac a b
      = if el.elem_dim = 2 ∧ a = b ∧ ∃ i : Fin n, a = dof 5 i then 1.0e-8
        else (∑ qp, el.fe.JxW qp • ((Bmem qp el.fe)ᵀ *
            (el.property.stiffness_A_matrix.value (el.fe.xyz qp) el.time * Bmem qp el.fe)
          + (Bbend el.bending_operator qp el.fe)ᵀ *
            (el.property.stiffness_D_matrix.value (el.fe.xyz qp) el.time
              * Bbend el.bending_operator qp el.fe))) a b) := by
  have hloc := internal_residual_local_no_shear el (by simp [hs]) true
  obtain ⟨-, h2⟩ := kernel_quadrature_loop_eq el true el.property.stiffness_A_matrix.value
      el.property.stiffness_B_matrix.value el.property.stiffness_D_matrix.value
  simp only [hb, hv, hB, if_true, kernel_tangent, ite_true_eq_true, ite_false_eq_true,
    Bool.false_eq_true, if_false, Matrix.transpose_zero, Matrix.zero_mul, Matrix.mul_zero,
    add_zero] at h2
  refine ⟨?_, ?_⟩
  · rw [internal_residual_eq]
    simp only [if_true]
  · intro a b
    rw [internal_residual_eq, hloc, h2]
    simp only [if_true]
    by_cases hd : el.elem_dim = 2
    · simp only [hd, if_true, true_and, drilling_penalty_apply]
    · simp only [hd, if_false, false_and]


/-- C5 (amended): for an element with bending, without von Karman strain, with `B = 0`
and a bending operator that adds no transverse shear term, the local tangent that
`internal_residual` assembles with `request_jacobian = true` is
`sum_qp JxW[qp] (Bmem^T A Bmem + Bbend^T D Bbend)` with the drilling diagonal entries of a
2D element set to `1e-8`, and `jac` receives its transform; the membrane block
`Bmem^T A Bmem` is present whatever the solution is. -/
theorem internal_residual_linear_plate_jacobian (el : StructuralElement2D R ι n nqp)
    (hb : el.property.bending_model_is_active = true)
    (hv : el.property.strain_type_is_von_karman = false)
    (hB : ∀ qp, el.property.stiffness_B_matrix.value (el.fe.xyz qp) el.time = 0)
    (hs : el.bending_operator.include_transverse_shear_energy = false)
    (f : Fin (6 * n) → R) (jac : Matrix (Fin (6 * n)) (Fin (6 * n)) R) :
    (el.internal_residual true f jac).jac
      = jac + el.transform_matrix_to_global_system (el.internal_residual true f jac).local_jac ∧
    (∀ a b, (el.internal_residual true f jac).local_jac a b
      = if el.elem_dim = 2 ∧ a = b ∧ ∃ i : Fin n, a = dof 5 i then 1.0e-8
        else (∑ qp, el.fe.JxW qp • ((Bmem qp el.fe)ᵀ *
            (el.property.stiffness_A_matrix.value (el.fe.xyz qp) el.time * Bmem qp el.fe)
          + (Bbend el.bending_operator qp el.fe)ᵀ *
            (el.property.stiffness_D_matrix.value (el.fe.xyz qp) el.time
              * Bbend el.bending_operator qp el.fe))) a b) :=
  linear_plate_local_jac el hb hv hB hs f jac

end StructuralElement2D

theorem internal_residual_linear_plate_jacobian_witness :
    tri3_plate_elem.property.bending_model_is_active = true ∧
    tri3_plate_elem.property.strain_type_is_von_karman = false ∧
    (∀ qp, tri3_plate_elem.property.stiffness_B_matrix.value (tri3_plate_elem.fe.xyz qp)
      tri3_plate_elem.time = 0) ∧
    tri3_plate_elem.bending_operator.include_transverse_shear_energy = false ∧
    (tri3_plate_elem.internal_residual true 0 0).jac
      = 0 + tri3_plate_elem.transform_matrix_to_global_system
          (tri3_plate_elem.internal_residual true 0 0).local_jac :=
  ⟨rfl, rfl, fun _ => rfl, rfl,
    (StructuralElement2D.internal_residual_linear_plate_jacobian tri3_plate_elem rfl rfl
      (fun _ => rfl) rfl 0 0).1⟩

/-- C5 (counterexample): on the linear plate triangle (bending, no von Karman, `B = 0`,
one quadrature point with `JxW = 1`, one non-zero transverse DOF) the Jacobian returned by
`internal_residual` is not `Bbend^T D Bbend`: its entry for the `u` DOF of the second
node is `1`, the membrane stiffness, where `Bbend^T D Bbend` has `0`. -/
theorem internal_residual_jacobian_has_membrane_block :
    (tri3_plate_elem.internal_residual true 0 0).jac (dof 0 1) (dof 0 1) = 1 ∧
    ((Bbend tri3_plate_elem.bending_operator 0 tri3_plate_elem.fe)ᵀ *
      (tri3_plate_elem.property.stiffness_D_matrix.value (tri3_plate_elem.fe.xyz 0)
        tri3_plate_elem.time * Bbend tri3_plate_elem.bending_operator 0 tri3_plate_elem.fe))
      (dof 0 1) (dof 0 1) = 0 ∧
    (tri3_plate_elem.internal_residual true 0 0).jac
      ≠ (Bbend tri3_plate_elem.bending_operator 0 tri3_plate_elem.fe)ᵀ *
      (tri3_plate_elem.property.stiffness_D_matrix.value (tri3_plate_elem.fe.xyz 0)
        tri3_plate_elem.time * Bbend tri3_plate_elem.bending_operator 0 tri3_plate_elem.fe) := by
  have h1 : (tri3_plate_elem.internal_residual true 0 0).jac (dof 0 1) (dof 0 1) = 1 := by
    have hj := (StructuralElement2D.linear_plate_local_jac tri3_plate_elem rfl rfl
      (fun _ => rfl) rfl 0 0)
    rw [hj.1, StructuralElement2D.transform_matrix_to_global_system]
    have hT : tri3_plate_elem.T_global = 1 := rfl
    rw [hT, Matrix.one_mul, Matrix.transpose_one, Matrix.mul_one, zero_add, hj.2]
    have hne : ¬ (tri3_plate_elem.elem_dim = 2 ∧ (dof 0 1 : Fin (6 * 3)) = dof 0 1 ∧
        ∃ i : Fin 3, (dof 0 1 : Fin (6 * 3)) = dof 5 i) := by decide
    rw [if_neg hne]
    simp [Matrix.mul_apply, Matrix.add_apply, Fin.sum_univ_three, Bmem_apply, Bbend_apply,
      tri3_plate_elem, tri3_elem, tri3_fe, tri3_property, tri3_bending_operator,
      FieldFunction.const, initialize_direct_strain_operator,
      FEMOperatorMatrix.set_shape_function, FEMOperatorMatrix.reinit]
  have h2 : ((Bbend tri3_plate_elem.bending_operator 0 tri3_plate_elem.fe)ᵀ *
      (tri3_plate_elem.property.stiffness_D_matrix.value (tri3_plate_elem.fe.xyz 0)
        tri3_plate_elem.time * Bbend tri3_plate_elem.bending_operator 0 tri3_plate_elem.fe))
      (dof 0 1) (dof 0 1) = 0 := by
    simp [Matrix.mul_apply, Fin.sum_univ_three, Bbend_apply,
      tri3_plate_elem, tri3_elem, tri3_fe, tri3_property, tri3_bending_operator,
      FieldFunction.const, FEMOperatorMatrix.set_shape_function, FEMOperatorMatrix.reinit]
  refine ⟨h1, h2, fun h => ?_⟩
  rw [h, h2] at h1
  exact zero_ne_one h1


theorem Bvk_drilling (qp : Fin nqp) (fe : FEBase R n nqp) (r : Fin 2) (i : Fin n) :
    Bvk qp fe r (dof 5 i) = 0 := by
  rw [Bvk, FEMOperatorMatrix.toMatrix_dof]
  fin_cases r <;>
    simp [initialize_von_karman_strain_operator, FEMOperatorMatrix.set_shape_function,
      FEMOperatorMatrix.reinit]

theorem transpose_mul_apply_of_col_zero {k N : ℕ} (X : Matrix (Fin k) (Fin N) R)
    (M : Matrix (Fin k) (Fin N) R) (a b : Fin N) (h : ∀ r, X r a = 0) :
    (Xᵀ * M) a b = 0 := by
  simp [Matrix.mul_apply, h]

theorem kernel_tangent_drilling {ι : Type} (qp : Fin nqp) (fe : FEBase R n nqp)
    (bo : BendingOperator2D R ι n) (b v : Bool) (A B D : Matrix (Fin 3) (Fin 3) R)
    (u : Fin (6 * n) → R) (i : Fin n) (hb : ∀ r, Bbend bo qp fe r (dof 5 i) = 0) :
    kernel_tangent qp fe bo b v A B D u (dof 5 i) (dof 5 i) = 0 := by
  have hm := fun M => transpose_mul_apply_of_col_zero (Bmem qp fe) M (dof 5 i) (dof 5 i)
    (fun r => Bmem_drilling qp fe r i)
  have hv := fun M => transpose_mul_apply_of_col_zero (Bvk qp fe) M (dof 5 i) (dof 5 i)
    (fun r => Bvk_drilling qp fe r i)
  have hbb := fun M => transpose_mul_apply_of_col_zero (Bbend bo qp fe) M (dof 5 i) (dof 5 i) hb
  cases b <;> cases v <;>
    simp only [kernel_tangent, ite_true_eq_true, ite_false_eq_true, Bool.false_eq_true,
      if_false, if_true, Matrix.add_apply, hm, hv, hbb, add_zero]

namespace StructuralElement2D
variable {ι : Type}

theorem internal_residual_sensitivity_eq (el : StructuralElement2D R ι n nqp)
    (p : FunctionBase ι) (hp : p.is_shape_parameter = false)
    (hd : el.property.depends_on p = true) (rj : Bool)
    (f : Fin (6 * n) → R) (jac : Matrix (Fin (6 * n)) (Fin (6 * n)) R) :
    el.internal_residual_sensitivity p rj f jac
      = some ⟨rj, f + el.transform_vector_to_global_system
            (el.internal_residual_sensitivity_local p rj).1,
          if rj then jac + el.transform_matrix_to_global_system
            (el.internal_residual_sensitivity_local p rj).2 else jac,
          (el.internal_residual_sensitivity_local p rj).1,
          (el.internal_residual_sensitivity_local p rj).2⟩ := by
  dsimp only [internal_residual_sensitivity, internal_residual_sensitivity_local, Id.run,
    Id.pure_eq, Id.bind_eq, bind, pure]
  simp only [hp, hd, Bool.false_eq_true, if_false, Bool.or_true, Bool.false_or, Bool.not_true]
  split_ifs <;> rfl

end StructuralElement2D

namespace StructuralElement2D
variable {ι : Type}

end StructuralElement2D

namespace StructuralElement2D
variable {ι : Type}

theorem sensitivity_local_drilling (el : StructuralElement2D R ι n nqp) (p : FunctionBase ι)
    (hs : (el.property.bending_model_is_active
      && el.bending_operator.include_transverse_shear_energy) = false) (rj : Bool)
    (hdr : ∀ qp r i, Bbend el.bending_operator qp el.fe r (dof 5 i) = 0) (i : Fin n) :
    (el.internal_residual_sensitivity_local p rj).2 (dof 5 i) (dof 5 i) = 0 := by
  obtain ⟨-, j1⟩ := kernel_quadrature_loop_eq el rj (el.property.stiffness_A_matrix.derivative p)
    (el.property.stiffness_B_matrix.derivative p) (el.property.stiffness_D_matrix.derivative p)
  simp only [internal_residual_sensitivity_local, hs, Bool.false_eq_true, if_false, j1]
  cases rj
  · simp
  · simp only [if_true, Matrix.sum_apply, Matrix.smul_apply]
    refine Finset.sum_eq_zero (fun qp _ => ?_)
    rw [kernel_tangent_drilling _ _ _ _ _ _ _ _ _ _ (fun r => hdr qp r i), smul_zero]

end StructuralElement2D

namespace StructuralElement2D
variable {ι : Type}

end StructuralElement2D

theorem vk_W_mulVec_entries (g g' : Fin 2 → R) :
    ![vk_W g 0 0 * vk_W g' 0 0, vk_W g 1 1 * vk_W g' 1 1,
      vk_W g 0 0 * vk_W g' 1 1 + vk_W g 1 1 * vk_W g' 0 0] = vk_W g *ᵥ g' := by
  ext i
  fin_cases i <;>
    simp [vk_W, Matrix.mulVec, Matrix.dotProduct, Fin.sum_univ_succ, add_comm]

theorem kernel_tangent_add_smul [CharZero R] {ι : Type} (qp : Fin nqp) (fe : FEBase R n nqp)
    (bo : BendingOperator2D R ι n) (A B D : Matrix (Fin 3) (Fin 3) R)
    (u v : Fin (6 * n) → R) (t : R) :
    kernel_tangent qp fe bo true true A B D (u + t • v)
      = kernel_tangent qp fe bo true true A B D u + t • jac_dot_tangent qp fe bo A B u v
        + t ^ 2 • ((Bvk qp fe)ᵀ * (stress_of_vec (A *ᵥ vk_e (dwdxi qp fe v)) * Bvk qp fe)
            + (Bvk qp fe)ᵀ * ((vk_W (dwdxi qp fe v))ᵀ * A * (vk_W (dwdxi qp fe v) * Bvk qp fe))) := by
  dsimp only [kernel_tangent, kernel_stress, jac_dot_tangent, ite_true_eq_true]
  simp only [dwdxi_add_smul, vk_e_add_smul, vk_W_add_smul, Matrix.mulVec_add, Matrix.mulVec_smul,
    Matrix.transpose_add, Matrix.transpose_smul, Matrix.add_mul, Matrix.mul_add,
    Matrix.smul_mul, Matrix.mul_smul, ← stress_of_vec_add, stress_of_vec_smul]
  module

namespace StructuralElement2D
variable {ι : Type}

theorem jac_dot_state_point_eq (el : StructuralElement2D R ι n nqp)
    (hb : el.property.bending_model_is_active = true)
    (hv : el.property.strain_type_is_von_karman = true)
    (buf : JacDotBuffers R n) (qp : Fin nqp) (h : buf.clean) :
    (jac_dot_state_point el buf qp).clean ∧
    (jac_dot_state_point el buf qp).local_jac
      = buf.local_jac + el.fe.JxW qp • jac_dot_tangent qp el.fe el.bending_operator
          (el.property.stiffness_A_matrix.value (el.fe.xyz qp) el.time)
          (el.property.stiffness_B_matrix.value (el.fe.xyz qp) el.time)
          el.local_sol el.local_sol_sens := by
  have hm := initialize_direct_strain_operator_of_clean qp el.fe buf.Bmat_mem h.1
  have hk := fun s => vk_Bmat_of_clean el.local_sol qp el.fe s buf.vk_dwdxi_mat buf.Bmat_vk h.2
  have hmc := initialize_direct_strain_operator_clean qp el.fe buf.Bmat_mem h.1
  have hkc := fun s => vk_Bmat_clean el.local_sol qp el.fe s buf.vk_dwdxi_mat buf.Bmat_vk h.2
  dsimp only [jac_dot_state_point, Id.run, Id.pure_eq, Id.bind_eq, bind, pure,
    FEMOperatorMatrix.vector_mult, FEMOperatorMatrix.vector_mult_transpose,
    FEMOperatorMatrix.left_multiply, FEMOperatorMatrix.right_multiply_transpose,
    jac_dot_tangent, Bmem, Bvk, Bbend]
  rw [hb, hv]
  dsimp only [ite_true_eq_true]
  constructor
  · exact ⟨hmc, hkc ((el.bending_operator.initialize_bending_strain_operator el.fe qp).toMatrix *ᵥ
      el.local_sol_sens)⟩
  simp only [vk_dwdxi_mat_eq, vk_sens_eq, hm, hk, vk_W_mulVec_entries, smul_add, add_assoc,
    Bvk_mulVec]


theorem jac_dot_local_jac (el : StructuralElement2D R ι n nqp)
    (hb : el.property.bending_model_is_active = true)
    (hv : el.property.strain_type_is_von_karman = true)
    (jac : Matrix (Fin (6 * n)) (Fin (6 * n)) R) :
    el.internal_residual_jac_dot_state_sensitivity jac
      = ⟨true, 0, jac + el.transform_matrix_to_global_system
          (∑ qp, el.fe.JxW qp • jac_dot_tangent qp el.fe el.bending_operator
            (el.property.stiffness_A_matrix.value (el.fe.xyz qp) el.time)
            (el.property.stiffness_B_matrix.value (el.fe.xyz qp) el.time)
            el.local_sol el.local_sol_sens), 0,
          ∑ qp, el.fe.JxW qp • jac_dot_tangent qp el.fe el.bending_operator
            (el.property.stiffness_A_matrix.value (el.fe.xyz qp) el.time)
            (el.property.stiffness_B_matrix.value (el.fe.xyz qp) el.time)
            el.local_sol el.local_sol_sens⟩ := by
  have key := foldl_accumulate (fun buf : JacDotBuffers R n => buf.local_jac)
    JacDotBuffers.clean (jac_dot_state_point el)
    (fun qp => el.fe.JxW qp • jac_dot_tangent qp el.fe el.bending_operator
            (el.property.stiffness_A_matrix.value (el.fe.xyz qp) el.time)
            (el.property.stiffness_B_matrix.value (el.fe.xyz qp) el.time)
            el.local_sol el.local_sol_sens)
    (fun s i hs => (jac_dot_state_point_eq el hb hv s i hs).1)
    (fun s i hs => (jac_dot_state_point_eq el hb hv s i hs).2)
    ⟨0, FEMOperatorMatrix.reinit 3 6 n, FEMOperatorMatrix.reinit 3 6 n,
      FEMOperatorMatrix.reinit 2 6 n, 0, 0⟩ ⟨mem_clean_reinit, vk_clean_reinit⟩
  have h2 := key.2
  dsimp only at h2
  rw [zero_add] at h2
  dsimp only [internal_residual_jac_dot_state_sensitivity, Id.run, Id.pure_eq, Id.bind_eq, bind,
    pure]
  rw [hv, h2]
  rfl

/-- C7: with bending and von Karman strain both active,
`internal_residual_jac_dot_state_sensitivity` returns `true`, adds to `jac` the transform
of its local matrix, and that local matrix is the coefficient of `t` in
`Jac(u + t v) - Jac(u)`, where `Jac` is the local tangent the quadrature loop of
`internal_residual` sums with the weights `JxW` from `_internal_residual_operation`, `u`
is the local solution and `v` the local sensitivity vector: the tangent at `u + t v` is
the tangent at `u` plus `t` times the local matrix plus `t^2` times a matrix that does
not depend on `t`. -/
theorem internal_residual_jac_dot_state_sensitivity_is_directional_derivative [CharZero R]
    (el : StructuralElement2D R ι n nqp)
    (hb : el.property.bending_model_is_active = true)
    (hv : el.property.strain_type_is_von_karman = true)
    (jac : Matrix (Fin (6 * n)) (Fin (6 * n)) R) :
    (el.internal_residual_jac_dot_state_sensitivity jac).ret = true ∧
    (el.internal_residual_jac_dot_state_sensitivity jac).jac
      = jac + el.transform_matrix_to_global_system
          (el.internal_residual_jac_dot_state_sensitivity jac).local_jac ∧
    ∃ M2 : Matrix (Fin (6 * n)) (Fin (6 * n)) R, ∀ t : R,
      (kernel_quadrature_loop { el with local_sol := el.local_sol + t • el.local_sol_sens } true
          el.property.stiffness_A_matrix.value el.property.stiffness_B_matrix.value
          el.property.stiffness_D_matrix.value).local_jac
        = (kernel_quadrature_loop el true el.property.stiffness_A_matrix.value
            el.property.stiffness_B_matrix.value el.property.stiffness_D_matrix.value).local_jac
          + t • (el.internal_residual_jac_dot_state_sensitivity jac).local_jac + t ^ 2 • M2 := by
  rw [jac_dot_local_jac el hb hv jac]
  refine ⟨rfl, rfl, ∑ qp, el.fe.JxW qp •
    ((Bvk qp el.fe)ᵀ * (stress_of_vec (el.property.stiffness_A_matrix.value (el.fe.xyz qp) el.time
          *ᵥ vk_e (dwdxi qp el.fe el.local_sol_sens)) * Bvk qp el.fe)
      + (Bvk qp el.fe)ᵀ * ((vk_W (dwdxi qp el.fe el.local_sol_sens))ᵀ
          * el.property.stiffness_A_matrix.value (el.fe.xyz qp) el.time
          * (vk_W (dwdxi qp el.fe el.local_sol_sens) * Bvk qp el.fe))), ?_⟩
  intro t
  rw [(kernel_quadrature_loop_eq _ true _ _ _).2, (kernel_quadrature_loop_eq el true _ _ _).2]
  dsimp only
  rw [hb, hv]
  simp only [if_true, kernel_tangent_add_smul, smul_add, Finset.sum_add_distrib,
    Finset.smul_sum]
  congr 2 <;> exact Finset.sum_congr rfl (fun qp _ => smul_comm _ _ _)

end StructuralElement2D

theorem internal_residual_jac_dot_state_sensitivity_is_directional_derivative_witness :
    tri3_elem.property.bending_model_is_active = true ∧
    tri3_elem.property.strain_type_is_von_karman = true ∧
    (tri3_elem.internal_residual_jac_dot_state_sensitivity 0).ret = true ∧
    (tri3_elem.internal_residual_jac_dot_state_sensitivity 0).jac
      = 0 + tri3_elem.transform_matrix_to_global_system
          (tri3_elem.internal_residual_jac_dot_state_sensitivity 0).local_jac :=
  ⟨rfl, rfl,
    (StructuralElement2D.internal_residual_jac_dot_state_sensitivity_is_directional_derivative
      tri3_elem rfl rfl 0).1,
    (StructuralElement2D.internal_residual_jac_dot_state_sensitivity_is_directional_derivative
      tri3_elem rfl rfl 0).2.1⟩


theorem thermal_force_add_smul {ι : Type} (qp : Fin nqp) (fe : FEBase R n nqp)
    (bo : BendingOperator2D R ι n) (b v : Bool) (u : Fin (6 * n) → R)
    (c : R) (a a' s s' : Fin 3 → R) :
    thermal_force qp fe bo b v u (c • a + a') (c • s + s')
      = c • thermal_force qp fe bo b v u a s + thermal_force qp fe bo b v u a' s' := by
  cases b <;> cases v <;>
  · dsimp only [thermal_force, ite_true_eq_true, ite_false_eq_true]
    simp only [Matrix.mulVec_add, Matrix.mulVec_smul]
    try module

theorem thermal_force_zero {ι : Type} (qp : Fin nqp) (fe : FEBase R n nqp)
    (bo : BendingOperator2D R ι n) (b v : Bool) (u : Fin (6 * n) → R) :
    thermal_force qp fe bo b v u 0 0 = 0 := by
  cases b <;> cases v <;> simp [thermal_force]

theorem mulVec_single_add_smul {k : ℕ} (M : Matrix (Fin k) (Fin 1) R) (c d d' : R) :
    M *ᵥ ![c * d + d'] = c • (M *ᵥ ![d]) + M *ᵥ ![d'] := by
  rw [← Matrix.mulVec_smul, ← Matrix.mulVec_add]
  congr 1

theorem mulVec_single_zero {k : ℕ} (M : Matrix (Fin k) (Fin 1) R) :
    M *ᵥ ![(0 : R)] = 0 := by
  have : ![(0 : R)] = 0 := by ext i; fin_cases i; rfl
  rw [this, Matrix.mulVec_zero]

namespace StructuralElement2D
variable {ι : Type}

theorem thermal_residual_point_eq (el : StructuralElement2D R ι n nqp) (rj : Bool)
    (bc : ThermalBoundaryCondition R ι) (buf : KernelBuffers R n) (qp : Fin nqp)
    (h : buf.clean) :
    (thermal_residual_point el rj bc buf qp).clean ∧
    ((thermal_residual_point el rj bc buf qp).local_f,
      (thermal_residual_point el rj bc buf qp).local_jac)
      = (buf.local_f, buf.local_jac)
        + (el.fe.JxW qp • thermal_force qp el.fe el.bending_operator
            el.property.bending_model_is_active el.property.strain_type_is_von_karman
            el.local_sol
            (el.property.thermal_expansion_A_matrix.value (el.fe.xyz qp) el.time *ᵥ
              ![bc.temperature.value (el.fe.xyz qp) el.time
                - bc.ref_temperature.value (el.fe.xyz qp) el.time])
            (el.property.thermal_expansion_B_matrix.value (el.fe.xyz qp) el.time *ᵥ
              ![bc.temperature.value (el.fe.xyz qp) el.time
                - bc.ref_temperature.value (el.fe.xyz qp) el.time]),
          el.fe.JxW qp • vk_stress_tangent qp el.fe el.property.bending_model_is_active
            el.property.strain_type_is_von_karman rj
            (el.property.thermal_expansion_A_matrix.value (el.fe.xyz qp) el.time *ᵥ
              ![bc.temperature.value (el.fe.xyz qp) el.time
                - bc.ref_temperature.value (el.fe.xyz qp) el.time])) := by
  have hm := initialize_direct_strain_operator_of_clean qp el.fe buf.Bmat_mem h.1
  have hk := fun s => vk_Bmat_of_clean el.local_sol qp el.fe s buf.vk_dwdxi_mat buf.Bmat_vk h.2
  have hmc := initialize_direct_strain_operator_clean qp el.fe buf.Bmat_mem h.1
  have hkc := fun s => vk_Bmat_clean el.local_sol qp el.fe s buf.vk_dwdxi_mat buf.Bmat_vk h.2
  have h2 := h.2
  generalize hb : el.property.bending_model_is_active = b
  generalize hv : el.property.strain_type_is_von_karman = v
  cases b <;> cases v <;> cases rj <;>
  · dsimp only [thermal_residual_point, Id.run, Id.pure_eq, Id.bind_eq, bind, pure,
      FEMOperatorMatrix.vector_mult, FEMOperatorMatrix.vector_mult_transpose,
      FEMOperatorMatrix.left_multiply, FEMOperatorMatrix.right_multiply_transpose,
      thermal_force, vk_stress_tangent, Bmem, Bvk, Bbend]
    rw [hb, hv]
    dsimp only [ite_true_eq_true, ite_false_eq_true, Bool.and_true, Bool.and_false,
      Bool.true_and, Bool.false_and]
    constructor
    · constructor
      · exact hmc
      · first | exact h2 | exact hkc 0
    · simp only [hm, hk, vk_dwdxi_mat_eq, Prod.mk_add_mk, smul_add, add_assoc, smul_zero,
        add_zero, Bool.and_self, Bool.and_true, Bool.and_false, Bool.false_eq_true, if_false,
        if_true]

theorem thermal_residual_sensitivity_point_eq (el : StructuralElement2D R ι n nqp)
    (p : FunctionBase ι) (rj : Bool)
    (bc : ThermalBoundaryCondition R ι) (buf : KernelBuffers R n) (qp : Fin nqp)
    (h : buf.clean) :
    (thermal_residual_sensitivity_point el p rj bc buf qp).clean ∧
    ((thermal_residual_sensitivity_point el p rj bc buf qp).local_f,
      (thermal_residual_sensitivity_point el p rj bc buf qp).local_jac)
      = (buf.local_f, buf.local_jac)
        + (el.fe.JxW qp • thermal_force qp el.fe el.bending_operator
            el.property.bending_model_is_active el.property.strain_type_is_von_karman
            el.local_sol
            (el.property.thermal_expansion_A_matrix.value (el.fe.xyz qp) el.time *ᵥ
                ![bc.temperature.derivative p (el.fe.xyz qp) el.time]
              + el.property.thermal_expansion_A_matrix.derivative p (el.fe.xyz qp) el.time *ᵥ
                ![bc.temperature.value (el.fe.xyz qp) el.time
                  - bc.ref_temperature.value (el.fe.xyz qp) el.time])
            (el.property.thermal_expansion_B_matrix.value (el.fe.xyz qp) el.time *ᵥ
                ![bc.temperature.derivative p (el.fe.xyz qp) el.time]
              + el.property.thermal_expansion_B_matrix.derivative p (el.fe.xyz qp) el.time *ᵥ
                ![bc.temperature.value (el.fe.xyz qp) el.time
                  - bc.ref_temperature.value (el.fe.xyz qp) el.time]),
          el.fe.JxW qp • vk_stress_tangent qp el.fe el.property.bending_model_is_active
            el.property.strain_type_is_von_karman rj
            (el.property.thermal_expansion_A_matrix.value (el.fe.xyz qp) el.time *ᵥ
                ![bc.temperature.derivative p (el.fe.xyz qp) el.time]
              + el.property.thermal_expansion_A_matrix.derivative p (el.fe.xyz qp) el.time *ᵥ
                ![bc.temperature.value (el.fe.xyz qp) el.time
                  - bc.ref_temperature.value (el.fe.xyz qp) el.time])) := by
  have hm := initialize_direct_strain_operator_of_clean qp el.fe buf.Bmat_mem h.1
  have hk := fun s => vk_Bmat_of_clean el.local_sol qp el.fe s buf.vk_dwdxi_mat buf.Bmat_vk h.2
  have hmc := initialize_direct_strain_operator_clean qp el.fe buf.Bmat_mem h.1
  have hkc := fun s => vk_Bmat_clean el.local_sol qp el.fe s buf.vk_dwdxi_mat buf.Bmat_vk h.2
  have h2 := h.2
  generalize hb : el.property.bending_model_is_active = b
  generalize hv : el.property.strain_type_is_von_karman = v
  cases b <;> cases v <;> cases rj <;>
  · dsimp only [thermal_residual_sensitivity_point, Id.run, Id.pure_eq, Id.bind_eq, bind, pure,
      FEMOperatorMatrix.vector_mult, FEMOperatorMatrix.vector_mult_transpose,
      FEMOperatorMatrix.left_multiply, FEMOperatorMatrix.right_multiply_transpose,
      thermal_force, vk_stress_tangent, Bmem, Bvk, Bbend]
    rw [hb, hv]
    dsimp only [ite_true_eq_true, ite_false_eq_true, Bool.and_true, Bool.and_false,
      Bool.true_and, Bool.false_and]
    constructor
    · constructor
      · exact hmc
      · first | exact h2 | exact hkc 0
    · simp only [hm, hk, vk_dwdxi_mat_eq, Prod.mk_add_mk, smul_add, add_assoc, smul_zero,
        add_zero, Bool.and_self, Bool.and_true, Bool.and_false, Bool.false_eq_true, if_false,
        if_true]

theorem thermal_residual_eq (el : StructuralElement2D R ι n nqp) (rj : Bool)
    (f : Fin (6 * n) → R) (jac : Matrix (Fin (6 * n)) (Fin (6 * n)) R)
    (bc : ThermalBoundaryCondition R ι) :
    el.thermal_residual rj f jac bc
      = ⟨rj,
          f - el.transform_vector_to_global_system
            (∑ qp, el.fe.JxW qp • thermal_force qp el.fe el.bending_operator
              el.property.bending_model_is_active el.property.strain_type_is_von_karman
              el.local_sol
              (el.property.thermal_expansion_A_matrix.value (el.fe.xyz qp) el.time *ᵥ
                ![bc.temperature.value (el.fe.xyz qp) el.time
                  - bc.ref_temperature.value (el.fe.xyz qp) el.time])
              (el.property.thermal_expansion_B_matrix.value (el.fe.xyz qp) el.time *ᵥ
                ![bc.temperature.value (el.fe.xyz qp) el.time
                  - bc.ref_temperature.value (el.fe.xyz qp) el.time])),
          if (rj && el.property.strain_type_is_von_karman) = true then
            jac - el.transform_matrix_to_global_system
              (∑ qp, el.fe.JxW qp • vk_stress_tangent qp el.fe
                el.property.bending_model_is_active el.property.strain_type_is_von_karman rj
                (el.property.thermal_expansion_A_matrix.value (el.fe.xyz qp) el.time *ᵥ
                  ![bc.temperature.value (el.fe.xyz qp) el.time
                    - bc.ref_temperature.value (el.fe.xyz qp) el.time]))
          else jac,
          ∑ qp, el.fe.JxW qp • thermal_force qp el.fe el.bending_operator
              el.property.bending_model_is_active el.property.strain_type_is_von_karman
              el.local_sol
              (el.property.thermal_expansion_A_matrix.value (el.fe.xyz qp) el.time *ᵥ
                ![bc.temperature.value (el.fe.xyz qp) el.time
                  - bc.ref_temperature.value (el.fe.xyz qp) el.time])
              (el.property.thermal_expansion_B_matrix.value (el.fe.xyz qp) el.time *ᵥ
                ![bc.temperature.value (el.fe.xyz qp) el.time
                  - bc.ref_temperature.value (el.fe.xyz qp) el.time]),
          ∑ qp, el.fe.JxW qp • vk_stress_tangent qp el.fe
                el.property.bending_model_is_active el.property.strain_type_is_von_karman rj
                (el.property.thermal_expansion_A_matrix.value (el.fe.xyz qp) el.time *ᵥ
                  ![bc.temperature.value (el.fe.xyz qp) el.time
                    - bc.ref_temperature.value (el.fe.xyz qp) el.time])⟩ := by
  have key := foldl_accumulate
    (fun buf : KernelBuffers R n => (buf.local_f, buf.local_jac)) KernelBuffers.clean
    (thermal_residual_point el rj bc) _
    (fun s i hs => (thermal_residual_point_eq el rj bc s i hs).1)
    (fun s i hs => (thermal_residual_point_eq el rj bc s i hs).2)
    (fresh_buffers R n) fresh_buffers_clean
  have h2 := key.2
  dsimp only at h2
  have hz : ((fresh_buffers R n).local_f, (fresh_buffers R n).local_jac) = 0 := rfl
  rw [hz, zero_add] at h2
  have h1 := congrArg Prod.fst h2
  have h3 := congrArg Prod.snd h2
  rw [Prod.fst_sum] at h1
  rw [Prod.snd_sum] at h3
  dsimp only at h1 h3
  dsimp only [thermal_residual, Id.run, Id.pure_eq, Id.bind_eq, bind, pure]
  rw [h1, h3]
  split_ifs <;> rfl

theorem thermal_residual_sensitivity_eq (el : StructuralElement2D R ι n nqp)
    (p : FunctionBase ι) (rj : Bool)
    (f : Fin (6 * n) → R) (jac : Matrix (Fin (6 * n)) (Fin (6 * n)) R)
    (bc : ThermalBoundaryCondition R ι) :
    (el.thermal_residual_sensitivity p rj f jac bc).f
      = f - el.transform_vector_to_global_system
            (∑ qp, el.fe.JxW qp • thermal_force qp el.fe el.bending_operator
              el.property.bending_model_is_active el.property.strain_type_is_von_karman
              el.local_sol
              (el.property.thermal_expansion_A_matrix.value (el.fe.xyz qp) el.time *ᵥ
                  ![bc.temperature.derivative p (el.fe.xyz qp) el.time]
                + el.property.thermal_expansion_A_matrix.derivative p (el.fe.xyz qp) el.time *ᵥ
                  ![bc.temperature.value (el.fe.xyz qp) el.time
                    - bc.ref_temperature.value (el.fe.xyz qp) el.time])
              (el.property.thermal_expansion_B_matrix.value (el.fe.xyz qp) el.time *ᵥ
                  ![bc.temperature.derivative p (el.fe.xyz qp) el.time]
                + el.property.thermal_expansion_B_matrix.derivative p (el.fe.xyz qp) el.time *ᵥ
                  ![bc.temperature.value (el.fe.xyz qp) el.time
                    - bc.ref_temperature.value (el.fe.xyz qp) el.time])) := by
  have key := foldl_accumulate
    (fun buf : KernelBuffers R n => (buf.local_f, buf.local_jac)) KernelBuffers.clean
    (thermal_residual_sensitivity_point el p rj bc) _
    (fun s i hs => (thermal_residual_sensitivity_point_eq el p rj bc s i hs).1)
    (fun s i hs => (thermal_residual_sensitivity_point_eq el p rj bc s i hs).2)
    (fresh_buffers R n) fresh_buffers_clean
  have h2 := key.2
  dsimp only at h2
  have hz : ((fresh_buffers R n).local_f, (fresh_buffers R n).local_jac) = 0 := rfl
  rw [hz, zero_add] at h2
  have h1 := congrArg Prod.fst h2
  rw [Prod.fst_sum] at h1
  dsimp only at h1
  dsimp only [thermal_residual_sensitivity, Id.run, Id.pure_eq, Id.bind_eq, bind, pure]
  rw [h1]
  split_ifs <;> rfl


/-- C8: `thermal_residual` subtracts from `f` the transform of
`sum_qp JxW[qp] (Bmem^T s_A + [bending] Bbend^T s_B
  + [bending and von Karman] Bvk^T vk_dwdxi_mat^T s_A)` with `s_A = A_exp (T - T_ref)` and
`s_B = B_exp (T - T_ref)` at the quadrature point; the contribution of a point is linear
in `T - T_ref`; and `f` is returned unchanged when `T = T_ref` at every quadrature
point. -/
theorem thermal_residual_subtracts_thermal_force (el : StructuralElement2D R ι n nqp)
    (request_jacobian : Bool) (f : Fin (6 * n) → R)
    (jac : Matrix (Fin (6 * n)) (Fin (6 * n)) R) (bc : ThermalBoundaryCondition R ι) :
    (el.thermal_residual request_jacobian f jac bc).f
      = f - el.transform_vector_to_global_system
          (∑ qp, el.fe.JxW qp • thermal_force qp el.fe el.bending_operator
            el.property.bending_model_is_active el.property.strain_type_is_von_karman
            el.local_sol
            (el.property.thermal_expansion_A_matrix.value (el.fe.xyz qp) el.time *ᵥ
              ![bc.temperature.value (el.fe.xyz qp) el.time
                - bc.ref_temperature.value (el.fe.xyz qp) el.time])
            (el.property.thermal_expansion_B_matrix.value (el.fe.xyz qp) el.time *ᵥ
              ![bc.temperature.value (el.fe.xyz qp) el.time
                - bc.ref_temperature.value (el.fe.xyz qp) el.time])) ∧
    (∀ (qp : Fin nqp) (c d d' : R),
      thermal_force qp el.fe el.bending_operator
          el.property.bending_model_is_active el.property.strain_type_is_von_karman el.local_sol
          (el.property.thermal_expansion_A_matrix.value (el.fe.xyz qp) el.time *ᵥ ![c * d + d'])
          (el.property.thermal_expansion_B_matrix.value (el.fe.xyz qp) el.time *ᵥ ![c * d + d'])
        = c • thermal_force qp el.fe el.bending_operator
            el.property.bending_model_is_active el.property.strain_type_is_von_karman
            el.local_sol
            (el.property.thermal_expansion_A_matrix.value (el.fe.xyz qp) el.time *ᵥ ![d])
            (el.property.thermal_expansion_B_matrix.value (el.fe.xyz qp) el.time *ᵥ ![d])
          + thermal_force qp el.fe el.bending_operator
            el.property.bending_model_is_active el.property.strain_type_is_von_karman
            el.local_sol
            (el.property.thermal_expansion_A_matrix.value (el.fe.xyz qp) el.time *ᵥ ![d'])
            (el.property.thermal_expansion_B_matrix.value (el.fe.xyz qp) el.time *ᵥ ![d'])) ∧
    ((∀ qp, bc.temperature.value (el.fe.xyz qp) el.time
        = bc.ref_temperature.value (el.fe.xyz qp) el.time) →
      (el.thermal_residual request_jacobian f jac bc).f = f) := by
  rw [thermal_residual_eq]
  refine ⟨rfl, ?_, ?_⟩
  · intro qp c d d'
    rw [mulVec_single_add_smul, mulVec_single_add_smul, thermal_force_add_smul]
  · intro hT
    dsimp only
    simp only [hT, sub_self, mulVec_single_zero, thermal_force_zero, smul_zero,
      Finset.sum_const_zero, transform_vector_to_global_system, Matrix.mulVec_zero, sub_zero]

end StructuralElement2D

theorem Bvk_apply (qp : Fin nqp) (fe : FEBase R n nqp) (r : Fin 2) (v : Fin 6) (i : Fin n) :
    Bvk qp fe r (dof v i)
      = (initialize_von_karman_strain_operator (0 : Fin (6 * n) → R) qp fe 0 0
          (FEMOperatorMatrix.reinit 2 6 n)).Bmat_vk r v i := by
  rw [Bvk, FEMOperatorMatrix.toMatrix_dof]

/-- C9 (failing input): on the triangle with temperature `0` and a reference temperature
equal to the design parameter `s`, the force `thermal_residual` adds to the entry of the
`u` DOF of the second node is `s / 2`, so its derivative with respect to the parameter is
`1 / 2` (central difference `(F(s+h) - F(s-h)) / (2h) = 1/2` for every `h ≠ 0`), while
`thermal_residual_sensitivity` adds `0` there: the term `- A_exp dT_ref/dp` is missing. -/
theorem thermal_residual_sensitivity_ignores_ref_temperature :
    (∀ s : ℚ, (tri3_elem.thermal_residual false 0 0 (tri3_thermal_bc s)).f (dof 0 1) = s / 2) ∧
    (∀ s h : ℚ, h ≠ 0 →
      (2 * h)⁻¹ * ((tri3_elem.thermal_residual false 0 0 (tri3_thermal_bc (s + h))).f (dof 0 1)
        - (tri3_elem.thermal_residual false 0 0 (tri3_thermal_bc (s - h))).f (dof 0 1)) = 1 / 2) ∧
    (∀ s : ℚ, (tri3_elem.thermal_residual_sensitivity tri3_param false 0 0
      (tri3_thermal_bc s)).f = 0) := by
  have h1 : ∀ s : ℚ,
      (tri3_elem.thermal_residual false 0 0 (tri3_thermal_bc s)).f (dof 0 1) = s / 2 := by
    intro s
    rw [StructuralElement2D.thermal_residual_eq]
    have hT : tri3_elem.T_global = 1 := rfl
    dsimp only [StructuralElement2D.transform_vector_to_global_system]
    rw [hT, Matrix.one_mulVec]
    simp [thermal_force, Matrix.mulVec, Matrix.dotProduct, Fin.sum_univ_three, Bmem_apply,
      Matrix.mul_apply, vk_W, dwdxi, Fin.sum_univ_two,
      Bbend_apply, Bvk_apply,
      tri3_elem, tri3_fe, tri3_property, tri3_bending_operator, tri3_thermal_bc,
      FieldFunction.const, initialize_direct_strain_operator,
      initialize_von_karman_strain_operator,
      FEMOperatorMatrix.set_shape_function, FEMOperatorMatrix.reinit]
    ring
  refine ⟨h1, ?_, ?_⟩
  · intro s h hh
    rw [h1, h1]
    field_simp
    ring
  · intro s
    rw [StructuralElement2D.thermal_residual_sensitivity_eq]
    have hz : ∀ qp, (tri3_elem.property.thermal_expansion_A_matrix.value (tri3_elem.fe.xyz qp)
          tri3_elem.time *ᵥ ![(tri3_thermal_bc s).temperature.derivative tri3_param
            (tri3_elem.fe.xyz qp) tri3_elem.time]
        + tri3_elem.property.thermal_expansion_A_matrix.derivative tri3_param
          (tri3_elem.fe.xyz qp) tri3_elem.time *ᵥ
            ![(tri3_thermal_bc s).temperature.value (tri3_elem.fe.xyz qp) tri3_elem.time
              - (tri3_thermal_bc s).ref_temperature.value (tri3_elem.fe.xyz qp)
                  tri3_elem.time]) = 0 := by
      intro qp
      have d0 : tri3_elem.property.thermal_expansion_A_matrix.derivative tri3_param
          (tri3_elem.fe.xyz qp) tri3_elem.time = 0 := rfl
      have t0 : (tri3_thermal_bc s).temperature.derivative tri3_param
            (tri3_elem.fe.xyz qp) tri3_elem.time = 0 := rfl
      rw [d0, t0, mulVec_single_zero, Matrix.zero_mulVec, add_zero]
    have hzB : ∀ qp, (tri3_elem.property.thermal_expansion_B_matrix.value (tri3_elem.fe.xyz qp)
          tri3_elem.time *ᵥ ![(tri3_thermal_bc s).temperature.derivative tri3_param
            (tri3_elem.fe.xyz qp) tri3_elem.time]
        + tri3_elem.property.thermal_expansion_B_matrix.derivative tri3_param
          (tri3_elem.fe.xyz qp) tri3_elem.time *ᵥ
            ![(tri3_thermal_bc s).temperature.value (tri3_elem.fe.xyz qp) tri3_elem.time
              - (tri3_thermal_bc s).ref_temperature.value (tri3_elem.fe.xyz qp)
                  tri3_elem.time]) = 0 := by
      intro qp
      have d0 : tri3_elem.property.thermal_expansion_B_matrix.derivative tri3_param
          (tri3_elem.fe.xyz qp) tri3_elem.time = 0 := rfl
      have t0 : (tri3_thermal_bc s).temperature.derivative tri3_param
            (tri3_elem.fe.xyz qp) tri3_elem.time = 0 := rfl
      rw [d0, t0, mulVec_single_zero, Matrix.zero_mulVec, add_zero]
    simp only [hz, hzB, thermal_force_zero, smul_zero, Finset.sum_const_zero,
      StructuralElement2D.transform_vector_to_global_system, Matrix.mulVec_zero, sub_zero]


theorem foldl_one {σ : Type} (step : σ → Fin 1 → σ) (s0 : σ) : Fin.foldl 1 step s0 = step s0 0 := by
  simp [Fin.foldl_succ, Fin.foldl_zero]

theorem piston_y_term_zero (phi : Fin n → R) (dB : FEMOperatorMatrix R 2 6 n) (c : R) :
    ((FEMOperatorMatrix.reinit 2 6 n).set_shape_function 0 2 phi).right_multiply_transpose
      (dB.left_multiply (assign 0 1 1 c)) = 0 := by
  ext a b
  simp [FEMOperatorMatrix.right_multiply_transpose, FEMOperatorMatrix.left_multiply,
    Matrix.mul_apply, Fin.sum_univ_two, assign, FEMOperatorMatrix.toMatrix,
    FEMOperatorMatrix.set_shape_function, FEMOperatorMatrix.reinit]

/-- C10 (failing input): on the triangle with the flow along the local `y` axis
(`Vx = 0`, `Vy = 1`), the pressure `p(dwdx, dwdt) = dwdx` (so `dpdx = 1`, `dpdxdot = 0`)
and a solution whose only non-zero entry is `w = s` at the third node (`dw/dy = s`),
`piston_theory_residual` adds `s / 6` to the entry of `f` for the `w` DOF of the first
node, whose derivative with respect to `s` is `1 / 6`, but leaves `jac` equal to zero:
the `Vy * d/dy` slope term is missing from the displacement tangent. -/
theorem piston_theory_residual_jacobian_misses_vy_term (s : ℚ) :
    (tri3_w_elem s).local_sol (dof 2 2) = s ∧
    ∃ out, (tri3_w_elem s).piston_theory_residual true 0 0 0 tri3_piston_bc = some out ∧
      out.f (dof 2 0) = s / 6 ∧ out.jac = 0 := by
  refine ⟨by simp [tri3_w_elem, dof_val], ?_⟩
  have hT : (tri3_w_elem s).T_global = 1 := rfl
  have hTm : (tri3_w_elem s).Tmatrix = 1 := rfl
  have hd : (tri3_w_elem s).elem_dim = 2 := rfl
  refine ⟨_, rfl, ?_, ?_⟩
  · dsimp only [Option.get, StructuralElement2D.piston_theory_residual, ite_true_eq_true,
      Id.run, Id.pure_eq, Id.bind_eq, bind, pure,
      StructuralElement2D.transform_vector_to_global_system]
    rw [foldl_one, hT, Matrix.one_mulVec]
    dsimp only [StructuralElement2D.piston_theory_point, ite_true_eq_true,
      Id.run, Id.pure_eq, Id.bind_eq, bind, pure, FEMOperatorMatrix.vector_mult_transpose,
      FEMOperatorMatrix.right_multiply, FEMOperatorMatrix.vector_mult]
    rw [vk_dwdxi_mat_eq, hTm]
    simp [Matrix.mulVec, Matrix.dotProduct, Fin.sum_univ_three, Fin.sum_univ_two,
      FEMOperatorMatrix.toMatrix_dof, FEMOperatorMatrix.set_shape_function,
      FEMOperatorMatrix.reinit, tri3_piston_bc, vk_W, dwdxi, tri3_w_elem, tri3_elem, tri3_fe,
      dof_val, Function.update]
    ring
  · dsimp only [Option.get, StructuralElement2D.piston_theory_residual, ite_true_eq_true,
      Id.run, Id.pure_eq, Id.bind_eq, bind, pure,
      StructuralElement2D.transform_matrix_to_global_system]
    rw [foldl_one, hT, Matrix.one_mul, Matrix.transpose_one, Matrix.mul_one]
    dsimp only [StructuralElement2D.piston_theory_point, ite_true_eq_true,
      Id.run, Id.pure_eq, Id.bind_eq, bind, pure]
    rw [hTm, piston_y_term_zero]
    have hx : assign (0 : Matrix (Fin 2) (Fin 2) ℚ) 0 0
        (((1 : Matrix (Fin 3) (Fin 3) ℚ)ᵀ *ᵥ tri3_piston_bc.vel_vec) 0) = 0 := by
      ext i j
      simp [assign, Matrix.mulVec, Matrix.dotProduct, Fin.sum_univ_three, tri3_piston_bc]
    rw [hx]
    simp [FEMOperatorMatrix.left_multiply, FEMOperatorMatrix.right_multiply_transpose]


namespace StructuralElement2D
variable {ι : Type}

theorem internal_residual_penalty (el : StructuralElement2D R ι n nqp)
    (hd : el.elem_dim = 2) (f : Fin (6 * n) → R) (jac : Matrix (Fin (6 * n)) (Fin (6 * n)) R) :
    (el.internal_residual true f jac).jac
      = jac + el.transform_matrix_to_global_system (el.internal_residual true f jac).local_jac ∧
    (∀ a b, (el.internal_residual true f jac).local_jac a b
      = if a = b ∧ ∃ i : Fin n, a = dof 5 i then 1.0e-8
        else (el.internal_residual_local true).2 a b) := by
  rw [internal_residual_eq]
  simp only [if_true, hd, true_and]
  intro a b
  exact drilling_penalty_apply _ a b

/-- C15: for a non-shape parameter `p`, `internal_residual_sensitivity` returns; when the
property card does not depend on `p` it returns `false` and hands back `f` and `jac`
unchanged, for either value of `request_jacobian`; when the property card depends on `p`
it returns `request_jacobian`. -/
theorem internal_residual_sensitivity_early_return (el : StructuralElement2D R ι n nqp)
    (p : FunctionBase ι) (hp : p.is_shape_parameter = false)
    (request_jacobian : Bool) (f : Fin (6 * n) → R)
    (jac : Matrix (Fin (6 * n)) (Fin (6 * n)) R) :
    ∃ out, el.internal_residual_sensitivity p request_jacobian f jac = some out ∧
      (el.property.depends_on p = false → out.ret = false ∧ out.f = f ∧ out.jac = jac) ∧
      (el.property.depends_on p = true → out.ret = request_jacobian) := by
  cases hd : el.property.depends_on p
  · refine ⟨⟨false, f, jac, 0, 0⟩, ?_, fun _ => ⟨rfl, rfl, rfl⟩, fun h => Bool.noConfusion h⟩
    dsimp only [internal_residual_sensitivity, Id.run, Id.pure_eq, Id.bind_eq, bind, pure]
    rw [hp, hd]
    rfl
  · exact ⟨_, internal_residual_sensitivity_eq el p hp hd request_jacobian f jac,
      fun h => Bool.noConfusion h, fun _ => rfl⟩

/-- C16: when the strain type is not von Karman,
`internal_residual_jac_dot_state_sensitivity` returns `false` and hands back `jac`
unchanged, whatever the solution and the sensitivity vector are; and the local tangent
`_internal_residual_operation` accumulates for such an element is the same for any two
local DOF vectors. -/
theorem internal_residual_jac_dot_state_sensitivity_linear_element
    (el : StructuralElement2D R ι n nqp)
    (hv : el.property.strain_type_is_von_karman = false)
    (jac : Matrix (Fin (6 * n)) (Fin (6 * n)) R) :
    (∀ u v : Fin (6 * n) → R,
      ({ el with local_sol := u, local_sol_sens := v }
        : StructuralElement2D R ι n nqp).internal_residual_jac_dot_state_sensitivity jac
        = ⟨false, 0, jac, 0, 0⟩) ∧
    (∀ (u u' : Fin (6 * n) → R) (if_bending : Bool) (qp : Fin nqp) (fe : FEBase R n nqp)
        (JxW : Fin nqp → R) (request_jacobian : Bool) (buf : KernelBuffers R n)
        (A B D : Matrix (Fin 3) (Fin 3) R),
      (_internal_residual_operation u el.bending_operator if_bending
          el.property.strain_type_is_von_karman qp fe JxW request_jacobian buf A B D).local_jac
        = (_internal_residual_operation u' el.bending_operator if_bending
          el.property.strain_type_is_von_karman qp fe JxW request_jacobian buf
          A B D).local_jac) := by
  constructor
  · intro u v
    dsimp only [internal_residual_jac_dot_state_sensitivity, Id.run, Id.pure_eq, Id.bind_eq,
      bind, pure]
    rw [hv]
    rfl
  · intro u u' b qp fe JxW rj buf A B D
    rw [hv]
    cases b <;> cases rj <;>
    · dsimp only [_internal_residual_operation, Id.run, Id.pure_eq, Id.bind_eq, bind, pure,
        ite_true_eq_true, ite_false_eq_true]

end StructuralElement2D

theorem internal_residual_sensitivity_early_return_witness :
    tri3_param.is_shape_parameter = false ∧
    ∃ out, tri3_independent_elem.internal_residual_sensitivity tri3_param true 0 0 = some out ∧
      out.ret = false ∧ out.f = 0 ∧ out.jac = 0 :=
  ⟨rfl, (StructuralElement2D.internal_residual_sensitivity_early_return tri3_independent_elem
    tri3_param rfl true 0 0).imp (fun _ h => ⟨h.1, h.2.1 rfl⟩)⟩

theorem internal_residual_jac_dot_state_sensitivity_linear_element_witness :
    tri3_plate_elem.property.strain_type_is_von_karman = false ∧
    tri3_plate_elem.internal_residual_jac_dot_state_sensitivity 0 = ⟨false, 0, 0, 0, 0⟩ :=
  ⟨rfl, (StructuralElement2D.internal_residual_jac_dot_state_sensitivity_linear_element
    tri3_plate_elem rfl 0).1 tri3_plate_elem.local_sol tri3_plate_elem.local_sol_sens⟩


namespace StructuralElement2D
variable {ι : Type}

theorem prestress_residual_point_eq (el : StructuralElement2D R ι n nqp) (rj : Bool)
    (mat_A mat_B : (Fin 3 → R) → R → Matrix (Fin 2) (Fin 2) R)
    (buf : KernelBuffers R n) (qp : Fin nqp) (h : buf.clean) :
    (prestress_residual_point el rj mat_A mat_B buf qp).clean ∧
    ((prestress_residual_point el rj mat_A mat_B buf qp).local_f,
      (prestress_residual_point el rj mat_A mat_B buf qp).local_jac)
      = (buf.local_f, buf.local_jac)
        + (el.fe.JxW qp • thermal_force qp el.fe el.bending_operator
            el.property.bending_model_is_active el.property.strain_type_is_von_karman
            el.local_sol
            (_convert_prestress_A_mat_to_vector (mat_A (el.fe.xyz qp) el.time))
            (_convert_prestress_B_mat_to_vector (mat_B (el.fe.xyz qp) el.time)),
          el.fe.JxW qp • prestress_tangent qp el.fe el.property.bending_model_is_active
            el.property.strain_type_is_von_karman rj (mat_A (el.fe.xyz qp) el.time)) := by
  have hm := initialize_direct_strain_operator_of_clean qp el.fe buf.Bmat_mem h.1
  have hk := fun s => vk_Bmat_of_clean el.local_sol qp el.fe s buf.vk_dwdxi_mat buf.Bmat_vk h.2
  have hmc := initialize_direct_strain_operator_clean qp el.fe buf.Bmat_mem h.1
  have hkc := fun s => vk_Bmat_clean el.local_sol qp el.fe s buf.vk_dwdxi_mat buf.Bmat_vk h.2
  have h2 := h.2
  generalize hb : el.property.bending_model_is_active = b
  generalize hv : el.property.strain_type_is_von_karman = v
  cases b <;> cases v <;> cases rj <;>
  · dsimp only [prestress_residual_point, Id.run, Id.pure_eq, Id.bind_eq, bind, pure,
      FEMOperatorMatrix.vector_mult, FEMOperatorMatrix.vector_mult_transpose,
      FEMOperatorMatrix.left_multiply, FEMOperatorMatrix.right_multiply_transpose,
      thermal_force, prestress_tangent, Bmem, Bvk, Bbend]
    rw [hb, hv]
    dsimp only [ite_true_eq_true, ite_false_eq_true, Bool.and_true, Bool.and_false,
      Bool.true_and, Bool.false_and]
    constructor
    · constructor
      · exact hmc
      · first | exact h2 | exact hkc 0
    · simp only [hm, hk, vk_dwdxi_mat_eq, Prod.mk_add_mk, smul_add, add_assoc, smul_zero,
        add_zero, Bool.and_self, Bool.and_true, Bool.and_false, Bool.false_eq_true, if_false,
        if_true]
      try (refine Prod.ext ?_ rfl; dsimp only; abel)

theorem prestress_loop_eq (el : StructuralElement2D R ι n nqp) (rj : Bool)
    (mat_A mat_B : (Fin 3 → R) → R → Matrix (Fin 2) (Fin 2) R) :
    (Fin.foldl nqp (prestress_residual_point el rj mat_A mat_B) (fresh_buffers R n)).local_f
      = ∑ qp, el.fe.JxW qp • thermal_force qp el.fe el.bending_operator
            el.property.bending_model_is_active el.property.strain_type_is_von_karman
            el.local_sol
            (_convert_prestress_A_mat_to_vector (mat_A (el.fe.xyz qp) el.time))
            (_convert_prestress_B_mat_to_vector (mat_B (el.fe.xyz qp) el.time)) ∧
    (Fin.foldl nqp (prestress_residual_point el rj mat_A mat_B) (fresh_buffers R n)).local_jac
      = ∑ qp, el.fe.JxW qp • prestress_tangent qp el.fe el.property.bending_model_is_active
            el.property.strain_type_is_von_karman rj (mat_A (el.fe.xyz qp) el.time) := by
  have key := foldl_accumulate
    (fun buf : KernelBuffers R n => (buf.local_f, buf.local_jac)) KernelBuffers.clean
    (prestress_residual_point el rj mat_A mat_B) _
    (fun s i hs => (prestress_residual_point_eq el rj mat_A mat_B s i hs).1)
    (fun s i hs => (prestress_residual_point_eq el rj mat_A mat_B s i hs).2)
    (fresh_buffers R n) fresh_buffers_clean
  have h2 := key.2
  dsimp only at h2
  have hz : ((fresh_buffers R n).local_f, (fresh_buffers R n).local_jac) = 0 := rfl
  rw [hz, zero_add] at h2
  have h1 := congrArg Prod.fst h2
  have h3 := congrArg Prod.snd h2
  rw [Prod.fst_sum] at h1
  rw [Prod.snd_sum] at h3
  exact ⟨h1, h3⟩

theorem prestress_tangent_sum_of_inactive (el : StructuralElement2D R ι n nqp) (rj : Bool)
    (mat_A : (Fin 3 → R) → R → Matrix (Fin 2) (Fin 2) R)
    (h : ¬ (rj = true ∧ el.property.bending_model_is_active = true
      ∧ el.property.strain_type_is_von_karman = true)) :
    ∑ qp, el.fe.JxW qp • prestress_tangent qp el.fe el.property.bending_model_is_active
            el.property.strain_type_is_von_karman rj (mat_A (el.fe.xyz qp) el.time) = 0 := by
  refine Finset.sum_eq_zero (fun qp _ => ?_)
  have : prestress_tangent qp el.fe el.property.bending_model_is_active
      el.property.strain_type_is_von_karman rj (mat_A (el.fe.xyz qp) el.time) = 0 := by
    revert h
    cases rj <;> cases el.property.bending_model_is_active <;>
      cases el.property.strain_type_is_von_karman <;> simp [prestress_tangent]
  rw [this, smul_zero]

/-- C18: `prestress_residual` and `prestress_residual_sensitivity` return `false` and hand
back `f` and `jac` unchanged when the property card is not prestressed; for a prestressed
card they hand back `jac` unchanged unless `request_jacobian` is true and bending and von
Karman strain are both active, and in that case they add to `jac` the transform of the
local tangent `sum_qp JxW[qp] Bvk^T S Bvk`, where `S` is the prestress `A` matrix at the
quadrature point (for the sensitivity routine, its derivative with respect to `p`). -/
theorem prestress_residual_jacobian_only_through_von_karman
    (el : StructuralElement2D R ι n nqp) (p : FunctionBase ι) (request_jacobian : Bool)
    (f : Fin (6 * n) → R) (jac : Matrix (Fin (6 * n)) (Fin (6 * n)) R) :
    (el.property.if_prestressed = false →
      el.prestress_residual request_jacobian f jac = ⟨false, f, jac, 0, 0⟩ ∧
      el.prestress_residual_sensitivity p request_jacobian f jac = ⟨false, f, jac, 0, 0⟩) ∧
    (el.property.if_prestressed = true →
      (¬ (request_jacobian = true ∧ el.property.bending_model_is_active = true
          ∧ el.property.strain_type_is_von_karman = true) →
        (el.prestress_residual request_jacobian f jac).jac = jac ∧
        (el.prestress_residual_sensitivity p request_jacobian f jac).jac = jac) ∧
      (request_jacobian = true → el.property.bending_model_is_active = true →
        el.property.strain_type_is_von_karman = true →
        (el.prestress_residual request_jacobian f jac).jac
          = jac + el.transform_matrix_to_global_system
              (∑ qp, el.fe.JxW qp • ((Bvk qp el.fe)ᵀ *
                (el.property.prestress_A_matrix.value (el.fe.xyz qp) el.time * Bvk qp el.fe))) ∧
        (el.prestress_residual_sensitivity p request_jacobian f jac).jac
          = jac + el.transform_matrix_to_global_system
              (∑ qp, el.fe.JxW qp • ((Bvk qp el.fe)ᵀ *
                (el.property.prestress_A_matrix.derivative p (el.fe.xyz qp) el.time
                  * Bvk qp el.fe))))) := by
  have e1 : ∀ (hp : el.property.if_prestressed = true),
      (el.prestress_residual request_jacobian f jac).jac
        = if (request_jacobian && el.property.strain_type_is_von_karman) = true then
            jac + el.transform_matrix_to_global_system
              (∑ qp, el.fe.JxW qp • prestress_tangent qp el.fe
                el.property.bending_model_is_active el.property.strain_type_is_von_karman
                request_jacobian (el.property.prestress_A_matrix.value (el.fe.xyz qp) el.time))
          else jac := by
    intro hp
    dsimp only [prestress_residual, Id.run, Id.pure_eq, Id.bind_eq, bind, pure]
    rw [hp, (prestress_loop_eq el request_jacobian _ _).2]
    split_ifs <;> first | rfl | simp_all
  have e2 : ∀ (hp : el.property.if_prestressed = true),
      (el.prestress_residual_sensitivity p request_jacobian f jac).jac
        = if (request_jacobian && el.property.strain_type_is_von_karman) = true then
            jac + el.transform_matrix_to_global_system
              (∑ qp, el.fe.JxW qp • prestress_tangent qp el.fe
                el.property.bending_model_is_active el.property.strain_type_is_von_karman
                request_jacobian
                (el.property.prestress_A_matrix.derivative p (el.fe.xyz qp) el.time))
          else jac := by
    intro hp
    dsimp only [prestress_residual_sensitivity, Id.run, Id.pure_eq, Id.bind_eq, bind, pure]
    rw [hp, (prestress_loop_eq el request_jacobian _ _).2]
    split_ifs <;> first | rfl | simp_all
  refine ⟨fun hp => ⟨?_, ?_⟩, fun hp => ⟨fun hn => ⟨?_, ?_⟩, fun hr hb hv => ⟨?_, ?_⟩⟩⟩
  · dsimp only [prestress_residual, Id.run, Id.pure_eq, Id.bind_eq, bind, pure]
    rw [hp]
    rfl
  · dsimp only [prestress_residual_sensitivity, Id.run, Id.pure_eq, Id.bind_eq, bind, pure]
    rw [hp]
    rfl
  · rw [e1 hp, prestress_tangent_sum_of_inactive el request_jacobian _ hn]
    simp [transform_matrix_to_global_system]
  · rw [e2 hp, prestress_tangent_sum_of_inactive el request_jacobian _ hn]
    simp [transform_matrix_to_global_system]
  · rw [e1 hp, hr, hb, hv]
    simp only [Bool.and_self, if_true, prestress_tangent]
  · rw [e2 hp, hr, hb, hv]
    simp only [Bool.and_self, if_true, prestress_tangent]

end StructuralElement2D

theorem surface_force_loop (force : Fin 6 → R) (g : Fin 3 → R)
    (h : ∀ i : Fin 6, 3 ≤ i.val → force i = 0) :
    Fin.foldl 3 (fun force i_dim =>
      Function.update force (Fin.castLE (by decide) i_dim) (g i_dim)) force
      = fun i => if h : i.val < 3 then g ⟨i.val, h⟩ else 0 := by
  have h3 := h 3 (by decide)
  have h4 := h 4 (by decide)
  have h5 := h 5 (by decide)
  ext i
  fin_cases i <;>
    simp [Fin.foldl_succ, Fin.foldl_zero, Function.update, Fin.ext_iff, h3, h4, h5] <;> rfl

theorem reinit_shape_function_transpose_mulVec (N : Fin n → R) (force : Fin 6 → R)
    (idx : Fin (6 * n)) :
    ((FEMOperatorMatrix.reinit_shape_function 6 N : FEMOperatorMatrix R 6 6 n).toMatrixᵀ
        *ᵥ force) idx = N idx.modNat * force idx.divNat := by
  simp [Matrix.mulVec, Matrix.dotProduct, FEMOperatorMatrix.toMatrix,
    FEMOperatorMatrix.reinit_shape_function, Finset.sum_ite_eq]
  rw [Finset.sum_eq_single idx.divNat]
  · simp
  · intro b _ hb
    simp [hb]
  · intro hn
    exact absurd (Finset.mem_univ _) hn

theorem dof_divNat {nv n : ℕ} (v : Fin nv) (i : Fin n) : (dof v i).divNat = v :=
  congrArg Prod.fst (finProdFinEquiv.symm_apply_apply (v, i))

theorem dof_modNat {nv n : ℕ} (v : Fin nv) (i : Fin n) : (dof v i).modNat = i :=
  congrArg Prod.snd (finProdFinEquiv.symm_apply_apply (v, i))

theorem surface_pressure_force_translation {nqs : ℕ} (fe : FEBase R n nqs) (c : R)
    (qp : Fin nqs) (i : Fin 3) (k : Fin n) :
    surface_pressure_force fe c qp (dof (Fin.castLE (by decide) i : Fin 6) k)
      = fe.phi k qp * (c * fe.normals qp i) := by
  unfold surface_pressure_force
  simp only [dof_divNat, dof_modNat]
  rw [dif_pos (by simp)]
  rfl

theorem surface_pressure_force_rotation {nqs : ℕ} (fe : FEBase R n nqs) (c : R)
    (qp : Fin nqs) (v : Fin 6) (hv : 3 ≤ v.val) (k : Fin n) :
    surface_pressure_force fe c qp (dof v k) = 0 := by
  unfold surface_pressure_force
  simp only [dof_divNat, dof_modNat]
  rw [dif_neg (by omega)]

theorem surface_pressure_vec {nqs : ℕ} (fe : FEBase R n nqs) (qp : Fin nqs) (c : R)
    (force : Fin 6 → R) (h : ∀ i : Fin 6, 3 ≤ i.val → force i = 0) :
    (FEMOperatorMatrix.reinit_shape_function 6 (fun i_nd => fe.phi i_nd qp)
        : FEMOperatorMatrix R 6 6 n).toMatrixᵀ *ᵥ
      (Fin.foldl 3 (fun force i_dim =>
        Function.update force (Fin.castLE (by decide) i_dim) (c * fe.normals qp i_dim)) force)
      = surface_pressure_force fe c qp := by
  rw [surface_force_loop force (fun i => c * fe.normals qp i) h]
  ext idx
  rw [reinit_shape_function_transpose_mulVec]
  unfold surface_pressure_force
  split_ifs <;> simp

namespace StructuralElement2D
variable {ι : Type} {nqs : ℕ}

theorem surface_pressure_point_eq (el : StructuralElement2D R ι n nqp) (fe : FEBase R n nqs)
    (bc : PressureBoundaryCondition R ι) (buf : SurfacePressureBuffers R n) (qp : Fin nqs)
    (h : force_clean buf) :
    force_clean (surface_pressure_point el fe bc buf qp) ∧
    (surface_pressure_point el fe bc buf qp).local_f
      = buf.local_f + fe.JxW qp • surface_pressure_force fe
          (bc.pressure.value (fe.xyz qp) el.time * el.property.h.value (fe.xyz qp) el.time)
          qp := by
  constructor
  · intro i hi
    dsimp only [surface_pressure_point, Id.run, Id.pure_eq, Id.bind_eq, bind, pure]
    rw [surface_force_loop buf.force _ h]
    exact dif_neg (by omega)
  · dsimp only [surface_pressure_point, Id.run, Id.pure_eq, Id.bind_eq, bind, pure,
      FEMOperatorMatrix.vector_mult_transpose]
    rw [surface_pressure_vec fe qp _ buf.force h]

theorem surface_pressure_sensitivity_point_eq (el : StructuralElement2D R ι n nqp)
    (fe : FEBase R n nqs) (p : FunctionBase ι)
    (bc : PressureBoundaryCondition R ι) (buf : SurfacePressureBuffers R n) (qp : Fin nqs)
    (h : force_clean buf) :
    force_clean (surface_pressure_sensitivity_point el fe p bc buf qp) ∧
    (surface_pressure_sensitivity_point el fe p bc buf qp).local_f
      = buf.local_f + fe.JxW qp • surface_pressure_force fe
          (bc.pressure.value (fe.xyz qp) el.time
              * el.property.h.derivative p (fe.xyz qp) el.time
            + bc.pressure.derivative p (fe.xyz qp) el.time
              * el.property.h.value (fe.xyz qp) el.time) qp := by
  constructor
  · intro i hi
    dsimp only [surface_pressure_sensitivity_point, Id.run, Id.pure_eq, Id.bind_eq, bind, pure]
    rw [surface_force_loop buf.force _ h]
    exact dif_neg (by omega)
  · dsimp only [surface_pressure_sensitivity_point, Id.run, Id.pure_eq, Id.bind_eq, bind, pure,
      FEMOperatorMatrix.vector_mult_transpose]
    rw [surface_pressure_vec fe qp _ buf.force h]

theorem surface_pressure_residual_eq (el : StructuralElement2D R ι n nqp)
    (init_for_side : ℕ → Bool → FEBase R n nqs) (rj : Bool)
    (f : Fin (6 * n) → R) (jac : Matrix (Fin (6 * n)) (Fin (6 * n)) R) (side : ℕ)
    (bc : PressureBoundaryCondition R ι) (hf : el.follower_forces = false) :
    el.surface_pressure_residual init_for_side rj f jac side bc
      = some ⟨rj, f - el.transform_vector_to_global_system
          (∑ qp, (init_for_side side false).JxW qp • surface_pressure_force
            (init_for_side side false)
            (bc.pressure.value ((init_for_side side false).xyz qp) el.time
              * el.property.h.value ((init_for_side side false).xyz qp) el.time) qp),
          jac,
          ∑ qp, (init_for_side side false).JxW qp • surface_pressure_force
            (init_for_side side false)
            (bc.pressure.value ((init_for_side side false).xyz qp) el.time
              * el.property.h.value ((init_for_side side false).xyz qp) el.time) qp, 0⟩ := by
  have key := foldl_accumulate (fun buf : SurfacePressureBuffers R n => buf.local_f)
    force_clean (surface_pressure_point el (init_for_side side false) bc) _
    (fun s i hs => (surface_pressure_point_eq el _ bc s i hs).1)
    (fun s i hs => (surface_pressure_point_eq el _ bc s i hs).2)
    ⟨0, 0⟩ (fun _ _ => rfl)
  have h2 := key.2
  dsimp only at h2
  rw [zero_add] at h2
  dsimp only [surface_pressure_residual, Id.run, Id.pure_eq, Id.bind_eq, bind, pure]
  rw [hf, h2]
  rfl

/-- C11: with follower forces off, `surface_pressure_residual` returns
`request_jacobian`, hands back `jac` unchanged and subtracts from `f` the transform of the
local vector whose entry for translational variable `i < 3` and node `k` is
`sum_qp JxW[qp] N_k(qp) p(qp) h(qp) normal_i(qp)` over the quadrature points of the side
and whose entries for the three rotational variables are zero. -/
theorem surface_pressure_residual_subtracts_pressure_force
    (el : StructuralElement2D R ι n nqp) (init_for_side : ℕ → Bool → FEBase R n nqs)
    (request_jacobian : Bool) (f : Fin (6 * n) → R)
    (jac : Matrix (Fin (6 * n)) (Fin (6 * n)) R) (side : ℕ)
    (bc : PressureBoundaryCondition R ι) (hf : el.follower_forces = false) :
    ∃ out, el.surface_pressure_residual init_for_side request_jacobian f jac side bc = some out ∧
      out.ret = request_jacobian ∧ out.jac = jac ∧
      out.f = f - el.transform_vector_to_global_system out.local_f ∧
      (∀ (i : Fin 3) (k : Fin n),
        out.local_f (dof (Fin.castLE (by decide) i : Fin 6) k)
          = ∑ qp, (init_for_side side false).JxW qp * (init_for_side side false).phi k qp
              * bc.pressure.value ((init_for_side side false).xyz qp) el.time
              * el.property.h.value ((init_for_side side false).xyz qp) el.time
              * (init_for_side side false).normals qp i) ∧
      (∀ (v : Fin 6) (k : Fin n), 3 ≤ v.val → out.local_f (dof v k) = 0) := by
  refine ⟨_, surface_pressure_residual_eq el init_for_side request_jacobian f jac side bc hf,
    rfl, rfl, rfl, ?_, ?_⟩
  · intro i k
    dsimp only
    rw [Finset.sum_apply]
    refine Finset.sum_congr rfl (fun qp _ => ?_)
    rw [Pi.smul_apply, surface_pressure_force_translation, smul_eq_mul]
    ring
  · intro v k hv
    dsimp only
    rw [Finset.sum_apply]
    refine Finset.sum_eq_zero (fun qp _ => ?_)
    rw [Pi.smul_apply, surface_pressure_force_rotation _ _ _ _ hv, smul_zero]

end StructuralElement2D

theorem surface_pressure_residual_subtracts_pressure_force_witness :
    tri3_elem.follower_forces = false ∧
    ∃ out, tri3_elem.surface_pressure_residual (fun _ _ => tri3_fe) true 0 0 0
        (tri3_pressure_bc 1) = some out ∧
      out.ret = true ∧ out.jac = 0 := by
  have h := StructuralElement2D.surface_pressure_residual_subtracts_pressure_force tri3_elem
    (fun _ _ => tri3_fe) true 0 0 0 (tri3_pressure_bc 1) rfl
  exact ⟨rfl, h.imp (fun _ h => ⟨h.1, h.2.1, h.2.2.1⟩)⟩


namespace StructuralElement2D
variable {ι : Type} {nqs : ℕ}

/-- C17: every unsupported configuration fails by assertion, so that no `f`, `jac` or
`jac_xdot` is handed back: `internal_residual_sensitivity` for a shape parameter;
`surface_pressure_residual`, `surface_pressure_residual_sensitivity`,
`piston_theory_residual` and `piston_theory_residual_sensitivity` when `follower_forces`
is set; the two volume piston-theory routines when the element dimension is not less
than 3; and the two side-indexed piston-theory routines for every input. -/
theorem unsupported_configurations_fail (el : StructuralElement2D R ι n nqp)
    (init_for_side : ℕ → Bool → FEBase R n nqs) (p : FunctionBase ι) (request_jacobian : Bool)
    (f : Fin (6 * n) → R) (jac_xdot jac : Matrix (Fin (6 * n)) (Fin (6 * n)) R) (side : ℕ)
    (bc : PressureBoundaryCondition R ι) (piston_bc : PistonTheoryBoundaryCondition R ι) :
    (p.is_shape_parameter = true →
      el.internal_residual_sensitivity p request_jacobian f jac = none) ∧
    (el.follower_forces = true →
      el.surface_pressure_residual init_for_side request_jacobian f jac side bc = none ∧
      el.surface_pressure_residual_sensitivity init_for_side p request_jacobian f jac side bc
        = none ∧
      el.piston_theory_residual request_jacobian f jac_xdot jac piston_bc = none ∧
      el.piston_theory_residual_sensitivity p request_jacobian f jac_xdot jac piston_bc
        = none) ∧
    (¬ el.elem_dim < 3 →
      el.piston_theory_residual request_jacobian f jac_xdot jac piston_bc = none ∧
      el.piston_theory_residual_sensitivity p request_jacobian f jac_xdot jac piston_bc
        = none) ∧
    el.piston_theory_residual_side request_jacobian f jac_xdot jac side piston_bc = none ∧
    el.piston_theory_residual_sensitivity_side p request_jacobian f jac_xdot jac side piston_bc
      = none := by
  refine ⟨fun hp => ?_, fun hf => ⟨?_, ?_, ?_, ?_⟩, fun hd => ⟨?_, ?_⟩, rfl, rfl⟩
  · unfold internal_residual_sensitivity
    rw [hp]
    rfl
  · unfold surface_pressure_residual
    rw [hf]
    rfl
  · unfold surface_pressure_residual_sensitivity
    rw [hf]
    rfl
  · unfold piston_theory_residual
    rw [hf]
    split <;> rfl
  · unfold piston_theory_residual_sensitivity
    rw [hf]
    split <;> rfl
  · unfold piston_theory_residual
    rw [dif_neg hd]
  · unfold piston_theory_residual_sensitivity
    rw [dif_neg hd]

end StructuralElement2D

/-- On the triangle, the shape parameter, the follower-force flag and the element
dimension 3 each make the corresponding routine fail. -/
theorem unsupported_configurations_fail_on_triangle :
    tri3_elem.internal_residual_sensitivity tri3_shape_param true 0 0 = none ∧
    tri3_follower_elem.surface_pressure_residual (fun _ _ => tri3_fe) true 0 0 0
      (tri3_pressure_bc 1) = none ∧
    tri3_follower_elem.piston_theory_residual true 0 0 0 tri3_piston_bc = none ∧
    tri3_solid_elem.piston_theory_residual true 0 0 0 tri3_piston_bc = none :=
  ⟨rfl, rfl, rfl, rfl⟩


namespace StructuralElement2D
variable {ι : Type} {nqs : ℕ}

theorem internal_residual_shift (el : StructuralElement2D R ι n nqp) (rj : Bool)
    (f g : Fin (6 * n) → R) (jac J : Matrix (Fin (6 * n)) (Fin (6 * n)) R) :
    el.internal_residual rj (f + g) (jac + J) = (el.internal_residual rj f jac).shift g J := by
  rw [internal_residual_eq, internal_residual_eq]
  cases rj <;>
    simp only [AssemblyOutput.shift, AssemblyOutput.mk.injEq, if_true, if_false,
      Bool.false_eq_true, true_and, and_true, add_right_comm, and_self]

theorem internal_residual_sensitivity_shift (el : StructuralElement2D R ι n nqp)
    (p : FunctionBase ι) (rj : Bool)
    (f g : Fin (6 * n) → R) (jac J : Matrix (Fin (6 * n)) (Fin (6 * n)) R) :
    el.internal_residual_sensitivity p rj (f + g) (jac + J)
      = (el.internal_residual_sensitivity p rj f jac).map (fun out => out.shift g J) := by
  cases hp : p.is_shape_parameter
  · cases hd : el.property.depends_on p
    · dsimp only [internal_residual_sensitivity, Id.run, Id.pure_eq, Id.bind_eq, bind, pure]
      rw [hp, hd]
      rfl
    · rw [internal_residual_sensitivity_eq el p hp hd, internal_residual_sensitivity_eq el p hp hd]
      cases rj <;>
        simp only [Option.map_some', AssemblyOutput.shift, AssemblyOutput.mk.injEq, if_true,
          if_false, Bool.false_eq_true, true_and, and_true, add_right_comm, and_self,
          Option.some.injEq]
  · unfold internal_residual_sensitivity
    rw [hp]
    rfl

theorem internal_residual_boundary_velocity_shift (el : StructuralElement2D R ι n nqp)
    (init_for_side : ℕ → Bool → FEBase R n nqs) (p : FunctionBase ι)
    (f g : Fin (6 * n) → R) (s : ℕ) (vel_f : FieldFunction R ι (Fin 2 → R)) :
    el.internal_residual_boundary_velocity init_for_side p (f + g) s vel_f
      = el.internal_residual_boundary_velocity init_for_side p f s vel_f + g := by
  dsimp only [internal_residual_boundary_velocity, Id.run, Id.pure_eq, Id.bind_eq, bind, pure]
  split_ifs <;> exact add_right_comm _ _ _

theorem internal_residual_jac_dot_state_sensitivity_shift (el : StructuralElement2D R ι n nqp)
    (jac J : Matrix (Fin (6 * n)) (Fin (6 * n)) R) :
    el.internal_residual_jac_dot_state_sensitivity (jac + J)
      = (el.internal_residual_jac_dot_state_sensitivity jac).shift 0 J := by
  dsimp only [internal_residual_jac_dot_state_sensitivity, Id.run, Id.pure_eq, Id.bind_eq, bind,
    pure]
  split_ifs <;>
    simp only [AssemblyOutput.shift, AssemblyOutput.mk.injEq, true_and, and_true,
      add_right_comm, add_zero, and_self]

theorem prestress_residual_shift (el : StructuralElement2D R ι n nqp) (rj : Bool)
    (f g : Fin (6 * n) → R) (jac J : Matrix (Fin (6 * n)) (Fin (6 * n)) R) :
    el.prestress_residual rj (f + g) (jac + J) = (el.prestress_residual rj f jac).shift g J := by
  dsimp only [prestress_residual, Id.run, Id.pure_eq, Id.bind_eq, bind, pure]
  split_ifs <;>
    simp only [AssemblyOutput.shift, AssemblyOutput.mk.injEq, true_and, and_true,
      add_right_comm, and_self]

theorem prestress_residual_sensitivity_shift (el : StructuralElement2D R ι n nqp)
    (p : FunctionBase ι) (rj : Bool)
    (f g : Fin (6 * n) → R) (jac J : Matrix (Fin (6 * n)) (Fin (6 * n)) R) :
    el.prestress_residual_sensitivity p rj (f + g) (jac + J)
      = (el.prestress_residual_sensitivity p rj f jac).shift g J := by
  dsimp only [prestress_residual_sensitivity, Id.run, Id.pure_eq, Id.bind_eq, bind, pure]
  split_ifs <;>
    simp only [AssemblyOutput.shift, AssemblyOutput.mk.injEq, true_and, and_true,
      add_right_comm, and_self]

theorem thermal_residual_shift (el : StructuralElement2D R ι n nqp) (rj : Bool)
    (f g : Fin (6 * n) → R) (jac J : Matrix (Fin (6 * n)) (Fin (6 * n)) R)
    (bc : ThermalBoundaryCondition R ι) :
    el.thermal_residual rj (f + g) (jac + J) bc
      = (el.thermal_residual rj f jac bc).shift g J := by
  dsimp only [thermal_residual, Id.run, Id.pure_eq, Id.bind_eq, bind, pure]
  split_ifs <;>
    simp only [AssemblyOutput.shift, AssemblyOutput.mk.injEq, true_and, and_true,
      sub_add_eq_add_sub, and_self]

theorem thermal_residual_sensitivity_shift (el : StructuralElement2D R ι n nqp)
    (p : FunctionBase ι) (rj : Bool)
    (f g : Fin (6 * n) → R) (jac J : Matrix (Fin (6 * n)) (Fin (6 * n)) R)
    (bc : ThermalBoundaryCondition R ι) :
    el.thermal_residual_sensitivity p rj (f + g) (jac + J) bc
      = (el.thermal_residual_sensitivity p rj f jac bc).shift g J := by
  dsimp only [thermal_residual_sensitivity, Id.run, Id.pure_eq, Id.bind_eq, bind, pure]
  split_ifs <;>
    simp only [AssemblyOutput.shift, AssemblyOutput.mk.injEq, true_and, and_true,
      sub_add_eq_add_sub, and_self]

theorem surface_pressure_residual_shift (el : StructuralElement2D R ι n nqp)
    (init_for_side : ℕ → Bool → FEBase R n nqs) (rj : Bool)
    (f g : Fin (6 * n) → R) (jac J : Matrix (Fin (6 * n)) (Fin (6 * n)) R) (side : ℕ)
    (bc : PressureBoundaryCondition R ι) :
    el.surface_pressure_residual init_for_side rj (f + g) (jac + J) side bc
      = (el.surface_pressure_residual init_for_side rj f jac side bc).map
          (fun out => out.shift g J) := by
  dsimp only [surface_pressure_residual, Id.run, Id.pure_eq, Id.bind_eq, bind, pure]
  split_ifs
  · rfl
  · simp only [Option.map_some', AssemblyOutput.shift, AssemblyOutput.mk.injEq, true_and,
      and_true, sub_add_eq_add_sub, and_self, Option.some.injEq, Function.comp]

theorem surface_pressure_residual_sensitivity_shift (el : StructuralElement2D R ι n nqp)
    (init_for_side : ℕ → Bool → FEBase R n nqs) (p : FunctionBase ι) (rj : Bool)
    (f g : Fin (6 * n) → R) (jac J : Matrix (Fin (6 * n)) (Fin (6 * n)) R) (side : ℕ)
    (bc : PressureBoundaryCondition R ι) :
    el.surface_pressure_residual_sensitivity init_for_side p rj (f + g) (jac + J) side bc
      = (el.surface_pressure_residual_sensitivity init_for_side p rj f jac side bc).map
          (fun out => out.shift g J) := by
  dsimp only [surface_pressure_residual_sensitivity, Id.run, Id.pure_eq, Id.bind_eq, bind, pure]
  split_ifs
  · rfl
  · simp only [Option.map_some', AssemblyOutput.shift, AssemblyOutput.mk.injEq, true_and,
      and_true, sub_add_eq_add_sub, and_self, Option.some.injEq, Function.comp]

theorem piston_theory_residual_shift (el : StructuralElement2D R ι n nqp) (rj : Bool)
    (f g : Fin (6 * n) → R) (jac_xdot Jx jac J : Matrix (Fin (6 * n)) (Fin (6 * n)) R)
    (piston_bc : PistonTheoryBoundaryCondition R ι) :
    el.piston_theory_residual rj (f + g) (jac_xdot + Jx) (jac + J) piston_bc
      = (el.piston_theory_residual rj f jac_xdot jac piston_bc).map
          (fun out => out.shift g Jx J) := by
  dsimp only [piston_theory_residual, Id.run, Id.pure_eq, Id.bind_eq, bind, pure]
  split_ifs <;> first
    | rfl
    | simp only [Option.map_some', PistonOutput.shift, PistonOutput.mk.injEq, true_and,
        and_true, sub_add_eq_add_sub, and_self, Option.some.injEq, Function.comp]

theorem piston_theory_residual_sensitivity_shift (el : StructuralElement2D R ι n nqp)
    (p : FunctionBase ι) (rj : Bool)
    (f g : Fin (6 * n) → R) (jac_xdot Jx jac J : Matrix (Fin (6 * n)) (Fin (6 * n)) R)
    (piston_bc : PistonTheoryBoundaryCondition R ι) :
    el.piston_theory_residual_sensitivity p rj (f + g) (jac_xdot + Jx) (jac + J) piston_bc
      = (el.piston_theory_residual_sensitivity p rj f jac_xdot jac piston_bc).map
          (fun out => out.shift g Jx J) := by
  dsimp only [piston_theory_residual_sensitivity, Id.run, Id.pure_eq, Id.bind_eq, bind, pure]
  split_ifs <;> first
    | rfl
    | simp only [Option.map_some', PistonOutput.shift, PistonOutput.mk.injEq, true_and,
        and_true, sub_add_eq_add_sub, and_self, Option.some.injEq, Function.comp]

/-- C12: every load-case assembler hands back the incoming buffers plus or minus a
contribution that does not depend on their incoming values: called with `f + g`,
`jac + J` (and `jac_xdot + Jx`) it returns the same flag and the buffers it returns for
`f`, `jac` (and `jac_xdot`) with `g`, `J` (and `Jx`) added; a call that fails by assertion
fails for both. -/
theorem assemblers_accumulate_into_buffers (el : StructuralElement2D R ι n nqp)
    (init_for_side : ℕ → Bool → FEBase R n nqs) (p : FunctionBase ι) (request_jacobian : Bool)
    (f g : Fin (6 * n) → R) (jac_xdot Jx jac J : Matrix (Fin (6 * n)) (Fin (6 * n)) R)
    (side : ℕ) (vel_f : FieldFunction R ι (Fin 2 → R)) (thermal_bc : ThermalBoundaryCondition R ι)
    (pressure_bc : PressureBoundaryCondition R ι)
    (piston_bc : PistonTheoryBoundaryCondition R ι) :
    el.internal_residual request_jacobian (f + g) (jac + J)
      = (el.internal_residual request_jacobian f jac).shift g J ∧
    el.internal_residual_sensitivity p request_jacobian (f + g) (jac + J)
      = (el.internal_residual_sensitivity p request_jacobian f jac).map
          (fun out => out.shift g J) ∧
    el.internal_residual_boundary_velocity init_for_side p (f + g) side vel_f
      = el.internal_residual_boundary_velocity init_for_side p f side vel_f + g ∧
    el.internal_residual_jac_dot_state_sensitivity (jac + J)
      = (el.internal_residual_jac_dot_state_sensitivity jac).shift 0 J ∧
    el.prestress_residual request_jacobian (f + g) (jac + J)
      = (el.prestress_residual request_jacobian f jac).shift g J ∧
    el.prestress_residual_sensitivity p request_jacobian (f + g) (jac + J)
      = (el.prestress_residual_sensitivity p request_jacobian f jac).shift g J ∧
    el.thermal_residual request_jacobian (f + g) (jac + J) thermal_bc
      = (el.thermal_residual request_jacobian f jac thermal_bc).shift g J ∧
    el.thermal_residual_sensitivity p request_jacobian (f + g) (jac + J) thermal_bc
      = (el.thermal_residual_sensitivity p request_jacobian f jac thermal_bc).shift g J ∧
    el.surface_pressure_residual init_for_side request_jacobian (f + g) (jac + J) side
        pressure_bc
      = (el.surface_pressure_residual init_for_side request_jacobian f jac side
          pressure_bc).map (fun out => out.shift g J) ∧
    el.surface_pressure_residual_sensitivity init_for_side p request_jacobian (f + g) (jac + J)
        side pressure_bc
      = (el.surface_pressure_residual_sensitivity init_for_side p request_jacobian f jac side
          pressure_bc).map (fun out => out.shift g J) ∧
    el.piston_theory_residual request_jacobian (f + g) (jac_xdot + Jx) (jac + J) piston_bc
      = (el.piston_theory_residual request_jacobian f jac_xdot jac piston_bc).map
          (fun out => out.shift g Jx J) ∧
    el.piston_theory_residual_sensitivity p request_jacobian (f + g) (jac_xdot + Jx) (jac + J)
        piston_bc
      = (el.piston_theory_residual_sensitivity p request_jacobian f jac_xdot jac piston_bc).map
          (fun out => out.shift g Jx J) :=
  ⟨internal_residual_shift el request_jacobian f g jac J,
    internal_residual_sensitivity_shift el p request_jacobian f g jac J,
    internal_residual_boundary_velocity_shift el init_for_side p f g side vel_f,
    internal_residual_jac_dot_state_sensitivity_shift el jac J,
    prestress_residual_shift el request_jacobian f g jac J,
    prestress_residual_sensitivity_shift el p request_jacobian f g jac J,
    thermal_residual_shift el request_jacobian f g jac J thermal_bc,
    thermal_residual_sensitivity_shift el p request_jacobian f g jac J thermal_bc,
    surface_pressure_residual_shift el init_for_side request_jacobian f g jac J side pressure_bc,
    surface_pressure_residual_sensitivity_shift el init_for_side p request_jacobian f g jac J
      side pressure_bc,
    piston_theory_residual_shift el request_jacobian f g jac_xdot Jx jac J piston_bc,
    piston_theory_residual_sensitivity_shift el p request_jacobian f g jac_xdot Jx jac J
      piston_bc⟩

end StructuralElement2D

theorem foldl_index_invariant {σ : Type} (P : ℕ → σ → Prop) :
    ∀ {m : ℕ} (step : σ → Fin m → σ) (s0 : σ), P 0 s0 →
      (∀ (i : Fin m) (s : σ), P i.val s → P (i.val + 1) (step s i)) →
      P m (Fin.foldl m step s0) := by
  intro m
  induction m with
  | zero => intro step s0 h0 _; simpa [Fin.foldl_zero] using h0
  | succ m ih =>
    intro step s0 h0 hstep
    rw [Fin.foldl_succ_last]
    have := ih (fun s i => step s i.castSucc) s0 h0 (fun i s hs => hstep i.castSucc s hs)
    exact hstep (Fin.last m) _ this

theorem copy_to_3D_of_zero (v_3D : Fin 6 → R) (v : Fin 3 → R)
    (h2 : v_3D 2 = 0) (h4 : v_3D 4 = 0) (h5 : v_3D 5 = 0) :
    StructuralElement2D.copy_to_3D v_3D v = to_3D v := by
  ext i
  fin_cases i <;>
    simp [StructuralElement2D.copy_to_3D, to_3D, Function.update, h2, h4, h5] <;> rfl

theorem copy_rows_to_3D_of_zero {k : ℕ} (M_3D : Matrix (Fin 6) (Fin k) R)
    (M : Matrix (Fin 3) (Fin k) R) (h2 : M_3D 2 = 0) (h4 : M_3D 4 = 0) (h5 : M_3D 5 = 0) :
    StructuralElement2D.copy_rows_to_3D M_3D M = rows_to_3D M := by
  funext i
  fin_cases i <;>
    simp [StructuralElement2D.copy_rows_to_3D, rows_to_3D, Function.update, h2, h4, h5] <;>
    rfl

namespace StructuralElement2D
variable {ι : Type}

theorem calculate_stress_primary_eq (el : StructuralElement2D R ι n nqp) (fe : FEBase R n nqp)
    (bend : BendingOperator2D R ι n) (tl : Option (ThermalBoundaryCondition R ι))
    (st : StressBuffers R ι n) (i : Fin nqp) (j : Fin 2)
    (hs : st.stress_3D 2 = 0 ∧ st.stress_3D 4 = 0 ∧ st.stress_3D 5 = 0)
    (he : st.strain_3D 2 = 0 ∧ st.strain_3D 4 = 0 ∧ st.strain_3D 5 = 0) :
    (calculate_stress_primary el fe bend tl st i j).stress_3D
      = to_3D (calculate_stress_primary el fe bend tl st i j).stress ∧
    (calculate_stress_primary el fe bend tl st i j).strain_3D
      = to_3D (calculate_stress_primary el fe bend tl st i j).strain ∧
    (calculate_stress_primary el fe bend tl st i j).output = st.output ∧
    (calculate_stress_primary el fe bend tl st i j).dstress_dX_3D = st.dstress_dX_3D ∧
    (calculate_stress_primary el fe bend tl st i j).dstrain_dX_3D = st.dstrain_dX_3D := by
  generalize hb : el.property.bending_model_is_active = b
  generalize hv : el.property.strain_type_is_von_karman = v
  cases tl <;> cases b <;> cases v <;>
  · dsimp only [calculate_stress_primary, Id.run, Id.pure_eq, Id.bind_eq, bind, pure]
    rw [hb, hv]
    dsimp only [ite_true_eq_true, ite_false_eq_true]
    rw [copy_to_3D_of_zero _ _ hs.1 hs.2.1 hs.2.2, copy_to_3D_of_zero _ _ he.1 he.2.1 he.2.2]
    exact ⟨rfl, rfl, rfl, rfl, rfl⟩

theorem calculate_stress_derivative_eq (el : StructuralElement2D R ι n nqp) (rd : Bool)
    (st : StressBuffers R ι n) (i : Fin nqp) (j : Fin 2)
    (hs : st.dstress_dX_3D 2 = 0 ∧ st.dstress_dX_3D 4 = 0 ∧ st.dstress_dX_3D 5 = 0)
    (he : st.dstrain_dX_3D 2 = 0 ∧ st.dstrain_dX_3D 4 = 0 ∧ st.dstrain_dX_3D 5 = 0) :
    (calculate_stress_derivative el rd st i j).dstress_dX_3D
      = rows_to_3D (calculate_stress_derivative el rd st i j).dstress_dX ∧
    (calculate_stress_derivative el rd st i j).dstrain_dX_3D
      = rows_to_3D (calculate_stress_derivative el rd st i j).dstrain_dX ∧
    (calculate_stress_derivative el rd st i j).output
      = (if rd then st.output.set_derivatives (finProdFinEquiv (i, j) : Fin (nqp * 2)).val
            (rows_to_3D (calculate_stress_derivative el rd st i j).dstress_dX)
            (rows_to_3D (calculate_stress_derivative el rd st i j).dstrain_dX)
          else st.output) ∧
    (calculate_stress_derivative el rd st i j).stress_3D = st.stress_3D ∧
    (calculate_stress_derivative el rd st i j).strain_3D = st.strain_3D ∧
    (calculate_stress_derivative el rd st i j).stress = st.stress ∧
    (calculate_stress_derivative el rd st i j).strain = st.strain := by
  generalize hb : el.property.bending_model_is_active = b
  generalize hv : el.property.strain_type_is_von_karman = v
  cases b <;> cases v <;> cases rd <;>
  · dsimp only [calculate_stress_derivative, Id.run, Id.pure_eq, Id.bind_eq, bind, pure]
    rw [hb, hv]
    dsimp only [ite_true_eq_true, ite_false_eq_true]
    rw [copy_rows_to_3D_of_zero _ _ hs.1 hs.2.1 hs.2.2,
      copy_rows_to_3D_of_zero _ _ he.1 he.2.1 he.2.2]
    exact ⟨rfl, rfl, rfl, rfl, rfl, rfl, rfl⟩

theorem calculate_stress_sensitivity_eq (el : StructuralElement2D R ι n nqp)
    (fe : FEBase R n nqp) (bend : BendingOperator2D R ι n) (p : FunctionBase ι)
    (tl : Option (ThermalBoundaryCondition R ι))
    (st : StressBuffers R ι n) (i : Fin nqp) (j : Fin 2)
    (hs : st.stress_3D 2 = 0 ∧ st.stress_3D 4 = 0 ∧ st.stress_3D 5 = 0)
    (he : st.strain_3D 2 = 0 ∧ st.strain_3D 4 = 0 ∧ st.strain_3D 5 = 0) :
    (calculate_stress_sensitivity el fe bend p tl st i j).stress_3D
      = to_3D (calculate_stress_sensitivity el fe bend p tl st i j).dstress_dp ∧
    (calculate_stress_sensitivity el fe bend p tl st i j).strain_3D
      = to_3D (calculate_stress_sensitivity el fe bend p tl st i j).dstrain_dp ∧
    (calculate_stress_sensitivity el fe bend p tl st i j).output
      = st.output.set_sensitivity (finProdFinEquiv (i, j) : Fin (nqp * 2)).val p
          (to_3D (calculate_stress_sensitivity el fe bend p tl st i j).dstress_dp)
          (to_3D (calculate_stress_sensitivity el fe bend p tl st i j).dstrain_dp) ∧
    (calculate_stress_sensitivity el fe bend p tl st i j).dstress_dX_3D = st.dstress_dX_3D ∧
    (calculate_stress_sensitivity el fe bend p tl st i j).dstrain_dX_3D = st.dstrain_dX_3D ∧
    (calculate_stress_sensitivity el fe bend p tl st i j).dstress_dX = st.dstress_dX ∧
    (calculate_stress_sensitivity el fe bend p tl st i j).dstrain_dX = st.dstrain_dX ∧
    (calculate_stress_sensitivity el fe bend p tl st i j).stress = st.stress ∧
    (calculate_stress_sensitivity el fe bend p tl st i j).strain = st.strain := by
  generalize hb : el.property.bending_model_is_active = b
  cases tl <;> cases b <;>
  · dsimp only [calculate_stress_sensitivity, Id.run, Id.pure_eq, Id.bind_eq, bind, pure]
    rw [hb]
    dsimp only [ite_true_eq_true, ite_false_eq_true]
    rw [copy_to_3D_of_zero _ _ hs.1 hs.2.1 hs.2.2, copy_to_3D_of_zero _ _ he.1 he.2.1 he.2.2]
    exact ⟨rfl, rfl, rfl, rfl, rfl, rfl, rfl, rfl, rfl⟩

theorem calculate_stress_point_eq (el : StructuralElement2D R ι n nqp) (fe : FEBase R n nqp)
    (bend : BendingOperator2D R ι n) (rd : Bool) (p : Option (FunctionBase ι))
    (tl : Option (ThermalBoundaryCondition R ι)) (st : StressBuffers R ι n)
    (i : Fin nqp) (j : Fin 2) (h : st.plane) :
    (calculate_stress_point el fe bend rd p tl st i j).plane ∧
    (calculate_stress_point el fe bend rd p tl st i j).output
      = stress_output_after fe rd p st.output i j
          (calculate_stress_point el fe bend rd p tl st i j).stress
          (calculate_stress_point el fe bend rd p tl st i j).strain
          (calculate_stress_point el fe bend rd p tl st i j).dstress_dX
          (calculate_stress_point el fe bend rd p tl st i j).dstrain_dX
          (calculate_stress_point el fe bend rd p tl st i j).dstress_dp
          (calculate_stress_point el fe bend rd p tl st i j).dstrain_dp := by
  obtain ⟨hs, he, hds, hde⟩ := h
  obtain ⟨a1, a2, a3, a4, a5⟩ := calculate_stress_primary_eq el fe bend tl st i j hs he
  have z1 : ∀ v : Fin 3 → R, to_3D v 2 = 0 ∧ to_3D v 4 = 0 ∧ to_3D v 5 = 0 :=
    fun _ => ⟨rfl, rfl, rfl⟩
  have z2 : ∀ M : Matrix (Fin 3) (Fin (6 * n)) R,
      rows_to_3D M 2 = 0 ∧ rows_to_3D M 4 = 0 ∧ rows_to_3D M 5 = 0 := fun _ => ⟨rfl, rfl, rfl⟩
  have rec_out : ∀ (rd : Bool) (p : Option (FunctionBase ι)), (rd = true ∨ p.isSome = true) →
      (calculate_stress_record fe rd p (calculate_stress_primary el fe bend tl st i j) i j).output
        = st.output.get_stress_strain_data_for_elem_at_qp
            (finProdFinEquiv (i, j) : Fin (nqp * 2)).val := by
    intro rd p hrp
    rw [← a3]
    cases rd <;> cases p <;> first | rfl | simp at hrp
  have rec_s : ∀ (rd : Bool) (p : Option (FunctionBase ι)),
      (calculate_stress_record fe rd p (calculate_stress_primary el fe bend tl st i j)
          i j).stress_3D = (calculate_stress_primary el fe bend tl st i j).stress_3D ∧
      (calculate_stress_record fe rd p (calculate_stress_primary el fe bend tl st i j)
          i j).strain_3D = (calculate_stress_primary el fe bend tl st i j).strain_3D ∧
      (calculate_stress_record fe rd p (calculate_stress_primary el fe bend tl st i j)
          i j).dstress_dX_3D = (calculate_stress_primary el fe bend tl st i j).dstress_dX_3D ∧
      (calculate_stress_record fe rd p (calculate_stress_primary el fe bend tl st i j)
          i j).dstrain_dX_3D = (calculate_stress_primary el fe bend tl st i j).dstrain_dX_3D := by
    intro rd p
    cases rd <;> cases p <;> exact ⟨rfl, rfl, rfl, rfl⟩
  cases rd <;> cases p
  · -- primary pass
    have e : calculate_stress_point el fe bend false none tl st i j
        = calculate_stress_record fe false none
            (calculate_stress_primary el fe bend tl st i j) i j := rfl
    rw [e]
    dsimp only [calculate_stress_record, stress_output_after, StressBuffers.plane,
      Bool.not_false, Bool.true_and, Option.isNone, ite_true_eq_true]
    rw [a1, a2, a3, a4, a5]
    exact ⟨⟨⟨rfl, rfl, rfl⟩, ⟨rfl, rfl, rfl⟩, hds, hde⟩, rfl⟩
  · -- sensitivity pass
    rename_i p
    have e : calculate_stress_point el fe bend false (some p) tl st i j
        = calculate_stress_sensitivity el fe bend p tl
            (calculate_stress_derivative el false
              (calculate_stress_record fe false (some p)
                (calculate_stress_primary el fe bend tl st i j) i j) i j) i j := rfl
    obtain ⟨r1, r2, r3, r4⟩ := rec_s false (some p)
    have ro := rec_out false (some p) (Or.inr rfl)
    obtain ⟨c1, c2, c3, c4, c5, c6, c7⟩ := calculate_stress_derivative_eq el false
      (calculate_stress_record fe false (some p)
        (calculate_stress_primary el fe bend tl st i j) i j) i j
      (by rw [r3, a4]; exact hds) (by rw [r4, a5]; exact hde)
    obtain ⟨d1, d2, d3, d4, d5, d6, d7, d8, d9⟩ := calculate_stress_sensitivity_eq el fe bend p tl
      (calculate_stress_derivative el false
        (calculate_stress_record fe false (some p)
          (calculate_stress_primary el fe bend tl st i j) i j) i j) i j
      (by rw [c4, r1, a1]; exact ⟨rfl, rfl, rfl⟩) (by rw [c5, r2, a2]; exact ⟨rfl, rfl, rfl⟩)
    rw [e]
    refine ⟨⟨?_, ?_, ?_, ?_⟩, ?_⟩
    · rw [d1]; exact ⟨rfl, rfl, rfl⟩
    · rw [d2]; exact ⟨rfl, rfl, rfl⟩
    · rw [d4, c1]; exact ⟨rfl, rfl, rfl⟩
    · rw [d5, c2]; exact ⟨rfl, rfl, rfl⟩
    · rw [d3, c3, ro]
      rfl
  · -- derivative pass
    have e : calculate_stress_point el fe bend true none tl st i j
        = calculate_stress_derivative el true
            (calculate_stress_record fe true none
              (calculate_stress_primary el fe bend tl st i j) i j) i j := rfl
    obtain ⟨r1, r2, r3, r4⟩ := rec_s true none
    have ro := rec_out true none (Or.inl rfl)
    obtain ⟨c1, c2, c3, c4, c5, c6, c7⟩ := calculate_stress_derivative_eq el true
      (calculate_stress_record fe true none
        (calculate_stress_primary el fe bend tl st i j) i j) i j
      (by rw [r3, a4]; exact hds) (by rw [r4, a5]; exact hde)
    rw [e]
    refine ⟨⟨?_, ?_, ?_, ?_⟩, ?_⟩
    · rw [c4, r1, a1]; exact ⟨rfl, rfl, rfl⟩
    · rw [c5, r2, a2]; exact ⟨rfl, rfl, rfl⟩
    · rw [c1]; exact ⟨rfl, rfl, rfl⟩
    · rw [c2]; exact ⟨rfl, rfl, rfl⟩
    · rw [c3, ro]
      rfl
  · -- derivative and sensitivity pass
    rename_i p
    have e : calculate_stress_point el fe bend true (some p) tl st i j
        = calculate_stress_sensitivity el fe bend p tl
            (calculate_stress_derivative el true
              (calculate_stress_record fe true (some p)
                (calculate_stress_primary el fe bend tl st i j) i j) i j) i j := rfl
    obtain ⟨r1, r2, r3, r4⟩ := rec_s true (some p)
    have ro := rec_out true (some p) (Or.inl rfl)
    obtain ⟨c1, c2, c3, c4, c5, c6, c7⟩ := calculate_stress_derivative_eq el true
      (calculate_stress_record fe true (some p)
        (calculate_stress_primary el fe bend tl st i j) i j) i j
      (by rw [r3, a4]; exact hds) (by rw [r4, a5]; exact hde)
    obtain ⟨d1, d2, d3, d4, d5, d6, d7, d8, d9⟩ := calculate_stress_sensitivity_eq el fe bend p tl
      (calculate_stress_derivative el true
        (calculate_stress_record fe true (some p)
          (calculate_stress_primary el fe bend tl st i j) i j) i j) i j
      (by rw [c4, r1, a1]; exact ⟨rfl, rfl, rfl⟩) (by rw [c5, r2, a2]; exact ⟨rfl, rfl, rfl⟩)
    rw [e]
    refine ⟨⟨?_, ?_, ?_, ?_⟩, ?_⟩
    · rw [d1]; exact ⟨rfl, rfl, rfl⟩
    · rw [d2]; exact ⟨rfl, rfl, rfl⟩
    · rw [d4, c1]; exact ⟨rfl, rfl, rfl⟩
    · rw [d5, c2]; exact ⟨rfl, rfl, rfl⟩
    · rw [d3, c3, ro, d6, d7]
      rfl

end StructuralElement2D

theorem to_3D_plane (v : Fin 3 → R) :
    to_3D v = to_3D ![to_3D v 0, to_3D v 1, to_3D v 3] := by
  ext i
  fin_cases i <;> rfl

theorem rows_to_3D_plane {k : ℕ} (M : Matrix (Fin 3) (Fin k) R) :
    rows_to_3D M = rows_to_3D ![rows_to_3D M 0, rows_to_3D M 1, rows_to_3D M 3] := by
  funext i
  fin_cases i <;> rfl

theorem qp_val (i : Fin nqp) (j : Fin 2) :
    (finProdFinEquiv (i, j) : Fin (nqp * 2)).val = 2 * i.val + j.val := by
  simp [finProdFinEquiv, Nat.add_comm]

theorem qp_loc_z (fe : FEBase R n nqp) (i : Fin nqp) (j : Fin 2) :
    StructuralElement2D.qp_loc fe (finProdFinEquiv (i, j)) 2
      = skin_z R (finProdFinEquiv (i, j) : Fin (nqp * 2)).val := by
  have hm : (finProdFinEquiv (i, j) : Fin (nqp * 2)).modNat = j :=
    congrArg Prod.snd (finProdFinEquiv.symm_apply_apply (i, j))
  unfold StructuralElement2D.qp_loc skin_z
  rw [hm, qp_val, Function.update_same]
  fin_cases j <;> simp [Nat.add_mod]

namespace StructuralElement2D
variable {ι : Type}

theorem stress_output_after_calls (fe : FEBase R n nqp) (rd : Bool)
    (p : Option (FunctionBase ι)) (o : StressStrainOutputBase R ι n) (i : Fin nqp) (j : Fin 2)
    (s e : Fin 3 → R) (ds de : Matrix (Fin 3) (Fin (6 * n)) R) (dsp dep : Fin 3 → R) :
    ∃ L : List (StressStrainOutputCall R ι n),
      (stress_output_after fe rd p o i j s e ds de dsp dep).calls = o.calls ++ L ∧
      (∀ c ∈ L, c.plane_stress) ∧
      L.filterMap StressStrainOutputCall.created
        = (if (!rd && p.isNone) = true then [(finProdFinEquiv (i, j) : Fin (nqp * 2)).val]
            else []) ∧
      L.filterMap StressStrainOutputCall.looked_up
        = (if (!rd && p.isNone) = true then []
            else [(finProdFinEquiv (i, j) : Fin (nqp * 2)).val]) ∧
      L.filterMap StressStrainOutputCall.created_z
        = (if (!rd && p.isNone) = true then [qp_loc fe (finProdFinEquiv (i, j)) 2] else []) ∧
      (stress_output_after fe rd p o i j s e ds de dsp dep).n_stress_strain_data_for_elem
        = o.n_stress_strain_data_for_elem + (if (!rd && p.isNone) = true then 1 else 0) ∧
      (stress_output_after fe rd p o i j s e ds de dsp dep).get_thermal_load_for_elem
        = o.get_thermal_load_for_elem := by
  cases rd <;> cases p
  · refine ⟨[.add_stress_strain_at_qp_location _ _ _ _ _ _], rfl, ?_, rfl, rfl, rfl, rfl, rfl⟩
    intro c hc
    rw [List.mem_singleton.1 hc]
    exact ⟨to_3D_plane _, to_3D_plane _⟩
  · rename_i p
    refine ⟨[.get_stress_strain_data_for_elem_at_qp (finProdFinEquiv (i, j) : Fin (nqp * 2)).val,
      .set_sensitivity (finProdFinEquiv (i, j) : Fin (nqp * 2)).val p (to_3D dsp) (to_3D dep)],
      ?_, ?_, rfl, rfl, rfl, rfl, rfl⟩
    · simp [stress_output_after, StressStrainOutputBase.set_sensitivity,
        StressStrainOutputBase.get_stress_strain_data_for_elem_at_qp]
    · intro c hc
      simp only [List.mem_cons, List.mem_singleton, List.not_mem_nil, or_false] at hc
      rcases hc with rfl | rfl
      · trivial
      · exact ⟨to_3D_plane _, to_3D_plane _⟩
  · refine ⟨[.get_stress_strain_data_for_elem_at_qp (finProdFinEquiv (i, j) : Fin (nqp * 2)).val,
      .set_derivatives (finProdFinEquiv (i, j) : Fin (nqp * 2)).val (rows_to_3D ds) (rows_to_3D de)],
      ?_, ?_, rfl, rfl, rfl, rfl, rfl⟩
    · simp [stress_output_after, StressStrainOutputBase.set_derivatives,
        StressStrainOutputBase.get_stress_strain_data_for_elem_at_qp]
    · intro c hc
      simp only [List.mem_cons, List.mem_singleton, List.not_mem_nil, or_false] at hc
      rcases hc with rfl | rfl
      · trivial
      · exact ⟨rows_to_3D_plane _, rows_to_3D_plane _⟩
  · rename_i p
    refine ⟨[.get_stress_strain_data_for_elem_at_qp (finProdFinEquiv (i, j) : Fin (nqp * 2)).val,
      .set_derivatives (finProdFinEquiv (i, j) : Fin (nqp * 2)).val (rows_to_3D ds) (rows_to_3D de),
      .set_sensitivity (finProdFinEquiv (i, j) : Fin (nqp * 2)).val p (to_3D dsp) (to_3D dep)], ?_, ?_, rfl, rfl, rfl, rfl, rfl⟩
    · simp [stress_output_after, StressStrainOutputBase.set_derivatives,
        StressStrainOutputBase.set_sensitivity,
        StressStrainOutputBase.get_stress_strain_data_for_elem_at_qp]
    · intro c hc
      simp only [List.mem_cons, List.mem_singleton, List.not_mem_nil, or_false] at hc
      rcases hc with rfl | rfl | rfl
      · trivial
      · exact ⟨rows_to_3D_plane _, rows_to_3D_plane _⟩
      · exact ⟨to_3D_plane _, to_3D_plane _⟩

theorem stress_trace_step (el : StructuralElement2D R ι n nqp) (fe : FEBase R n nqp)
    (bend : BendingOperator2D R ι n) (rd : Bool) (p : Option (FunctionBase ι))
    (tl : Option (ThermalBoundaryCondition R ι)) (output : StressStrainOutputBase R ι n)
    (st : StressBuffers R ι n) (i : Fin nqp) (j : Fin 2)
    (h : stress_trace (!rd && p.isNone) (2 * i.val + j.val) output st) :
    stress_trace (!rd && p.isNone) (2 * i.val + j.val + 1) output
      (calculate_stress_point el fe bend rd p tl st i j) := by
  obtain ⟨hp, new, h1, h2, h3, h4, h5, h6⟩ := h
  obtain ⟨q1, q2⟩ := calculate_stress_point_eq el fe bend rd p tl st i j hp
  refine ⟨q1, ?_⟩
  rw [q2]
  obtain ⟨L, l1, l2, l3, l4, l5, l6, -⟩ := stress_output_after_calls fe rd p st.output i j
    (calculate_stress_point el fe bend rd p tl st i j).stress
    (calculate_stress_point el fe bend rd p tl st i j).strain
    (calculate_stress_point el fe bend rd p tl st i j).dstress_dX
    (calculate_stress_point el fe bend rd p tl st i j).dstrain_dX
    (calculate_stress_point el fe bend rd p tl st i j).dstress_dp
    (calculate_stress_point el fe bend rd p tl st i j).dstrain_dp
  have hz := qp_loc_z fe i j
  have hq := qp_val i j
  refine ⟨new ++ L, ?_, ?_, ?_, ?_, ?_, ?_⟩
  · rw [l1, h1, List.append_assoc]
  · intro c hc
    rcases List.mem_append.1 hc with hc | hc
    · exact h2 c hc
    · exact l2 c hc
  · rw [List.filterMap_append, h3, l3, hq]
    split_ifs
    · rw [List.range_succ]
    · rfl
  · rw [List.filterMap_append, h4, l4, hq]
    split_ifs
    · rfl
    · rw [List.range_succ]
  · rw [List.filterMap_append, h5, l5, hz, hq]
    split_ifs
    · rw [List.range_succ, List.map_append]
      rfl
    · rfl
  · rw [l6, h6]
    split_ifs
    · rw [Nat.add_assoc]
    · rfl

theorem stress_trace_loop (el : StructuralElement2D R ι n nqp) (fe : FEBase R n nqp)
    (bend : BendingOperator2D R ι n) (rd : Bool) (p : Option (FunctionBase ι))
    (output : StressStrainOutputBase R ι n) :
    stress_trace (!rd && p.isNone) (2 * nqp) output
      (calculate_stress_loop el fe bend rd p output) := by
  refine foldl_index_invariant
    (fun k st => stress_trace (!rd && p.isNone) (2 * k) output st) _ _ ?_ ?_
  · refine ⟨⟨⟨rfl, rfl, rfl⟩, ⟨rfl, rfl, rfl⟩, ⟨rfl, rfl, rfl⟩, ⟨rfl, rfl, rfl⟩⟩, [], ?_, ?_, ?_,
      ?_, ?_, ?_⟩
    · exact (List.append_nil _).symm
    · intro c hc
      cases hc
    · split_ifs <;> rfl
    · split_ifs <;> rfl
    · split_ifs <;> rfl
    · split_ifs <;> rfl
  · intro i st hst
    dsimp only at hst ⊢
    have e : Fin.foldl 2 (fun st section_qp_index =>
        calculate_stress_point el fe bend rd p output.get_thermal_load_for_elem st i
          section_qp_index) st
        = calculate_stress_point el fe bend rd p output.get_thermal_load_for_elem
            (calculate_stress_point el fe bend rd p output.get_thermal_load_for_elem st i 0)
            i 1 := by
      simp [Fin.foldl_succ, Fin.foldl_zero]
    rw [e]
    have s0 := stress_trace_step el fe bend rd p output.get_thermal_load_for_elem output st i 0
      (by simpa using hst)
    have s1 := stress_trace_step el fe bend rd p output.get_thermal_load_for_elem output _ i 1
      (by simpa using s0)
    have : 2 * (i.val + 1) = 2 * i.val + (1 : Fin 2).val + 1 := by
      simp [Nat.mul_add]
    rw [this]
    exact s1

/-- C19: every six-component stress and strain vector `calculate_stress` hands to the
output, in the primary, derivative and sensitivity passes, is `(s0, s1, 0, s2, 0, 0)`, and
rows 2, 4 and 5 of the six-row derivative matrices are zero; at each evaluation point,
whatever the buffers hold from earlier points (sensitivity values included) as long as
their `zz`, `yz`, `zx` entries are zero, the vectors handed over are the six-component
forms of the 2D stress and strain (of their sensitivities in `set_sensitivity`, of the
2D derivative matrices in `set_derivatives`) and the buffers stay in that form. -/
theorem calculate_stress_hands_plane_stress_vectors (el : StructuralElement2D R ι n nqp)
    (fe : FEBase R n nqp) (bend : BendingOperator2D R ι n) (request_derivative : Bool)
    (p : Option (FunctionBase ι)) (output : StressStrainOutputBase R ι n) :
    (∃ new : List (StressStrainOutputCall R ι n),
      (calculate_stress_loop el fe bend request_derivative p output).output.calls
        = output.calls ++ new ∧ ∀ c ∈ new, c.plane_stress) ∧
    (stress_buffers output).plane ∧
    (∀ (thermal_load : Option (ThermalBoundaryCondition R ι)) (st : StressBuffers R ι n)
        (i : Fin nqp) (j : Fin 2), st.plane →
      (calculate_stress_point el fe bend request_derivative p thermal_load st i j).plane ∧
      (calculate_stress_point el fe bend request_derivative p thermal_load st i j).output
        = stress_output_after fe request_derivative p st.output i j
          (calculate_stress_point el fe bend request_derivative p thermal_load st i j).stress
          (calculate_stress_point el fe bend request_derivative p thermal_load st i j).strain
          (calculate_stress_point el fe bend request_derivative p thermal_load st i
            j).dstress_dX
          (calculate_stress_point el fe bend request_derivative p thermal_load st i
            j).dstrain_dX
          (calculate_stress_point el fe bend request_derivative p thermal_load st i
            j).dstress_dp
          (calculate_stress_point el fe bend request_derivative p thermal_load st i
            j).dstrain_dp) := by
  obtain ⟨-, new, h1, h2, -⟩ := stress_trace_loop el fe bend request_derivative p output
  exact ⟨⟨new, h1, h2⟩, ⟨⟨rfl, rfl, rfl⟩, ⟨rfl, rfl, rfl⟩, ⟨rfl, rfl, rfl⟩, ⟨rfl, rfl, rfl⟩⟩,
    fun tl st i j h => calculate_stress_point_eq el fe bend request_derivative p tl st i j h⟩

/-- C20: a primary `calculate_stress` call (no derivative, no parameter) creates one
record for each index `0 .. 2 n_qp - 1` in increasing order, index `2 i` at the upper skin
`z = +1` and index `2 i + 1` at the lower skin `z = -1`, and looks none up, so that the
output holds `2 n_qp` more records; a derivative or sensitivity call creates none and
looks up the same indices in the same order, so that the number of records is unchanged;
the final assertion passes, and the call returns, when the output held no record of the
element before the primary call and `2 n_qp` before a later call. -/
theorem calculate_stress_record_indices (el : StructuralElement2D R ι n nqp)
    (fe : FEBase R n nqp) (bend : BendingOperator2D R ι n)
    (output : StressStrainOutputBase R ι n) :
    (∃ new : List (StressStrainOutputCall R ι n),
      (calculate_stress_loop el fe bend false none output).output.calls = output.calls ++ new ∧
      new.filterMap StressStrainOutputCall.created = List.range (2 * nqp) ∧
      new.filterMap StressStrainOutputCall.looked_up = [] ∧
      new.filterMap StressStrainOutputCall.created_z = (List.range (2 * nqp)).map (skin_z R) ∧
      (calculate_stress_loop el fe bend false none output).output.n_stress_strain_data_for_elem
        = output.n_stress_strain_data_for_elem + 2 * nqp) ∧
    (∀ i : ℕ, skin_z R (2 * i) = 1 ∧ skin_z R (2 * i + 1) = -1) ∧
    (∀ (request_derivative : Bool) (p : Option (FunctionBase ι)),
      (request_derivative = true ∨ p.isSome = true) →
      ∃ new : List (StressStrainOutputCall R ι n),
        (calculate_stress_loop el fe bend request_derivative p output).output.calls
          = output.calls ++ new ∧
        new.filterMap StressStrainOutputCall.created = [] ∧
        new.filterMap StressStrainOutputCall.looked_up = List.range (2 * nqp) ∧
        (calculate_stress_loop el fe bend request_derivative p
            output).output.n_stress_strain_data_for_elem
          = output.n_stress_strain_data_for_elem) ∧
    (output.n_stress_strain_data_for_elem = 0 →
      calculate_stress el fe bend false none output
        = some (false, (calculate_stress_loop el fe bend false none output).output)) ∧
    (∀ (request_derivative : Bool) (p : Option (FunctionBase ι)),
      (request_derivative = true ∨ p.isSome = true) →
      output.n_stress_strain_data_for_elem = 2 * nqp →
      calculate_stress el fe bend request_derivative p output
        = some (true, (calculate_stress_loop el fe bend request_derivative p output).output)) := by
  have prim := stress_trace_loop el fe bend false none output
  obtain ⟨-, new, h1, -, h3, h4, h5, h6⟩ := prim
  have later : ∀ (rd : Bool) (p : Option (FunctionBase ι)), (rd = true ∨ p.isSome = true) →
      (!rd && p.isNone) = false := by
    intro rd p h
    cases rd <;> cases p <;> simp at h ⊢
  refine ⟨⟨new, h1, h3, h4, h5, h6⟩, ?_, ?_, ?_, ?_⟩
  · intro i
    constructor
    · simp [skin_z]
    · simp [skin_z, Nat.add_mod]
  · intro rd p hrp
    obtain ⟨-, new', g1, -, g3, g4, -, g6⟩ := stress_trace_loop el fe bend rd p output
    rw [later rd p hrp] at g3 g4 g6
    exact ⟨new', g1, g3, g4, g6⟩
  · intro h0
    unfold calculate_stress
    dsimp only
    rw [h6, h0, if_pos (by simp [Nat.mul_comm])]
    rfl
  · intro rd p hrp h0
    obtain ⟨-, new', g1, -, g3, g4, -, g6⟩ := stress_trace_loop el fe bend rd p output
    rw [later rd p hrp] at g6
    unfold calculate_stress
    dsimp only
    rw [g6, h0, if_pos (by simp [Nat.mul_comm])]
    cases rd <;> cases p <;> first | rfl | simp at hrp

end StructuralElement2D

/-! ## The channel-section property card -/

namespace Solid1DChanSectionProperty

theorem calcA_line (DIM1 DIM2 DIM3 DIM4 dDIM1 dDIM2 dDIM3 dDIM4 t : R) :
    calcA (DIM1 + t * dDIM1) (DIM2 + t * dDIM2) (DIM3 + t * dDIM3) (DIM4 + t * dDIM4)
      = calcA DIM1 DIM2 DIM3 DIM4 + t * calcdA DIM1 DIM2 DIM3 DIM4 dDIM1 dDIM2 dDIM3 dDIM4
        + t ^ 2 * calcA dDIM1 dDIM2 dDIM3 dDIM4 := by
  unfold calcA calcdA
  ring

/-- C22: `calcA` is `DIM2*DIM3 + 2*DIM4*(DIM1 - DIM3)`, and `calcdA` is its total
differential `sum_i (dA/dDIMi) dDIMi` with `dA/dDIM1 = 2 DIM4`, `dA/dDIM2 = DIM3`,
`dA/dDIM3 = DIM2 - 2 DIM4`, `dA/dDIM4 = 2 (DIM1 - DIM3)`: along every line
`DIM + t dDIM` the area is `A + t dA + t^2 A(dDIM)` over any field, each coefficient is
the partial derivative of `calcA` over the reals, and so is `calcdA` the derivative of
`calcA` along the line at `t = 0`. -/
theorem calcdA_is_total_differential :
    (∀ DIM1 DIM2 DIM3 DIM4 : R,
      calcA DIM1 DIM2 DIM3 DIM4 = DIM2 * DIM3 + 2 * DIM4 * (DIM1 - DIM3)) ∧
    (∀ DIM1 DIM2 DIM3 DIM4 dDIM1 dDIM2 dDIM3 dDIM4 : R,
      calcdA DIM1 DIM2 DIM3 DIM4 dDIM1 dDIM2 dDIM3 dDIM4
        = (2 * DIM4) * dDIM1 + DIM3 * dDIM2 + (DIM2 - 2 * DIM4) * dDIM3
          + (2 * (DIM1 - DIM3)) * dDIM4) ∧
    (∀ DIM1 DIM2 DIM3 DIM4 dDIM1 dDIM2 dDIM3 dDIM4 t : R,
      calcA (DIM1 + t * dDIM1) (DIM2 + t * dDIM2) (DIM3 + t * dDIM3) (DIM4 + t * dDIM4)
        = calcA DIM1 DIM2 DIM3 DIM4 + t * calcdA DIM1 DIM2 DIM3 DIM4 dDIM1 dDIM2 dDIM3 dDIM4
          + t ^ 2 * calcA dDIM1 dDIM2 dDIM3 dDIM4) ∧
    (∀ DIM1 DIM2 DIM3 DIM4 : ℝ,
      HasDerivAt (fun x => calcA x DIM2 DIM3 DIM4) (2 * DIM4) DIM1 ∧
      HasDerivAt (fun x => calcA DIM1 x DIM3 DIM4) DIM3 DIM2 ∧
      HasDerivAt (fun x => calcA DIM1 DIM2 x DIM4) (DIM2 - 2 * DIM4) DIM3 ∧
      HasDerivAt (fun x => calcA DIM1 DIM2 DIM3 x) (2 * (DIM1 - DIM3)) DIM4) ∧
    (∀ DIM1 DIM2 DIM3 DIM4 dDIM1 dDIM2 dDIM3 dDIM4 : ℝ,
      HasDerivAt (fun t : ℝ => calcA (DIM1 + t * dDIM1) (DIM2 + t * dDIM2) (DIM3 + t * dDIM3)
          (DIM4 + t * dDIM4))
        (calcdA DIM1 DIM2 DIM3 DIM4 dDIM1 dDIM2 dDIM3 dDIM4) 0) := by
  refine ⟨?_, ?_, calcA_line, ?_, ?_⟩
  · intro DIM1 DIM2 DIM3 DIM4
    unfold calcA
    ring
  · intro DIM1 DIM2 DIM3 DIM4 dDIM1 dDIM2 dDIM3 dDIM4
    unfold calcdA
    ring
  · intro DIM1 DIM2 DIM3 DIM4
    unfold calcA
    refine ⟨?_, ?_, ?_, ?_⟩
    · have h := (((hasDerivAt_id DIM1).sub_const DIM3).const_mul DIM4).mul_const (2 : ℝ)
      have h2 := h.const_add (DIM2 * DIM3)
      convert h2 using 1
      simp
      ring
    · have h := (((hasDerivAt_id DIM2).mul_const DIM3)).add_const (DIM4 * (DIM1 - DIM3) * 2)
      convert h using 1
      simp
    · have h1 := (hasDerivAt_id DIM3).const_mul DIM2
      have h2 := (((hasDerivAt_id DIM3).const_sub DIM1).const_mul DIM4).mul_const (2 : ℝ)
      convert h1.add h2 using 1
      simp
      ring
    · have h := (((hasDerivAt_id DIM4).mul_const (DIM1 - DIM3)).mul_const (2 : ℝ)).const_add
        (DIM2 * DIM3)
      convert h using 1
      simp
      ring
  · intro DIM1 DIM2 DIM3 DIM4 dDIM1 dDIM2 dDIM3 dDIM4
    have e : (fun t : ℝ => calcA (DIM1 + t * dDIM1) (DIM2 + t * dDIM2) (DIM3 + t * dDIM3)
          (DIM4 + t * dDIM4))
        = fun t => calcA DIM1 DIM2 DIM3 DIM4
            + t * calcdA DIM1 DIM2 DIM3 DIM4 dDIM1 dDIM2 dDIM3 dDIM4
            + t ^ 2 * calcA dDIM1 dDIM2 dDIM3 dDIM4 := by
      funext t
      exact calcA_line _ _ _ _ _ _ _ _ t
    rw [e]
    have h1 := ((hasDerivAt_id (0 : ℝ)).mul_const
      (calcdA DIM1 DIM2 DIM3 DIM4 dDIM1 dDIM2 dDIM3 dDIM4)).const_add (calcA DIM1 DIM2 DIM3 DIM4)
    have h2 := ((hasDerivAt_pow 2 (0 : ℝ)).mul_const (calcA dDIM1 dDIM2 dDIM3 dDIM4))
    convert h1.add h2 using 1
    simp

/-- C23: whenever the area `calcA` is non-zero (so that the quotient the two routines
share is defined), the polar inertia `calcIp` is the sum of the second moments `calcIz`
and `calcIy`. -/
theorem calcIp_eq_calcIz_add_calcIy (DIM1 DIM2 DIM3 DIM4 : R)
    (hA : calcA DIM1 DIM2 DIM3 DIM4 ≠ 0) :
    calcIp DIM1 DIM2 DIM3 DIM4 = calcIz DIM1 DIM2 DIM3 DIM4 + calcIy DIM1 DIM2 DIM3 DIM4 := by
  unfold calcIp calcIz calcIy
  ring

end Solid1DChanSectionProperty

theorem calcIp_eq_calcIz_add_calcIy_witness :
    Solid1DChanSectionProperty.calcA (4 : ℚ) 6 1 1 ≠ 0 ∧
    Solid1DChanSectionProperty.calcIp (4 : ℚ) 6 1 1
      = Solid1DChanSectionProperty.calcIz 4 6 1 1 + Solid1DChanSectionProperty.calcIy 4 6 1 1 :=
  ⟨by norm_num [Solid1DChanSectionProperty.calcA],
    Solid1DChanSectionProperty.calcIp_eq_calcIz_add_calcIy 4 6 1 1
      (by norm_num [Solid1DChanSectionProperty.calcA])⟩


namespace Solid1DChanSectionElementPropertyCard

open Solid1DChanSectionProperty

theorem init_of_initialized {K ι : Type} [LinearOrderedField K] (sqrt : K → K)
    (card : Solid1DChanSectionElementPropertyCard K ι) (h : card._initialized = true) :
    init sqrt card = .error .assertion := by
  unfold init
  rw [if_pos h]

/-- C21: on a card that is not yet initialized, `init` fails exactly when `DIM1 <= 0` or
`DIM2 <= 0` or `DIM3 <= 0` or `DIM4 <= 0` or `2 DIM4 >= DIM2` or `DIM3 >= DIM1`, with the
message of the first of these conditions that holds, in this order; otherwise it returns
the card with the six section functions built from the `calc` routines and the
dimensions, the other members unchanged and `_initialized` set, and `init` fails on the
card it returned (as on every initialized card) at the assertion. -/
theorem init_validates_dimensions {K ι : Type} [LinearOrderedField K] (sqrt : K → K)
    (card : Solid1DChanSectionElementPropertyCard K ι) (h : card._initialized = false) :
    ((∃ e, init sqrt card = .error e) ↔
      (card.DIM1.eval ≤ 0 ∨ card.DIM2.eval ≤ 0 ∨ card.DIM3.eval ≤ 0 ∨ card.DIM4.eval ≤ 0 ∨
        2 * card.DIM4.eval ≥ card.DIM2.eval ∨ card.DIM3.eval ≥ card.DIM1.eval)) ∧
    (card.DIM1.eval ≤ 0 → init sqrt card = .error (.error_msg ("DIM1<=0"))) ∧
    (¬ card.DIM1.eval ≤ 0 → card.DIM2.eval ≤ 0 →
      init sqrt card = .error (.error_msg ("DIM2<=0"))) ∧
    (¬ card.DIM1.eval ≤ 0 → ¬ card.DIM2.eval ≤ 0 → card.DIM3.eval ≤ 0 →
      init sqrt card = .error (.error_msg ("DIM3<=0"))) ∧
    (¬ card.DIM1.eval ≤ 0 → ¬ card.DIM2.eval ≤ 0 → ¬ card.DIM3.eval ≤ 0 →
      card.DIM4.eval ≤ 0 → init sqrt card = .error (.error_msg ("DIM4<=0"))) ∧
    (¬ card.DIM1.eval ≤ 0 → ¬ card.DIM2.eval ≤ 0 → ¬ card.DIM3.eval ≤ 0 →
      ¬ card.DIM4.eval ≤ 0 → 2 * card.DIM4.eval ≥ card.DIM2.eval →
      init sqrt card = .error (.error_msg ("2.0*DIM4>=DIM2"))) ∧
    (¬ card.DIM1.eval ≤ 0 → ¬ card.DIM2.eval ≤ 0 → ¬ card.DIM3.eval ≤ 0 →
      ¬ card.DIM4.eval ≤ 0 → ¬ 2 * card.DIM4.eval ≥ card.DIM2.eval →
      card.DIM3.eval ≥ card.DIM1.eval →
      init sqrt card = .error (.error_msg ("DIM3>=DIM1"))) ∧
    (¬ (card.DIM1.eval ≤ 0 ∨ card.DIM2.eval ≤ 0 ∨ card.DIM3.eval ≤ 0 ∨ card.DIM4.eval ≤ 0 ∨
        2 * card.DIM4.eval ≥ card.DIM2.eval ∨ card.DIM3.eval ≥ card.DIM1.eval) →
      ∃ card', init sqrt card = .ok card' ∧ card'._initialized = true ∧
        card'._A = some ⟨calcA, calcdA, card.DIM1, card.DIM2, card.DIM3, card.DIM4⟩ ∧
        card'._Ay
          = some ⟨calcA, calcdA, card.DIM1, card.DIM2, card.DIM3, card.DIM4, card.hz_off⟩ ∧
        card'._Az
          = some ⟨calcA, calcdA, card.DIM1, card.DIM2, card.DIM3, card.DIM4, card.hy_off⟩ ∧
        card'._J
          = some ⟨calcJ sqrt, calcdJ sqrt, card.DIM1, card.DIM2, card.DIM3, card.DIM4⟩ ∧
        card'._Ip = some ⟨calcIp, calcdIp, calcA, calcdA, card.DIM1, card.DIM2, card.DIM3,
          card.DIM4, card.hy_off, card.hz_off⟩ ∧
        card'._AI = some ⟨calcIz, calcdIz, calcIy, calcdIy, calcA, calcdA, card.DIM1,
          card.DIM2, card.DIM3, card.DIM4, card.hy_off, card.hz_off⟩ ∧
        card'.DIM1 = card.DIM1 ∧ card'.DIM2 = card.DIM2 ∧ card'.DIM3 = card.DIM3 ∧
        card'.DIM4 = card.DIM4 ∧ card'.hy_off = card.hy_off ∧ card'.hz_off = card.hz_off ∧
        init sqrt card' = .error .assertion) ∧
    (∀ c : Solid1DChanSectionElementPropertyCard K ι, c._initialized = true →
      init sqrt c = .error .assertion) := by
  have hi : (card._initialized = true) = False := by simp [h]
  have e1 : card.DIM1.eval ≤ 0 → init sqrt card = .error (.error_msg ("DIM1<=0")) := by
    intro h1
    unfold init
    rw [if_neg (by simp [h])]
    dsimp only
    rw [if_pos h1]
  have e2 : ¬ card.DIM1.eval ≤ 0 → card.DIM2.eval ≤ 0 →
      init sqrt card = .error (.error_msg ("DIM2<=0")) := by
    intro h1 h2
    unfold init
    rw [if_neg (by simp [h])]
    dsimp only
    rw [if_neg h1, if_pos h2]
  have e3 : ¬ card.DIM1.eval ≤ 0 → ¬ card.DIM2.eval ≤ 0 → card.DIM3.eval ≤ 0 →
      init sqrt card = .error (.error_msg ("DIM3<=0")) := by
    intro h1 h2 h3
    unfold init
    rw [if_neg (by simp [h])]
    dsimp only
    rw [if_neg h1, if_neg h2, if_pos h3]
  have e4 : ¬ card.DIM1.eval ≤ 0 → ¬ card.DIM2.eval ≤ 0 → ¬ card.DIM3.eval ≤ 0 →
      card.DIM4.eval ≤ 0 → init sqrt card = .error (.error_msg ("DIM4<=0")) := by
    intro h1 h2 h3 h4
    unfold init
    rw [if_neg (by simp [h])]
    dsimp only
    rw [if_neg h1, if_neg h2, if_neg h3, if_pos h4]
  have e5 : ¬ card.DIM1.eval ≤ 0 → ¬ card.DIM2.eval ≤ 0 → ¬ card.DIM3.eval ≤ 0 →
      ¬ card.DIM4.eval ≤ 0 → 2 * card.DIM4.eval ≥ card.DIM2.eval →
      init sqrt card = .error (.error_msg ("2.0*DIM4>=DIM2")) := by
    intro h1 h2 h3 h4 h5
    unfold init
    rw [if_neg (by simp [h])]
    dsimp only
    rw [if_neg h1, if_neg h2, if_neg h3, if_neg h4, if_pos h5]
  have e6 : ¬ card.DIM1.eval ≤ 0 → ¬ card.DIM2.eval ≤ 0 → ¬ card.DIM3.eval ≤ 0 →
      ¬ card.DIM4.eval ≤ 0 → ¬ 2 * card.DIM4.eval ≥ card.DIM2.eval →
      card.DIM3.eval ≥ card.DIM1.eval →
      init sqrt card = .error (.error_msg ("DIM3>=DIM1")) := by
    intro h1 h2 h3 h4 h5 h6
    unfold init
    rw [if_neg (by simp [h])]
    dsimp only
    rw [if_neg h1, if_neg h2, if_neg h3, if_neg h4, if_neg h5, if_pos h6]
  have ok : ¬ (card.DIM1.eval ≤ 0 ∨ card.DIM2.eval ≤ 0 ∨ card.DIM3.eval ≤ 0 ∨
        card.DIM4.eval ≤ 0 ∨ 2 * card.DIM4.eval ≥ card.DIM2.eval ∨
        card.DIM3.eval ≥ card.DIM1.eval) →
      init sqrt card = .ok { card with
        _A := some ⟨calcA, calcdA, card.DIM1, card.DIM2, card.DIM3, card.DIM4⟩
        _Ay := some ⟨calcA, calcdA, card.DIM1, card.DIM2, card.DIM3, card.DIM4, card.hz_off⟩
        _Az := some ⟨calcA, calcdA, card.DIM1, card.DIM2, card.DIM3, card.DIM4, card.hy_off⟩
        _J := some ⟨calcJ sqrt, calcdJ sqrt, card.DIM1, card.DIM2, card.DIM3, card.DIM4⟩
        _Ip := some ⟨calcIp, calcdIp, calcA, calcdA, card.DIM1, card.DIM2, card.DIM3,
          card.DIM4, card.hy_off, card.hz_off⟩
        _AI := some ⟨calcIz, calcdIz, calcIy, calcdIy, calcA, calcdA, card.DIM1, card.DIM2,
          card.DIM3, card.DIM4, card.hy_off, card.hz_off⟩
        _initialized := true } := by
    intro hn
    simp only [not_or] at hn
    obtain ⟨h1, h2, h3, h4, h5, h6⟩ := hn
    unfold init
    rw [if_neg (by simp [h])]
    dsimp only
    rw [if_neg h1, if_neg h2, if_neg h3, if_neg h4, if_neg h5, if_neg h6]
  refine ⟨⟨?_, ?_⟩, e1, e2, e3, e4, e5, e6, ?_, fun c hc => init_of_initialized sqrt c hc⟩
  · rintro ⟨e, he⟩
    by_contra hn
    rw [ok hn] at he
    cases he
  · intro hv
    by_cases h1 : card.DIM1.eval ≤ 0
    · exact ⟨_, e1 h1⟩
    by_cases h2 : card.DIM2.eval ≤ 0
    · exact ⟨_, e2 h1 h2⟩
    by_cases h3 : card.DIM3.eval ≤ 0
    · exact ⟨_, e3 h1 h2 h3⟩
    by_cases h4 : card.DIM4.eval ≤ 0
    · exact ⟨_, e4 h1 h2 h3 h4⟩
    by_cases h5 : 2 * card.DIM4.eval ≥ card.DIM2.eval
    · exact ⟨_, e5 h1 h2 h3 h4 h5⟩
    by_cases h6 : card.DIM3.eval ≥ card.DIM1.eval
    · exact ⟨_, e6 h1 h2 h3 h4 h5 h6⟩
    · exact absurd hv (by simp only [not_or]; exact ⟨h1, h2, h3, h4, h5, h6⟩)
  · intro hn
    exact ⟨_, ok hn, rfl, rfl, rfl, rfl, rfl, rfl, rfl, rfl, rfl, rfl, rfl, rfl, rfl,
      init_of_initialized sqrt _ rfl⟩

end Solid1DChanSectionElementPropertyCard

theorem init_validates_dimensions_witness :
    (chan_card 4 6 1 1)._initialized = false ∧
    (∃ card', (chan_card 4 6 1 1).init id = .ok card' ∧ card'._initialized = true ∧
      card'.init id = .error .assertion) ∧
    (chan_card 4 2 1 1).init id = .error (.error_msg ("2.0*DIM4>=DIM2")) ∧
    (chan_card 0 0 1 1).init id = .error (.error_msg ("DIM1<=0")) := by
  have h := Solid1DChanSectionElementPropertyCard.init_validates_dimensions id
    (chan_card 4 6 1 1) rfl
  have h2 := Solid1DChanSectionElementPropertyCard.init_validates_dimensions id
    (chan_card 4 2 1 1) rfl
  have h3 := Solid1DChanSectionElementPropertyCard.init_validates_dimensions id
    (chan_card 0 0 1 1) rfl
  refine ⟨rfl, ?_, ?_, ?_⟩
  · obtain ⟨c, hc⟩ := h.2.2.2.2.2.2.2.1 (by norm_num [chan_card])
    exact ⟨c, hc.1, hc.2.1, hc.2.2.2.2.2.2.2.2.2.2.2.2.2.2⟩
  · exact h2.2.2.2.2.2.1 (by simp [chan_card]) (by simp [chan_card]) (by simp [chan_card])
      (by simp [chan_card]) (by norm_num [chan_card])
  · exact h3.2.1 (by simp [chan_card])


theorem stress_of_vec_transpose (a : Fin 3 → R) : (stress_of_vec a)ᵀ = stress_of_vec a := by
  ext i j
  fin_cases i <;> fin_cases j <;> rfl

/-- C25: when the constitutive matrices `A` and `D` are symmetric, what
`_internal_residual_operation` adds to the local tangent is a symmetric matrix, for every
coupling matrix `B`, every content of the operator buffers, every solution, quadrature
weight and setting of the three flags; the accumulated tangent is therefore symmetric
whenever the tangent the kernel started from (zero on entry of the loop) is. -/
theorem internal_residual_operation_tangent_symmetric {ι : Type} (u : Fin (6 * n) → R)
    (bo : BendingOperator2D R ι n) (if_bending if_vk : Bool) (qp : Fin nqp)
    (fe : FEBase R n nqp) (JxW : Fin nqp → R) (request_jacobian : Bool)
    (buf : KernelBuffers R n) (A B D : Matrix (Fin 3) (Fin 3) R)
    (hA : A.IsSymm) (hD : D.IsSymm) :
    ((_internal_residual_operation u bo if_bending if_vk qp fe JxW request_jacobian buf
        A B D).local_jac - buf.local_jac).IsSymm ∧
    (buf.local_jac.IsSymm →
      (_internal_residual_operation u bo if_bending if_vk qp fe JxW request_jacobian buf
        A B D).local_jac.IsSymm) := by
  have key : ((_internal_residual_operation u bo if_bending if_vk qp fe JxW request_jacobian
      buf A B D).local_jac - buf.local_jac).IsSymm := by
    have hA' : Aᵀ = A := hA
    have hD' : Dᵀ = D := hD
    cases if_bending <;> cases if_vk <;> cases request_jacobian <;>
    · dsimp only [_internal_residual_operation, Id.run, Id.pure_eq, Id.bind_eq, bind, pure,
        ite_true_eq_true, ite_false_eq_true,
        FEMOperatorMatrix.vector_mult, FEMOperatorMatrix.vector_mult_transpose,
        FEMOperatorMatrix.left_multiply, FEMOperatorMatrix.right_multiply_transpose]
      unfold Matrix.IsSymm
      simp only [stress_of_vec_add, Matrix.transpose_sub, Matrix.transpose_add,
        Matrix.transpose_smul, Matrix.transpose_mul, Matrix.transpose_transpose,
        stress_of_vec_transpose, hA', hD', Matrix.mul_assoc, sub_self, Matrix.transpose_zero]
      try abel
  refine ⟨key, fun hJ => ?_⟩
  have e : (_internal_residual_operation u bo if_bending if_vk qp fe JxW request_jacobian buf
        A B D).local_jac
      = ((_internal_residual_operation u bo if_bending if_vk qp fe JxW request_jacobian buf
        A B D).local_jac - buf.local_jac) + buf.local_jac := by
    abel
  rw [e]
  exact key.add hJ


theorem internal_residual_operation_tangent_symmetric_witness :
    (1 : Matrix (Fin 3) (Fin 3) ℚ).IsSymm ∧
    ((_internal_residual_operation (fun _ => 1) tri3_bending_operator true true 0 tri3_fe
        tri3_fe.JxW true (StructuralElement2D.fresh_buffers ℚ 3) 1 1 1).local_jac
      - (StructuralElement2D.fresh_buffers ℚ 3).local_jac).IsSymm :=
  ⟨Matrix.isSymm_one,
    (internal_residual_operation_tangent_symmetric (fun _ => 1) tri3_bending_operator true
      true 0 tri3_fe tri3_fe.JxW true (StructuralElement2D.fresh_buffers ℚ 3) 1 1 1
      Matrix.isSymm_one Matrix.isSymm_one).1⟩

/-- C24: with `e(x)`, `W(x)` the `vk_strain` and `vk_dwdxi_mat` that
`initialize_von_karman_strain_operator` returns at solution `x`, and `Bmat_vk` the operator
it returns (the same at every solution) from an operator buffer whose other slots are
unset, `e(u + d) = e(u) + W(u) (Bmat_vk d) + e(d)` and `W(u) (Bmat_vk u) = 2 e(u)` for
all solutions `u` and perturbations `d`. -/
theorem initialize_von_karman_strain_operator_linearizes [CharZero R]
    (u d : Fin (6 * n) → R) (qp : Fin nqp) (fe : FEBase R n nqp) (vk_strain : Fin 3 → R)
    (vk_dwdxi_mat : Matrix (Fin 3) (Fin 2) R) (Bmat_vk : FEMOperatorMatrix R 2 6 n)
    (hB : ∀ r v, v ≠ 2 → Bmat_vk r v = 0) :
    (initialize_von_karman_strain_operator (u + d) qp fe vk_strain vk_dwdxi_mat
        Bmat_vk).vk_strain
      = (initialize_von_karman_strain_operator u qp fe vk_strain vk_dwdxi_mat
          Bmat_vk).vk_strain
        + (initialize_von_karman_strain_operator u qp fe vk_strain vk_dwdxi_mat
            Bmat_vk).vk_dwdxi_mat *ᵥ
          ((initialize_von_karman_strain_operator u qp fe vk_strain vk_dwdxi_mat
            Bmat_vk).Bmat_vk.vector_mult d)
        + (initialize_von_karman_strain_operator d qp fe vk_strain vk_dwdxi_mat
            Bmat_vk).vk_strain ∧
    (initialize_von_karman_strain_operator u qp fe vk_strain vk_dwdxi_mat
        Bmat_vk).vk_dwdxi_mat *ᵥ
      ((initialize_von_karman_strain_operator u qp fe vk_strain vk_dwdxi_mat
        Bmat_vk).Bmat_vk.vector_mult u)
      = (2 : R) • (initialize_von_karman_strain_operator u qp fe vk_strain vk_dwdxi_mat
          Bmat_vk).vk_strain ∧
    (initialize_von_karman_strain_operator (u + d) qp fe vk_strain vk_dwdxi_mat
        Bmat_vk).Bmat_vk
      = (initialize_von_karman_strain_operator u qp fe vk_strain vk_dwdxi_mat
          Bmat_vk).Bmat_vk := by
  refine ⟨?_, ?_, rfl⟩
  · simp only [vk_strain_eq, vk_dwdxi_mat_eq, FEMOperatorMatrix.vector_mult,
      vk_Bmat_mulVec _ qp fe vk_strain vk_dwdxi_mat Bmat_vk _ hB]
    have h := vk_e_add_smul (dwdxi qp fe u) (dwdxi qp fe d) (1 : R)
    have h2 := dwdxi_add_smul qp fe u d (1 : R)
    simp only [one_smul, one_pow] at h h2
    rw [h2, h]
  · simp only [vk_strain_eq, vk_dwdxi_mat_eq, FEMOperatorMatrix.vector_mult,
      vk_Bmat_mulVec _ qp fe vk_strain vk_dwdxi_mat Bmat_vk _ hB]
    ext i
    fin_cases i <;>
      simp [vk_e, vk_W, Matrix.mulVec, Matrix.dotProduct, Fin.sum_univ_succ] <;>
      norm_num <;> ring

theorem initialize_von_karman_strain_operator_linearizes_witness :
    (∀ (r : Fin 2) (v : Fin 6), v ≠ 2 → FEMOperatorMatrix.reinit 2 6 3 r v = (0 : Fin 3 → ℚ)) ∧
    (initialize_von_karman_strain_operator ((fun _ => 1) + (fun _ => 2)) 0 tri3_fe 0 0
        (FEMOperatorMatrix.reinit 2 6 3)).vk_strain
      = (initialize_von_karman_strain_operator (fun _ => 1) 0 tri3_fe 0 0
          (FEMOperatorMatrix.reinit 2 6 3)).vk_strain
        + (initialize_von_karman_strain_operator (fun _ => 1) 0 tri3_fe 0 0
            (FEMOperatorMatrix.reinit 2 6 3)).vk_dwdxi_mat *ᵥ
          ((initialize_von_karman_strain_operator (fun _ => 1) 0 tri3_fe 0 0
            (FEMOperatorMatrix.reinit 2 6 3)).Bmat_vk.vector_mult (fun _ => 2))
        + (initialize_von_karman_strain_operator (fun _ => 2) 0 tri3_fe 0 0
            (FEMOperatorMatrix.reinit 2 6 3)).vk_strain :=
  ⟨fun _ _ _ => rfl,
    (initialize_von_karman_strain_operator_linearizes (fun _ => 1) (fun _ => 2) 0 tri3_fe 0 0
      (FEMOperatorMatrix.reinit 2 6 3) (fun _ _ _ => rfl)).1⟩

/-- C28: for every quadrature point, shape-gradient table and sensitivity vector, the
matrix `initialize_von_karman_strain_operator_sensitivity` returns is the `vk_dwdxi_mat`
that `initialize_von_karman_strain_operator` returns when its solution is the
sensitivity vector, whatever the output buffers held; it is read from `_local_sol_sens`
alone, so two elements with the same sensitivity vector get the same matrix whatever
their primary solutions. -/
theorem initialize_von_karman_strain_operator_sensitivity_refines (qp : Fin nqp)
    (fe : FEBase R n nqp) :
    (∀ (local_sol_sens : Fin (6 * n) → R) (vk_dwdxi_mat_sens : Matrix (Fin 3) (Fin 2) R)
        (vk_strain : Fin 3 → R) (vk_dwdxi_mat : Matrix (Fin 3) (Fin 2) R)
        (Bmat_vk : FEMOperatorMatrix R 2 6 n),
      initialize_von_karman_strain_operator_sensitivity local_sol_sens qp fe vk_dwdxi_mat_sens
        = (initialize_von_karman_strain_operator local_sol_sens qp fe vk_strain vk_dwdxi_mat
            Bmat_vk).vk_dwdxi_mat) ∧
    (∀ {ι : Type} (el el' : StructuralElement2D R ι n nqp)
        (W W' : Matrix (Fin 3) (Fin 2) R), el.local_sol_sens = el'.local_sol_sens →
      initialize_von_karman_strain_operator_sensitivity el.local_sol_sens qp fe W
        = initialize_von_karman_strain_operator_sensitivity el'.local_sol_sens qp fe W') := by
  refine ⟨fun s W e W' Bv => ?_, fun el el' W W' h => ?_⟩
  · rw [vk_sens_eq, vk_dwdxi_mat_eq]
  · rw [vk_sens_eq, vk_sens_eq, h]


namespace StructuralElement2D
variable {ι : Type}

theorem prestress_residual_ret (el : StructuralElement2D R ι n nqp) (p : FunctionBase ι)
    (rj : Bool) (f : Fin (6 * n) → R) (jac : Matrix (Fin (6 * n)) (Fin (6 * n)) R)
    (hp : el.property.if_prestressed = true) :
    (el.prestress_residual rj f jac).ret = rj ∧
    (el.prestress_residual_sensitivity p rj f jac).ret = rj := by
  constructor
  · dsimp only [prestress_residual, Id.run, Id.pure_eq, Id.bind_eq, bind, pure]
    rw [hp]
    cases rj <;> cases el.property.strain_type_is_von_karman <;> rfl
  · dsimp only [prestress_residual_sensitivity, Id.run, Id.pure_eq, Id.bind_eq, bind, pure]
    rw [hp]
    cases rj <;> cases el.property.strain_type_is_von_karman <;> rfl

theorem prestress_residual_jac_of_linear (el : StructuralElement2D R ι n nqp)
    (p : FunctionBase ι) (rj : Bool) (f : Fin (6 * n) → R)
    (jac : Matrix (Fin (6 * n)) (Fin (6 * n)) R)
    (hv : el.property.strain_type_is_von_karman = false) :
    (el.prestress_residual rj f jac).jac = jac ∧
    (el.prestress_residual_sensitivity p rj f jac).jac = jac := by
  generalize hp : el.property.if_prestressed = pre
  constructor
  · dsimp only [prestress_residual, Id.run, Id.pure_eq, Id.bind_eq, bind, pure]
    rw [hp, hv]
    cases pre <;> cases rj <;> rfl
  · dsimp only [prestress_residual_sensitivity, Id.run, Id.pure_eq, Id.bind_eq, bind, pure]
    rw [hp, hv]
    cases pre <;> cases rj <;> rfl

/-- For a prestressed property card `prestress_residual` and
`prestress_residual_sensitivity` return `request_jacobian`, whatever the strain type; when
the von Karman strain is not active they hand back `jac` unchanged, so with
`request_jacobian = true` they return `true` having added nothing to `jac`. -/
theorem prestress_residual_returns_request_jacobian (el : StructuralElement2D R ι n nqp)
    (p : FunctionBase ι) (request_jacobian : Bool) (f : Fin (6 * n) → R)
    (jac : Matrix (Fin (6 * n)) (Fin (6 * n)) R)
    (hp : el.property.if_prestressed = true) :
    (el.prestress_residual request_jacobian f jac).ret = request_jacobian ∧
    (el.prestress_residual_sensitivity p request_jacobian f jac).ret = request_jacobian ∧
    (el.property.strain_type_is_von_karman = false →
      (el.prestress_residual request_jacobian f jac).jac = jac ∧
      (el.prestress_residual_sensitivity p request_jacobian f jac).jac = jac) :=
  ⟨(prestress_residual_ret el p request_jacobian f jac hp).1,
    (prestress_residual_ret el p request_jacobian f jac hp).2,
    fun hv => prestress_residual_jac_of_linear el p request_jacobian f jac hv⟩

end StructuralElement2D

theorem prestress_residual_returns_request_jacobian_witness :
    tri3_plate_elem.property.if_prestressed = true ∧
    (tri3_plate_elem.prestress_residual true 0 0).ret = true ∧
    (tri3_plate_elem.prestress_residual_sensitivity tri3_param true 0 0).ret = true :=
  ⟨rfl,
    (StructuralElement2D.prestress_residual_returns_request_jacobian tri3_plate_elem tri3_param
      true 0 0 rfl).1,
    (StructuralElement2D.prestress_residual_returns_request_jacobian tri3_plate_elem tri3_param
      true 0 0 rfl).2.1⟩

/-- C30 (failing input): on the triangle as a linear plate (prestressed card, bending
active, von Karman strain not active) with `request_jacobian = true` and `jac = 0`,
`prestress_residual` and `prestress_residual_sensitivity` return `true` although the von
Karman strain is not active and they hand back `jac = 0`, having added nothing to it:
the statement `return (request_jacobian)` stands under the comment "only the nonlinear
strain returns a Jacobian for prestressing", outside the block guarded by
`request_jacobian && if_vk`. -/
theorem prestress_residual_returns_true_without_von_karman :
    tri3_plate_elem.property.if_prestressed = true ∧
    tri3_plate_elem.property.strain_type_is_von_karman = false ∧
    (tri3_plate_elem.prestress_residual true 0 0).ret = true ∧
    (tri3_plate_elem.prestress_residual true 0 0).jac = 0 ∧
    (tri3_plate_elem.prestress_residual_sensitivity tri3_param true 0 0).ret = true ∧
    (tri3_plate_elem.prestress_residual_sensitivity tri3_param true 0 0).jac = 0 :=
  ⟨rfl, rfl,
    (StructuralElement2D.prestress_residual_ret tri3_plate_elem tri3_param true 0 0 rfl).1,
    (StructuralElement2D.prestress_residual_jac_of_linear tri3_plate_elem tri3_param true 0 0
      rfl).1,
    (StructuralElement2D.prestress_residual_ret tri3_plate_elem tri3_param true 0 0 rfl).2,
    (StructuralElement2D.prestress_residual_jac_of_linear tri3_plate_elem tri3_param true 0 0
      rfl).2⟩


theorem foldl_scale_at {N : ℕ} (c : Fin N → R) : ∀ {m : ℕ} (idx : Fin m → Fin N),
    Function.Injective idx → ∀ (J : Fin N → R) (k : Fin N),
    Fin.foldl m (fun J i => Function.update J (idx i) (J (idx i) * c (idx i))) J k
      = if ∃ i, idx i = k then J k * c k else J k := by
  intro m
  induction m with
  | zero => intro idx _ J k; simp [Fin.foldl_zero]
  | succ m ih =>
    intro idx hinj J k
    rw [Fin.foldl_succ_last]
    have hinj' : Function.Injective (fun i : Fin m => idx i.castSucc) :=
      fun a b hab => Fin.castSucc_injective _ (hinj hab)
    have hlast : ¬ ∃ i : Fin m, idx i.castSucc = idx (Fin.last m) := by
      rintro ⟨i, hi⟩
      exact (Fin.castSucc_lt_last i).ne (hinj hi)
    by_cases hk : k = idx (Fin.last m)
    · subst hk
      rw [Function.update_same, ih (fun i => idx i.castSucc) hinj' J, if_neg hlast,
        if_pos ⟨_, rfl⟩]
    · rw [Function.update_noteq hk, ih (fun i => idx i.castSucc) hinj' J k]
      have : (∃ i : Fin m, idx i.castSucc = k) ↔ ∃ i, idx i = k := by
        constructor
        · rintro ⟨i, hi⟩
          exact ⟨_, hi⟩
        · rintro ⟨i, hi⟩
          induction i using Fin.lastCases with
          | last => exact absurd hi.symm hk
          | cast j => exact ⟨j, hi⟩
      simp only [this]

theorem foldl_scale {m : ℕ} (c J : Fin m → R) :
    Fin.foldl m (fun J i => Function.update J i (J i * c i)) J = fun k => J k * c k := by
  funext k
  have := foldl_scale_at c (fun i : Fin m => i) (fun _ _ h => h) J k
  rw [this, if_pos ⟨k, rfl⟩]

theorem kernel_local_jac_of_no_request {ι : Type} (u : Fin (6 * n) → R)
    (bo : BendingOperator2D R ι n) (b v : Bool) (qp : Fin nqp) (fe : FEBase R n nqp)
    (JxW : Fin nqp → R) (buf : KernelBuffers R n) (A B D : Matrix (Fin 3) (Fin 3) R) :
    (_internal_residual_operation u bo b v qp fe JxW false buf A B D).local_jac
      = buf.local_jac := by
  cases b <;> cases v <;> rfl

namespace StructuralElement2D
variable {ι : Type} {nqs : ℕ}

theorem boundary_velocity_loop (el : StructuralElement2D R ι n nqp) (fe : FEBase R n nqs)
    (w : Fin nqs → R) :
    (Fin.foldl nqs (fun buf qp =>
      _internal_residual_operation el.local_sol el.bending_operator
        el.property.bending_model_is_active el.property.strain_type_is_von_karman qp fe w
        false buf (el.property.stiffness_A_matrix.value (fe.xyz qp) el.time)
        (if el.property.bending_model_is_active then
          el.property.stiffness_B_matrix.value (fe.xyz qp) el.time else 0)
        (if el.property.bending_model_is_active then
          el.property.stiffness_D_matrix.value (fe.xyz qp) el.time else 0))
      (fresh_buffers R n)).local_f
    = ∑ qp, w qp • (_internal_residual_operation el.local_sol el.bending_operator
        el.property.bending_model_is_active el.property.strain_type_is_von_karman qp fe
        (fun _ => 1) false (fresh_buffers R n)
        (el.property.stiffness_A_matrix.value (fe.xyz qp) el.time)
        (if el.property.bending_model_is_active then
          el.property.stiffness_B_matrix.value (fe.xyz qp) el.time else 0)
        (if el.property.bending_model_is_active then
          el.property.stiffness_D_matrix.value (fe.xyz qp) el.time else 0)).local_f := by
  have key := foldl_accumulate (fun buf : KernelBuffers R n => buf.local_f)
    KernelBuffers.clean
    (fun buf qp =>
      _internal_residual_operation el.local_sol el.bending_operator
        el.property.bending_model_is_active el.property.strain_type_is_von_karman qp fe w
        false buf (el.property.stiffness_A_matrix.value (fe.xyz qp) el.time)
        (if el.property.bending_model_is_active then
          el.property.stiffness_B_matrix.value (fe.xyz qp) el.time else 0)
        (if el.property.bending_model_is_active then
          el.property.stiffness_D_matrix.value (fe.xyz qp) el.time else 0))
    (fun qp => w qp • kernel_force qp fe el.bending_operator
        el.property.bending_model_is_active el.property.strain_type_is_von_karman
        (el.property.stiffness_A_matrix.value (fe.xyz qp) el.time)
        (if el.property.bending_model_is_active then
          el.property.stiffness_B_matrix.value (fe.xyz qp) el.time else 0)
        (if el.property.bending_model_is_active then
          el.property.stiffness_D_matrix.value (fe.xyz qp) el.time else 0) el.local_sol)
    (fun s i hs => kernel_clean _ _ _ _ _ _ _ _ _ _ _ _ hs)
    (fun s i hs => kernel_local_f _ _ _ _ _ _ _ _ _ _ _ _ hs)
    (fresh_buffers R n) fresh_buffers_clean
  have h2 := key.2
  dsimp only at h2
  rw [h2]
  have h0 : (fresh_buffers R n).local_f = 0 := rfl
  rw [h0, zero_add]
  refine Finset.sum_congr rfl (fun qp _ => ?_)
  rw [kernel_local_f _ _ _ _ _ _ _ _ _ _ _ _ fresh_buffers_clean, h0, zero_add, one_smul]

/-- C29: when the bending operator adds no transverse-shear term (bending or its
transverse shear energy is off, or the operator hands the local force back unchanged),
`internal_residual_boundary_velocity` adds to `f` the transform of the sum over the
quadrature points of side `s` of `JxW[qp] (vel_x n_x + vel_y n_y)(qp)` times the local
force `_internal_residual_operation` produces at that point with unit weight from zero
buffers; the kernel is called without a Jacobian request and then leaves the local
tangent as it was; and `f` is handed back unchanged when the normal velocity vanishes at
every side quadrature point. -/
theorem internal_residual_boundary_velocity_weights_by_normal_velocity
    (el : StructuralElement2D R ι n nqp) (init_for_side : ℕ → Bool → FEBase R n nqs)
    (p : FunctionBase ι) (f : Fin (6 * n) → R) (s : ℕ) (vel_f : FieldFunction R ι (Fin 2 → R))
    (h : (el.property.bending_model_is_active
        && el.bending_operator.include_transverse_shear_energy) = true →
      ∀ local_f, el.bending_operator.calculate_transverse_shear_residual_boundary_velocity
        p s vel_f local_f = local_f) :
    el.internal_residual_boundary_velocity init_for_side p f s vel_f
      = f + el.transform_vector_to_global_system
          (∑ qp, ((init_for_side s true).JxW qp
              * (vel_f.value ((init_for_side s true).xyz qp) el.time 0
                  * (init_for_side s true).normals qp 0
                + vel_f.value ((init_for_side s true).xyz qp) el.time 1
                  * (init_for_side s true).normals qp 1)) •
            (_internal_residual_operation el.local_sol el.bending_operator
              el.property.bending_model_is_active el.property.strain_type_is_von_karman qp
              (init_for_side s true) (fun _ => 1) false (fresh_buffers R n)
              (el.property.stiffness_A_matrix.value ((init_for_side s true).xyz qp) el.time)
              (if el.property.bending_model_is_active then
                el.property.stiffness_B_matrix.value ((init_for_side s true).xyz qp) el.time
                else 0)
              (if el.property.bending_model_is_active then
                el.property.stiffness_D_matrix.value ((init_for_side s true).xyz qp) el.time
                else 0)).local_f) ∧
    (∀ (qp : Fin nqs) (JxW : Fin nqs → R) (buf : KernelBuffers R n)
        (A B D : Matrix (Fin 3) (Fin 3) R),
      (_internal_residual_operation el.local_sol el.bending_operator
        el.property.bending_model_is_active el.property.strain_type_is_von_karman qp
        (init_for_side s true) JxW false buf A B D).local_jac = buf.local_jac) ∧
    ((∀ qp, vel_f.value ((init_for_side s true).xyz qp) el.time 0
            * (init_for_side s true).normals qp 0
          + vel_f.value ((init_for_side s true).xyz qp) el.time 1
            * (init_for_side s true).normals qp 1 = 0) →
      el.internal_residual_boundary_velocity init_for_side p f s vel_f = f) := by
  have hw : Fin.foldl nqs (fun JxW_Vn qp =>
        Function.update JxW_Vn qp (JxW_Vn qp *
          Fin.foldl 2 (fun vn i => vn + vel_f.value ((init_for_side s true).xyz qp) el.time i
            * (init_for_side s true).normals qp (Fin.castLE (by decide) i)) 0))
        (init_for_side s true).JxW
      = fun qp => (init_for_side s true).JxW qp
          * (vel_f.value ((init_for_side s true).xyz qp) el.time 0
              * (init_for_side s true).normals qp 0
            + vel_f.value ((init_for_side s true).xyz qp) el.time 1
              * (init_for_side s true).normals qp 1) := by
    have := foldl_scale
      (fun qp => Fin.foldl 2 (fun vn i => vn
          + vel_f.value ((init_for_side s true).xyz qp) el.time i
            * (init_for_side s true).normals qp (Fin.castLE (by decide) i)) 0)
      (init_for_side s true).JxW
    rw [this]
    funext qp
    simp [Fin.foldl_succ, Fin.foldl_zero]
  have main : el.internal_residual_boundary_velocity init_for_side p f s vel_f
      = f + el.transform_vector_to_global_system
          (∑ qp, ((init_for_side s true).JxW qp
              * (vel_f.value ((init_for_side s true).xyz qp) el.time 0
                  * (init_for_side s true).normals qp 0
                + vel_f.value ((init_for_side s true).xyz qp) el.time 1
                  * (init_for_side s true).normals qp 1)) •
            (_internal_residual_operation el.local_sol el.bending_operator
              el.property.bending_model_is_active el.property.strain_type_is_von_karman qp
              (init_for_side s true) (fun _ => 1) false (fresh_buffers R n)
              (el.property.stiffness_A_matrix.value ((init_for_side s true).xyz qp) el.time)
              (if el.property.bending_model_is_active then
                el.property.stiffness_B_matrix.value ((init_for_side s true).xyz qp) el.time
                else 0)
              (if el.property.bending_model_is_active then
                el.property.stiffness_D_matrix.value ((init_for_side s true).xyz qp) el.time
                else 0)).local_f) := by
    dsimp only [internal_residual_boundary_velocity, Id.run, Id.pure_eq, Id.bind_eq, bind, pure]
    rw [hw, boundary_velocity_loop]
    by_cases hb : (el.property.bending_model_is_active
        && el.bending_operator.include_transverse_shear_energy) = true
    · rw [if_pos hb, h hb]
    · rw [if_neg hb]
  refine ⟨main, fun qp JxW buf A B D => kernel_local_jac_of_no_request _ _ _ _ _ _ _ _ _ _ _,
    fun hz => ?_⟩
  rw [main]
  simp only [hz, mul_zero, zero_smul, Finset.sum_const_zero]
  simp [transform_vector_to_global_system]

end StructuralElement2D

theorem internal_residual_boundary_velocity_weights_by_normal_velocity_witness :
    (tri3_elem.property.bending_model_is_active
      && tri3_elem.bending_operator.include_transverse_shear_energy) = false ∧
    (∀ qp : Fin 1, (![1, 0] : Fin 2 → ℚ) 0 * tri3_fe.normals qp 0
      + (![1, 0] : Fin 2 → ℚ) 1 * tri3_fe.normals qp 1 = 0) ∧
    tri3_elem.internal_residual_boundary_velocity (fun _ _ => tri3_fe) tri3_param 0 0
      ⟨fun _ _ => ![1, 0], fun _ _ _ => 0⟩ = 0 := by
  have h := StructuralElement2D.internal_residual_boundary_velocity_weights_by_normal_velocity
    tri3_elem (fun _ _ => tri3_fe) tri3_param 0 0 ⟨fun _ _ => ![1, 0], fun _ _ _ => 0⟩
    (fun hb => absurd hb (by decide))
  have hz : ∀ qp : Fin 1, (![1, 0] : Fin 2 → ℚ) 0 * tri3_fe.normals qp 0
      + (![1, 0] : Fin 2 → ℚ) 1 * tri3_fe.normals qp 1 = 0 := by
    intro qp
    simp [tri3_fe]
  exact ⟨rfl, hz, h.2.2 hz⟩


theorem thermal_shift_eq (s : Fin 3 → R) (c : R) :
    Function.update (Function.update s 0 (s 0 - c)) 1 (Function.update s 0 (s 0 - c) 1 - c)
      = s - ![c, c, 0] := by
  ext k
  fin_cases k <;> simp [Function.update]

theorem vec3_zero : (![0, 0, 0] : Fin 3 → R) = 0 := by
  ext k
  fin_cases k <;> rfl

theorem stress_buffers_clean {ι : Type} (output : StressStrainOutputBase R ι n) :
    (StructuralElement2D.stress_buffers output).clean :=
  ⟨mem_clean_reinit, vk_clean_reinit⟩

theorem stress_point_strain_add_smul [CharZero R] {ι : Type} (fe : FEBase R n nqp)
    (bend : BendingOperator2D R ι n) (b v : Bool) (th z : R) (qp : Fin nqp)
    (u d : Fin (6 * n) → R) (t : R) :
    stress_point_strain fe bend b v th z qp (u + t • d)
      = stress_point_strain fe bend b v th z qp u
        + t • (stress_point_dstrain_dX fe bend b v z qp u *ᵥ d)
        + t ^ 2 • (if (b && v) = true then vk_e (dwdxi qp fe d) else 0) := by
  cases b <;> cases v <;>
    simp only [stress_point_strain, stress_point_dstrain_dX, Matrix.mulVec_add,
      Matrix.mulVec_smul, Matrix.add_mulVec, dwdxi_add_smul, vk_e_add_smul,
      ← Matrix.mulVec_mulVec, Bvk_mulVec, ite_true_eq_true, ite_false_eq_true,
      Bool.and_self, Bool.and_true, Bool.and_false, Bool.false_eq_true, if_false, if_true,
      add_zero, zero_add, smul_zero, smul_add] <;>
    abel

namespace StructuralElement2D
variable {ι : Type}

theorem calculate_stress_primary_values (el : StructuralElement2D R ι n nqp)
    (fe : FEBase R n nqp) (bend : BendingOperator2D R ι n)
    (tl : Option (ThermalBoundaryCondition R ι)) (st : StressBuffers R ι n)
    (i : Fin nqp) (j : Fin 2) (hc : st.clean) :
    (calculate_stress_primary el fe bend tl st i j).strain
      = stress_point_strain fe bend el.property.bending_model_is_active
          el.property.strain_type_is_von_karman
          (thermal_strain el.property.alpha_expansion tl (fe.xyz i) el.time)
          (el.stress_point_z fe i j) i el.local_sol ∧
    (calculate_stress_primary el fe bend tl st i j).stress
      = el.property.material_stiffness_matrix.value (fe.xyz i) el.time *ᵥ
          (calculate_stress_primary el fe bend tl st i j).strain ∧
    (calculate_stress_primary el fe bend tl st i j).material_mat
      = el.property.material_stiffness_matrix.value (fe.xyz i) el.time ∧
    (calculate_stress_primary el fe bend tl st i j).Bmat_mem.toMatrix = Bmem i fe ∧
    (el.property.bending_model_is_active = true →
      el.property.strain_type_is_von_karman = true →
      (calculate_stress_primary el fe bend tl st i j).vk_dwdxi_mat
        = vk_W (dwdxi i fe el.local_sol) ∧
      (calculate_stress_primary el fe bend tl st i j).Bmat_vk.toMatrix = Bvk i fe) ∧
    (el.property.bending_model_is_active = true →
      (calculate_stress_primary el fe bend tl st i j).Bmat_bend
        = bend.initialize_bending_strain_operator_for_z fe i (el.stress_point_z fe i j)) ∧
    (calculate_stress_primary el fe bend tl st i j).clean ∧
    (∀ load, tl = some load →
      (calculate_stress_primary el fe bend tl st i j).alpha
        = el.property.alpha_expansion.value (fe.xyz i) el.time ∧
      (calculate_stress_primary el fe bend tl st i j).temp
        = load.temperature.value (fe.xyz i) el.time ∧
      (calculate_stress_primary el fe bend tl st i j).ref_t
        = load.ref_temperature.value (fe.xyz i) el.time) := by
  have hm := initialize_direct_strain_operator_of_clean i fe st.Bmat_mem hc.1
  have hmc := initialize_direct_strain_operator_clean i fe st.Bmat_mem hc.1
  have hv' := vk_Bmat_of_clean el.local_sol i fe st.strain_vk st.vk_dwdxi_mat st.Bmat_vk hc.2
  have hvc := vk_Bmat_clean el.local_sol i fe st.strain_vk st.vk_dwdxi_mat st.Bmat_vk hc.2
  generalize hb : el.property.bending_model_is_active = b
  generalize hv : el.property.strain_type_is_von_karman = v
  cases tl <;> cases b <;> cases v <;>
  · dsimp only [calculate_stress_primary, Id.run, Id.pure_eq, Id.bind_eq, bind, pure]
    rw [hb, hv]
    dsimp only [ite_true_eq_true, ite_false_eq_true]
    refine ⟨?_, rfl, rfl, ?_, ?_, ?_, ?_, ?_⟩
    · simp only [thermal_shift_eq, stress_point_strain, thermal_strain, hm, Bmem,
        FEMOperatorMatrix.vector_mult, vk_strain_eq, stress_point_z, if_true, if_false,
        Bool.false_eq_true, add_zero, zero_add, add_assoc, vec3_zero, sub_zero]
    · rw [hm]
      rfl
    · intro h1 h2
      first
        | exact absurd h1 (by decide)
        | exact absurd h2 (by decide)
        | exact ⟨vk_dwdxi_mat_eq _ _ _ _ _ _, by rw [hv']; rfl⟩
    · intro h1
      first
        | exact absurd h1 (by decide)
        | rfl
    · first
        | exact ⟨hmc, hc.2⟩
        | exact ⟨hmc, hvc⟩
    · intro load hl
      cases hl <;> exact ⟨rfl, rfl, rfl⟩


theorem calculate_stress_record_fields (fe : FEBase R n nqp) (rd : Bool)
    (p : Option (FunctionBase ι)) (st : StressBuffers R ι n) (i : Fin nqp) (j : Fin 2) :
    (calculate_stress_record fe rd p st i j).strain = st.strain ∧
    (calculate_stress_record fe rd p st i j).stress = st.stress ∧
    (calculate_stress_record fe rd p st i j).material_mat = st.material_mat ∧
    (calculate_stress_record fe rd p st i j).Bmat_mem = st.Bmat_mem ∧
    (calculate_stress_record fe rd p st i j).Bmat_vk = st.Bmat_vk ∧
    (calculate_stress_record fe rd p st i j).Bmat_bend = st.Bmat_bend ∧
    (calculate_stress_record fe rd p st i j).vk_dwdxi_mat = st.vk_dwdxi_mat ∧
    (calculate_stress_record fe rd p st i j).alpha = st.alpha ∧
    (calculate_stress_record fe rd p st i j).temp = st.temp ∧
    (calculate_stress_record fe rd p st i j).ref_t = st.ref_t := by
  cases rd <;> cases p <;> exact ⟨rfl, rfl, rfl, rfl, rfl, rfl, rfl, rfl, rfl, rfl⟩

theorem calculate_stress_derivative_values (el : StructuralElement2D R ι n nqp) (rd : Bool)
    (st : StressBuffers R ι n) (i : Fin nqp) (j : Fin 2) :
    (calculate_stress_derivative el rd st i j).dstrain_dX
      = st.Bmat_mem.toMatrix
        + (if el.property.bending_model_is_active then
            (if el.property.strain_type_is_von_karman then
              st.vk_dwdxi_mat * st.Bmat_vk.toMatrix else 0)
              + st.Bmat_bend.toMatrix
          else 0) ∧
    (calculate_stress_derivative el rd st i j).dstress_dX
      = st.material_mat * (calculate_stress_derivative el rd st i j).dstrain_dX ∧
    (calculate_stress_derivative el rd st i j).material_mat = st.material_mat ∧
    (calculate_stress_derivative el rd st i j).Bmat_mem = st.Bmat_mem ∧
    (calculate_stress_derivative el rd st i j).Bmat_vk = st.Bmat_vk ∧
    (calculate_stress_derivative el rd st i j).alpha = st.alpha ∧
    (calculate_stress_derivative el rd st i j).temp = st.temp ∧
    (calculate_stress_derivative el rd st i j).ref_t = st.ref_t ∧
    (calculate_stress_derivative el rd st i j).strain = st.strain ∧
    (calculate_stress_derivative el rd st i j).stress = st.stress := by
  generalize hb : el.property.bending_model_is_active = b
  generalize hv : el.property.strain_type_is_von_karman = v
  cases b <;> cases v <;> cases rd <;>
  · dsimp only [calculate_stress_derivative, Id.run, Id.pure_eq, Id.bind_eq, bind, pure]
    rw [hb, hv]
    dsimp only [ite_true_eq_true, ite_false_eq_true]
    refine ⟨?_, rfl, rfl, rfl, rfl, rfl, rfl, rfl, rfl, rfl⟩
    simp only [FEMOperatorMatrix.left_multiply, Matrix.one_mul, if_true, if_false,
      Bool.false_eq_true, add_zero, zero_add, add_assoc]

theorem calculate_stress_sensitivity_values (el : StructuralElement2D R ι n nqp)
    (fe : FEBase R n nqp) (bend : BendingOperator2D R ι n) (p : FunctionBase ι)
    (tl : Option (ThermalBoundaryCondition R ι)) (st : StressBuffers R ι n)
    (i : Fin nqp) (j : Fin 2) :
    (∀ load, tl = some load → el.property.bending_model_is_active = false →
      (calculate_stress_sensitivity el fe bend p tl st i j).dstrain_dp
        = (0 - ![st.alpha * (load.temperature.derivative p (fe.xyz i) el.time
                  - load.ref_temperature.derivative p (fe.xyz i) el.time)
                - el.property.alpha_expansion.derivative p (fe.xyz i) el.time
                  * (st.temp - st.ref_t),
              st.alpha * (load.temperature.derivative p (fe.xyz i) el.time
                  - load.ref_temperature.derivative p (fe.xyz i) el.time)
                - el.property.alpha_expansion.derivative p (fe.xyz i) el.time
                  * (st.temp - st.ref_t), 0])
          + st.dstrain_dX *ᵥ el.local_sol_sens) ∧
    (calculate_stress_sensitivity el fe bend p tl st i j).Bmat_mem = st.Bmat_mem ∧
    (calculate_stress_sensitivity el fe bend p tl st i j).Bmat_vk = st.Bmat_vk ∧
    (calculate_stress_sensitivity el fe bend p tl st i j).strain = st.strain ∧
    (calculate_stress_sensitivity el fe bend p tl st i j).stress = st.stress ∧
    (calculate_stress_sensitivity el fe bend p tl st i j).dstrain_dX = st.dstrain_dX ∧
    (calculate_stress_sensitivity el fe bend p tl st i j).dstress_dX = st.dstress_dX := by
  generalize hb : el.property.bending_model_is_active = b
  cases tl <;> cases b <;>
  · dsimp only [calculate_stress_sensitivity, Id.run, Id.pure_eq, Id.bind_eq, bind, pure]
    rw [hb]
    dsimp only [ite_true_eq_true, ite_false_eq_true]
    refine ⟨?_, rfl, rfl, rfl, rfl, rfl, rfl⟩
    intro load hl hbf
    first
      | exact absurd hbf (by decide)
      | (cases hl <;> rw [thermal_shift_eq])

theorem calculate_stress_point_stages (el : StructuralElement2D R ι n nqp)
    (fe : FEBase R n nqp) (bend : BendingOperator2D R ι n) (rd : Bool)
    (p : Option (FunctionBase ι)) (tl : Option (ThermalBoundaryCondition R ι))
    (st : StressBuffers R ι n) (i : Fin nqp) (j : Fin 2) :
    calculate_stress_point el fe bend rd p tl st i j
      = if (rd || p.isSome) = true then
          match p with
          | some p' => calculate_stress_sensitivity el fe bend p' tl
              (calculate_stress_derivative el rd
                (calculate_stress_record fe rd p
                  (calculate_stress_primary el fe bend tl st i j) i j) i j) i j
          | none => calculate_stress_derivative el rd
              (calculate_stress_record fe rd p
                (calculate_stress_primary el fe bend tl st i j) i j) i j
        else calculate_stress_record fe rd p
          (calculate_stress_primary el fe bend tl st i j) i j := by
  cases rd <;> cases p <;> rfl


theorem calculate_stress_point_values (el : StructuralElement2D R ι n nqp)
    (fe : FEBase R n nqp) (bend : BendingOperator2D R ι n) (rd : Bool)
    (p : Option (FunctionBase ι)) (tl : Option (ThermalBoundaryCondition R ι))
    (st : StressBuffers R ι n) (i : Fin nqp) (j : Fin 2) (hc : st.clean) :
    (calculate_stress_point el fe bend rd p tl st i j).strain
      = stress_point_strain fe bend el.property.bending_model_is_active
          el.property.strain_type_is_von_karman
          (thermal_strain el.property.alpha_expansion tl (fe.xyz i) el.time)
          (el.stress_point_z fe i j) i el.local_sol ∧
    (calculate_stress_point el fe bend rd p tl st i j).stress
      = el.property.material_stiffness_matrix.value (fe.xyz i) el.time *ᵥ
          (calculate_stress_point el fe bend rd p tl st i j).strain ∧
    (calculate_stress_point el fe bend rd p tl st i j).clean ∧
    ((rd = true ∨ p.isSome = true) →
      (calculate_stress_point el fe bend rd p tl st i j).dstrain_dX
        = stress_point_dstrain_dX fe bend el.property.bending_model_is_active
            el.property.strain_type_is_von_karman (el.stress_point_z fe i j) i el.local_sol ∧
      (calculate_stress_point el fe bend rd p tl st i j).dstress_dX
        = el.property.material_stiffness_matrix.value (fe.xyz i) el.time *
            (calculate_stress_point el fe bend rd p tl st i j).dstrain_dX) := by
  obtain ⟨a1, a2, a3, a4, a5, a6, a7, -⟩ := calculate_stress_primary_values el fe bend tl st i j hc
  have hD : ∀ rd' p',
      (calculate_stress_derivative el rd'
        (calculate_stress_record fe rd' p'
          (calculate_stress_primary el fe bend tl st i j) i j) i j).dstrain_dX
      = stress_point_dstrain_dX fe bend el.property.bending_model_is_active
            el.property.strain_type_is_von_karman (el.stress_point_z fe i j) i el.local_sol := by
    intro rd' p'
    obtain ⟨r1, r2, r3, r4, r5, r6, r7, -⟩ := calculate_stress_record_fields fe rd' p'
      (calculate_stress_primary el fe bend tl st i j) i j
    rw [(calculate_stress_derivative_values el rd' _ i j).1, r4, r5, r6, r7, a4]
    unfold stress_point_dstrain_dX
    generalize hb : el.property.bending_model_is_active = b at a5 a6 ⊢
    generalize hv : el.property.strain_type_is_von_karman = v at a5 ⊢
    cases b
    · rfl
    · cases v
      · rw [a6 rfl]
        rfl
      · rw [a6 rfl, (a5 rfl rfl).1, (a5 rfl rfl).2]
  have hS : ∀ rd' p',
      (calculate_stress_derivative el rd'
        (calculate_stress_record fe rd' p'
          (calculate_stress_primary el fe bend tl st i j) i j) i j).dstress_dX
      = el.property.material_stiffness_matrix.value (fe.xyz i) el.time *
        (calculate_stress_derivative el rd'
          (calculate_stress_record fe rd' p'
            (calculate_stress_primary el fe bend tl st i j) i j) i j).dstrain_dX := by
    intro rd' p'
    obtain ⟨r1, r2, r3, r4, r5, r6, r7, -⟩ := calculate_stress_record_fields fe rd' p'
      (calculate_stress_primary el fe bend tl st i j) i j
    rw [(calculate_stress_derivative_values el rd' _ i j).2.1, r3, a3]
  obtain ⟨r1, r2, r3, r4, r5, r6, r7, -⟩ := calculate_stress_record_fields fe rd p
    (calculate_stress_primary el fe bend tl st i j) i j
  obtain ⟨-, -, -, c4, c5, -, -, -, c9, c10⟩ := calculate_stress_derivative_values el rd
    (calculate_stress_record fe rd p (calculate_stress_primary el fe bend tl st i j) i j) i j
  rw [calculate_stress_point_stages]
  cases rd <;> cases p
  · rw [if_neg (by simp)]
    refine ⟨?_, ?_, ?_, fun h => ?_⟩
    · exact r1.trans a1
    · rw [r2, a2, r1]
    · exact ⟨by rw [r4]; exact a7.1, by rw [r5]; exact a7.2⟩
    · simp at h
  · rename_i p'
    obtain ⟨-, s2, s3, s4, s5, s6, s7⟩ := calculate_stress_sensitivity_values el fe bend p' tl
      (calculate_stress_derivative el false
        (calculate_stress_record fe false (some p')
          (calculate_stress_primary el fe bend tl st i j) i j) i j) i j
    simp only [Bool.false_or, Bool.true_or, Option.isSome, ite_true_eq_true, if_true]
    refine ⟨?_, ?_, ?_, fun h => ⟨?_, ?_⟩⟩
    · rw [s4, c9, r1, a1]
    · rw [s5, c10, r2, a2, s4, c9, r1]
    · exact ⟨by rw [s2, c4, r4]; exact a7.1, by rw [s3, c5, r5]; exact a7.2⟩
    · rw [s6, hD]
    · rw [s7, s6, hS]
  · simp only [Bool.false_or, Bool.true_or, Option.isSome, ite_true_eq_true, if_true]
    refine ⟨?_, ?_, ?_, fun h => ⟨?_, ?_⟩⟩
    · rw [c9, r1, a1]
    · rw [c10, r2, a2, c9, r1]
    · exact ⟨by rw [c4, r4]; exact a7.1, by rw [c5, r5]; exact a7.2⟩
    · rw [hD]
    · rw [hS]
  · rename_i p'
    obtain ⟨-, s2, s3, s4, s5, s6, s7⟩ := calculate_stress_sensitivity_values el fe bend p' tl
      (calculate_stress_derivative el true
        (calculate_stress_record fe true (some p')
          (calculate_stress_primary el fe bend tl st i j) i j) i j) i j
    simp only [Bool.false_or, Bool.true_or, Option.isSome, ite_true_eq_true, if_true]
    refine ⟨?_, ?_, ?_, fun h => ⟨?_, ?_⟩⟩
    · rw [s4, c9, r1, a1]
    · rw [s5, c10, r2, a2, s4, c9, r1]
    · exact ⟨by rw [s2, c4, r4]; exact a7.1, by rw [s3, c5, r5]; exact a7.2⟩
    · rw [s6, hD]
    · rw [s7, s6, hS]


theorem calculate_stress_point_values_at (el : StructuralElement2D R ι n nqp)
    (fe : FEBase R n nqp) (bend : BendingOperator2D R ι n) (rd : Bool)
    (p : Option (FunctionBase ι)) (tl : Option (ThermalBoundaryCondition R ι))
    (st : StressBuffers R ι n) (i : Fin nqp) (j : Fin 2) (hc : st.clean)
    (u : Fin (6 * n) → R) :
    (calculate_stress_point (el.with_local_sol u) fe bend rd p tl st i j).strain
      = stress_point_strain fe bend el.property.bending_model_is_active
          el.property.strain_type_is_von_karman
          (thermal_strain el.property.alpha_expansion tl (fe.xyz i) el.time)
          (el.stress_point_z fe i j) i u ∧
    (calculate_stress_point (el.with_local_sol u) fe bend rd p tl st i j).stress
      = el.property.material_stiffness_matrix.value (fe.xyz i) el.time *ᵥ
          (calculate_stress_point (el.with_local_sol u) fe bend rd p tl st i j).strain ∧
    (calculate_stress_point (el.with_local_sol u) fe bend rd p tl st i j).clean ∧
    ((rd = true ∨ p.isSome = true) →
      (calculate_stress_point (el.with_local_sol u) fe bend rd p tl st i j).dstrain_dX
        = stress_point_dstrain_dX fe bend el.property.bending_model_is_active
            el.property.strain_type_is_von_karman (el.stress_point_z fe i j) i u ∧
      (calculate_stress_point (el.with_local_sol u) fe bend rd p tl st i j).dstress_dX
        = el.property.material_stiffness_matrix.value (fe.xyz i) el.time *
            (calculate_stress_point (el.with_local_sol u) fe bend rd p tl st i j).dstrain_dX) :=
  calculate_stress_point_values (el.with_local_sol u) fe bend rd p tl st i j hc

/-- C27: at every evaluation point of a derivative or sensitivity pass of
`calculate_stress`, started from operator buffers that hold nothing but what the builders
wrote (as the reinit-ed buffers do, and as the buffers after every point do), the 2D
matrices are `dstrain_dX = Bmem + [bending and von Karman] vk_dwdxi_mat Bvk
+ [bending] Bbend(z)` and `dstress_dX = C dstrain_dX`; the strain and stress are the same
in every pass, and as functions of the local solution they satisfy
`strain(u + t d) = strain(u) + t dstrain_dX(u) d + t^2 e_vk(d)` and
`stress(u + t d) = stress(u) + t dstress_dX(u) d + t^2 C e_vk(d)`, where the quadratic
term is present only with bending and von Karman strain both active; when the derivative
is requested, `set_derivatives` receives the six-row forms of these two matrices. -/
theorem calculate_stress_derivatives_are_exact [CharZero R]
    (el : StructuralElement2D R ι n nqp) (fe : FEBase R n nqp)
    (bend : BendingOperator2D R ι n) (request_derivative : Bool)
    (p : Option (FunctionBase ι)) (thermal_load : Option (ThermalBoundaryCondition R ι))
    (st : StressBuffers R ι n) (i : Fin nqp) (j : Fin 2) (hc : st.clean)
    (hrp : request_derivative = true ∨ p.isSome = true) (u d : Fin (6 * n) → R) (t : R) :
    (calculate_stress_point (el.with_local_sol u) fe bend request_derivative p thermal_load
        st i j).dstrain_dX
      = stress_point_dstrain_dX fe bend el.property.bending_model_is_active
          el.property.strain_type_is_von_karman (el.stress_point_z fe i j) i u ∧
    (calculate_stress_point (el.with_local_sol u) fe bend request_derivative p thermal_load
        st i j).dstress_dX
      = el.property.material_stiffness_matrix.value (fe.xyz i) el.time *
        (calculate_stress_point (el.with_local_sol u) fe bend request_derivative p
          thermal_load st i j).dstrain_dX ∧
    (∀ (rd' : Bool) (p' : Option (FunctionBase ι)),
      (calculate_stress_point (el.with_local_sol u) fe bend rd' p' thermal_load st i j).strain
        = (calculate_stress_point (el.with_local_sol u) fe bend request_derivative p
            thermal_load st i j).strain ∧
      (calculate_stress_point (el.with_local_sol u) fe bend rd' p' thermal_load st i j).stress
        = (calculate_stress_point (el.with_local_sol u) fe bend request_derivative p
            thermal_load st i j).stress) ∧
    (calculate_stress_point (el.with_local_sol (u + t • d)) fe bend request_derivative p
        thermal_load st i j).strain
      = (calculate_stress_point (el.with_local_sol u) fe bend request_derivative p
          thermal_load st i j).strain
        + t • ((calculate_stress_point (el.with_local_sol u) fe bend request_derivative p
            thermal_load st i j).dstrain_dX *ᵥ d)
        + t ^ 2 • (if (el.property.bending_model_is_active
            && el.property.strain_type_is_von_karman) = true then vk_e (dwdxi i fe d)
          else 0) ∧
    (calculate_stress_point (el.with_local_sol (u + t • d)) fe bend request_derivative p
        thermal_load st i j).stress
      = (calculate_stress_point (el.with_local_sol u) fe bend request_derivative p
          thermal_load st i j).stress
        + t • ((calculate_stress_point (el.with_local_sol u) fe bend request_derivative p
            thermal_load st i j).dstress_dX *ᵥ d)
        + t ^ 2 • (el.property.material_stiffness_matrix.value (fe.xyz i) el.time *ᵥ
          (if (el.property.bending_model_is_active
            && el.property.strain_type_is_von_karman) = true then vk_e (dwdxi i fe d)
          else 0)) ∧
    (el.property.strain_type_is_von_karman = false →
      (calculate_stress_point (el.with_local_sol (u + t • d)) fe bend request_derivative p
          thermal_load st i j).strain
        = (calculate_stress_point (el.with_local_sol u) fe bend request_derivative p
            thermal_load st i j).strain
          + t • ((calculate_stress_point (el.with_local_sol u) fe bend request_derivative p
              thermal_load st i j).dstrain_dX *ᵥ d)) ∧
    (request_derivative = true → st.plane →
      StressStrainOutputCall.set_derivatives (finProdFinEquiv (i, j) : Fin (nqp * 2)).val
          (rows_to_3D (calculate_stress_point (el.with_local_sol u) fe bend
            request_derivative p thermal_load st i j).dstress_dX)
          (rows_to_3D (calculate_stress_point (el.with_local_sol u) fe bend
            request_derivative p thermal_load st i j).dstrain_dX)
        ∈ (calculate_stress_point (el.with_local_sol u) fe bend request_derivative p
            thermal_load st i j).output.calls) ∧
    (calculate_stress_point (el.with_local_sol u) fe bend request_derivative p thermal_load
        st i j).clean := by
  have hu := calculate_stress_point_values_at el fe bend request_derivative p
    thermal_load st i j hc u
  have hud := calculate_stress_point_values_at el fe bend request_derivative p
    thermal_load st i j hc (u + t • d)
  obtain ⟨u1, u2, u3, u4⟩ := hu
  obtain ⟨u5, u6⟩ := u4 hrp
  obtain ⟨v1, v2, -, -⟩ := hud
  have hstrain := stress_point_strain_add_smul fe bend el.property.bending_model_is_active
    el.property.strain_type_is_von_karman
    (thermal_strain el.property.alpha_expansion thermal_load (fe.xyz i) el.time)
    (el.stress_point_z fe i j) i u d t
  have e1 : (calculate_stress_point (el.with_local_sol (u + t • d)) fe bend
        request_derivative p thermal_load st i j).strain
      = (calculate_stress_point (el.with_local_sol u) fe bend request_derivative p
          thermal_load st i j).strain
        + t • ((calculate_stress_point (el.with_local_sol u) fe bend request_derivative p
            thermal_load st i j).dstrain_dX *ᵥ d)
        + t ^ 2 • (if (el.property.bending_model_is_active
            && el.property.strain_type_is_von_karman) = true then vk_e (dwdxi i fe d)
          else 0) := by
    rw [v1, u1, u5]
    exact hstrain
  refine ⟨u5, u6, fun rd' p' => ?_, e1, ?_, fun hv => ?_, fun hrd hp => ?_, u3⟩
  · obtain ⟨w1, w2, -, -⟩ := calculate_stress_point_values_at el fe bend rd' p'
      thermal_load st i j hc u
    exact ⟨w1.trans u1.symm, by rw [w2, u2, w1, u1]⟩
  · rw [v2, e1, u2, u6, Matrix.mulVec_add, Matrix.mulVec_add, Matrix.mulVec_smul,
      Matrix.mulVec_smul, Matrix.mulVec_mulVec]
  · rw [e1, hv, Bool.and_false]
    simp
  · obtain ⟨-, q2⟩ := calculate_stress_point_eq (el.with_local_sol u) fe bend
      request_derivative p thermal_load st i j hp
    rw [q2]
    subst hrd
    cases p <;>
      simp [stress_output_after, StressStrainOutputBase.set_derivatives,
        StressStrainOutputBase.set_sensitivity,
        StressStrainOutputBase.get_stress_strain_data_for_elem_at_qp]


theorem calculate_stress_point_thermal_sensitivity (el : StructuralElement2D R ι n nqp)
    (fe : FEBase R n nqp) (bend : BendingOperator2D R ι n) (rd : Bool) (p : FunctionBase ι)
    (load : ThermalBoundaryCondition R ι) (st : StressBuffers R ι n) (i : Fin nqp) (j : Fin 2)
    (hc : st.clean) (hb : el.property.bending_model_is_active = false) :
    (calculate_stress_point el fe bend rd (some p) (some load) st i j).dstrain_dp
      = (0 - ![el.property.alpha_expansion.value (fe.xyz i) el.time
                * (load.temperature.derivative p (fe.xyz i) el.time
                  - load.ref_temperature.derivative p (fe.xyz i) el.time)
              - el.property.alpha_expansion.derivative p (fe.xyz i) el.time
                * (load.temperature.value (fe.xyz i) el.time
                  - load.ref_temperature.value (fe.xyz i) el.time),
            el.property.alpha_expansion.value (fe.xyz i) el.time
                * (load.temperature.derivative p (fe.xyz i) el.time
                  - load.ref_temperature.derivative p (fe.xyz i) el.time)
              - el.property.alpha_expansion.derivative p (fe.xyz i) el.time
                * (load.temperature.value (fe.xyz i) el.time
                  - load.ref_temperature.value (fe.xyz i) el.time), 0])
        + Bmem i fe *ᵥ el.local_sol_sens := by
  obtain ⟨-, -, -, -, -, -, -, a8⟩ :=
    calculate_stress_primary_values el fe bend (some load) st i j hc
  obtain ⟨t1, t2, t3⟩ := a8 load rfl
  obtain ⟨-, -, -, -, -, -, -, r8, r9, r10⟩ := calculate_stress_record_fields fe rd (some p)
    (calculate_stress_primary el fe bend (some load) st i j) i j
  obtain ⟨-, -, -, -, -, c6, c7, c8, -, -⟩ := calculate_stress_derivative_values el rd
    (calculate_stress_record fe rd (some p)
      (calculate_stress_primary el fe bend (some load) st i j) i j) i j
  obtain ⟨-, -, -, v4⟩ := calculate_stress_point_values el fe bend rd (some p) (some load)
    st i j hc
  obtain ⟨v5, -⟩ := v4 (Or.inr rfl)
  have e : calculate_stress_point el fe bend rd (some p) (some load) st i j
      = calculate_stress_sensitivity el fe bend p (some load)
          (calculate_stress_derivative el rd
            (calculate_stress_record fe rd (some p)
              (calculate_stress_primary el fe bend (some load) st i j) i j) i j) i j := by
    cases rd <;> rfl
  obtain ⟨s1, -, -, -, -, s6, -⟩ := calculate_stress_sensitivity_values el fe bend p (some load)
    (calculate_stress_derivative el rd
      (calculate_stress_record fe rd (some p)
        (calculate_stress_primary el fe bend (some load) st i j) i j) i j) i j
  have hX : (calculate_stress_derivative el rd
      (calculate_stress_record fe rd (some p)
        (calculate_stress_primary el fe bend (some load) st i j) i j) i j).dstrain_dX
      = Bmem i fe := by
    rw [← s6, ← e, v5, hb]
    simp [stress_point_dstrain_dX]
  rw [e, s1 load rfl hb, c6, c7, c8, r8, r9, r10, t1, t2, t3, hX]

end StructuralElement2D

theorem calculate_stress_derivatives_are_exact_witness :
    (StructuralElement2D.stress_buffers
      (⟨none, 2, []⟩ : StressStrainOutputBase ℚ Unit 3)).clean ∧
    ((true : Bool) = true ∨ (none : Option (FunctionBase Unit)).isSome = true) ∧
    (StructuralElement2D.calculate_stress_point
        (tri3_elem.with_local_sol ((fun _ => 1 : Fin (6 * 3) → ℚ) + (2 : ℚ) • (fun _ => 3 : Fin (6 * 3) → ℚ))) tri3_fe
        tri3_bending_operator true none none
        (StructuralElement2D.stress_buffers ⟨none, 2, []⟩) 0 0).strain
      = (StructuralElement2D.calculate_stress_point (tri3_elem.with_local_sol (fun _ => 1))
          tri3_fe tri3_bending_operator true none none
          (StructuralElement2D.stress_buffers ⟨none, 2, []⟩) 0 0).strain
        + (2 : ℚ) • ((StructuralElement2D.calculate_stress_point
            (tri3_elem.with_local_sol (fun _ => 1)) tri3_fe tri3_bending_operator true none
            none (StructuralElement2D.stress_buffers ⟨none, 2, []⟩) 0 0).dstrain_dX *ᵥ
              (fun _ => 3))
        + (2 : ℚ) ^ 2 • (if (tri3_elem.property.bending_model_is_active
            && tri3_elem.property.strain_type_is_von_karman) = true then
            vk_e (dwdxi 0 tri3_fe (fun _ => 3))
          else 0) := by
  have h := StructuralElement2D.calculate_stress_derivatives_are_exact tri3_elem tri3_fe
    tri3_bending_operator true none none
    (StructuralElement2D.stress_buffers (⟨none, 2, []⟩ : StressStrainOutputBase ℚ Unit 3)) 0 0
    (stress_buffers_clean _) (Or.inl rfl) (fun _ => 1) (fun _ => 3) 2
  exact ⟨stress_buffers_clean _, Or.inl rfl, h.2.2.2.1⟩

/-- C26 (failing input): on the membrane triangle at rest whose expansion coefficient is
the design parameter (`alpha = s`, `dalpha/dp = 1`) under a thermal load `T = 1`,
`T_ref = 0` that does not depend on the parameter, the primary pass of `calculate_stress`
computes the strain `(-s, -s, 0)` at the first evaluation point, whose derivative with
respect to the parameter is `(-1, -1, 0)` (central difference `-1` for every `h ≠ 0`),
while the sensitivity pass computes the strain sensitivity `(1, 1, 0)`: the term
`(dalpha/dp) (T - T_ref)` enters with the opposite sign.  In general, without bending,
the strain sensitivity on `xx` and `yy` is
`-(alpha (dT/dp - dT_ref/dp) - (dalpha/dp) (T - T_ref))` plus the membrane strain of the
solution sensitivity. -/
theorem calculate_stress_thermal_sensitivity_has_wrong_sign :
    (∀ s : ℚ,
      (StructuralElement2D.calculate_stress_point (tri3_alpha_elem s) tri3_fe
        tri3_bending_operator false none (some tri3_unit_thermal_bc)
        (StructuralElement2D.stress_buffers ⟨some tri3_unit_thermal_bc, 0, []⟩) 0 0).strain
        = ![-s, -s, 0]) ∧
    (∀ s h : ℚ, h ≠ 0 →
      (2 * h)⁻¹ * ((StructuralElement2D.calculate_stress_point (tri3_alpha_elem (s + h))
          tri3_fe tri3_bending_operator false none (some tri3_unit_thermal_bc)
          (StructuralElement2D.stress_buffers ⟨some tri3_unit_thermal_bc, 0, []⟩) 0 0).strain 0
        - (StructuralElement2D.calculate_stress_point (tri3_alpha_elem (s - h))
          tri3_fe tri3_bending_operator false none (some tri3_unit_thermal_bc)
          (StructuralElement2D.stress_buffers ⟨some tri3_unit_thermal_bc, 0, []⟩) 0 0).strain 0)
        = -1) ∧
    (∀ s : ℚ,
      (StructuralElement2D.calculate_stress_point (tri3_alpha_elem s) tri3_fe
        tri3_bending_operator false (some tri3_param) (some tri3_unit_thermal_bc)
        (StructuralElement2D.stress_buffers ⟨some tri3_unit_thermal_bc, 2, []⟩) 0 0).dstrain_dp
        = ![1, 1, 0]) ∧
    (∀ {R : Type} [Field R] {ι : Type} {n nqp : ℕ} (el : StructuralElement2D R ι n nqp)
        (fe : FEBase R n nqp) (bend : BendingOperator2D R ι n) (rd : Bool)
        (p : FunctionBase ι) (load : ThermalBoundaryCondition R ι)
        (output : StressStrainOutputBase R ι n) (i : Fin nqp) (j : Fin 2),
      el.property.bending_model_is_active = false →
      (StructuralElement2D.calculate_stress_point el fe bend rd (some p) (some load)
          (StructuralElement2D.stress_buffers output) i j).dstrain_dp
        = (0 - ![el.property.alpha_expansion.value (fe.xyz i) el.time
                  * (load.temperature.derivative p (fe.xyz i) el.time
                    - load.ref_temperature.derivative p (fe.xyz i) el.time)
                - el.property.alpha_expansion.derivative p (fe.xyz i) el.time
                  * (load.temperature.value (fe.xyz i) el.time
                    - load.ref_temperature.value (fe.xyz i) el.time),
              el.property.alpha_expansion.value (fe.xyz i) el.time
                  * (load.temperature.derivative p (fe.xyz i) el.time
                    - load.ref_temperature.derivative p (fe.xyz i) el.time)
                - el.property.alpha_expansion.derivative p (fe.xyz i) el.time
                  * (load.temperature.value (fe.xyz i) el.time
                    - load.ref_temperature.value (fe.xyz i) el.time), 0])
          + Bmem i fe *ᵥ el.local_sol_sens) := by
  have h1 : ∀ s : ℚ,
      (StructuralElement2D.calculate_stress_point (tri3_alpha_elem s) tri3_fe
        tri3_bending_operator false none (some tri3_unit_thermal_bc)
        (StructuralElement2D.stress_buffers ⟨some tri3_unit_thermal_bc, 0, []⟩) 0 0).strain
        = ![-s, -s, 0] := by
    intro s
    rw [(StructuralElement2D.calculate_stress_point_values (tri3_alpha_elem s) tri3_fe
      tri3_bending_operator false none (some tri3_unit_thermal_bc) _ 0 0
      (stress_buffers_clean _)).1]
    have hb : (tri3_alpha_elem s).property.bending_model_is_active = false := rfl
    have hu : (tri3_alpha_elem s).local_sol = 0 := rfl
    rw [hb, hu]
    ext k
    fin_cases k <;>
      simp [stress_point_strain, thermal_strain, tri3_alpha_elem, tri3_unit_thermal_bc,
        FieldFunction.const]
  refine ⟨h1, ?_, ?_, ?_⟩
  · intro s h hh
    rw [h1, h1]
    simp only [Matrix.cons_val_zero]
    field_simp
    ring
  · intro s
    rw [StructuralElement2D.calculate_stress_point_thermal_sensitivity (tri3_alpha_elem s)
      tri3_fe tri3_bending_operator false tri3_param tri3_unit_thermal_bc _ 0 0
      (stress_buffers_clean _) rfl]
    have hu : (tri3_alpha_elem s).local_sol_sens = 0 := rfl
    rw [hu]
    ext k
    fin_cases k <;>
      simp [tri3_alpha_elem, tri3_unit_thermal_bc, FieldFunction.const]
  · intro R _ ι n nqp el fe bend rd p load output i j hb
    exact StructuralElement2D.calculate_stress_point_thermal_sensitivity el fe bend rd p load
      _ i j (stress_buffers_clean _) hb


theorem hasDerivAt_line (a d : ℝ) : HasDerivAt (fun t : ℝ => a + t * d) d 0 := by
  have h := ((hasDerivAt_id (0 : ℝ)).mul_const d).const_add a
  simpa using h

theorem init_ok_dims {K ι : Type} [LinearOrderedField K] (sqrt : K → K)
    (card card' : Solid1DChanSectionElementPropertyCard K ι)
    (h : Solid1DChanSectionElementPropertyCard.init sqrt card = .ok card') :
    0 < card.DIM1.eval ∧ 0 < card.DIM2.eval ∧ 0 < card.DIM3.eval ∧ 0 < card.DIM4.eval ∧
    2 * card.DIM4.eval < card.DIM2.eval ∧ card.DIM3.eval < card.DIM1.eval := by
  unfold Solid1DChanSectionElementPropertyCard.init at h
  dsimp only at h
  split_ifs at h with h0 h1 h2 h3 h4 h5 h6
  exact ⟨not_le.1 h1, not_le.1 h2, not_le.1 h3, not_le.1 h4, not_le.1 h5, not_le.1 h6⟩

namespace Solid1DChanSectionProperty

theorem calcIy_hasDerivAt_line (DIM1 DIM2 DIM3 DIM4 dDIM1 dDIM2 dDIM3 dDIM4 : ℝ)
    (hA : DIM2 * DIM3 + 2 * DIM4 * (DIM1 - DIM3) ≠ 0) :
    HasDerivAt (fun t : ℝ => calcIy (DIM1 + t * dDIM1) (DIM2 + t * dDIM2) (DIM3 + t * dDIM3)
        (DIM4 + t * dDIM4))
      (calcdIy DIM1 DIM2 DIM3 DIM4 dDIM1 dDIM2 dDIM3 dDIM4) 0 := by
  have h1 := hasDerivAt_line DIM1 dDIM1
  have h2 := hasDerivAt_line DIM2 dDIM2
  have h3 := hasDerivAt_line DIM3 dDIM3
  have h4 := hasDerivAt_line DIM4 dDIM4
  have hne : (DIM2 + 0 * dDIM2) * (DIM3 + 0 * dDIM3)
      + (DIM4 + 0 * dDIM4) * ((DIM1 + 0 * dDIM1) - (DIM3 + 0 * dDIM3)) * 2 ≠ 0 := by
    intro h
    apply hA
    rw [← h]
    ring
  have hT1 := (h2.mul ((h3.mul h3).mul h3)).div_const 12
  have hT2 := (h4.mul ((h1.sub h3).pow 3)).div_const 6
  have hT3 := (((h1.mul h1).mul h4).mul (h1.sub h3)).div_const 2
  have hT4 := (((h1.mul h1).mul (h4.mul h4)).mul ((h1.sub h3).pow 2)).div
    ((h2.mul h3).add ((h4.mul (h1.sub h3)).mul_const 2)) hne
  have hT := ((hT1.add hT2).add hT3).sub hT4
  have hA1 : DIM2 * DIM3 + DIM4 * (DIM1 - DIM3) * 2 ≠ 0 := by
    intro h
    apply hA
    rw [← h]
    ring
  have hA2 : DIM1 * DIM4 * 2 + DIM2 * DIM3 - DIM3 * DIM4 * 2 ≠ 0 := by
    intro h
    apply hA
    rw [← h]
    ring
  convert hT using 1
  simp only [zero_mul, add_zero, calcdIy]
  field_simp
  ring

theorem calcdIy_linear (DIM1 DIM2 DIM3 DIM4 dDIM1 dDIM2 dDIM3 dDIM4 : R) :
    calcdIy DIM1 DIM2 DIM3 DIM4 dDIM1 dDIM2 dDIM3 dDIM4
      = calcdIy DIM1 DIM2 DIM3 DIM4 1 0 0 0 * dDIM1
        + calcdIy DIM1 DIM2 DIM3 DIM4 0 1 0 0 * dDIM2
        + calcdIy DIM1 DIM2 DIM3 DIM4 0 0 1 0 * dDIM3
        + calcdIy DIM1 DIM2 DIM3 DIM4 0 0 0 1 * dDIM4 := by
  unfold calcdIy
  ring

/-- C31: for all real dimensions with `DIM2*DIM3 + 2*DIM4*(DIM1 - DIM3) ≠ 0` and all
increments, `calcdIy` is the derivative of `calcIy` along the line `DIM + t dDIM` at
`t = 0`; it is linear in the increments, `sum_i calcdIy(e_i) dDIM_i`, and its four
coefficients are the derivatives of `calcIy` along the coordinate directions. -/
theorem calcdIy_is_total_differential (DIM1 DIM2 DIM3 DIM4 dDIM1 dDIM2 dDIM3 dDIM4 : ℝ)
    (hA : DIM2 * DIM3 + 2 * DIM4 * (DIM1 - DIM3) ≠ 0) :
    HasDerivAt (fun t : ℝ => calcIy (DIM1 + t * dDIM1) (DIM2 + t * dDIM2) (DIM3 + t * dDIM3)
        (DIM4 + t * dDIM4))
      (calcdIy DIM1 DIM2 DIM3 DIM4 dDIM1 dDIM2 dDIM3 dDIM4) 0 ∧
    calcdIy DIM1 DIM2 DIM3 DIM4 dDIM1 dDIM2 dDIM3 dDIM4
      = calcdIy DIM1 DIM2 DIM3 DIM4 1 0 0 0 * dDIM1
        + calcdIy DIM1 DIM2 DIM3 DIM4 0 1 0 0 * dDIM2
        + calcdIy DIM1 DIM2 DIM3 DIM4 0 0 1 0 * dDIM3
        + calcdIy DIM1 DIM2 DIM3 DIM4 0 0 0 1 * dDIM4 ∧
    HasDerivAt (fun t : ℝ => calcIy (DIM1 + t) DIM2 DIM3 DIM4)
      (calcdIy DIM1 DIM2 DIM3 DIM4 1 0 0 0) 0 ∧
    HasDerivAt (fun t : ℝ => calcIy DIM1 (DIM2 + t) DIM3 DIM4)
      (calcdIy DIM1 DIM2 DIM3 DIM4 0 1 0 0) 0 ∧
    HasDerivAt (fun t : ℝ => calcIy DIM1 DIM2 (DIM3 + t) DIM4)
      (calcdIy DIM1 DIM2 DIM3 DIM4 0 0 1 0) 0 ∧
    HasDerivAt (fun t : ℝ => calcIy DIM1 DIM2 DIM3 (DIM4 + t))
      (calcdIy DIM1 DIM2 DIM3 DIM4 0 0 0 1) 0 := by
  refine ⟨calcIy_hasDerivAt_line _ _ _ _ _ _ _ _ hA, calcdIy_linear _ _ _ _ _ _ _ _, ?_, ?_,
    ?_, ?_⟩
  · have h := calcIy_hasDerivAt_line DIM1 DIM2 DIM3 DIM4 1 0 0 0 hA
    simpa using h
  · have h := calcIy_hasDerivAt_line DIM1 DIM2 DIM3 DIM4 0 1 0 0 hA
    simpa using h
  · have h := calcIy_hasDerivAt_line DIM1 DIM2 DIM3 DIM4 0 0 1 0 hA
    simpa using h
  · have h := calcIy_hasDerivAt_line DIM1 DIM2 DIM3 DIM4 0 0 0 1 hA
    simpa using h

theorem calcdIz_linear (DIM1 DIM2 DIM3 DIM4 dDIM1 dDIM2 dDIM3 dDIM4 : R) :
    calcdIz DIM1 DIM2 DIM3 DIM4 dDIM1 dDIM2 dDIM3 dDIM4
      = calcdIz DIM1 DIM2 DIM3 DIM4 1 0 0 0 * dDIM1
        + calcdIz DIM1 DIM2 DIM3 DIM4 0 1 0 0 * dDIM2
        + calcdIz DIM1 DIM2 DIM3 DIM4 0 0 1 0 * dDIM3
        + calcdIz DIM1 DIM2 DIM3 DIM4 0 0 0 1 * dDIM4 := by
  unfold calcdIz
  ring

theorem calcdIp_linear (DIM1 DIM2 DIM3 DIM4 dDIM1 dDIM2 dDIM3 dDIM4 : R) :
    calcdIp DIM1 DIM2 DIM3 DIM4 dDIM1 dDIM2 dDIM3 dDIM4
      = calcdIp DIM1 DIM2 DIM3 DIM4 1 0 0 0 * dDIM1
        + calcdIp DIM1 DIM2 DIM3 DIM4 0 1 0 0 * dDIM2
        + calcdIp DIM1 DIM2 DIM3 DIM4 0 0 1 0 * dDIM3
        + calcdIp DIM1 DIM2 DIM3 DIM4 0 0 0 1 * dDIM4 := by
  unfold calcdIp
  ring

theorem calcdIp_coefficients [CharZero R] (DIM1 DIM2 DIM3 DIM4 : R)
    (hA : DIM2 * DIM3 + DIM4 * (DIM1 - DIM3) * 2 ≠ 0) :
    calcdIp DIM1 DIM2 DIM3 DIM4 1 0 0 0
      = calcdIz DIM1 DIM2 DIM3 DIM4 1 0 0 0 + calcdIy DIM1 DIM2 DIM3 DIM4 1 0 0 0 ∧
    calcdIp DIM1 DIM2 DIM3 DIM4 0 1 0 0
      = calcdIz DIM1 DIM2 DIM3 DIM4 0 1 0 0 + calcdIy DIM1 DIM2 DIM3 DIM4 0 1 0 0 ∧
    calcdIp DIM1 DIM2 DIM3 DIM4 0 0 1 0
      = calcdIz DIM1 DIM2 DIM3 DIM4 0 0 1 0 + calcdIy DIM1 DIM2 DIM3 DIM4 0 0 1 0 ∧
    calcdIp DIM1 DIM2 DIM3 DIM4 0 0 0 1
      = calcdIz DIM1 DIM2 DIM3 DIM4 0 0 0 1 + calcdIy DIM1 DIM2 DIM3 DIM4 0 0 0 1 := by
  have e : DIM1 * DIM4 * 2 + DIM2 * DIM3 - DIM3 * DIM4 * 2
      = DIM2 * DIM3 + DIM4 * (DIM1 - DIM3) * 2 := by ring
  refine ⟨?_, ?_, ?_, ?_⟩
  · unfold calcdIp calcdIz calcdIy
    rw [e]
    simp only [mul_zero, zero_mul, add_zero, zero_add, mul_one, one_mul, zero_div]
    field_simp
    ring
  · unfold calcdIp calcdIz calcdIy
    rw [e]
    simp only [mul_zero, zero_mul, add_zero, zero_add, mul_one, one_mul, zero_div]
    ring
  · unfold calcdIp calcdIz calcdIy
    rw [e]
    simp only [mul_zero, zero_mul, add_zero, zero_add, mul_one, one_mul, zero_div]
    field_simp
    ring
  · unfold calcdIp calcdIz calcdIy
    rw [e]
    simp only [mul_zero, zero_mul, add_zero, zero_add, mul_one, one_mul, zero_div]
    ring

/-- C36: whenever the area `calcA` is non-zero, the polar-inertia sensitivity `calcdIp` is
the sum of the two second-moment sensitivities `calcdIz` and `calcdIy`, for all
increments. -/
theorem calcdIp_eq_calcdIz_add_calcdIy [CharZero R]
    (DIM1 DIM2 DIM3 DIM4 dDIM1 dDIM2 dDIM3 dDIM4 : R)
    (hA : calcA DIM1 DIM2 DIM3 DIM4 ≠ 0) :
    calcdIp DIM1 DIM2 DIM3 DIM4 dDIM1 dDIM2 dDIM3 dDIM4
      = calcdIz DIM1 DIM2 DIM3 DIM4 dDIM1 dDIM2 dDIM3 dDIM4
        + calcdIy DIM1 DIM2 DIM3 DIM4 dDIM1 dDIM2 dDIM3 dDIM4 := by
  obtain ⟨c1, c2, c3, c4⟩ := calcdIp_coefficients DIM1 DIM2 DIM3 DIM4 hA
  rw [calcdIp_linear, calcdIz_linear, calcdIy_linear, c1, c2, c3, c4]
  ring

theorem chan_section_pos {K : Type} [LinearOrderedField K] (DIM1 DIM2 DIM3 DIM4 : K)
    (h1 : 0 < DIM1) (h2 : 0 < DIM2) (h3 : 0 < DIM3) (h4 : 0 < DIM4)
    (h5 : 2 * DIM4 < DIM2) (h6 : DIM3 < DIM1) :
    0 < calcA DIM1 DIM2 DIM3 DIM4 ∧ 0 < calcIz DIM1 DIM2 DIM3 DIM4 ∧
    0 < calcIy DIM1 DIM2 DIM3 DIM4 ∧
    DIM2 * DIM3 + 2 * DIM4 * (DIM1 - DIM3) ≠ 0 ∧
    DIM2 * DIM3 + DIM4 * (DIM1 - DIM3) * 2 ≠ 0 ∧
    DIM1 * DIM4 * 2 + DIM2 * DIM3 - DIM3 * DIM4 * 2 ≠ 0 := by
  have hw : 0 < DIM1 - DIM3 := sub_pos.2 h6
  have hd : 0 < DIM2 - DIM4 := by linarith
  have hA : 0 < DIM2 * DIM3 + DIM4 * (DIM1 - DIM3) * 2 := by positivity
  have hIz : 0 < calcIz DIM1 DIM2 DIM3 DIM4 := by
    unfold calcIz
    positivity
  have hIy : 0 < calcIy DIM1 DIM2 DIM3 DIM4 := by
    have e : calcIy DIM1 DIM2 DIM3 DIM4
        = ((DIM2 * DIM3 + DIM4 * (DIM1 - DIM3) * 2)
            * (DIM2 * DIM3 ^ 3 / 12 + DIM4 * (DIM1 - DIM3) ^ 3 / 6)
          + DIM1 ^ 2 * DIM4 * (DIM1 - DIM3) * DIM2 * DIM3 / 2)
          / (DIM2 * DIM3 + DIM4 * (DIM1 - DIM3) * 2) := by
      unfold calcIy
      field_simp
      ring
    rw [e]
    positivity
  refine ⟨hA, hIz, hIy, ?_, hA.ne', ?_⟩
  · have : DIM2 * DIM3 + 2 * DIM4 * (DIM1 - DIM3)
        = DIM2 * DIM3 + DIM4 * (DIM1 - DIM3) * 2 := by ring
    rw [this]
    exact hA.ne'
  · have : DIM1 * DIM4 * 2 + DIM2 * DIM3 - DIM3 * DIM4 * 2
        = DIM2 * DIM3 + DIM4 * (DIM1 - DIM3) * 2 := by ring
    rw [this]
    exact hA.ne'

/-- C37: for dimensions that pass the validation of `init` (`DIM1 .. DIM4 > 0`,
`2 DIM4 < DIM2`, `DIM3 < DIM1`) the area `calcA` and the second moments `calcIz` and
`calcIy` are strictly positive, and the denominator of `calcIy`, `calcIp` and their
sensitivities, in each of the forms in which the routines write it, is not zero; this holds for the dimensions of every card on which `init` succeeds. -/
theorem calcA_calcIz_calcIy_pos {K : Type} [LinearOrderedField K] (DIM1 DIM2 DIM3 DIM4 : K)
    (h1 : 0 < DIM1) (h2 : 0 < DIM2) (h3 : 0 < DIM3) (h4 : 0 < DIM4)
    (h5 : 2 * DIM4 < DIM2) (h6 : DIM3 < DIM1) :
    (0 < calcA DIM1 DIM2 DIM3 DIM4 ∧ 0 < calcIz DIM1 DIM2 DIM3 DIM4 ∧
      0 < calcIy DIM1 DIM2 DIM3 DIM4 ∧
      DIM2 * DIM3 + 2 * DIM4 * (DIM1 - DIM3) ≠ 0 ∧
      DIM2 * DIM3 + DIM4 * (DIM1 - DIM3) * 2 ≠ 0 ∧
      DIM1 * DIM4 * 2 + DIM2 * DIM3 - DIM3 * DIM4 * 2 ≠ 0) ∧
    (∀ {ι : Type} (sqrt : K → K) (card card' : Solid1DChanSectionElementPropertyCard K ι),
      Solid1DChanSectionElementPropertyCard.init sqrt card = .ok card' →
      0 < calcA card.DIM1.eval card.DIM2.eval card.DIM3.eval card.DIM4.eval ∧
      0 < calcIz card.DIM1.eval card.DIM2.eval card.DIM3.eval card.DIM4.eval ∧
      0 < calcIy card.DIM1.eval card.DIM2.eval card.DIM3.eval card.DIM4.eval ∧
      card.DIM2.eval * card.DIM3.eval
        + 2 * card.DIM4.eval * (card.DIM1.eval - card.DIM3.eval) ≠ 0) := by
  refine ⟨chan_section_pos DIM1 DIM2 DIM3 DIM4 h1 h2 h3 h4 h5 h6, ?_⟩
  intro ι sqrt card card' h
  obtain ⟨g1, g2, g3, g4, g5, g6⟩ := init_ok_dims sqrt card card' h
  obtain ⟨p1, p2, p3, p4, -, -⟩ := chan_section_pos _ _ _ _ g1 g2 g3 g4 g5 g6
  exact ⟨p1, p2, p3, p4⟩

end Solid1DChanSectionProperty

theorem calcdIy_is_total_differential_witness :
    (6 : ℝ) * 1 + 2 * 1 * (4 - 1) ≠ 0 ∧
    HasDerivAt (fun t : ℝ => Solid1DChanSectionProperty.calcIy (4 + t * 1) (6 + t * 2)
        (1 + t * 3) (1 + t * 4))
      (Solid1DChanSectionProperty.calcdIy 4 6 1 1 1 2 3 4) 0 :=
  ⟨by norm_num,
    (Solid1DChanSectionProperty.calcdIy_is_total_differential 4 6 1 1 1 2 3 4
      (by norm_num)).1⟩

theorem calcdIp_eq_calcdIz_add_calcdIy_witness :
    Solid1DChanSectionProperty.calcA (4 : ℚ) 6 1 1 ≠ 0 ∧
    Solid1DChanSectionProperty.calcdIp (4 : ℚ) 6 1 1 1 2 3 4
      = Solid1DChanSectionProperty.calcdIz 4 6 1 1 1 2 3 4
        + Solid1DChanSectionProperty.calcdIy 4 6 1 1 1 2 3 4 :=
  ⟨by norm_num [Solid1DChanSectionProperty.calcA],
    Solid1DChanSectionProperty.calcdIp_eq_calcdIz_add_calcdIy 4 6 1 1 1 2 3 4
      (by norm_num [Solid1DChanSectionProperty.calcA])⟩

theorem calcA_calcIz_calcIy_pos_witness :
    ((0 : ℚ) < 4 ∧ (0 : ℚ) < 6 ∧ (0 : ℚ) < 1 ∧ (2 : ℚ) * 1 < 6 ∧ (1 : ℚ) < 4) ∧
    0 < Solid1DChanSectionProperty.calcA (4 : ℚ) 6 1 1 ∧
    0 < Solid1DChanSectionProperty.calcIz (4 : ℚ) 6 1 1 ∧
    0 < Solid1DChanSectionProperty.calcIy (4 : ℚ) 6 1 1 := by
  have h := Solid1DChanSectionProperty.calcA_calcIz_calcIy_pos (4 : ℚ) 6 1 1 (by norm_num)
    (by norm_num) (by norm_num) (by norm_num) (by norm_num) (by norm_num)
  exact ⟨by norm_num, h.1.1, h.1.2.1, h.1.2.2.1⟩


theorem eventually_line_lt (a da b db : ℝ) (h : a < b) :
    ∀ᶠ t in nhds (0 : ℝ), a + t * da < b + t * db := by
  have hf : ContinuousAt (fun t : ℝ => a + t * da) 0 := by fun_prop
  have hg : ContinuousAt (fun t : ℝ => b + t * db) 0 := by fun_prop
  exact hf.eventually_lt hg (by simpa using h)

namespace Solid1DChanSectionProperty

theorem calcJ_rectangles {K : Type} [LinearOrderedField K] (sqrt : K → K)
    (DIM1 DIM2 DIM3 DIM4 : K) (hwf : ¬ (DIM3 / DIM4 > 0.5 ∧ DIM3 / DIM4 < 1)) :
    calcJ sqrt DIM1 DIM2 DIM3 DIM4 = chan_J_rectangles DIM1 DIM2 DIM3 DIM4 := by
  unfold calcJ chan_J_rectangles
  dsimp only
  rw [if_neg hwf]
  dsimp only [calck1_f, calck2_f, calck1_w, calck2_w, calcJ1_f, calcJ2_f, calcJ1_w, calcJ2_w]
  by_cases h1 : DIM1 > DIM4 <;> by_cases h2 : DIM2 - 2 * DIM4 > DIM3 <;>
    simp only [h1, h2, if_true, if_false] <;> ring

theorem calcdJ_rectangles {K : Type} [LinearOrderedField K] (sqrt : K → K)
    (DIM1 DIM2 DIM3 DIM4 dDIM1 dDIM2 dDIM3 dDIM4 : K)
    (hwf : ¬ (DIM3 / DIM4 > 0.5 ∧ DIM3 / DIM4 < 1)) :
    calcdJ sqrt DIM1 DIM2 DIM3 DIM4 dDIM1 dDIM2 dDIM3 dDIM4
      = chan_dJ_rectangles DIM1 DIM2 DIM3 DIM4 dDIM1 dDIM2 dDIM3 dDIM4 := by
  unfold calcdJ chan_dJ_rectangles
  dsimp only
  rw [if_neg hwf]
  dsimp only [calck1_f, calck2_f, calck1_w, calck2_w, calcdk1_f, calcdk2_f, calcdk1_w,
    calcdk2_w, calcJ1_f, calcJ2_f, calcJ1_w, calcJ2_w, calcdJ1_f, calcdJ2_f, calcdJ1_w,
    calcdJ2_w]
  by_cases h1 : DIM1 > DIM4 <;> by_cases h2 : DIM2 - 2 * DIM4 > DIM3 <;>
    simp only [h1, h2, if_true, if_false] <;> ring

end Solid1DChanSectionProperty

theorem chan_J_rectangles_hasDerivAt (DIM1 DIM2 DIM3 DIM4 dDIM1 dDIM2 dDIM3 dDIM4 : ℝ)
    (hb1 : DIM1 ≠ DIM4) (hb2 : DIM2 - 2 * DIM4 ≠ DIM3) :
    HasDerivAt (fun t : ℝ => chan_J_rectangles (DIM1 + t * dDIM1) (DIM2 + t * dDIM2)
        (DIM3 + t * dDIM3) (DIM4 + t * dDIM4))
      (chan_dJ_rectangles DIM1 DIM2 DIM3 DIM4 dDIM1 dDIM2 dDIM3 dDIM4) 0 := by
  have h1 := hasDerivAt_line DIM1 dDIM1
  have h2 := hasDerivAt_line DIM2 dDIM2
  have h3 := hasDerivAt_line DIM3 dDIM3
  have h4 := hasDerivAt_line DIM4 dDIM4
  -- the flange term
  have hf : HasDerivAt (fun t : ℝ =>
        if DIM1 + t * dDIM1 > DIM4 + t * dDIM4 then
          (DIM1 + t * dDIM1) * (DIM4 + t * dDIM4) ^ 3
        else (DIM1 + t * dDIM1) ^ 3 * (DIM4 + t * dDIM4))
      (if DIM1 > DIM4 then dDIM1 * DIM4 ^ 3 + DIM1 * (3 * DIM4 ^ 2 * dDIM4)
        else 3 * DIM1 ^ 2 * dDIM1 * DIM4 + DIM1 ^ 3 * dDIM4) 0 := by
    rcases lt_or_gt_of_ne hb1 with hlt | hgt
    · have ev := eventually_line_lt DIM1 dDIM1 DIM4 dDIM4 hlt
      rw [if_neg (lt_asymm hlt)]
      have hp := (h1.pow 3).mul h4
      refine HasDerivAt.congr_of_eventuallyEq ?_
        (ev.mono (fun t ht => if_neg (lt_asymm ht)))
      convert hp using 1
      simp
    · have ev := eventually_line_lt DIM4 dDIM4 DIM1 dDIM1 hgt
      rw [if_pos hgt]
      have hp := h1.mul (h4.pow 3)
      refine HasDerivAt.congr_of_eventuallyEq ?_ (ev.mono (fun t ht => if_pos ht))
      convert hp using 1
      simp
  -- the web term
  have hw : HasDerivAt (fun t : ℝ =>
        if (DIM2 + t * dDIM2) - 2 * (DIM4 + t * dDIM4) > DIM3 + t * dDIM3 then
          (DIM3 + t * dDIM3) ^ 3 * ((DIM2 + t * dDIM2) - 2 * (DIM4 + t * dDIM4))
        else (DIM3 + t * dDIM3) * ((DIM2 + t * dDIM2) - 2 * (DIM4 + t * dDIM4)) ^ 3)
      (if DIM2 - 2 * DIM4 > DIM3 then
          3 * DIM3 ^ 2 * dDIM3 * (DIM2 - 2 * DIM4) + DIM3 ^ 3 * (dDIM2 - 2 * dDIM4)
        else dDIM3 * (DIM2 - 2 * DIM4) ^ 3
          + DIM3 * (3 * (DIM2 - 2 * DIM4) ^ 2 * (dDIM2 - 2 * dDIM4))) 0 := by
    have e : ∀ t : ℝ, (DIM2 + t * dDIM2) - 2 * (DIM4 + t * dDIM4)
        = (DIM2 - 2 * DIM4) + t * (dDIM2 - 2 * dDIM4) := fun t => by ring
    have hh := h2.sub (h4.const_mul 2)
    rcases lt_or_gt_of_ne hb2 with hlt | hgt
    · have ev := eventually_line_lt (DIM2 - 2 * DIM4) (dDIM2 - 2 * dDIM4) DIM3 dDIM3 hlt
      rw [if_neg (lt_asymm hlt)]
      have hp := h3.mul (hh.pow 3)
      refine HasDerivAt.congr_of_eventuallyEq ?_
        (ev.mono (fun t ht => if_neg (by rw [e]; exact lt_asymm ht)))
      convert hp using 1
      simp
    · have ev := eventually_line_lt DIM3 dDIM3 (DIM2 - 2 * DIM4) (dDIM2 - 2 * dDIM4) hgt
      rw [if_pos hgt]
      have hp := (h3.pow 3).mul hh
      refine HasDerivAt.congr_of_eventuallyEq ?_
        (ev.mono (fun t ht => if_pos (by rw [e]; exact ht)))
      convert hp using 1
      simp
  have := ((hf.const_mul 2).add hw).div_const 3
  exact this

/-- C32: for real channel dimensions with `DIM4 ≠ 0` whose ratio `DIM3/DIM4` is outside
the open interval `(0.5, 1)`, `calcJ` returns the sum of rectangles `(2 J_f + J_w)/3` with
the flange and web monomials selected by `DIM1 > DIM4` and `DIM2 - 2 DIM4 > DIM3`, and
`calcdJ` returns `(2 dJ_f + dJ_w)/3` with the differentials of the selected monomials;
away from the branch boundaries (`DIM1 ≠ DIM4`, `DIM2 - 2 DIM4 ≠ DIM3`) this value is the
derivative of the sum-of-rectangles expression along the line `DIM + t dDIM` at `t = 0`,
for all increments.  The two formulas hold over every linearly ordered field. -/
theorem calcJ_is_sum_of_rectangles (sqrt : ℝ → ℝ)
    (DIM1 DIM2 DIM3 DIM4 dDIM1 dDIM2 dDIM3 dDIM4 : ℝ) (h4 : DIM4 ≠ 0)
    (hwf : ¬ (DIM3 / DIM4 > 0.5 ∧ DIM3 / DIM4 < 1))
    (hb1 : DIM1 ≠ DIM4) (hb2 : DIM2 - 2 * DIM4 ≠ DIM3) :
    Solid1DChanSectionProperty.calcJ sqrt DIM1 DIM2 DIM3 DIM4
      = chan_J_rectangles DIM1 DIM2 DIM3 DIM4 ∧
    Solid1DChanSectionProperty.calcdJ sqrt DIM1 DIM2 DIM3 DIM4 dDIM1 dDIM2 dDIM3 dDIM4
      = chan_dJ_rectangles DIM1 DIM2 DIM3 DIM4 dDIM1 dDIM2 dDIM3 dDIM4 ∧
    HasDerivAt (fun t : ℝ => chan_J_rectangles (DIM1 + t * dDIM1) (DIM2 + t * dDIM2)
        (DIM3 + t * dDIM3) (DIM4 + t * dDIM4))
      (Solid1DChanSectionProperty.calcdJ sqrt DIM1 DIM2 DIM3 DIM4 dDIM1 dDIM2 dDIM3 dDIM4)
      0 ∧
    (∀ {K : Type} [LinearOrderedField K] (sqrt' : K → K) (D1 D2 D3 D4 d1 d2 d3 d4 : K),
      ¬ (D3 / D4 > 0.5 ∧ D3 / D4 < 1) →
      Solid1DChanSectionProperty.calcJ sqrt' D1 D2 D3 D4 = chan_J_rectangles D1 D2 D3 D4 ∧
      Solid1DChanSectionProperty.calcdJ sqrt' D1 D2 D3 D4 d1 d2 d3 d4
        = chan_dJ_rectangles D1 D2 D3 D4 d1 d2 d3 d4) := by
  refine ⟨Solid1DChanSectionProperty.calcJ_rectangles sqrt _ _ _ _ hwf,
    Solid1DChanSectionProperty.calcdJ_rectangles sqrt _ _ _ _ _ _ _ _ hwf, ?_,
    fun sqrt' D1 D2 D3 D4 d1 d2 d3 d4 h =>
      ⟨Solid1DChanSectionProperty.calcJ_rectangles sqrt' _ _ _ _ h,
        Solid1DChanSectionProperty.calcdJ_rectangles sqrt' _ _ _ _ _ _ _ _ h⟩⟩
  rw [Solid1DChanSectionProperty.calcdJ_rectangles sqrt _ _ _ _ _ _ _ _ hwf]
  exact chan_J_rectangles_hasDerivAt _ _ _ _ _ _ _ _ hb1 hb2

theorem calcJ_is_sum_of_rectangles_witness :
    ((1 : ℝ) ≠ 0 ∧ ¬ ((2 : ℝ) / 1 > 0.5 ∧ (2 : ℝ) / 1 < 1) ∧ (4 : ℝ) ≠ 1
      ∧ (6 : ℝ) - 2 * 1 ≠ 2) ∧
    Solid1DChanSectionProperty.calcJ id (4 : ℝ) 6 2 1 = chan_J_rectangles 4 6 2 1 ∧
    HasDerivAt (fun t : ℝ => chan_J_rectangles (4 + t * 1) (6 + t * 2) (2 + t * 3)
        (1 + t * 4))
      (Solid1DChanSectionProperty.calcdJ id 4 6 2 1 1 2 3 4) 0 := by
  have h := calcJ_is_sum_of_rectangles id 4 6 2 1 1 2 3 4 (by norm_num) (by norm_num)
    (by norm_num) (by norm_num)
  exact ⟨⟨by norm_num, by norm_num, by norm_num, by norm_num⟩, h.1, h.2.2.1⟩


/-! ## The level-set element -/

theorem forM_option_eq_none {α : Type} (g : α → Option PUnit) :
    ∀ l : List α, l.forM g = none ↔ ∃ x ∈ l, g x = none := by
  intro l
  induction l with
  | nil => simp [List.forM]
  | cons a l ih =>
    have e : (a :: l).forM g = (do g a; l.forM g) := rfl
    rw [e]
    cases h : g a with
    | none => simp [h]
    | some u =>
      have : (do some u; l.forM g : Option PUnit) = l.forM g := rfl
      rw [this, ih]
      simp [h]

theorem forM_option_eq_some {α : Type} (g : α → Option PUnit) (l : List α)
    (h : ¬ ∃ x ∈ l, g x = none) : l.forM g = some ⟨⟩ := by
  cases e : l.forM g with
  | none => exact absurd ((forM_option_eq_none g l).1 e) h
  | some u => rfl

theorem mem_equal_range {β : Type} (bc : List (ℤ × β)) (key : ℤ) (c : β) :
    c ∈ equal_range bc key ↔ (key, c) ∈ bc := by
  unfold equal_range
  simp only [List.mem_map, List.mem_filter, decide_eq_true_eq]
  constructor
  · rintro ⟨⟨k, c'⟩, ⟨hm, hk⟩, rfl⟩
    dsimp only at hk
    subst hk
    exact hm
  · intro h
    exact ⟨(key, c), ⟨h, rfl⟩, rfl⟩

theorem forM_then_pure_eq_none {α β : Type} (g : α → Option PUnit) (l : List α) (x : β) :
    ((do l.forM g; pure x : Option β) = none ↔ ∃ a ∈ l, g a = none) ∧
    ((do l.forM g; pure x : Option β) ≠ none → (do l.forM g; pure x : Option β) = some x) := by
  cases h : l.forM g with
  | none =>
    refine ⟨⟨fun _ => (forM_option_eq_none g l).1 h, fun _ => rfl⟩, fun hne => absurd rfl hne⟩
  | some u =>
    refine ⟨⟨fun e => Option.noConfusion e, fun e => ?_⟩, fun _ => rfl⟩
    rw [(forM_option_eq_none g l).2 e] at h
    cases h

namespace LevelSetElementBase
variable {K ι : Type} [LinearOrderedField K] {dim : ℕ}

theorem side_external_residual_eq_none (el : LevelSetElementBase K ι n nqp dim) (rj : Bool)
    (f : Fin (1 * n) → K) (jac : Matrix (Fin (1 * n)) (Fin (1 * n)) K)
    (bc : List (ℤ × BoundaryConditionBase)) :
    el.side_external_residual rj f jac bc = none ↔
      ∃ s, s < el.n_sides ∧ el.boundary_info.n_boundary_ids s ≠ 0 ∧
        ∃ id ∈ el.boundary_info.boundary_ids s, ∃ c ∈ equal_range bc id,
          c.type ≠ BoundaryConditionType.DIRICHLET := by
  unfold side_external_residual
  dsimp only
  refine (forM_then_pure_eq_none _ _ _).1.trans ?_
  constructor
  · rintro ⟨s, hs1, hs2⟩
    by_cases h0 : el.boundary_info.n_boundary_ids s = 0
    · rw [if_pos h0] at hs2
      cases hs2
    · rw [if_neg h0] at hs2
      obtain ⟨id, hid, h3⟩ := (forM_option_eq_none _ _).1 hs2
      obtain ⟨c, hc, h4⟩ := (forM_option_eq_none _ _).1 h3
      refine ⟨s, List.mem_range.1 hs1, h0, id, hid, c, hc, ?_⟩
      intro hD
      rw [hD] at h4
      cases h4
  · rintro ⟨s, hs, h0, id, hid, c, hc, hne⟩
    refine ⟨s, List.mem_range.2 hs, ?_⟩
    rw [if_neg h0]
    refine (forM_option_eq_none _ _).2 ⟨id, hid, (forM_option_eq_none _ _).2 ⟨c, hc, ?_⟩⟩
    cases hc' : c.type with
    | DIRICHLET => exact absurd hc' hne
    | other k => rfl

theorem side_external_residual_of_ne_none (el : LevelSetElementBase K ι n nqp dim)
    (rj : Bool) (f : Fin (1 * n) → K) (jac : Matrix (Fin (1 * n)) (Fin (1 * n)) K)
    (bc : List (ℤ × BoundaryConditionBase))
    (h : el.side_external_residual rj f jac bc ≠ none) :
    el.side_external_residual rj f jac bc = some ⟨rj, f, jac⟩ := by
  unfold side_external_residual at h ⊢
  dsimp only at h ⊢
  exact (forM_then_pure_eq_none _ _ _).2 h

theorem volume_external_residual_eq (el : LevelSetElementBase K ι n nqp dim)
    (rj : Bool) (f : Fin (1 * n) → K) (jac : Matrix (Fin (1 * n)) (Fin (1 * n)) K)
    (bc : List (ℤ × BoundaryConditionBase)) :
    (el.volume_external_residual rj f jac bc = none ↔ equal_range bc el.subdomain_id ≠ []) ∧
    (equal_range bc el.subdomain_id = [] →
      el.volume_external_residual rj f jac bc = some ⟨rj, f, jac⟩) := by
  unfold volume_external_residual
  dsimp only
  cases hl : equal_range bc el.subdomain_id with
  | nil =>
    refine ⟨⟨fun h => ?_, fun h => absurd rfl h⟩, fun _ => rfl⟩
    cases h
  | cons a l =>
    refine ⟨⟨fun _ => List.cons_ne_nil _ _, fun _ => rfl⟩, fun h => List.noConfusion h⟩

/-- C33: `side_external_residual` fails exactly when some side of the element that carries
boundary ids has, for one of those ids, a condition in the map whose type is not
`DIRICHLET`; otherwise it returns `request_jacobian` and hands `f` and `jac` back
unchanged.  `volume_external_residual` fails exactly when the map holds a condition for
the subdomain id of the element, and otherwise returns `request_jacobian` with `f` and
`jac` unchanged. -/
theorem external_residual_fails_on_unimplemented_condition
    (el : LevelSetElementBase K ι n nqp dim) (request_jacobian : Bool)
    (f : Fin (1 * n) → K) (jac : Matrix (Fin (1 * n)) (Fin (1 * n)) K)
    (bc : List (ℤ × BoundaryConditionBase)) :
    (el.side_external_residual request_jacobian f jac bc = none ↔
      ∃ s, s < el.n_sides ∧ el.boundary_info.n_boundary_ids s ≠ 0 ∧
        ∃ id ∈ el.boundary_info.boundary_ids s, ∃ c, (id, c) ∈ bc ∧
          c.type ≠ BoundaryConditionType.DIRICHLET) ∧
    (el.side_external_residual request_jacobian f jac bc ≠ none →
      el.side_external_residual request_jacobian f jac bc
        = some ⟨request_jacobian, f, jac⟩) ∧
    (el.volume_external_residual request_jacobian f jac bc = none ↔
      ∃ c, (el.subdomain_id, c) ∈ bc) ∧
    (el.volume_external_residual request_jacobian f jac bc ≠ none →
      el.volume_external_residual request_jacobian f jac bc
        = some ⟨request_jacobian, f, jac⟩) := by
  refine ⟨?_, side_external_residual_of_ne_none el request_jacobian f jac bc, ?_, ?_⟩
  · rw [side_external_residual_eq_none]
    constructor
    · rintro ⟨s, hs, h0, id, hid, c, hc, hne⟩
      exact ⟨s, hs, h0, id, hid, c, (mem_equal_range bc id c).1 hc, hne⟩
    · rintro ⟨s, hs, h0, id, hid, c, hc, hne⟩
      exact ⟨s, hs, h0, id, hid, c, (mem_equal_range bc id c).2 hc, hne⟩
  · rw [(volume_external_residual_eq el request_jacobian f jac bc).1]
    constructor
    · intro hne
      obtain ⟨c, hc⟩ := List.exists_mem_of_ne_nil _ hne
      exact ⟨c, (mem_equal_range bc _ c).1 hc⟩
    · rintro ⟨c, hc⟩
      exact List.ne_nil_of_mem ((mem_equal_range bc _ c).2 hc)
  · intro hne
    apply (volume_external_residual_eq el request_jacobian f jac bc).2
    by_contra hl
    exact hne ((volume_external_residual_eq el request_jacobian f jac bc).1.2 hl)

/-- The triangle element with a `DIRICHLET` condition on the boundary id of its first side
passes, with a condition of another type on that id it fails, and with a condition on an
id none of its sides carries it passes. -/
theorem external_residual_on_triangle :
    tri3_level_set.side_external_residual true 0 0 [(7, ⟨.DIRICHLET⟩)] = some ⟨true, 0, 0⟩ ∧
    tri3_level_set.side_external_residual true 0 0 [(7, ⟨.other 0⟩)] = none ∧
    tri3_level_set.side_external_residual true 0 0 [(8, ⟨.other 0⟩)] = some ⟨true, 0, 0⟩ ∧
    tri3_level_set.volume_external_residual true 0 0 [(0, ⟨.DIRICHLET⟩)] = none ∧
    tri3_level_set.volume_external_residual true 0 0 [(1, ⟨.DIRICHLET⟩)]
      = some ⟨true, 0, 0⟩ := by
  refine ⟨?_, ?_, ?_, ?_, ?_⟩ <;> rfl

end LevelSetElementBase


/-! ## The level-set residuals and the stabilization parameter -/

theorem foldl_add_sum {α : Type} [AddCommMonoid α] : ∀ {m : ℕ} (g : Fin m → α) (v0 : α),
    Fin.foldl m (fun v i => v + g i) v0 = v0 + ∑ i, g i := by
  intro m
  induction m with
  | zero => intro g v0; simp [Fin.foldl_zero]
  | succ m ih =>
    intro g v0
    rw [Fin.foldl_succ_last, Fin.sum_univ_castSucc, ih (fun i => g i.castSucc) v0, add_assoc]

theorem sum_mulVec {a b m : ℕ} (M : Fin m → Matrix (Fin a) (Fin b) R) (x : Fin b → R) :
    (∑ i, M i) *ᵥ x = ∑ i, M i *ᵥ x := by
  induction m with
  | zero => simp
  | succ m ih =>
    rw [Fin.sum_univ_castSucc, Fin.sum_univ_castSucc, Matrix.add_mulVec,
      ih (fun i => M i.castSucc)]

theorem mulVec_sum {a b m : ℕ} (M : Matrix (Fin a) (Fin b) R) (x : Fin m → Fin b → R) :
    M *ᵥ (∑ i, x i) = ∑ i, M *ᵥ x i := by
  induction m with
  | zero => simp
  | succ m ih =>
    rw [Fin.sum_univ_castSucc, Fin.sum_univ_castSucc, Matrix.mulVec_add,
      ih (fun i => x i.castSucc)]

namespace LevelSetElementBase
variable {K ι : Type} [LinearOrderedField K] {dim : ℕ}

theorem tau_eq (el : LevelSetElementBase K ι n nqp dim) (qp : Fin nqp)
    (Bmat : FEMOperatorMatrix K 1 1 n) (dBmat : Fin dim → FEMOperatorMatrix K 1 1 n)
    (vel : Fin dim → K) (tau : Matrix (Fin 1) (Fin 1) K) :
    el._tau qp Bmat dBmat vel tau 0 0 = 1 / tau_divisor el qp vel := by
  unfold _tau tau_divisor
  have e : ∀ (v0 : K) (i_dim : Fin dim),
      Fin.foldl n (fun val i_nd =>
        val + |el.fe.dphi i_nd qp (Fin.castLE el.hdim i_dim) * vel i_dim|) v0
      = v0 + ∑ i_nd : Fin n, |el.fe.dphi i_nd qp (Fin.castLE el.hdim i_dim) * vel i_dim| :=
    fun v0 i_dim => foldl_add_sum _ v0
  simp only [e]
  rw [foldl_add_sum, zero_add]
  simp [assign]

theorem tau_divisor_nonneg (el : LevelSetElementBase K ι n nqp dim) (qp : Fin nqp)
    (vel : Fin dim → K) : 0 ≤ tau_divisor el qp vel :=
  Finset.sum_nonneg (fun _ _ => Finset.sum_nonneg (fun _ _ => abs_nonneg _))

theorem tau_divisor_eq_zero (el : LevelSetElementBase K ι n nqp dim) (qp : Fin nqp)
    (vel : Fin dim → K) :
    tau_divisor el qp vel = 0 ↔
      ∀ (i_dim : Fin dim) (i_nd : Fin n),
        el.fe.dphi i_nd qp (Fin.castLE el.hdim i_dim) * vel i_dim = 0 := by
  unfold tau_divisor
  rw [Finset.sum_eq_zero_iff_of_nonneg
    (fun _ _ => Finset.sum_nonneg (fun _ _ => abs_nonneg _))]
  constructor
  · intro h d i
    have h1 := h d (Finset.mem_univ _)
    rw [Finset.sum_eq_zero_iff_of_nonneg (fun _ _ => abs_nonneg _)] at h1
    exact abs_eq_zero.1 (h1 i (Finset.mem_univ _))
  · intro h d _
    exact Finset.sum_eq_zero (fun i _ => abs_eq_zero.2 (h d i))

theorem level_set_internal_residual_point_eq (el : LevelSetElementBase K ι n nqp dim) (rj : Bool)
    (buf : LevelSetBuffers K n dim) (qp : Fin nqp) :
    (el.internal_residual_point true buf qp).f - buf.f
      = ((el.internal_residual_point true buf qp).jac - buf.jac) *ᵥ el.sol ∧
    (el.internal_residual_point rj buf qp).f = (el.internal_residual_point true buf qp).f ∧
    (el.internal_residual_point false buf qp).jac = buf.jac := by
  refine ⟨?_, by cases rj <;> rfl, rfl⟩
  dsimp only [internal_residual_point, Id.run, Id.pure_eq, Id.bind_eq, bind, pure,
    ite_true_eq_true, FEMOperatorMatrix.right_multiply, FEMOperatorMatrix.left_multiply,
    FEMOperatorMatrix.vector_mult_transpose, FEMOperatorMatrix.right_multiply_transpose_op]
  generalize (el._initialize_fem_operators qp el.fe buf.Bmat buf.dBmat).1.toMatrix = B
  generalize (el._initialize_fem_operators qp el.fe buf.Bmat buf.dBmat).2 = dB
  generalize el._tau qp _ _ _ buf.tau = τ
  generalize el.phi_vel.value (el.fe.xyz qp) el.time = v
  generalize el.fe.JxW qp = w
  have key := foldl_accumulate
    (fun s : (Fin 1 → K) × Matrix (Fin 1) (Fin (1 * n)) K => s) (fun _ => True)
    (fun s j => (s.1 + v j • ((dB j).toMatrix *ᵥ el.sol),
      s.2 + v j • ((1 : Matrix (Fin 1) (Fin 1) K) * (dB j).toMatrix)))
    (fun j => (v j • ((dB j).toMatrix *ᵥ el.sol),
      v j • ((1 : Matrix (Fin 1) (Fin 1) K) * (dB j).toMatrix)))
    (fun _ _ _ => trivial) (fun _ _ _ => rfl) (0, 0) trivial
  have h2 := key.2
  dsimp only at h2
  have h3 := h2.trans (zero_add _)
  rw [h3, foldl_add_sum]
  rw [Prod.fst_sum, Prod.snd_sum]
  simp only [add_sub_cancel_left, Matrix.add_mulVec, sum_mulVec, Matrix.one_mul,
    Matrix.smul_mulVec_assoc, ← Matrix.mulVec_mulVec, mulVec_sum, Matrix.mulVec_smul,
    Finset.smul_sum, smul_smul, add_assoc]

theorem level_set_velocity_residual_point_eq (el : LevelSetElementBase K ι n nqp dim) (rj : Bool)
    (buf : LevelSetVelocityBuffers K n dim) (qp : Fin nqp) :
    (el.velocity_residual_point true buf qp).f - buf.f
      = ((el.velocity_residual_point true buf qp).jac_xdot - buf.jac_xdot) *ᵥ el.vel ∧
    (el.velocity_residual_point rj buf qp).jac = buf.jac ∧
    (el.velocity_residual_point false buf qp).jac_xdot = buf.jac_xdot := by
  refine ⟨?_, by cases rj <;> rfl, rfl⟩
  dsimp only [velocity_residual_point, Id.run, Id.pure_eq, Id.bind_eq, bind, pure,
    ite_true_eq_true, FEMOperatorMatrix.right_multiply, FEMOperatorMatrix.left_multiply,
    FEMOperatorMatrix.vector_mult_transpose, FEMOperatorMatrix.right_multiply_transpose_op]
  generalize (el._initialize_fem_operators qp el.fe buf.Bmat buf.dBmat).1.toMatrix = B
  generalize (el._initialize_fem_operators qp el.fe buf.Bmat buf.dBmat).2 = dB
  generalize el._tau qp _ _ _ buf.tau = τ
  generalize el.phi_vel.value (el.fe.xyz qp) el.time = v
  generalize el.fe.JxW qp = w
  generalize Fin.foldl dim (fun (mat2_n1n2 : Matrix (Fin 1) (Fin (1 * n)) K) j =>
    mat2_n1n2 + v j • ((1 : Matrix (Fin 1) (Fin 1) K) * (dB j).toMatrix)) 0 = M
  simp only [add_sub_cancel_left, Matrix.add_mulVec, Matrix.smul_mulVec_assoc,
    ← Matrix.mulVec_mulVec, Matrix.smul_mul, add_assoc]

theorem level_set_internal_residual_eq (el : LevelSetElementBase K ι n nqp dim) (rj : Bool)
    (f : Fin (1 * n) → K) (jac : Matrix (Fin (1 * n)) (Fin (1 * n)) K) :
    (el.internal_residual true f jac).f - f
      = ((el.internal_residual true f jac).jac - jac) *ᵥ el.sol ∧
    (el.internal_residual false f jac).jac = jac ∧
    (el.internal_residual rj f jac).ret = rj := by
  refine ⟨?_, ?_, rfl⟩
  · unfold internal_residual
    dsimp only
    refine foldl_index_invariant
      (fun _ (s : LevelSetBuffers K n dim) => s.f - f = (s.jac - jac) *ᵥ el.sol) _ _ ?_ ?_
    · simp
    · intro i s hs
      have h := (level_set_internal_residual_point_eq el true s i).1
      have e1 : (el.internal_residual_point true s i).f - f
          = ((el.internal_residual_point true s i).f - s.f) + (s.f - f) := by abel
      have e2 : (el.internal_residual_point true s i).jac - jac
          = ((el.internal_residual_point true s i).jac - s.jac) + (s.jac - jac) := by abel
      rw [e1, e2, Matrix.add_mulVec, h, hs]
  · unfold internal_residual
    dsimp only
    exact foldl_index_invariant (fun _ (s : LevelSetBuffers K n dim) => s.jac = jac) _ _ rfl
      (fun i s hs => hs)

theorem level_set_velocity_residual_eq (el : LevelSetElementBase K ι n nqp dim) (rj : Bool)
    (f : Fin (1 * n) → K) (jac_xdot jac : Matrix (Fin (1 * n)) (Fin (1 * n)) K) :
    (el.velocity_residual true f jac_xdot jac).f - f
      = ((el.velocity_residual true f jac_xdot jac).jac_xdot - jac_xdot) *ᵥ el.vel ∧
    (el.velocity_residual rj f jac_xdot jac).jac = jac ∧
    (el.velocity_residual false f jac_xdot jac).jac_xdot = jac_xdot ∧
    (el.velocity_residual rj f jac_xdot jac).ret = rj := by
  refine ⟨?_, ?_, ?_, rfl⟩
  · unfold velocity_residual
    dsimp only
    refine foldl_index_invariant
      (fun _ (s : LevelSetVelocityBuffers K n dim) =>
        s.f - f = (s.jac_xdot - jac_xdot) *ᵥ el.vel) _ _ ?_ ?_
    · simp
    · intro i s hs
      have h := (level_set_velocity_residual_point_eq el true s i).1
      have e1 : (el.velocity_residual_point true s i).f - f
          = ((el.velocity_residual_point true s i).f - s.f) + (s.f - f) := by abel
      have e2 : (el.velocity_residual_point true s i).jac_xdot - jac_xdot
          = ((el.velocity_residual_point true s i).jac_xdot - s.jac_xdot)
            + (s.jac_xdot - jac_xdot) := by abel
      rw [e1, e2, Matrix.add_mulVec, h, hs]
  · unfold velocity_residual
    dsimp only
    exact foldl_index_invariant (fun _ (s : LevelSetVelocityBuffers K n dim) => s.jac = jac)
      _ _ rfl (fun i s hs => ((level_set_velocity_residual_point_eq el rj s i).2.1).trans hs)
  · unfold velocity_residual
    dsimp only
    exact foldl_index_invariant
      (fun _ (s : LevelSetVelocityBuffers K n dim) => s.jac_xdot = jac_xdot) _ _ rfl
      (fun i s hs => hs)

/-- C35: for every quadrature data, advection velocity field whose stabilization divisor
is non-zero at every quadrature point, and solution, the residual `internal_residual` adds
to `f` is the tangent it adds to `jac` (with `request_jacobian = true`) applied to `_sol`;
the residual `velocity_residual` adds to `f` is the matrix it adds to `jac_xdot` applied to
`_vel`, and `velocity_residual` hands `jac` back unchanged.  Both return
`request_jacobian`, and without the request they leave the matrices as they were. -/
theorem residual_is_tangent_applied_to_solution (el : LevelSetElementBase K ι n nqp dim)
    (f : Fin (1 * n) → K) (jac jac_xdot : Matrix (Fin (1 * n)) (Fin (1 * n)) K)
    (hS : ∀ qp, tau_divisor el qp (el.phi_vel.value (el.fe.xyz qp) el.time) ≠ 0) :
    (el.internal_residual true f jac).f - f
      = ((el.internal_residual true f jac).jac - jac) *ᵥ el.sol ∧
    (el.velocity_residual true f jac_xdot jac).f - f
      = ((el.velocity_residual true f jac_xdot jac).jac_xdot - jac_xdot) *ᵥ el.vel ∧
    (∀ request_jacobian : Bool,
      (el.velocity_residual request_jacobian f jac_xdot jac).jac = jac ∧
      (el.velocity_residual request_jacobian f jac_xdot jac).ret = request_jacobian ∧
      (el.internal_residual request_jacobian f jac).ret = request_jacobian) ∧
    (el.internal_residual false f jac).jac = jac ∧
    (el.velocity_residual false f jac_xdot jac).jac_xdot = jac_xdot :=
  ⟨(level_set_internal_residual_eq el true f jac).1,
    (level_set_velocity_residual_eq el true f jac_xdot jac).1,
    fun rj => ⟨(level_set_velocity_residual_eq el rj f jac_xdot jac).2.1, rfl, rfl⟩,
    (level_set_internal_residual_eq el true f jac).2.1,
    (level_set_velocity_residual_eq el true f jac_xdot jac).2.2.1⟩

/-- C38: `_tau` sets `tau(0,0) = 1 / S` with
`S = sum_{d < dim} sum_i |dN_i/dx_d(qp) vel_d|`, whatever the operators and the incoming
`tau`; `S` is non-negative, it is zero exactly when every product `dN_i/dx_d vel_d` is
zero and strictly positive exactly when one of them is not, in which case `tau(0,0)` is
positive and `tau(0,0) S = 1`; for zero velocity `S = 0`, and the routine, which tests
nothing before it divides, computes `1 / 0`. -/
theorem tau_is_reciprocal_of_divisor (el : LevelSetElementBase K ι n nqp dim) (qp : Fin nqp)
    (Bmat : FEMOperatorMatrix K 1 1 n) (dBmat : Fin dim → FEMOperatorMatrix K 1 1 n)
    (tau : Matrix (Fin 1) (Fin 1) K) :
    (∀ vel : Fin dim → K,
      el._tau qp Bmat dBmat vel tau 0 0 = 1 / tau_divisor el qp vel ∧
      0 ≤ tau_divisor el qp vel ∧
      (tau_divisor el qp vel = 0 ↔ ∀ (i_dim : Fin dim) (i_nd : Fin n),
        el.fe.dphi i_nd qp (Fin.castLE el.hdim i_dim) * vel i_dim = 0) ∧
      (0 < tau_divisor el qp vel ↔ ∃ (i_dim : Fin dim) (i_nd : Fin n),
        el.fe.dphi i_nd qp (Fin.castLE el.hdim i_dim) * vel i_dim ≠ 0) ∧
      (0 < tau_divisor el qp vel →
        0 < el._tau qp Bmat dBmat vel tau 0 0 ∧
        el._tau qp Bmat dBmat vel tau 0 0 * tau_divisor el qp vel = 1)) ∧
    tau_divisor el qp (0 : Fin dim → K) = 0 ∧
    el._tau qp Bmat dBmat 0 tau 0 0 = 1 / 0 := by
  have hz : tau_divisor el qp (0 : Fin dim → K) = 0 :=
    (tau_divisor_eq_zero el qp 0).2 (fun d i => by simp)
  refine ⟨fun vel => ⟨tau_eq el qp Bmat dBmat vel tau, tau_divisor_nonneg el qp vel,
    tau_divisor_eq_zero el qp vel, ?_, fun hpos => ?_⟩, hz, ?_⟩
  · rw [lt_iff_le_and_ne]
    constructor
    · rintro ⟨-, hne⟩
      by_contra hall
      push_neg at hall
      exact hne ((tau_divisor_eq_zero el qp vel).2 hall).symm
    · rintro ⟨d, i, hne⟩
      refine ⟨tau_divisor_nonneg el qp vel, fun h0 => hne ?_⟩
      exact (tau_divisor_eq_zero el qp vel).1 h0.symm d i
  · rw [tau_eq]
    exact ⟨one_div_pos.2 hpos, one_div_mul_cancel hpos.ne'⟩
  · rw [tau_eq, hz]

end LevelSetElementBase

theorem residual_is_tangent_applied_to_solution_witness :
    (∀ qp, tau_divisor tri3_level_set qp
      (tri3_level_set.phi_vel.value (tri3_level_set.fe.xyz qp) tri3_level_set.time) ≠ 0) ∧
    (tri3_level_set.internal_residual true 0 0).f - 0
      = ((tri3_level_set.internal_residual true 0 0).jac - 0) *ᵥ tri3_level_set.sol := by
  have hS : ∀ qp, tau_divisor tri3_level_set qp
      (tri3_level_set.phi_vel.value (tri3_level_set.fe.xyz qp) tri3_level_set.time) ≠ 0 := by
    intro qp
    simp [tau_divisor, tri3_level_set, tri3_fe, Fin.sum_univ_succ]
  exact ⟨hS, (LevelSetElementBase.residual_is_tangent_applied_to_solution tri3_level_set 0 0 0
    hS).1⟩


/-! ## The prestress tangent -/

theorem thermal_force_vk_add_smul {ι : Type} (qp : Fin nqp) (fe : FEBase R n nqp)
    (bo : BendingOperator2D R ι n) (u d : Fin (6 * n) → R) (t : R) (s_A s_B : Fin 3 → R) :
    thermal_force qp fe bo true true (u + t • d) s_A s_B
      = thermal_force qp fe bo true true u s_A s_B
        + t • (((Bvk qp fe)ᵀ * (stress_of_vec s_A * Bvk qp fe)) *ᵥ d) := by
  dsimp only [thermal_force, ite_true_eq_true]
  rw [vk_W_transpose_mulVec, vk_W_transpose_mulVec, dwdxi_add_smul, ← Bvk_mulVec qp fe d]
  simp only [Matrix.mulVec_add, Matrix.mulVec_smul, ← Matrix.mulVec_mulVec]
  abel

namespace StructuralElement2D
variable {ι : Type}

theorem stress_of_prestress_vec (A : Matrix (Fin 2) (Fin 2) R) (h : A 0 1 = A 1 0) :
    stress_of_vec (_convert_prestress_A_mat_to_vector A) = A := by
  ext i j
  fin_cases i <;> fin_cases j <;> simp [stress_of_vec, _convert_prestress_A_mat_to_vector, h]

theorem prestress_vec_congr (A A' : Matrix (Fin 2) (Fin 2) R)
    (h : A' 0 0 = A 0 0 ∧ A' 1 1 = A 1 1 ∧ A' 0 1 = A 0 1) :
    _convert_prestress_A_mat_to_vector A' = _convert_prestress_A_mat_to_vector A := by
  simp only [_convert_prestress_A_mat_to_vector, h.1, h.2.1, h.2.2]

theorem prestress_residual_values (el : StructuralElement2D R ι n nqp)
    (f : Fin (6 * n) → R) (jac : Matrix (Fin (6 * n)) (Fin (6 * n)) R)
    (hp : el.property.if_prestressed = true)
    (hb : el.property.bending_model_is_active = true)
    (hv : el.property.strain_type_is_von_karman = true) :
    (el.prestress_residual true f jac).local_f
      = ∑ qp, el.fe.JxW qp • thermal_force qp el.fe el.bending_operator true true el.local_sol
          (_convert_prestress_A_mat_to_vector
            (el.property.prestress_A_matrix.value (el.fe.xyz qp) el.time))
          (_convert_prestress_B_mat_to_vector
            (el.property.prestress_B_matrix.value (el.fe.xyz qp) el.time)) ∧
    (el.prestress_residual true f jac).local_jac
      = ∑ qp, el.fe.JxW qp • ((Bvk qp el.fe)ᵀ *
          (el.property.prestress_A_matrix.value (el.fe.xyz qp) el.time * Bvk qp el.fe)) ∧
    (el.prestress_residual true f jac).f
      = f + el.T_global *ᵥ (el.prestress_residual true f jac).local_f ∧
    (el.prestress_residual true f jac).jac
      = jac + el.T_global * (el.prestress_residual true f jac).local_jac * el.T_globalᵀ := by
  have h := prestress_loop_eq el true el.property.prestress_A_matrix.value
    el.property.prestress_B_matrix.value
  rw [hb, hv] at h
  have e : el.prestress_residual true f jac
      = ⟨true, f + el.T_global *ᵥ (Fin.foldl nqp (prestress_residual_point el true
          el.property.prestress_A_matrix.value el.property.prestress_B_matrix.value)
          (fresh_buffers R n)).local_f,
        jac + el.T_global * (Fin.foldl nqp (prestress_residual_point el true
          el.property.prestress_A_matrix.value el.property.prestress_B_matrix.value)
          (fresh_buffers R n)).local_jac * el.T_globalᵀ,
        (Fin.foldl nqp (prestress_residual_point el true
          el.property.prestress_A_matrix.value el.property.prestress_B_matrix.value)
          (fresh_buffers R n)).local_f,
        (Fin.foldl nqp (prestress_residual_point el true
          el.property.prestress_A_matrix.value el.property.prestress_B_matrix.value)
          (fresh_buffers R n)).local_jac⟩ := by
    dsimp only [prestress_residual, Id.run, Id.pure_eq, Id.bind_eq, bind, pure]
    rw [hp, hv]
    rfl
  rw [e]
  refine ⟨h.1, ?_, rfl, rfl⟩
  rw [h.2]
  rfl

theorem prestress_residual_of_not_prestressed (el : StructuralElement2D R ι n nqp)
    (rj : Bool) (f : Fin (6 * n) → R) (jac : Matrix (Fin (6 * n)) (Fin (6 * n)) R)
    (hp : el.property.if_prestressed = false) :
    el.prestress_residual rj f jac = ⟨false, f, jac, 0, 0⟩ := by
  dsimp only [prestress_residual, Id.run, Id.pure_eq, Id.bind_eq, bind, pure]
  rw [hp]
  rfl

theorem prestress_force_add_smul (el : StructuralElement2D R ι n nqp)
    (f : Fin (6 * n) → R) (jac : Matrix (Fin (6 * n)) (Fin (6 * n)) R)
    (hb : el.property.bending_model_is_active = true)
    (hv : el.property.strain_type_is_von_karman = true)
    (hsym : ∀ qp, el.property.prestress_A_matrix.value (el.fe.xyz qp) el.time 0 1
      = el.property.prestress_A_matrix.value (el.fe.xyz qp) el.time 1 0)
    (u d : Fin (6 * n) → R) (t : R) :
    ((el.with_local_sol (u + t • d)).prestress_residual true f jac).local_f
      = ((el.with_local_sol u).prestress_residual true f jac).local_f
        + t • (((el.with_local_sol u).prestress_residual true f jac).local_jac *ᵥ d) := by
  generalize hp : el.property.if_prestressed = pre
  cases pre
  · rw [prestress_residual_of_not_prestressed (el.with_local_sol (u + t • d)) true f jac hp,
      prestress_residual_of_not_prestressed (el.with_local_sol u) true f jac hp]
    simp
  · have hu : ∀ w, ((el.with_local_sol w).prestress_residual true f jac).local_f
        = ∑ qp, el.fe.JxW qp • thermal_force qp el.fe el.bending_operator true true w
            (_convert_prestress_A_mat_to_vector
              (el.property.prestress_A_matrix.value (el.fe.xyz qp) el.time))
            (_convert_prestress_B_mat_to_vector
              (el.property.prestress_B_matrix.value (el.fe.xyz qp) el.time)) :=
      fun w => (prestress_residual_values (el.with_local_sol w) f jac hp hb hv).1
    have hj : ((el.with_local_sol u).prestress_residual true f jac).local_jac
        = ∑ qp, el.fe.JxW qp • ((Bvk qp el.fe)ᵀ *
            (el.property.prestress_A_matrix.value (el.fe.xyz qp) el.time * Bvk qp el.fe)) :=
      (prestress_residual_values (el.with_local_sol u) f jac hp hb hv).2.1
    rw [hu, hu, hj, sum_mulVec, Finset.smul_sum, ← Finset.sum_add_distrib]
    refine Finset.sum_congr rfl (fun qp _ => ?_)
    rw [thermal_force_vk_add_smul, stress_of_prestress_vec _ (hsym qp), smul_add,
      Matrix.smul_mulVec_assoc, smul_comm t]

/-- C34: with bending and von Karman strain active, for every local solution `u`, every
increment `d`, every step `t` and every prestress `A` matrix whose two off-diagonal entries
are equal at the quadrature points, the local force of `prestress_residual` at `u + t d`
is the local force at `u` plus `t` times the local tangent at `u` applied to `d`: the
tangent is the exact derivative of the force with respect to the local solution.  The
force added to `f` changes by `t` times the matrix added to `jac` applied to `d` when the
local solution moves by `t T^T d`.  For a prestressed card the local tangent is
`sum_qp JxW Bvk^T prestress_A Bvk` with the whole matrix `prestress_A`, while the force is
the same for every prestress `A` matrix with the same `(0,0)`, `(1,1)` and `(0,1)`
entries. -/
theorem prestress_tangent_is_derivative_of_prestress_force
    (el : StructuralElement2D R ι n nqp)
    (f : Fin (6 * n) → R) (jac : Matrix (Fin (6 * n)) (Fin (6 * n)) R)
    (hb : el.property.bending_model_is_active = true)
    (hv : el.property.strain_type_is_von_karman = true)
    (hsym : ∀ qp, el.property.prestress_A_matrix.value (el.fe.xyz qp) el.time 0 1
      = el.property.prestress_A_matrix.value (el.fe.xyz qp) el.time 1 0)
    (u d : Fin (6 * n) → R) (t : R) :
    ((el.with_local_sol (u + t • d)).prestress_residual true f jac).local_f
        - ((el.with_local_sol u).prestress_residual true f jac).local_f
      = t • (((el.with_local_sol u).prestress_residual true f jac).local_jac *ᵥ d) ∧
    ((el.with_local_sol (u + t • (el.T_globalᵀ *ᵥ d))).prestress_residual true f jac).f
        - ((el.with_local_sol u).prestress_residual true f jac).f
      = t • ((((el.with_local_sol u).prestress_residual true f jac).jac - jac) *ᵥ d) ∧
    (el.property.if_prestressed = true →
      ((el.with_local_sol u).prestress_residual true f jac).local_jac
        = ∑ qp, el.fe.JxW qp • ((Bvk qp el.fe)ᵀ *
            (el.property.prestress_A_matrix.value (el.fe.xyz qp) el.time * Bvk qp el.fe)) ∧
      ((el.with_local_sol u).prestress_residual true f jac).jac - jac
        = el.T_global * (∑ qp, el.fe.JxW qp • ((Bvk qp el.fe)ᵀ *
            (el.property.prestress_A_matrix.value (el.fe.xyz qp) el.time * Bvk qp el.fe)))
          * el.T_globalᵀ) ∧
    (∀ A' : FieldFunction R ι (Matrix (Fin 2) (Fin 2) R),
      (∀ qp, A'.value (el.fe.xyz qp) el.time 0 0
          = el.property.prestress_A_matrix.value (el.fe.xyz qp) el.time 0 0 ∧
        A'.value (el.fe.xyz qp) el.time 1 1
          = el.property.prestress_A_matrix.value (el.fe.xyz qp) el.time 1 1 ∧
        A'.value (el.fe.xyz qp) el.time 0 1
          = el.property.prestress_A_matrix.value (el.fe.xyz qp) el.time 0 1) →
      (((el.with_prestress_A A').with_local_sol u).prestress_residual true f jac).local_f
        = ((el.with_local_sol u).prestress_residual true f jac).local_f ∧
      (((el.with_prestress_A A').with_local_sol u).prestress_residual true f jac).f
        = ((el.with_local_sol u).prestress_residual true f jac).f) := by
  have key := prestress_force_add_smul el f jac hb hv hsym
  refine ⟨?_, ?_, fun hp => ?_, fun A' hA => ?_⟩
  · rw [key u d t, add_sub_cancel_left]
  · generalize hp : el.property.if_prestressed = pre
    cases pre
    · rw [prestress_residual_of_not_prestressed
          (el.with_local_sol (u + t • (el.T_globalᵀ *ᵥ d))) true f jac hp,
        prestress_residual_of_not_prestressed (el.with_local_sol u) true f jac hp]
      simp
    · have h1 := prestress_residual_values (el.with_local_sol u) f jac hp hb hv
      have h2 := prestress_residual_values
        (el.with_local_sol (u + t • (el.T_globalᵀ *ᵥ d))) f jac hp hb hv
      rw [h2.2.2.1, h1.2.2.1, h1.2.2.2, key u _ t, add_sub_cancel_left]
      have e1 : (el.with_local_sol (u + t • (el.T_globalᵀ *ᵥ d))).T_global = el.T_global := rfl
      have e2 : (el.with_local_sol u).T_global = el.T_global := rfl
      rw [e1, e2]
      simp only [Matrix.mulVec_add, Matrix.mulVec_smul, ← Matrix.mulVec_mulVec,
        add_sub_add_left_eq_sub, add_sub_cancel_left]
  · have h1 := prestress_residual_values (el.with_local_sol u) f jac hp hb hv
    refine ⟨h1.2.1, ?_⟩
    rw [h1.2.2.2, add_sub_cancel_left, h1.2.1]
    rfl
  · generalize hp : el.property.if_prestressed = pre
    cases pre
    · rw [prestress_residual_of_not_prestressed ((el.with_prestress_A A').with_local_sol u)
          true f jac hp,
        prestress_residual_of_not_prestressed (el.with_local_sol u) true f jac hp]
      exact ⟨rfl, rfl⟩
    · have h1 := prestress_residual_values (el.with_local_sol u) f jac hp hb hv
      have h2 := prestress_residual_values ((el.with_prestress_A A').with_local_sol u) f jac
        hp hb hv
      have e : (((el.with_prestress_A A').with_local_sol u).prestress_residual true f
          jac).local_f = ((el.with_local_sol u).prestress_residual true f jac).local_f := by
        rw [h2.1, h1.1]
        refine Finset.sum_congr rfl (fun qp _ => ?_)
        have := prestress_vec_congr _ _ (hA qp)
        exact congrArg (fun v => el.fe.JxW qp • thermal_force qp el.fe el.bending_operator
          true true u v (_convert_prestress_B_mat_to_vector
            (el.property.prestress_B_matrix.value (el.fe.xyz qp) el.time))) this
      refine ⟨e, ?_⟩
      rw [h2.2.2.1, h1.2.2.1, e]
      rfl

end StructuralElement2D

theorem prestress_tangent_is_derivative_of_prestress_force_witness :
    tri3_elem.property.bending_model_is_active = true ∧
    tri3_elem.property.strain_type_is_von_karman = true ∧
    (∀ qp, tri3_elem.property.prestress_A_matrix.value (tri3_elem.fe.xyz qp) tri3_elem.time 0 1
      = tri3_elem.property.prestress_A_matrix.value (tri3_elem.fe.xyz qp) tri3_elem.time 1 0) ∧
    ((tri3_elem.with_local_sol ((fun _ => 1 : Fin (6 * 3) → ℚ)
        + (2 : ℚ) • (fun _ => 3 : Fin (6 * 3) → ℚ))).prestress_residual true 0 0).local_f
        - ((tri3_elem.with_local_sol (fun _ => 1)).prestress_residual true 0 0).local_f
      = (2 : ℚ) • (((tri3_elem.with_local_sol (fun _ => 1)).prestress_residual true 0
          0).local_jac *ᵥ (fun _ => 3 : Fin (6 * 3) → ℚ)) :=
  ⟨rfl, rfl, fun _ => rfl,
    (StructuralElement2D.prestress_tangent_is_derivative_of_prestress_force tri3_elem 0 0
      rfl rfl (fun _ => rfl) (fun _ => 1) (fun _ => 3) 2).1⟩

/-- On the triangle with the prestress `A` matrix whose only non-zero entry is
`(1,0) = 1`, `prestress_residual` adds the force of the zero prestress matrix but a
tangent with the entry `1/2` at the `w` DOFs of the third and second node, where the zero
prestress matrix gives `0`: the force does not read the `(1,0)` entry, the tangent does. -/
theorem prestress_tangent_reads_lower_entry :
    ((tri3_prestress_elem !![0, 0; 1, 0]).prestress_residual true 0 0).f
      = ((tri3_prestress_elem 0).prestress_residual true 0 0).f ∧
    ((tri3_prestress_elem !![0, 0; 1, 0]).prestress_residual true 0 0).jac (dof 2 2) (dof 2 1)
      = 1 / 2 ∧
    ((tri3_prestress_elem 0).prestress_residual true 0 0).jac (dof 2 2) (dof 2 1) = 0 := by
  have h1 := StructuralElement2D.prestress_residual_values (tri3_prestress_elem !![0, 0; 1, 0])
    0 0 rfl rfl rfl
  have h0 := StructuralElement2D.prestress_residual_values (tri3_prestress_elem 0)
    0 0 rfl rfl rfl
  refine ⟨?_, ?_, ?_⟩
  · rw [h1.2.2.1, h0.2.2.1, h1.1, h0.1]
    rfl
  · rw [h1.2.2.2, h1.2.1]
    simp [tri3_prestress_elem, StructuralElement2D.with_prestress_A, tri3_elem, tri3_fe,
      FieldFunction.const, Matrix.mul_apply, Fin.sum_univ_succ, Bvk_apply, Matrix.vecMul,
      Matrix.dotProduct, initialize_von_karman_strain_operator, FEMOperatorMatrix.set_shape_function,
      FEMOperatorMatrix.reinit]
  · rw [h0.2.2.2, h0.2.1]
    simp [tri3_prestress_elem, StructuralElement2D.with_prestress_A, tri3_elem, tri3_fe,
      FieldFunction.const]


/-! ## The drilling rotation and the return value of `internal_residual` -/

theorem Bbend_drilling {ι : Type} (bo : BendingOperator2D R ι n) (qp : Fin nqp)
    (fe : FEBase R n nqp) (r : Fin 3) (i : Fin n) : Bbend bo qp fe r (dof 5 i) = 0 := by
  rw [Bbend_apply]
  exact bo.bending_strain_operator_drilling fe qp r i

theorem kernel_force_fetched {ι : Type} (qp : Fin nqp) (fe : FEBase R n nqp)
    (bo : BendingOperator2D R ι n) (b v : Bool) (A B D : Matrix (Fin 3) (Fin 3) R)
    (u : Fin (6 * n) → R) :
    kernel_force qp fe bo b v A (if b then B else 0) (if b then D else 0) u
      = kernel_force qp fe bo b v A B D u := by
  cases b
  · rw [kernel_force_no_bending, kernel_force_no_bending]
  · rfl

theorem kernel_tangent_fetched {ι : Type} (qp : Fin nqp) (fe : FEBase R n nqp)
    (bo : BendingOperator2D R ι n) (b v : Bool) (A B D : Matrix (Fin 3) (Fin 3) R)
    (u : Fin (6 * n) → R) :
    kernel_tangent qp fe bo b v A (if b then B else 0) (if b then D else 0) u
      = kernel_tangent qp fe bo b v A B D u := by
  cases b
  · rw [kernel_tangent_no_bending, kernel_tangent_no_bending]
  · rfl

namespace StructuralElement2D
variable {ι : Type}

theorem internal_residual_local_closed_form (el : StructuralElement2D R ι n nqp) (rj : Bool) :
    el.internal_residual_local rj = el.internal_force_and_tangent rj := by
  obtain ⟨h1, h2⟩ := kernel_quadrature_loop_eq el rj el.property.stiffness_A_matrix.value
    el.property.stiffness_B_matrix.value el.property.stiffness_D_matrix.value
  simp only [kernel_force_fetched, kernel_tangent_fetched] at h1 h2
  simp only [internal_residual_local, internal_force_and_tangent, h1, h2]

theorem internal_residual_values (el : StructuralElement2D R ι n nqp) (rj : Bool)
    (f : Fin (6 * n) → R) (jac : Matrix (Fin (6 * n)) (Fin (6 * n)) R) :
    (el.internal_residual rj f jac).ret = rj ∧
    (el.internal_residual rj f jac).f
      = f + el.T_global *ᵥ (el.internal_residual rj f jac).local_f ∧
    (el.internal_residual rj f jac).local_f = (el.internal_force_and_tangent rj).1 ∧
    (el.internal_residual false f jac).jac = jac ∧
    (el.internal_residual true f jac).jac
      = jac + el.T_global * (el.internal_residual true f jac).local_jac * el.T_globalᵀ ∧
    (∀ a b, (el.internal_residual true f jac).local_jac a b
      = if el.elem_dim = 2 ∧ a = b ∧ ∃ i : Fin n, a = dof 5 i then 1.0e-8
        else (el.internal_force_and_tangent true).2 a b) := by
  have hc := internal_residual_local_closed_form el
  rw [internal_residual_eq, internal_residual_eq, internal_residual_eq]
  refine ⟨rfl, rfl, congrArg Prod.fst (hc rj), rfl, rfl, fun a b => ?_⟩
  simp only [if_true]
  rw [hc true]
  by_cases hd : el.elem_dim = 2
  · simp only [hd, if_true, true_and, drilling_penalty_apply]
  · simp only [hd, if_false, false_and]

/-- C14: `internal_residual` returns `request_jacobian`, for every input.  In both cases
`f` receives the transform of the local force, the quadrature sum of the kernel force
handed through the transverse shear term.  When `request_jacobian` is true `jac` receives
the transform of the local tangent, the quadrature sum of the kernel tangent handed
through the transverse shear term, with `1e-8` on the drilling diagonal of a 2D element;
when it is false `jac` is handed back unchanged. -/
theorem internal_residual_returns_request_jacobian (el : StructuralElement2D R ι n nqp)
    (request_jacobian : Bool) (f : Fin (6 * n) → R)
    (jac : Matrix (Fin (6 * n)) (Fin (6 * n)) R) :
    (el.internal_residual request_jacobian f jac).ret = request_jacobian ∧
    (el.internal_residual request_jacobian f jac).f
      = f + el.T_global *ᵥ (el.internal_force_and_tangent request_jacobian).1 ∧
    (el.internal_residual false f jac).jac = jac ∧
    (el.internal_residual true f jac).jac
      = jac + el.T_global * (el.internal_residual true f jac).local_jac * el.T_globalᵀ ∧
    (∀ a b, (el.internal_residual true f jac).local_jac a b
      = if el.elem_dim = 2 ∧ a = b ∧ ∃ i : Fin n, a = dof 5 i then 1.0e-8
        else (el.internal_force_and_tangent true).2 a b) := by
  obtain ⟨h1, h2, h3, h4, h5, h6⟩ := internal_residual_values el request_jacobian f jac
  exact ⟨h1, by rw [h2, h3], h4, h5, h6⟩

end StructuralElement2D

theorem tri3_affine_force_and_tangent (rj : Bool) (h : ℚ) :
    ((tri3_affine_elem.stiffness_step tri3_param h).internal_force_and_tangent rj).1 (dof 0 1)
      = (1 + h) / 2 ∧
    ((tri3_affine_elem.stiffness_step tri3_param h).internal_force_and_tangent true).2
      (dof 0 1) (dof 0 1) = (1 + h) / 2 := by
  constructor
  · simp only [StructuralElement2D.internal_force_and_tangent, kernel_force, kernel_stress,
      StructuralElement2D.stiffness_step,
      tri3_affine_elem, tri3_elem, tri3_property, tri3_bending_operator, Matrix.mulVec_single,
      Bool.and_false, Bool.false_eq_true, if_false, if_true, FieldFunction.const]
    simp [tri3_fe, Matrix.mulVec, Matrix.dotProduct, Fin.sum_univ_three, Matrix.mul_apply,
      Matrix.add_apply, Matrix.smul_apply, Matrix.one_apply,
      Bmem_apply, Bbend_apply, initialize_direct_strain_operator,
      FEMOperatorMatrix.set_shape_function, FEMOperatorMatrix.reinit]
    ring
  · simp [StructuralElement2D.internal_force_and_tangent, kernel_tangent,
      StructuralElement2D.stiffness_step,
      tri3_affine_elem, tri3_elem, tri3_fe, tri3_property, tri3_bending_operator,
      FieldFunction.const, Matrix.mul_apply, Matrix.add_apply, Fin.sum_univ_three,
      Bmem_apply, Bbend_apply, initialize_direct_strain_operator,
      FEMOperatorMatrix.set_shape_function, FEMOperatorMatrix.reinit]
    ring

theorem tri3_affine_step_zero : tri3_affine_elem.stiffness_step tri3_param 0 = tri3_affine_elem := by
  simp [StructuralElement2D.stiffness_step, tri3_affine_elem]

theorem tri3_affine_internal_residual (rj : Bool) (h : ℚ) :
    ((tri3_affine_elem.stiffness_step tri3_param h).internal_residual rj 0 0).f (dof 0 1)
      = (1 + h) / 2 ∧
    ((tri3_affine_elem.stiffness_step tri3_param h).internal_residual true 0 0).jac
      (dof 0 1) (dof 0 1) = (1 + h) / 2 ∧
    ((tri3_affine_elem.stiffness_step tri3_param h).internal_residual true 0 0).jac
      (dof 5 0) (dof 5 0) = 1.0e-8 := by
  obtain ⟨-, h2, h3, -, h5, h6⟩ := StructuralElement2D.internal_residual_values
    (tri3_affine_elem.stiffness_step tri3_param h) rj 0 0
  have hT : (tri3_affine_elem.stiffness_step tri3_param h).T_global = 1 := rfl
  have hne : ¬ ((tri3_affine_elem.stiffness_step tri3_param h).elem_dim = 2 ∧
      (dof 0 1 : Fin (6 * 3)) = dof 0 1 ∧ ∃ i : Fin 3, (dof 0 1 : Fin (6 * 3)) = dof 5 i) := by
    rintro ⟨-, -, hi⟩
    revert hi
    decide
  have hpos : (tri3_affine_elem.stiffness_step tri3_param h).elem_dim = 2 ∧
      (dof 5 0 : Fin (6 * 3)) = dof 5 0 ∧ ∃ i : Fin 3, (dof 5 0 : Fin (6 * 3)) = dof 5 i :=
    ⟨rfl, rfl, 0, rfl⟩
  refine ⟨?_, ?_, ?_⟩
  · rw [h2, h3, hT, Matrix.one_mulVec, Pi.add_apply, Pi.zero_apply, zero_add,
      (tri3_affine_force_and_tangent rj h).1]
  · rw [h5, hT, Matrix.one_mul, Matrix.transpose_one, Matrix.mul_one, zero_add, h6, if_neg hne,
      (tri3_affine_force_and_tangent true h).2]
  · rw [h5, hT, Matrix.one_mul, Matrix.transpose_one, Matrix.mul_one, zero_add, h6, if_pos hpos]

/-- On the triangle with `A = 1`, `dA/dp = 1` and `u = 1` at the second node,
`internal_residual` adds `1/2` to the entry of that DOF in `f` whether or not the Jacobian
is requested; with the request it returns `true` and adds `1/2` to the diagonal entry of
that DOF in `jac` and `1e-8` to the drilling diagonal; without it it returns `false` and
hands `jac` back as it was. -/
theorem internal_residual_on_affine_triangle :
    (tri3_affine_elem.internal_residual true 0 0).ret = true ∧
    (tri3_affine_elem.internal_residual true 0 0).f (dof 0 1) = 1 / 2 ∧
    (tri3_affine_elem.internal_residual true 0 0).jac (dof 0 1) (dof 0 1) = 1 / 2 ∧
    (tri3_affine_elem.internal_residual true 0 0).jac (dof 5 0) (dof 5 0) = 1.0e-8 ∧
    (tri3_affine_elem.internal_residual false 0 0).ret = false ∧
    (tri3_affine_elem.internal_residual false 0 0).f (dof 0 1) = 1 / 2 ∧
    (tri3_affine_elem.internal_residual false 0 0).jac = 0 := by
  have ht := tri3_affine_internal_residual true 0
  have hf := tri3_affine_internal_residual false 0
  rw [tri3_affine_step_zero] at ht hf
  exact ⟨(StructuralElement2D.internal_residual_values tri3_affine_elem true 0 0).1,
    ht.1.trans (by norm_num), ht.2.1.trans (by norm_num), ht.2.2,
    (StructuralElement2D.internal_residual_values tri3_affine_elem false 0 0).1,
    hf.1.trans (by norm_num),
    (StructuralElement2D.internal_residual_values tri3_affine_elem false 0 0).2.2.2.1⟩

/-- On the same triangle `internal_residual_sensitivity` adds `1/2` to the entry of the
`u` DOF of the second node in `f` and to its diagonal entry in `jac`, and nothing to the
drilling diagonal; `internal_residual` at the parameter steps `+1` and `-1` gives `1` and
`0` at the first two and `1e-8` twice at the third, so the central differences are `1/2`,
`1/2` and `0`. -/
theorem internal_residual_sensitivity_on_affine_triangle :
    ∃ out, tri3_affine_elem.internal_residual_sensitivity tri3_param true 0 0 = some out ∧
      out.f (dof 0 1) = 1 / 2 ∧ out.jac (dof 0 1) (dof 0 1) = 1 / 2 ∧
      out.jac (dof 5 0) (dof 5 0) = 0 ∧
      ((tri3_affine_elem.stiffness_step tri3_param 1).internal_residual true 0 0).f (dof 0 1)
        = 1 ∧
      ((tri3_affine_elem.stiffness_step tri3_param (-1)).internal_residual true 0 0).f (dof 0 1)
        = 0 ∧
      ((tri3_affine_elem.stiffness_step tri3_param 1).internal_residual true 0 0).jac
        (dof 0 1) (dof 0 1) = 1 ∧
      ((tri3_affine_elem.stiffness_step tri3_param (-1)).internal_residual true 0 0).jac
        (dof 0 1) (dof 0 1) = 0 ∧
      ((tri3_affine_elem.stiffness_step tri3_param 1).internal_residual true 0 0).jac
        (dof 5 0) (dof 5 0) = 1.0e-8 ∧
      ((tri3_affine_elem.stiffness_step tri3_param (-1)).internal_residual true 0 0).jac
        (dof 5 0) (dof 5 0) = 1.0e-8 := by
  have hp := tri3_affine_internal_residual true 1
  have hm := tri3_affine_internal_residual true (-1)
  have hs : (tri3_affine_elem.property.bending_model_is_active
      && tri3_affine_elem.bending_operator.include_transverse_shear_energy) = false := rfl
  have hT : tri3_affine_elem.T_global = 1 := rfl
  obtain ⟨l1, l2⟩ := StructuralElement2D.kernel_quadrature_loop_eq tri3_affine_elem true
    (tri3_affine_elem.property.stiffness_A_matrix.derivative tri3_param)
    (tri3_affine_elem.property.stiffness_B_matrix.derivative tri3_param)
    (tri3_affine_elem.property.stiffness_D_matrix.derivative tri3_param)
  refine ⟨_, StructuralElement2D.internal_residual_sensitivity_eq tri3_affine_elem tri3_param
    rfl rfl true 0 0, ?_, ?_, ?_, hp.1.trans (by norm_num), hm.1.trans (by norm_num),
    hp.2.1.trans (by norm_num), hm.2.1.trans (by norm_num), hp.2.2, hm.2.2⟩
  · simp only [StructuralElement2D.transform_vector_to_global_system, hT, Matrix.one_mulVec,
      zero_add, StructuralElement2D.internal_residual_sensitivity_local, hs,
      Bool.false_eq_true, if_false, l1]
    simp only [kernel_force, kernel_stress,
      tri3_affine_elem, tri3_elem, tri3_property, tri3_bending_operator, Matrix.mulVec_single,
      Bool.and_false, Bool.false_eq_true, if_false, if_true, FieldFunction.const]
    simp [tri3_fe, Matrix.mulVec, Matrix.dotProduct, Fin.sum_univ_three,
      Bmem_apply, Bbend_apply, initialize_direct_strain_operator,
      FEMOperatorMatrix.set_shape_function, FEMOperatorMatrix.reinit]
  · simp only [StructuralElement2D.transform_matrix_to_global_system, hT, Matrix.one_mul,
      Matrix.transpose_one, Matrix.mul_one, if_true,
      zero_add, StructuralElement2D.internal_residual_sensitivity_local, hs,
      Bool.false_eq_true, if_false, l2]
    simp [kernel_tangent,
      tri3_affine_elem, tri3_elem, tri3_fe, tri3_property, tri3_bending_operator,
      FieldFunction.const, Matrix.mul_apply, Matrix.add_apply, Fin.sum_univ_three,
      Bmem_apply, Bbend_apply, initialize_direct_strain_operator,
      FEMOperatorMatrix.set_shape_function, FEMOperatorMatrix.reinit]
  · simp only [StructuralElement2D.transform_matrix_to_global_system, hT, Matrix.one_mul,
      Matrix.transpose_one, Matrix.mul_one, if_true, zero_add]
    exact StructuralElement2D.sensitivity_local_drilling tri3_affine_elem tri3_param hs true
      (fun qp r j => Bbend_drilling _ qp _ r j) 0

end MAST
